import Mathlib

/-!
Ocean-wave relaxation zones of amr-wind: linear waves.

A shallow embedding of `amr-wind/ocean_waves/relaxation_zones/linear_waves_ops.H`
and of the set-up path of `amr-wind/ocean_waves/OceanWaves.cpp`.

`amrex::Real` is embedded as an arbitrary linearly ordered field `α`, with the
C math library passed explicitly as a record `Libm α`.  All kernels are
computable functions of that record; statements that need analytic facts about
the math library are made over `ℝ` with `Libm.real`.
-/

namespace AmrWind

/-! ## Scalars and the math library -/

/-- The functions of `<cmath>` and the constant `M_PI` used by the wave kernels. -/
structure Libm (α : Type) where
  pi : α
  cos : α → α
  sin : α → α
  cosh : α → α
  sinh : α → α
  tanh : α → α
  sqrt : α → α
  pow : α → α → α
  exp : α → α

/-- The math library over the real numbers. -/
noncomputable def Libm.real : Libm ℝ where
  pi := Real.pi
  cos := Real.cos
  sin := Real.sin
  cosh := Real.cosh
  sinh := Real.sinh
  tanh := Real.tanh
  sqrt := Real.sqrt
  pow := fun x y => x ^ y
  exp := Real.exp

/-- The function `amrex::max` (AMReX, `std::max`): the first argument unless it
is strictly smaller than the second. -/
def amrex_max {α : Type} [LinearOrder α] (a b : α) : α :=
  if a < b then b else a

/-! ## Failure -/

/-- The ways a set-up routine terminates the run. -/
inductive Fatal where
  /-- `ParmParse::get` on a key that is absent. -/
  | parm_missing (key : String)
  /-- Index past the end of an `amrex::Vector`. -/
  | out_of_range
  /-- The `amrex::Abort` of `ReadInputsOp<LinearWaves>`. -/
  | both_phase_offsets
  /-- The `amrex::Abort` of `OceanWaves::pre_init_actions`. -/
  | no_companion_physics
  /-- The `AMREX_ALWAYS_ASSERT(!type.empty())` of `pre_init_actions`. -/
  | type_empty
  /-- A failure inside a collaborator that is not part of this development. -/
  | collaborator (msg : String)
  deriving DecidableEq, Repr

/-! ## Wave data -/

/-- The fields of `LinearWaves::MetaType` that the operators read or write. -/
structure LinearWavesData (α : Type) where
  zsl : α
  water_depth : α
  gen_length : α
  beach_length : α
  current : α
  has_beach : Bool
  init_wave_field : Bool
  g : α
  wave_height : α
  wave_length : α
  wave_phase_offset : α

/-- Modelled from the spec: `amr_wind::utils::MultiParser`
(`amr-wind/core/MultiParser.H`) is not among the sources.  It is the merged
key/value view of the default and the specific input prefix, here for
real-valued keys: `contains` says whether a key is present, `query` leaves its
target untouched when the key is absent, and `get` on an absent key is fatal
("missing required parameters are fatal at setup, no silent defaults"). -/
structure MultiParser (α : Type) where
  lookup : String → Option α

namespace MultiParser

variable {α : Type}

/-- Whether the key is present: `pp.contains(name)`. -/
def contains (pp : MultiParser α) (name : String) : Bool :=
  (pp.lookup name).isSome

/-- Optional read, `pp.query(name, value)`: the new content of `value`. -/
def query (pp : MultiParser α) (name : String) (value : α) : α :=
  match pp.lookup name with
  | some v => v
  | none => value

/-- Mandatory read, `pp.get(name, value)`. -/
def get (pp : MultiParser α) (name : String) : Except Fatal α :=
  match pp.lookup name with
  | some v => .ok v
  | none => .error (.parm_missing name)

end MultiParser

/-- Everything `ReadInputsOp<LinearWaves>` reads: the wave model's parser, the
entry `incflo.gravity` of the global input table (absent, or the listed reals),
and the collaborator `relaxation_zones::read_inputs`, whose source is not part
of this development and which may fail with a message. -/
structure ReadEnv (α : Type) where
  pp : MultiParser α
  incflo_gravity : Option (List α)
  relax_read_inputs : LinearWavesData α → MultiParser α → Except String (LinearWavesData α)

/-- The operator `ReadInputsOp<LinearWaves>::operator()`. -/
def ReadInputsOp {α : Type} [LinearOrderedField α] (L : Libm α)
    (env : ReadEnv α) (wdata : LinearWavesData α) : Except Fatal (LinearWavesData α) := do
  let wdata ← match env.relax_read_inputs wdata env.pp with
    | .ok w => Except.ok w
    | .error msg => Except.error (Fatal.collaborator msg)
  -- Get gravity, assume negative z
  let gravity : List α := (env.incflo_gravity).getD [0, 0, -9.81]
  let gz ← match gravity[2]? with
    | some v => Except.ok v
    | none => Except.error Fatal.out_of_range
  let wdata := { wdata with g := -gz }
  let wave_length ← env.pp.get "wave_length"
  let wdata := { wdata with wave_length := wave_length }
  let wave_height ← env.pp.get "wave_height"
  let wdata := { wdata with wave_height := wave_height }
  let wdata := { wdata with
    wave_phase_offset := env.pp.query "wave_phase_offset_radians" wdata.wave_phase_offset }
  if !env.pp.contains "wave_phase_offset_radians" then
    let wdata := { wdata with
      wave_phase_offset := env.pp.query "wave_phase_offset_degrees" wdata.wave_phase_offset }
    return { wdata with wave_phase_offset := wdata.wave_phase_offset * (L.pi / 180) }
  else if env.pp.contains "wave_phase_offset_degrees" then
    throw Fatal.both_phase_offsets
  else
    return wdata

/-! ## Set-up of the ocean-wave physics (`OceanWaves.cpp`) -/

/-- The global `amrex::ParmParse` table: input prefix, key, value. -/
abbrev ParmTable := String → String → Option String

/-- The calls `OceanWaves` makes on the wave model it owns. -/
inductive ModelCall where
  | create (type label : String)
  | read_inputs (default_pfx pfx : String)
  deriving DecidableEq, Repr

/-- The collaborators of `pre_init_actions` whose sources are not part of this
development: the factory `OceanWavesModel::create` and the model's virtual
`read_inputs`.  Either may fail with a message. -/
structure ModelFactory (M : Type) where
  create : String → String → Except String M
  read_inputs : M → String → String → Except String M

/-- The members of `OceanWaves` that set-up touches, and the record of the
calls made on the wave model. -/
structure OceanWaves (M : Type) where
  m_multiphase_mode : Bool
  m_owm : Option M
  calls : List ModelCall

/-- Modelled from the spec: the in-class initialiser of `m_multiphase_mode`
(`amr-wind/ocean_waves/OceanWaves.H`) is not among the sources.  The model
"requires either a multiphase interface-tracking subsystem or a terrain-drag
subsystem to be active", so the flag stands until the constructor clears it. -/
def m_multiphase_mode_default : Bool := true

/-- The constructor `OceanWaves::OceanWaves`, for the registered physics
`physics` (`sim.physics_manager()`). -/
def OceanWaves.construct (M : Type) (physics : List String) : OceanWaves M :=
  { m_multiphase_mode :=
      if !physics.contains "MultiPhase" then false else m_multiphase_mode_default
    m_owm := none
    calls := [] }

/-- The routine `OceanWaves::pre_init_actions`: the state it leaves and, when it
terminates the run, the reason. -/
def OceanWaves.pre_init_actions {M : Type} (identifier : String) (physics : List String)
    (table : ParmTable) (F : ModelFactory M) (ow : OceanWaves M) :
    OceanWaves M × Option Fatal :=
  if !(ow.m_multiphase_mode || physics.contains "TerrainDrag") then
    (ow, some Fatal.no_companion_physics)
  else
    let label := (table identifier "label").getD ""
    let tname := label
    let pfx := identifier ++ "." ++ tname
    let type := (table identifier "type").getD ""
    let type := (table pfx "type").getD type
    if type.isEmpty then (ow, some Fatal.type_empty)
    else
      match F.create type tname with
      | .error msg => (ow, some (Fatal.collaborator msg))
      | .ok m =>
        let ow := { ow with m_owm := some m, calls := ow.calls ++ [ModelCall.create type tname] }
        let default_pfx := identifier ++ "." ++ type
        let ow := { ow with calls := ow.calls ++ [ModelCall.read_inputs default_pfx pfx] }
        match F.read_inputs m default_pfx pfx with
        | .error msg => (ow, some (Fatal.collaborator msg))
        | .ok m1 => ({ ow with m_owm := some m1 }, none)

/-! ## Mesh, fields and sweeps -/

/-- The part of `amrex::Geometry` the kernels read: `ProbLoArray`,
`ProbHiArray` and `CellSizeArray`. -/
structure Geometry (α : Type) where
  problo : Fin 3 → α
  probhi : Fin 3 → α
  dx : Fin 3 → α

/-- An index box: `smallEnd` and `bigEnd`. -/
structure Box where
  lo : Fin 3 → Int
  hi : Fin 3 → Int

/-- One cell of one box of one level: `field(lev)[nbx](i, j, k)`. -/
structure Cell where
  lev : Nat
  nbx : Nat
  i : Int
  j : Int
  k : Int
  deriving DecidableEq, Repr

/-- The fields of the repository that the wave kernels write. -/
structure FieldRepo (α : Type) where
  levelset : Cell → α
  velocity : Cell → Fin 3 → α
  ow_levelset : Cell → α
  ow_velocity : Cell → Fin 3 → α

/-- A wave state `utils::WaveVec`: `(u, v, w, eta)`. -/
abbrev WaveVec (α : Type) := Fin 4 → α

/-- The integers `lo, lo + 1, ..., hi`. -/
def intRange (lo hi : Int) : List Int :=
  (List.range (hi + 1 - lo).toNat).map (fun (n : Nat) => lo + (n : Int))

/-- The cells of box `nbx` grown by `ng` ghost layers in every direction. -/
def grownCells (lev nbx : Nat) (b : Box) (ng : Int) : List Cell :=
  (intRange (b.lo 2 - ng) (b.hi 2 + ng)).flatMap fun k =>
    (intRange (b.lo 1 - ng) (b.hi 1 + ng)).flatMap fun j =>
      (intRange (b.lo 0 - ng) (b.hi 0 + ng)).map fun i => ⟨lev, nbx, i, j, k⟩

/-- The cells `amrex::ParallelFor(field(lev), IntVect(ng), ...)` visits: every
box of the level, grown by `ng`. -/
def sweptCells (lev : Nat) (boxes : List Box) (ng : Int) : List Cell :=
  boxes.enum.flatMap fun nb => grownCells lev nb.1 nb.2 ng

/-- The loop `amrex::ParallelFor`: the body is run once for each cell. -/
def ParallelFor {σ : Type} (cells : List Cell) (body : Cell → σ → σ) (s : σ) : σ :=
  cells.foldl (fun s c => body c s) s

/-! ## `InitDataOp<LinearWaves>` -/

/-- The signature of `utils::harmonize_profiles_1d`, the zone blend, whose
source is not part of this development: position, lower bound, generation
length, upper bound, beach length, and the three candidate states. -/
abbrev Harmonize (α : Type) :=
  α → α → α → α → α → WaveVec α → WaveVec α → WaveVec α → WaveVec α

namespace InitDataOp

variable {α : Type} [LinearOrderedField α]

/-- Cell-centre abscissa `x = problo[0] + (i + 0.5) * dx[0]`. -/
def x (geom : Geometry α) (i : Int) : α :=
  geom.problo 0 + ((i : α) + 0.5) * geom.dx 0

/-- Cell-centre height `z = problo[2] + (k + 0.5) * dx[2]`. -/
def z (geom : Geometry α) (k : Int) : α :=
  geom.problo 2 + ((k : α) + 0.5) * geom.dx 2

/-- The local `wave_number`. -/
def wave_number (L : Libm α) (wdata : LinearWavesData α) : α :=
  2 * L.pi / wdata.wave_length

/-- The local `omega`. -/
def omega (L : Libm α) (wdata : LinearWavesData α) : α :=
  L.pow (wave_number L wdata * wdata.g * L.tanh (wave_number L wdata * wdata.water_depth)) 0.5

/-- The local `phase`. -/
def phase (L : Libm α) (wdata : LinearWavesData α) (geom : Geometry α) (i : Int) : α :=
  wave_number L wdata * x geom i - wdata.wave_phase_offset

/-- The local `eta_w`. -/
def eta_w (L : Libm α) (wdata : LinearWavesData α) (geom : Geometry α) (i : Int) : α :=
  wdata.wave_height / 2.0 * L.cos (phase L wdata geom i) + wdata.zsl

/-- The local `u_w`. -/
def u_w (L : Libm α) (wdata : LinearWavesData α) (geom : Geometry α) (i k : Int) : α :=
  omega L wdata * wdata.wave_height / 2.0 *
    L.cosh (wave_number L wdata * (z geom k - wdata.zsl + wdata.water_depth)) /
    L.sinh (wave_number L wdata * wdata.water_depth) * L.cos (phase L wdata geom i)

/-- The local `v_w`. -/
def v_w : α := 0.0

/-- The local `w_w`. -/
def w_w (L : Libm α) (wdata : LinearWavesData α) (geom : Geometry α) (i k : Int) : α :=
  omega L wdata * wdata.wave_height / 2.0 *
    L.sinh (wave_number L wdata * (z geom k - wdata.zsl + wdata.water_depth)) /
    L.sinh (wave_number L wdata * wdata.water_depth) * L.sin (phase L wdata geom i)

/-- The local `wave_sol{u_w, v_w, w_w, eta_w}`. -/
def wave_sol (L : Libm α) (wdata : LinearWavesData α) (geom : Geometry α) (i k : Int) :
    WaveVec α :=
  ![u_w L wdata geom i k, v_w, w_w L wdata geom i k, eta_w L wdata geom i]

/-- The raw analytic wave state at a cell as it enters the velocity field:
`(current + u_w, v_w, w_w, eta_w)`. -/
def raw_state (L : Libm α) (wdata : LinearWavesData α) (geom : Geometry α) (i k : Int) :
    WaveVec α :=
  ![wdata.current + wave_sol L wdata geom i k 0, wave_sol L wdata geom i k 1,
    wave_sol L wdata geom i k 2, wave_sol L wdata geom i k 3]

/-- The local `quiescent{0.0, 0.0, 0.0, zero_sea_level}`. -/
def quiescent (wdata : LinearWavesData α) : WaveVec α :=
  ![0.0, 0.0, 0.0, wdata.zsl]

/-- The captured `has_beach = wdata.has_beach && multiphase_mode`. -/
def has_beach (wdata : LinearWavesData α) (multiphase_mode : Bool) : Bool :=
  wdata.has_beach && multiphase_mode

/-- The captured `init_wave_field = wdata.init_wave_field || !multiphase_mode`. -/
def init_wave_field (wdata : LinearWavesData α) (multiphase_mode : Bool) : Bool :=
  wdata.init_wave_field || !multiphase_mode

/-- The local `bulk`. -/
def bulk (L : Libm α) (wdata : LinearWavesData α) (geom : Geometry α)
    (multiphase_mode : Bool) (i k : Int) : WaveVec α :=
  if init_wave_field wdata multiphase_mode then wave_sol L wdata geom i k else quiescent wdata

/-- The local `outlet`. -/
def outlet (L : Libm α) (wdata : LinearWavesData α) (geom : Geometry α)
    (multiphase_mode : Bool) (i k : Int) : WaveVec α :=
  if has_beach wdata multiphase_mode then quiescent wdata else wave_sol L wdata geom i k

/-- The local `local_profile`, the result of the zone blend. -/
def local_profile (L : Libm α) (H : Harmonize α) (wdata : LinearWavesData α)
    (geom : Geometry α) (multiphase_mode : Bool) (i k : Int) : WaveVec α :=
  H (x geom i) (geom.problo 0) wdata.gen_length (geom.probhi 0) wdata.beach_length
    (wave_sol L wdata geom i k) (bulk L wdata geom multiphase_mode i k)
    (outlet L wdata geom multiphase_mode i k)

/-- The local `phi = local_profile[3] - z`. -/
def phi (L : Libm α) (H : Harmonize α) (wdata : LinearWavesData α)
    (geom : Geometry α) (multiphase_mode : Bool) (i k : Int) : α :=
  local_profile L H wdata geom multiphase_mode i k 3 - z geom k

/-- The local `cell_length_2D`. -/
def cell_length_2D (L : Libm α) (geom : Geometry α) : α :=
  L.sqrt (geom.dx 0 * geom.dx 0 + geom.dx 2 * geom.dx 2)

/-- The body of the `ParallelFor` of `InitDataOp<LinearWaves>` at one cell. -/
def kernel (L : Libm α) (H : Harmonize α) (wdata : LinearWavesData α)
    (geom : Geometry α) (multiphase_mode : Bool) (c : Cell) (repo : FieldRepo α) :
    FieldRepo α :=
  let local_profile := local_profile L H wdata geom multiphase_mode c.i c.k
  let phi := phi L H wdata geom multiphase_mode c.i c.k
  let repo :=
    if phi + cell_length_2D L geom ≥ 0 then
      { repo with
        velocity := Function.update repo.velocity c
          (![wdata.current + local_profile 0, local_profile 1, local_profile 2]) }
    else repo
  if multiphase_mode then
    { repo with levelset := Function.update repo.levelset c phi }
  else repo

/-- The operator `InitDataOp<LinearWaves>::operator()` on level `level`, whose
velocity field lives on the boxes `boxes`. -/
def run (L : Libm α) (H : Harmonize α) (wdata : LinearWavesData α) (boxes : List Box)
    (level : Nat) (geom : Geometry α) (multiphase_mode : Bool) (repo : FieldRepo α) :
    FieldRepo α :=
  ParallelFor (sweptCells level boxes 3) (kernel L H wdata geom multiphase_mode) repo

end InitDataOp

/-! ## `UpdateTargetFieldsOp<LinearWaves>` -/

/-- The mesh as the update sees it: `num_active_levels()`, `mesh().Geom()` and
the boxes of `ow_velocity` on each level. -/
structure Mesh (α : Type) where
  nlevels : Nat
  geom : Nat → Geometry α
  boxes : Nat → List Box

namespace UpdateTargetFieldsOp

variable {α : Type} [LinearOrderedField α]

/-- The local `x = amrex::max(problo[0], problo[0] + (i + 0.5) * dx[0])`. -/
def x (geom : Geometry α) (i : Int) : α :=
  amrex_max (geom.problo 0) (geom.problo 0 + ((i : α) + 0.5) * geom.dx 0)

/-- The local `z = problo[2] + (k + 0.5) * dx[2]`. -/
def z (geom : Geometry α) (k : Int) : α :=
  geom.problo 2 + ((k : α) + 0.5) * geom.dx 2

/-- The local `wave_number`. -/
def wave_number (L : Libm α) (wdata : LinearWavesData α) : α :=
  2 * L.pi / wdata.wave_length

/-- The local `omega`. -/
def omega (L : Libm α) (wdata : LinearWavesData α) : α :=
  L.pow (wave_number L wdata * wdata.g * L.tanh (wave_number L wdata * wdata.water_depth)) 0.5

/-- The local `phase`. -/
def phase (L : Libm α) (wdata : LinearWavesData α) (geom : Geometry α) (time : α)
    (i : Int) : α :=
  wave_number L wdata * (x geom i - wdata.current * time) - omega L wdata * time -
    wdata.wave_phase_offset

/-- The local `eta`. -/
def eta (L : Libm α) (wdata : LinearWavesData α) (geom : Geometry α) (time : α)
    (i : Int) : α :=
  wdata.wave_height / 2.0 * L.cos (phase L wdata geom time i) + wdata.zsl

/-- The local `cell_length_2D`. -/
def cell_length_2D (L : Libm α) (geom : Geometry α) : α :=
  L.sqrt (geom.dx 0 * geom.dx 0 + geom.dx 2 * geom.dx 2)

/-- The three values assigned to `vel[nbx](i, j, k, 0..2)` in the branch taken
when the proximity test passes. -/
def wave_velocity (L : Libm α) (wdata : LinearWavesData α) (geom : Geometry α) (time : α)
    (i k : Int) : Fin 3 → α :=
  ![omega L wdata * wdata.wave_height / 2.0 *
        L.cosh (wave_number L wdata * (z geom k - wdata.zsl + wdata.water_depth)) /
        L.sinh (wave_number L wdata * wdata.water_depth) * L.cos (phase L wdata geom time i) +
      wdata.current,
    0.0,
    omega L wdata * wdata.wave_height / 2.0 *
      L.sinh (wave_number L wdata * (z geom k - wdata.zsl + wdata.water_depth)) /
      L.sinh (wave_number L wdata * wdata.water_depth) * L.sin (phase L wdata geom time i)]

/-- The analytic wave state the update computes at a cell: the velocity of the
branch taken when the proximity test passes, and `eta`. -/
def raw_state (L : Libm α) (wdata : LinearWavesData α) (geom : Geometry α) (time : α)
    (i k : Int) : WaveVec α :=
  ![wave_velocity L wdata geom time i k 0, wave_velocity L wdata geom time i k 1,
    wave_velocity L wdata geom time i k 2, eta L wdata geom time i]

/-- The body of the `ParallelFor` of `UpdateTargetFieldsOp<LinearWaves>` at one
cell: the level-set is written first and read back by the proximity test. -/
def kernel (L : Libm α) (wdata : LinearWavesData α) (geom : Geometry α) (time : α)
    (c : Cell) (repo : FieldRepo α) : FieldRepo α :=
  let repo := { repo with
    ow_levelset := Function.update repo.ow_levelset c (eta L wdata geom time c.i - z geom c.k) }
  if repo.ow_levelset c + cell_length_2D L geom ≥ 0 then
    { repo with
      ow_velocity := Function.update repo.ow_velocity c (wave_velocity L wdata geom time c.i c.k) }
  else
    { repo with ow_velocity := Function.update repo.ow_velocity c (![0.0, 0.0, 0.0]) }

/-- The operator `UpdateTargetFieldsOp<LinearWaves>::operator()`: the loop over
the active levels, each swept with three ghost layers. -/
def run (L : Libm α) (wdata : LinearWavesData α) (mesh : Mesh α) (time : α)
    (repo : FieldRepo α) : FieldRepo α :=
  (List.range mesh.nlevels).foldl
    (fun repo lev =>
      ParallelFor (sweptCells lev (mesh.boxes lev) 3) (kernel L wdata (mesh.geom lev) time) repo)
    repo

/-- The cells the update visits: those of the active levels, in the boxes of
`ow_velocity` grown by three ghost layers. -/
def swept (mesh : Mesh α) (c : Cell) : Prop :=
  c.lev < mesh.nlevels ∧ c ∈ sweptCells c.lev (mesh.boxes c.lev) 3

end UpdateTargetFieldsOp

/-! ## Concrete inputs -/

namespace Example

variable (α : Type) [LinearOrderedField α]

/-- A wave of height 2 and length 2 over depth 1, with a beach and no current. -/
def wdata : LinearWavesData α where
  zsl := 0
  water_depth := 1
  gen_length := 1
  beach_length := 1
  current := 0
  has_beach := true
  init_wave_field := false
  g := 1
  wave_height := 2
  wave_length := 2
  wave_phase_offset := 0

/-- A domain `[0, 4] x [0, 1] x [zlo, zlo + 1]` with unit cells. -/
def geom (zlo : α) : Geometry α where
  problo := ![0, 0, zlo]
  probhi := ![4, 1, zlo + 1]
  dx := ![1, 1, 1]

/-- The index box `0..3 x 0..0 x 0..0`. -/
def box : Box where
  lo := fun _ => 0
  hi := ![3, 0, 0]

/-- One level holding the single box `box`. -/
def mesh (zlo : α) : Mesh α where
  nlevels := 1
  geom := fun _ => geom α zlo
  boxes := fun _ => [box]

/-- Fields holding 7 everywhere. -/
def repo : FieldRepo α where
  levelset := fun _ => 7
  velocity := fun _ _ => 7
  ow_levelset := fun _ => 7
  ow_velocity := fun _ _ => 7

/-- Inputs giving the wave length and height and both phase-offset keys. -/
def env_both : ReadEnv α where
  pp := ⟨fun key =>
    if key = "wave_length" then some 2
    else if key = "wave_height" then some 2
    else if key = "wave_phase_offset_radians" then some 1
    else if key = "wave_phase_offset_degrees" then some 90
    else none⟩
  incflo_gravity := none
  relax_read_inputs := fun w _ => .ok w

/-- Inputs giving the wave height and a phase offset in degrees, but no wave
length. -/
def env_no_length : ReadEnv α where
  pp := ⟨fun key =>
    if key = "wave_height" then some 2
    else if key = "wave_phase_offset_degrees" then some 90
    else none⟩
  incflo_gravity := none
  relax_read_inputs := fun w _ => .ok w

/-- Inputs giving the wave length and height and a phase offset of 1 radian. -/
def env_radians : ReadEnv α where
  pp := ⟨fun key =>
    if key = "wave_length" then some 2
    else if key = "wave_height" then some 2
    else if key = "wave_phase_offset_radians" then some 1
    else none⟩
  incflo_gravity := none
  relax_read_inputs := fun w _ => .ok w

/-- Inputs giving the wave length and height and a phase offset of 90 degrees. -/
def env_degrees : ReadEnv α where
  pp := ⟨fun key =>
    if key = "wave_length" then some 2
    else if key = "wave_height" then some 2
    else if key = "wave_phase_offset_degrees" then some 90
    else none⟩
  incflo_gravity := none
  relax_read_inputs := fun w _ => .ok w

/-- Inputs giving the wave length and height, with `incflo.gravity` pointing
up: `(0, 0, 9.81)`. -/
def env_gravity_up : ReadEnv α where
  pp := ⟨fun key =>
    if key = "wave_length" then some 2
    else if key = "wave_height" then some 2
    else none⟩
  incflo_gravity := some [0, 0, 9.81]
  relax_read_inputs := fun w _ => .ok w

/-- A factory that knows every wave model and reads its inputs without fault. -/
def factory : ModelFactory String where
  create := fun type _ => .ok type
  read_inputs := fun m _ _ => .ok m

end Example

/-! ## The step events of the ocean-wave physics (`OceanWaves.cpp`) -/

/-- The clock `m_sim.time()` as the step events read it. -/
structure SimTime (α : Type) where
  current_time : α
  new_time : α

/-- The calls the step events make on the wave model `m_owm` and on the
boundary object `m_ow_bndry`. -/
inductive StepCall (α : Type) where
  | bndry_post_init_actions
  | update_target_fields (time : α)
  | update_target_volume_fraction
  | record_boundary_data_time (time : α)
  | apply_relax_zones
  | reset_regrid_flag
  | record_regrid_flag
  deriving DecidableEq, Repr

/-- The step events of `OceanWaves`. -/
inductive StepEvent where
  | post_init_actions
  | post_regrid_actions
  | pre_advance_work
  | pre_predictor_work
  | post_advance_work
  deriving DecidableEq, Repr

namespace OceanWaves

variable {M α : Type} [LinearOrderedField α]

/-- The routine `OceanWaves::post_init_actions`: the calls it makes, in order. -/
def post_init_actions (ow : OceanWaves M) (time : SimTime α) : List (StepCall α) :=
  [StepCall.bndry_post_init_actions,
    StepCall.update_target_fields time.current_time,
    StepCall.update_target_volume_fraction,
    StepCall.record_boundary_data_time time.current_time] ++
  (if ow.m_multiphase_mode then [StepCall.apply_relax_zones] else []) ++
  [StepCall.reset_regrid_flag]

/-- The routine `OceanWaves::post_regrid_actions`: the calls it makes, in order. -/
def post_regrid_actions (_ow : OceanWaves M) (_time : SimTime α) : List (StepCall α) :=
  [StepCall.record_regrid_flag]

/-- The routine `OceanWaves::pre_advance_work`: the calls it makes, in order. -/
def pre_advance_work (_ow : OceanWaves M) (time : SimTime α) : List (StepCall α) :=
  let adv_bdy_time := 0.5 * (time.current_time + time.new_time)
  [StepCall.update_target_fields adv_bdy_time,
    StepCall.update_target_volume_fraction,
    StepCall.record_boundary_data_time adv_bdy_time]

/-- The routine `OceanWaves::pre_predictor_work`: the calls it makes, in order. -/
def pre_predictor_work (_ow : OceanWaves M) (time : SimTime α) : List (StepCall α) :=
  let bdy_fill_time := time.new_time
  [StepCall.update_target_fields bdy_fill_time,
    StepCall.update_target_volume_fraction,
    StepCall.record_boundary_data_time bdy_fill_time]

/-- The routine `OceanWaves::post_advance_work`: the calls it makes, in order. -/
def post_advance_work (ow : OceanWaves M) (_time : SimTime α) : List (StepCall α) :=
  (if ow.m_multiphase_mode then [StepCall.apply_relax_zones] else []) ++
  [StepCall.reset_regrid_flag]

/-- The calls of one step event, run at the clock reading `time`. -/
def calls_of (ow : OceanWaves M) (e : StepEvent) (time : SimTime α) : List (StepCall α) :=
  match e with
  | .post_init_actions => ow.post_init_actions time
  | .post_regrid_actions => ow.post_regrid_actions time
  | .pre_advance_work => ow.pre_advance_work time
  | .pre_predictor_work => ow.pre_predictor_work time
  | .post_advance_work => ow.post_advance_work time

/-- The calls of a sequence of step events, each with its clock reading. -/
def calls_of_events (ow : OceanWaves M) (es : List (StepEvent × SimTime α)) :
    List (StepCall α) :=
  es.flatMap fun e => ow.calls_of e.1 e.2

end OceanWaves

namespace StepCall

variable {α : Type}

/-- The time last handed to `record_boundary_data_time` in a sequence of calls,
if any: what the boundary object holds as the time of its data. -/
def recorded_boundary_time (calls : List (StepCall α)) : Option α :=
  calls.foldl (fun acc c =>
    match c with
    | .record_boundary_data_time t => some t
    | _ => acc) none

/-- The time of the last `update_target_fields` in a sequence of calls, if any. -/
def last_update_time (calls : List (StepCall α)) : Option α :=
  calls.foldl (fun acc c =>
    match c with
    | .update_target_fields t => some t
    | _ => acc) none

/-- The calls that carry a time, in order: the target-field updates and the
recordings of the boundary-data time. -/
def timed (calls : List (StepCall α)) : List (StepCall α) :=
  calls.filter fun c =>
    match c with
    | .update_target_fields _ => true
    | .record_boundary_data_time _ => true
    | _ => false

/-- Modelled from the spec: `record_regrid_flag` and `reset_regrid_flag` belong
to `OceanWavesModel`, whose source is not part of this development.  "A regrid
event sets a one-shot flag": recording raises the flag, resetting lowers it,
and no other call touches it.  This is the flag after one call. -/
def regrid_flag_step (flag : Bool) (c : StepCall α) : Bool :=
  match c with
  | .record_regrid_flag => true
  | .reset_regrid_flag => false
  | _ => flag

/-- The regrid flag after a sequence of calls, from its value before them. -/
def regrid_flag (flag : Bool) (calls : List (StepCall α)) : Bool :=
  calls.foldl regrid_flag_step flag

/-- The values of the regrid flag that the successive `apply_relax_zones` calls
of a sequence find, from the value of the flag before the sequence. -/
def relax_views (flag : Bool) : List (StepCall α) → List Bool
  | [] => []
  | .apply_relax_zones :: cs => flag :: relax_views flag cs
  | c :: cs => relax_views (regrid_flag_step flag c) cs

end StepCall

/-! ## Stokes wave theory (`stokes_waves_K.H`) -/

/-- The coefficient set of fifth-order Stokes theory. -/
structure StokesCoefficients (α : Type) where
  c0 : α
  a11 : α
  a22 : α
  b22 : α
  c2 : α
  a31 : α
  a33 : α
  b31 : α
  a42 : α
  a44 : α
  b42 : α
  b44 : α
  c4 : α
  a51 : α
  a53 : α
  a55 : α
  b53 : α
  b55 : α

/-- Modelled from the spec: `stokes_coefficients` (`stokes_waves_K.H`) is not
among the sources.  The spec has it as a pure function of (order, wavenumber,
depth) that returns the coefficient set "via the closed-form Fenton (1985)
fifth-order formulas", algebraic in `S = 1/cosh(2kd)`.  These are the formulas
of Table 1 of Fenton (1985), with `C0, C2, C4` as the dispersion claims give
them; a coefficient of a perturbation order above `stokes_order` is zero. -/
def stokes_coefficients {α : Type} [LinearOrderedField α] (L : Libm α) (stokes_order : Nat)
    (wavenumber water_depth : α) : StokesCoefficients α :=
  let kd := wavenumber * water_depth
  let S := 1 / L.cosh (2 * kd)
  let C := 1 - S
  let Sh := L.sinh kd
  let Th := L.tanh kd
  { c0 := L.sqrt Th
    a11 := 1 / Sh
    a22 := if 2 ≤ stokes_order then 3 * S ^ 2 / (2 * C ^ 2) else 0
    b22 := if 2 ≤ stokes_order then 1 / Th * (1 + 2 * S) / (2 * C) else 0
    c2 := if 2 ≤ stokes_order then L.sqrt Th * (2 + 7 * S ^ 2) / (4 * C ^ 2) else 0
    a31 := if 3 ≤ stokes_order then
        (-4 - 20 * S + 10 * S ^ 2 - 13 * S ^ 3) / (8 * Sh * C ^ 3) else 0
    a33 := if 3 ≤ stokes_order then (-2 * S ^ 2 + 11 * S ^ 3) / (8 * Sh * C ^ 3) else 0
    b31 := if 3 ≤ stokes_order then
        -3 * (1 + 3 * S + 3 * S ^ 2 + 2 * S ^ 3) / (8 * C ^ 3) else 0
    a42 := if 4 ≤ stokes_order then
        (12 * S - 14 * S ^ 2 - 264 * S ^ 3 - 45 * S ^ 4 - 13 * S ^ 5) / (24 * C ^ 5) else 0
    a44 := if 4 ≤ stokes_order then
        (10 * S ^ 3 - 174 * S ^ 4 + 291 * S ^ 5 + 278 * S ^ 6) /
          (48 * (3 + 2 * S) * C ^ 5) else 0
    b42 := if 4 ≤ stokes_order then
        1 / Th * (6 - 26 * S - 182 * S ^ 2 - 204 * S ^ 3 - 25 * S ^ 4 + 26 * S ^ 5) /
          (6 * (3 + 2 * S) * C ^ 4) else 0
    b44 := if 4 ≤ stokes_order then
        1 / Th * (24 + 92 * S + 122 * S ^ 2 + 66 * S ^ 3 + 67 * S ^ 4 + 34 * S ^ 5) /
          (24 * (3 + 2 * S) * C ^ 4) else 0
    c4 := if 4 ≤ stokes_order then
        L.sqrt Th * (4 + 32 * S - 116 * S ^ 2 - 400 * S ^ 3 - 71 * S ^ 4 + 146 * S ^ 5) /
          (32 * C ^ 5) else 0
    a51 := if 5 ≤ stokes_order then
        (-1184 + 32 * S + 13232 * S ^ 2 + 21712 * S ^ 3 + 20940 * S ^ 4 + 12554 * S ^ 5 -
            500 * S ^ 6 - 3341 * S ^ 7 - 670 * S ^ 8) /
          (64 * Sh * (3 + 2 * S) * (4 + S) * C ^ 6) else 0
    a53 := if 5 ≤ stokes_order then
        (4 * S + 105 * S ^ 2 + 198 * S ^ 3 - 1376 * S ^ 4 - 1302 * S ^ 5 - 117 * S ^ 6 +
            58 * S ^ 7) /
          (32 * Sh * (3 + 2 * S) * C ^ 6) else 0
    a55 := if 5 ≤ stokes_order then
        (-6 * S ^ 3 + 272 * S ^ 4 - 1552 * S ^ 5 + 852 * S ^ 6 + 2029 * S ^ 7 + 430 * S ^ 8) /
          (64 * Sh * (3 + 2 * S) * (4 + S) * C ^ 6) else 0
    b53 := if 5 ≤ stokes_order then
        9 * (132 + 17 * S - 2216 * S ^ 2 - 5897 * S ^ 3 - 6292 * S ^ 4 - 2687 * S ^ 5 +
            194 * S ^ 6 + 467 * S ^ 7 + 82 * S ^ 8) /
          (128 * (3 + 2 * S) * (4 + S) * C ^ 6) else 0
    b55 := if 5 ≤ stokes_order then
        5 * (300 + 1579 * S + 3176 * S ^ 2 + 2949 * S ^ 3 + 1188 * S ^ 4 + 675 * S ^ 5 +
            1326 * S ^ 6 + 827 * S ^ 7 + 130 * S ^ 8) /
          (384 * (3 + 2 * S) * (4 + S) * C ^ 6) else 0 }

/-- The outputs of `stokes_waves`: the elevation and the three velocities. -/
structure StokesWave (α : Type) where
  eta : α
  u_w : α
  v_w : α
  w_w : α

/-- The velocity coefficient `a_n` (index `n - 1`) of Kinnas Eq. (19), from a
coefficient set and the steepness. -/
def stokes_velocity_coefficient {α : Type} [LinearOrderedField α] (co : StokesCoefficients α)
    (eps : α) (n : Nat) : α :=
  match n with
  | 0 => co.a11 + eps ^ 2 * co.a31 + eps ^ 4 * co.a51
  | 1 => co.a22 + eps ^ 2 * co.a42
  | 2 => co.a33 + eps ^ 2 * co.a53
  | 3 => co.a44
  | 4 => co.a55
  | _ => 0

/-- Modelled from the spec: `stokes_waves` (`stokes_waves_K.H`) is not among
the sources.  The spec has it compute the phase speed from the coefficient set,
then `phase = k x - omega t - phase_offset`, then the elevation "as the finite
perturbation series in the steepness and cosines of integer multiples of
phase (through order 5)", Fenton Eq. (14), and the velocities "as perturbation
series in hyperbolic functions of `k (d + z - zsl)` through the same order",
Kinnas Eq. (21) and (23); the lateral velocity is zero. -/
def stokes_waves {α : Type} [LinearOrderedField α] (L : Libm α) (stokes_order : Nat)
    (wavelength water_depth wave_height zsl g x z time phase_offset : α) : StokesWave α :=
  let wavenumber := 2 * L.pi / wavelength
  let co := stokes_coefficients L stokes_order wavenumber water_depth
  let eps := wavenumber * wave_height / 2
  let c := (co.c0 + eps ^ 2 * co.c2 + eps ^ 4 * co.c4) * L.sqrt (g / wavenumber)
  let omega := c * wavenumber
  let phase := wavenumber * x - omega * time - phase_offset
  { eta :=
      (eps * L.cos phase + eps ^ 2 * co.b22 * L.cos (2 * phase) +
          eps ^ 3 * co.b31 * (L.cos phase - L.cos (3 * phase)) +
          eps ^ 4 * (co.b42 * L.cos (2 * phase) + co.b44 * L.cos (4 * phase)) +
          eps ^ 5 *
            (-(co.b53 + co.b55) * L.cos phase + co.b53 * L.cos (3 * phase) +
              co.b55 * L.cos (5 * phase))) /
        wavenumber + zsl
    u_w :=
      co.c0 * L.sqrt (g / wavenumber) *
        ((List.range stokes_order).map fun (n : Nat) =>
          eps ^ (n + 1) * ((n : α) + 1) * stokes_velocity_coefficient co eps n *
            L.cosh (((n : α) + 1) * wavenumber * (water_depth + z - zsl)) *
            L.cos (((n : α) + 1) * phase)).sum
    v_w := 0
    w_w :=
      co.c0 * L.sqrt (g / wavenumber) *
        ((List.range stokes_order).map fun (n : Nat) =>
          eps ^ (n + 1) * ((n : α) + 1) * stokes_velocity_coefficient co eps n *
            L.sinh (((n : α) + 1) * wavenumber * (water_depth + z - zsl)) *
            L.sin (((n : α) + 1) * phase)).sum }

/-- Modelled from the spec: `stokes_wave_length` (`stokes_waves_K.H`) is not
among the sources.  The spec has it "initialize wavenumber from the linear
deep/finite-depth dispersion relation" and, "if `max_iterations > 0`, refine by
Newton iteration", reporting non-convergence "if the residual does not reach
tolerance within max_iterations"; otherwise (the sentinel) it returns "only the
first-order linear estimate with zero iterations".  The first guess, the
residual and the Newton step, which the spec does not write out, are
parameters; the result is the wavelength, or nothing on non-convergence. -/
def stokes_wave_length {α : Type} [LinearOrderedField α] (L : Libm α)
    (first_guess : α → α → α → α) (residual newton_step : α → α)
    (wave_period water_depth g tol : α) (iter_max : Int) : Option α :=
  let omega := 2 * L.pi / wave_period
  let k0 := first_guess omega water_depth g
  if 0 < iter_max then
    let k := (List.range iter_max.toNat).foldl
      (fun k _ => if tol < |residual k| then newton_step k else k) k0
    if tol < |residual k| then none else some (2 * L.pi / k)
  else some (2 * L.pi / k0)

/-! ## The wave-theory unit tests (`test_wave_theories.cpp`) -/

namespace WaveTheoriesTest

variable {α : Type} [LinearOrderedField α]

/-- The gold coefficient values of `TEST_F(WaveTheoriesTest, StokesWaves)`. -/
def gold : StokesCoefficients α where
  a11 := 1.208490
  a22 := 0.799840
  a31 := -9.105340
  a33 := 0.368275
  a42 := -12.196150
  a44 := 0.058723
  a51 := 108.46831725
  a53 := -6.941756
  a55 := -0.074979
  b22 := 2.502414
  b31 := -5.731666
  b42 := -32.407508
  b44 := 14.033758
  b53 := -103.44536875
  b55 := 37.200027
  c0 := 0.798448
  c2 := 1.940215
  c4 := -12.970403

/-- The deep-water coefficient values of the second half of
`StokesWavesFreeSurfaceProfile`: the `B` coefficients and `C0, C2, C4`. -/
def deep : StokesCoefficients α where
  a11 := 0
  a22 := 0
  a31 := 0
  a33 := 0
  a42 := 0
  a44 := 0
  a51 := 0
  a53 := 0
  a55 := 0
  b22 := 0.5
  b31 := -0.375
  b42 := 0.3333333
  b44 := 0.3333333
  b53 := 0.7734375
  b55 := 0.3255208
  c0 := 1.0
  c2 := 0.5
  c4 := 0.125

/-- The local `S` of the tests. -/
def S (L : Libm α) (wavenumber water_depth : α) : α :=
  2 * L.exp (2 * wavenumber * water_depth) / (L.exp (4 * wavenumber * water_depth) + 1)

/-- The local `C0` of the tests. -/
def C0 (L : Libm α) (wavenumber water_depth : α) : α :=
  L.sqrt (L.tanh (wavenumber * water_depth))

/-- The local `C2` of the tests. -/
def C2 (L : Libm α) (wavenumber water_depth : α) : α :=
  C0 L wavenumber water_depth * (2 + 7 * S L wavenumber water_depth ^ 2) /
    (4 * (1 - S L wavenumber water_depth) ^ 2)

/-- The local `C4` of the tests. -/
def C4 (L : Libm α) (wavenumber water_depth : α) : α :=
  C0 L wavenumber water_depth *
      (4 + 32 * S L wavenumber water_depth - 116 * S L wavenumber water_depth ^ 2 -
        400 * S L wavenumber water_depth ^ 3 - 71 * S L wavenumber water_depth ^ 4 +
        146 * S L wavenumber water_depth ^ 5) /
    (32 * (1 - S L wavenumber water_depth) ^ 5)

/-- The local `phase` of the tests, from `C0`, `C2` and `C4`. -/
def phase (L : Libm α) (wavenumber wave_height g x time phase_offset c0 c2 c4 : α) : α :=
  let eps := wavenumber * wave_height / 2
  let wave_speed := (c0 + eps ^ 2 * c2 + eps ^ 4 * c4) * L.sqrt (g / wavenumber)
  let omega := wave_speed * wavenumber
  wavenumber * x - omega * time - phase_offset

/-- The local `eta_theory` of `StokesWavesFreeSurfaceProfile`: Eq. (14) of
Fenton (1985) with the `B` coefficients of `co`. -/
def eta_theory (L : Libm α) (co : StokesCoefficients α)
    (wavenumber wave_height zsl phase : α) : α :=
  let eps := wavenumber * wave_height / 2
  (eps * L.cos phase + eps ^ 2 * co.b22 * L.cos (2 * phase) +
      eps ^ 3 * co.b31 * (L.cos phase - L.cos (3 * phase)) +
      eps ^ 4 * (co.b42 * L.cos (2 * phase) + co.b44 * L.cos (4 * phase)) +
      eps ^ 5 *
        (-(co.b53 + co.b55) * L.cos phase + co.b53 * L.cos (3 * phase) +
          co.b55 * L.cos (5 * phase))) /
    wavenumber + zsl

/-- The vector `a` of `StokesWavesVelocityComponents`, Kinnas Eq. (19), from
the `A` coefficients of `co`. -/
def a (co : StokesCoefficients α) (eps : α) (n : Nat) : α :=
  match n with
  | 0 => co.a11 + eps * eps * co.a31 + eps ^ 4 * co.a51
  | 1 => co.a22 + eps * eps * co.a42
  | 2 => co.a33 + eps * eps * co.a53
  | 3 => co.a44
  | 4 => co.a55
  | _ => 0

/-- The local `horizontal_velocity` of `StokesWavesVelocityComponents`: the
first-order term, the loop over `n = 1, ..., stokes_order - 1`, and the final
scaling. -/
def horizontal_velocity (L : Libm α) (co : StokesCoefficients α) (stokes_order : Nat)
    (wavenumber water_depth wave_height zsl g z phase c0 : α) : α :=
  let eps := wavenumber * wave_height / 2
  let first := eps * a co eps 0 * L.cosh (wavenumber * (water_depth + (z - zsl))) * L.cos phase
  let total := (List.range' 1 (stokes_order - 1)).foldl
    (fun (acc : α) (n : Nat) =>
      acc + eps ^ (n + 1) * ((n : α) + 1) * a co eps n *
        L.cosh (((n : α) + 1) * wavenumber * (water_depth + (z - zsl))) *
        L.cos (((n : α) + 1) * phase)) first
  total * (c0 * L.sqrt (g / wavenumber))

/-- The local `vertical_velocity` of `StokesWavesVelocityComponents`. -/
def vertical_velocity (L : Libm α) (co : StokesCoefficients α) (stokes_order : Nat)
    (wavenumber water_depth wave_height zsl g z phase c0 : α) : α :=
  let eps := wavenumber * wave_height / 2
  let first := eps * a co eps 0 * L.sinh (wavenumber * (water_depth + (z - zsl))) * L.sin phase
  let total := (List.range' 1 (stokes_order - 1)).foldl
    (fun (acc : α) (n : Nat) =>
      acc + eps ^ (n + 1) * ((n : α) + 1) * a co eps n *
        L.sinh (((n : α) + 1) * wavenumber * (water_depth + (z - zsl))) *
        L.sin (((n : α) + 1) * phase)) first
  total * (c0 * L.sqrt (g / wavenumber))

/-- The local `k_newton` of `StokesWaveLength`, from the wavelength returned. -/
def k_newton (L : Libm α) (lambda : α) : α :=
  2.0 * L.pi / lambda

/-- The local `k_theory` of `StokesWaveLength`. -/
def k_theory (L : Libm α) (wave_period g : α) : α :=
  (2.0 * L.pi / wave_period) * (2.0 * L.pi / wave_period) / g

end WaveTheoriesTest

/-! ## Index operations (`index_operations.H`) -/

/-- The ways a utility of `index_operations.H` or a turbulence routine ends the
run: a failed `AMREX_ALWAYS_ASSERT`, or `amrex::Abort` with its message. -/
inductive Aborted where
  /-- `AMREX_ALWAYS_ASSERT(cond)` with `cond` false. -/
  | assertion (cond : String)
  /-- `amrex::Abort(msg)`. -/
  | abort (msg : String)
  deriving DecidableEq, Repr

/-- The loop of `std::upper_bound` on the range `[first, first + len)` of `vec`:
the range is halved until it is empty; `fuel` bounds the number of rounds. -/
def upper_bound_loop {α : Type} [LinearOrder α] (vec : List α) (value : α) :
    Nat → Nat → Nat → Nat
  | 0, first, _ => first
  | fuel + 1, first, len =>
    if 0 < len then
      let half := len / 2
      let middle := first + half
      match vec[middle]? with
      | some m =>
        if value < m then upper_bound_loop vec value fuel first half
        else upper_bound_loop vec value fuel (middle + 1) (len - half - 1)
      | none => first
    else first

/-- The call `std::upper_bound(vec.begin(), vec.end(), value)`, as the distance
of the returned iterator from `vec.begin()`. -/
def upper_bound {α : Type} [LinearOrder α] (vec : List α) (value : α) : Nat :=
  upper_bound_loop vec value vec.length 0 vec.length

/-- The precondition of `std::upper_bound`: the elements that do not compare
greater than `value` all come before those that do. -/
def partitioned {α : Type} [LinearOrder α] (vec : List α) (value : α) : Prop :=
  ∃ l1 l2 : List α, vec = l1 ++ l2 ∧ (∀ a ∈ l1, a ≤ value) ∧ ∀ b ∈ l2, value < b

/-- The function `closest_index`. -/
def closest_index {α : Type} [LinearOrder α] (vec : List α) (value : α) :
    Except Aborted Int :=
  let it := upper_bound vec value
  if it ≠ vec.length then
    let idx : Int := (it : Int)
    .ok (max (idx - 1) 0)
  else .error (.assertion "it != vec.end()")

/-- The function `perpendicular_idx`, with `T = amrex::GpuArray<int, 2>`. -/
def perpendicular_idx (normal : Int) : Except Aborted (Int × Int) :=
  if normal = 0 then .ok (1, 2)
  else if normal = 1 then .ok (0, 2)
  else if normal = 2 then .ok (0, 1)
  else .error (.abort "Invalid normal value to determine perpendicular indices")

/-- The part of `amrex::Box` the intersection reads: `smallEnd`, `bigEnd` and
the index type, per direction `true` for a nodal and `false` for a cell
direction. -/
structure IndexBox where
  smallend : Fin 3 → Int
  bigend : Fin 3 → Int
  btype : Fin 3 → Bool

namespace IndexBox

/-- The method `Box::type`: the index type as an `IntVect` of zeros and ones. -/
def type (b : IndexBox) : Fin 3 → Int :=
  fun d => if b.btype d then 1 else 0

/-- The method `Box::cellCentered`: no direction is nodal. -/
def cellCentered (b : IndexBox) : Bool :=
  !(b.btype 0 || b.btype 1 || b.btype 2)

/-- The method `Box::enclosedCells`: the big end moves down by one in every
nodal direction, and the box becomes cell-centred. -/
def enclosedCells (b : IndexBox) : IndexBox where
  smallend := b.smallend
  bigend := fun d => if b.btype d then b.bigend d - 1 else b.bigend d
  btype := fun _ => false

/-- The operator `Box::operator&`: the larger small end, the smaller big end,
and the index type of the left operand. -/
def inter (a b : IndexBox) : IndexBox where
  smallend := fun d => max (a.smallend d) (b.smallend d)
  bigend := fun d => min (a.bigend d) (b.bigend d)
  btype := a.btype

/-- The method `Box::isEmpty`: the big end lies below the small end in some
direction. -/
def isEmpty (b : IndexBox) : Bool :=
  decide (b.bigend 0 < b.smallend 0) || decide (b.bigend 1 < b.smallend 1) ||
    decide (b.bigend 2 < b.smallend 2)

/-- The method `Box::shift(const IntVect&)`: both ends move by `iv`. -/
def shift (b : IndexBox) (iv : Fin 3 → Int) : IndexBox where
  smallend := fun d => b.smallend d + iv d
  bigend := fun d => b.bigend d + iv d
  btype := b.btype

end IndexBox

/-- The part of `amrex::Orientation` the intersection reads: `coordDir` and
`isHigh`. -/
structure Orientation where
  coordDir : Fin 3
  isHigh : Bool

/-- The function `face_aware_boundary_box_intersection`. -/
def face_aware_boundary_box_intersection (grown_interior_box domain_boundary_box : IndexBox)
    (ori : Orientation) : IndexBox :=
  let field_location_vector := grown_interior_box.type
  let grown_interior_box :=
    if !grown_interior_box.cellCentered then grown_interior_box.enclosedCells
    else grown_interior_box
  let bx := grown_interior_box.inter domain_boundary_box
  if bx.isEmpty then bx
  else if ori.isHigh && decide (field_location_vector ori.coordDir = 1) then
    bx.shift field_location_vector
  else bx

/-! ## The `KLAxell` turbulence model (`KLAxell.H`, `KLAxell.cpp`) -/

/-- The function `std::max`: the first argument unless it is strictly smaller
than the second. -/
def std_max {α : Type} [LinearOrder α] (a b : α) : α :=
  if a < b then b else a

/-- The function `std::min`: the first argument unless the second is strictly
smaller. -/
def std_min {α : Type} [LinearOrder α] (a b : α) : α :=
  if b < a then b else a

/-- The data members of `KLAxell` the kernels capture: the model constants, the
gravity vector, the surface flux and the height of the length-scale switch. -/
structure KLAxell (α : Type) where
  m_Cmu : α
  m_Cmu_prime : α
  m_Cb_stable : α
  m_Cb_unstable : α
  m_prandtl : α
  m_gravity : Fin 3 → α
  m_surf_flux : α
  m_meso_sponge_start : α

/-- The fields the kernels of `KLAxell` read without writing them, and the
captured scalars that come from outside the model: the temperature gradient,
the thermal expansion coefficient `beta`, the density, the laminar thermal
diffusivity, the terrain height and blanking, `ProbLoArray`, the cell size `dz`
and `std::numeric_limits<amrex::Real>::epsilon()`. -/
structure KLInputs (α : Type) where
  gradT : Cell → Fin 3 → α
  beta : Cell → α
  rho : Cell → α
  lam_diff : Cell → α
  terrain_height : Cell → α
  terrain_blank : Cell → Int
  problo : Fin 3 → α
  dz : α
  tiny : α

/-- The fields the kernels of `KLAxell` write: `mu_turb`, `turb_lscale`, `tke`,
`buoy_prod`, `shear_prod` and the effective thermal diffusivity. -/
structure KLFields (α : Type) where
  mu_turb : Cell → α
  turb_lscale : Cell → α
  tke : Cell → α
  buoy_prod : Cell → α
  shear_prod : Cell → α
  alphaeff : Cell → α

namespace KLAxell

variable {α : Type} [LinearOrderedField α]

/-- The constant `Rtc` of the kernels. -/
def Rtc : α := -1.0

/-- The constant `Rtmin` of the kernels. -/
def Rtmin : α := -3.0

/-- The constant `lambda` of `update_turbulent_viscosity`. -/
def lambda : α := 30.0

/-- The constant `kappa` of `update_turbulent_viscosity`. -/
def kappa : α := 0.41

/-- The local `stratification`, the same statement in the three kernels. -/
def stratification (m : KLAxell α) (inp : KLInputs α) (c : Cell) : α :=
  -(inp.gradT c 0 * m.m_gravity 0 + inp.gradT c 1 * m.m_gravity 1 +
      inp.gradT c 2 * m.m_gravity 2) * inp.beta c

/-! The kernel of `update_turbulent_viscosity` taken when the integer field
`terrain_blank` exists. -/

namespace terrain

/-- The local `z`: the height above the terrain, at least half a cell. -/
def z (inp : KLInputs α) (c : Cell) : α :=
  std_max (inp.problo 2 + ((c.k : α) + 0.5) * inp.dz - inp.terrain_height c) (0.5 * inp.dz)

/-- The local `lscale_s`. -/
def lscale_s (inp : KLInputs α) (c : Cell) : α :=
  (lambda * kappa * z inp c) / (lambda + kappa * z inp c)

/-- The local `lscale_b`. -/
def lscale_b (L : Libm α) (m : KLAxell α) (inp : KLInputs α) (s : KLFields α) (c : Cell) : α :=
  m.m_Cb_stable * L.sqrt (s.tke c / std_max (stratification m inp c) inp.tiny)

/-- The local `epsilon`. -/
def epsilon (L : Libm α) (m : KLAxell α) (inp : KLInputs α) (s : KLFields α) (c : Cell) : α :=
  L.pow m.m_Cmu 3 * L.pow (s.tke c) 1.5 / (s.turb_lscale c + inp.tiny)

/-- The local `Rt` as declared. -/
def Rt (L : Libm α) (m : KLAxell α) (inp : KLInputs α) (s : KLFields α) (c : Cell) : α :=
  L.pow (s.tke c / epsilon L m inp s c) 2 * stratification m inp c

/-- The local `Rt` after the limiting assignment. -/
def Rt_limited (L : Libm α) (m : KLAxell α) (inp : KLInputs α) (s : KLFields α) (c : Cell) :
    α :=
  if Rt L m inp s c > Rtc then Rt L m inp s c
  else
    std_max (Rt L m inp s c)
      (Rt L m inp s c - L.pow (Rt L m inp s c - Rtc) 2 / (Rt L m inp s c + Rtmin - 2 * Rtc))

/-- The value of `tlscale_arrs[nbx](i, j, k)` after its first assignment. -/
def tlscale_blend (L : Libm α) (m : KLAxell α) (inp : KLInputs α) (s : KLFields α)
    (c : Cell) : α :=
  if stratification m inp c > 0 then
    L.sqrt (L.pow (lscale_s inp c * lscale_b L m inp s c) 2 /
      (L.pow (lscale_s inp c) 2 + L.pow (lscale_b L m inp s c) 2))
  else
    lscale_s inp c *
      L.sqrt (1.0 - L.pow m.m_Cmu 6.0 * L.pow m.m_Cb_unstable (-2.0) * Rt_limited L m inp s c)

/-- The value of `tlscale_arrs[nbx](i, j, k)` after its second assignment. -/
def tlscale_capped (L : Libm α) (m : KLAxell α) (inp : KLInputs α) (s : KLFields α)
    (c : Cell) : α :=
  if stratification m inp c > 0 then
    std_min (tlscale_blend L m inp s c) (L.sqrt (m.m_Cmu * s.tke c / stratification m inp c))
  else tlscale_blend L m inp s c

/-- The value of `tlscale_arrs[nbx](i, j, k)` after its third assignment. -/
def tlscale (L : Libm α) (m : KLAxell α) (inp : KLInputs α) (s : KLFields α) (c : Cell) : α :=
  if |m.m_surf_flux| < 1e-5 ∧ z inp c ≤ m.m_meso_sponge_start then lscale_s inp c
  else tlscale_capped L m inp s c

/-- The local `Rt` after the neutral switch. -/
def Rt_switched (L : Libm α) (m : KLAxell α) (inp : KLInputs α) (s : KLFields α)
    (c : Cell) : α :=
  if |m.m_surf_flux| < 1e-5 ∧ z inp c ≤ m.m_meso_sponge_start then 0.0
  else Rt_limited L m inp s c

/-- The local `Cmu_Rt`. -/
def Cmu_Rt (L : Libm α) (m : KLAxell α) (inp : KLInputs α) (s : KLFields α) (c : Cell) : α :=
  (m.m_Cmu + 0.108 * Rt_switched L m inp s c) /
    (1 + 0.308 * Rt_switched L m inp s c + 0.00837 * L.pow (Rt_switched L m inp s c) 2)

/-- The value written to `mu_arrs[nbx](i, j, k)`. -/
def mu (L : Libm α) (m : KLAxell α) (inp : KLInputs α) (s : KLFields α) (c : Cell) : α :=
  inp.rho c * Cmu_Rt L m inp s c * tlscale L m inp s c * L.sqrt (s.tke c) *
    ((1 - inp.terrain_blank c : Int) : α)

/-- The local `Cmu_prime_Rt`. -/
def Cmu_prime_Rt (L : Libm α) (m : KLAxell α) (inp : KLInputs α) (s : KLFields α)
    (c : Cell) : α :=
  m.m_Cmu / (1 + 0.277 * Rt_switched L m inp s c)

/-- The local `muPrime`. -/
def muPrime (L : Libm α) (m : KLAxell α) (inp : KLInputs α) (s : KLFields α) (c : Cell) : α :=
  inp.rho c * Cmu_prime_Rt L m inp s c * tlscale L m inp s c * L.sqrt (s.tke c) *
    ((1 - inp.terrain_blank c : Int) : α)

/-- The body of the `ParallelFor` with terrain at one cell. -/
def kernel (L : Libm α) (m : KLAxell α) (inp : KLInputs α) (c : Cell) (s : KLFields α) :
    KLFields α :=
  { s with
    turb_lscale := Function.update s.turb_lscale c (tlscale L m inp s c)
    mu_turb := Function.update s.mu_turb c (mu L m inp s c)
    buoy_prod := Function.update s.buoy_prod c (-muPrime L m inp s c * stratification m inp c)
    shear_prod := Function.update s.shear_prod c
      (s.shear_prod c * (s.shear_prod c * mu L m inp s c)) }

end terrain

/-! The kernel of `update_turbulent_viscosity` taken when there is no field
`terrain_blank`. -/

namespace flat

/-- The local `z`: the height of the cell centre. -/
def z (inp : KLInputs α) (c : Cell) : α :=
  inp.problo 2 + ((c.k : α) + 0.5) * inp.dz

/-- The local `lscale_s`. -/
def lscale_s (inp : KLInputs α) (c : Cell) : α :=
  (lambda * kappa * z inp c) / (lambda + kappa * z inp c)

/-- The local `lscale_b`. -/
def lscale_b (L : Libm α) (m : KLAxell α) (inp : KLInputs α) (s : KLFields α) (c : Cell) : α :=
  m.m_Cb_stable * L.sqrt (s.tke c / std_max (stratification m inp c) inp.tiny)

/-- The local `epsilon`. -/
def epsilon (L : Libm α) (m : KLAxell α) (inp : KLInputs α) (s : KLFields α) (c : Cell) : α :=
  L.pow m.m_Cmu 3 * L.pow (s.tke c) 1.5 / (s.turb_lscale c + inp.tiny)

/-- The local `Rt` as declared. -/
def Rt (L : Libm α) (m : KLAxell α) (inp : KLInputs α) (s : KLFields α) (c : Cell) : α :=
  L.pow (s.tke c / epsilon L m inp s c) 2 * stratification m inp c

/-- The local `Rt` after the limiting assignment. -/
def Rt_limited (L : Libm α) (m : KLAxell α) (inp : KLInputs α) (s : KLFields α) (c : Cell) :
    α :=
  if Rt L m inp s c > Rtc then Rt L m inp s c
  else
    std_max (Rt L m inp s c)
      (Rt L m inp s c - L.pow (Rt L m inp s c - Rtc) 2 / (Rt L m inp s c + Rtmin - 2 * Rtc))

/-- The value of `tlscale_arrs[nbx](i, j, k)` after its first assignment. -/
def tlscale_blend (L : Libm α) (m : KLAxell α) (inp : KLInputs α) (s : KLFields α)
    (c : Cell) : α :=
  if stratification m inp c > 0 then
    L.sqrt (L.pow (lscale_s inp c * lscale_b L m inp s c) 2 /
      (L.pow (lscale_s inp c) 2 + L.pow (lscale_b L m inp s c) 2))
  else
    lscale_s inp c *
      L.sqrt (1.0 - L.pow m.m_Cmu 6.0 * L.pow m.m_Cb_unstable (-2.0) * Rt_limited L m inp s c)

/-- The value of `tlscale_arrs[nbx](i, j, k)` after its second assignment. -/
def tlscale_capped (L : Libm α) (m : KLAxell α) (inp : KLInputs α) (s : KLFields α)
    (c : Cell) : α :=
  if stratification m inp c > 0 then
    std_min (tlscale_blend L m inp s c) (L.sqrt (m.m_Cmu * s.tke c / stratification m inp c))
  else tlscale_blend L m inp s c

/-- The value of `tlscale_arrs[nbx](i, j, k)` after its third assignment. -/
def tlscale (L : Libm α) (m : KLAxell α) (inp : KLInputs α) (s : KLFields α) (c : Cell) : α :=
  if |m.m_surf_flux| < 1e-5 ∧ z inp c ≤ m.m_meso_sponge_start then lscale_s inp c
  else tlscale_capped L m inp s c

/-- The local `Rt` after the neutral switch. -/
def Rt_switched (L : Libm α) (m : KLAxell α) (inp : KLInputs α) (s : KLFields α)
    (c : Cell) : α :=
  if |m.m_surf_flux| < 1e-5 ∧ z inp c ≤ m.m_meso_sponge_start then 0.0
  else Rt_limited L m inp s c

/-- The local `Cmu_Rt`. -/
def Cmu_Rt (L : Libm α) (m : KLAxell α) (inp : KLInputs α) (s : KLFields α) (c : Cell) : α :=
  (m.m_Cmu + 0.108 * Rt_switched L m inp s c) /
    (1 + 0.308 * Rt_switched L m inp s c + 0.00837 * L.pow (Rt_switched L m inp s c) 2)

/-- The value written to `mu_arrs[nbx](i, j, k)`. -/
def mu (L : Libm α) (m : KLAxell α) (inp : KLInputs α) (s : KLFields α) (c : Cell) : α :=
  inp.rho c * Cmu_Rt L m inp s c * tlscale L m inp s c * L.sqrt (s.tke c)

/-- The local `Cmu_prime_Rt`. -/
def Cmu_prime_Rt (L : Libm α) (m : KLAxell α) (inp : KLInputs α) (s : KLFields α)
    (c : Cell) : α :=
  m.m_Cmu / (1 + 0.277 * Rt_switched L m inp s c)

/-- The local `muPrime`. -/
def muPrime (L : Libm α) (m : KLAxell α) (inp : KLInputs α) (s : KLFields α) (c : Cell) : α :=
  inp.rho c * Cmu_prime_Rt L m inp s c * tlscale L m inp s c * L.sqrt (s.tke c)

/-- The body of the `ParallelFor` without terrain at one cell. -/
def kernel (L : Libm α) (m : KLAxell α) (inp : KLInputs α) (c : Cell) (s : KLFields α) :
    KLFields α :=
  { s with
    turb_lscale := Function.update s.turb_lscale c (tlscale L m inp s c)
    mu_turb := Function.update s.mu_turb c (mu L m inp s c)
    buoy_prod := Function.update s.buoy_prod c (-muPrime L m inp s c * stratification m inp c)
    shear_prod := Function.update s.shear_prod c
      (s.shear_prod c * (s.shear_prod c * mu L m inp s c)) }

end flat

/-! The kernel of `update_alphaeff`. -/

namespace alphaeff

/-- The local `epsilon`. -/
def epsilon (L : Libm α) (m : KLAxell α) (s : KLFields α) (c : Cell) : α :=
  L.pow m.m_Cmu 3 * L.pow (s.tke c) 1.5 / s.turb_lscale c

/-- The local `Rt` as declared. -/
def Rt (L : Libm α) (m : KLAxell α) (inp : KLInputs α) (s : KLFields α) (c : Cell) : α :=
  L.pow (s.tke c / epsilon L m s c) 2 * stratification m inp c

/-- The local `Rt` after the limiting assignment. -/
def Rt_limited (L : Libm α) (m : KLAxell α) (inp : KLInputs α) (s : KLFields α) (c : Cell) :
    α :=
  if Rt L m inp s c > Rtc then Rt L m inp s c
  else
    std_max (Rt L m inp s c)
      (Rt L m inp s c - L.pow (Rt L m inp s c - Rtc) 2 / (Rt L m inp s c + Rtmin - 2 * Rtc))

/-- The local `prandtlRt`. -/
def prandtlRt (L : Libm α) (m : KLAxell α) (inp : KLInputs α) (s : KLFields α) (c : Cell) :
    α :=
  (1 + 0.193 * Rt_limited L m inp s c) / (1 + 0.0302 * Rt_limited L m inp s c)

/-- The body of the `ParallelFor` of `update_alphaeff` at one cell. -/
def kernel (L : Libm α) (m : KLAxell α) (inp : KLInputs α) (c : Cell) (s : KLFields α) :
    KLFields α :=
  { s with
    alphaeff := Function.update s.alphaeff c
      (inp.lam_diff c + s.mu_turb c / prandtlRt L m inp s c) }

end alphaeff

/-- The limiter of the turbulent Richardson number in the words of the claim:
`Rt` above -1, else `max(Rt, Rt - (Rt + 1)^2 / (Rt - 1))`. -/
def Rt_limiter (Rt : α) : α :=
  if Rt > -1 then Rt else max Rt (Rt - (Rt + 1) ^ 2 / (Rt - 1))

end KLAxell

/-- A field with components: `num_comp`, `num_grow`, and the value of each
component in each cell. -/
structure CompField (α : Type) where
  num_comp : Nat
  num_grow : Nat
  val : Cell → Nat → α

/-- Modelled from the spec: `Field::setVal` (`amr-wind/core/Field.H`) is not
among the sources.  It sets every component of the field to the value, in
every cell, ghost cells included. -/
def CompField.setVal {α : Type} (f : CompField α) (v : α) : CompField α :=
  { f with val := fun _ _ => v }

/-- Modelled from the spec: `field_ops::saxpy` (`amr-wind/core/field_ops.H`) is
not among the sources.  It is the update `dst = a * src + dst` on `ncomp`
components, from component `srccomp` of `src` into component `dstcomp` of
`dst`; with `nghost = dst.num_grow()` it reaches every cell of `dst`. -/
def field_ops_saxpy {α : Type} [LinearOrderedField α] (dst : CompField α) (a : α)
    (src : CompField α) (srccomp dstcomp ncomp : Nat) (_nghost : Nat) : CompField α :=
  { dst with
    val := fun c n =>
      if dstcomp ≤ n ∧ n < dstcomp + ncomp then
        a * src.val c (srccomp + (n - dstcomp)) + dst.val c n
      else dst.val c n }

/-- The method `KLAxell::update_scalar_diff`: the field `deff` after the call,
and how the call ended.  `tke_var_name` is `pde::TKE::var_name()`. -/
def KLAxell.update_scalar_diff {α : Type} [LinearOrderedField α] (tke_var_name : String)
    (mu_turb : CompField α) (deff : CompField α) (name : String) :
    CompField α × Except Aborted Unit :=
  if name = tke_var_name then
    let deff := deff.setVal 0.0
    (field_ops_saxpy deff 2.0 mu_turb 0 0 deff.num_comp deff.num_grow, .ok ())
  else
    (deff, .error (.abort ("KLAxell:update_scalar_diff not implemented for field " ++ name)))

/-! ## Concrete inputs for the turbulence kernels -/

namespace Example

variable (α : Type) [LinearOrderedField α]

/-- The model constants of `KLAxell.H` at their defaults, with no surface flux. -/
def kl_model : KLAxell α where
  m_Cmu := 0.556
  m_Cmu_prime := 0.556
  m_Cb_stable := 0.25
  m_Cb_unstable := 0.35
  m_prandtl := 1.0
  m_gravity := ![0.0, 0.0, -9.81]
  m_surf_flux := 0
  m_meso_sponge_start := 2000

/-- Kernel inputs over flat ground with unit cells, with the terrain blanking
`blank` everywhere. -/
def kl_inputs (blank : Int) : KLInputs α where
  gradT := fun _ => ![0, 0, 1]
  beta := fun _ => 1
  rho := fun _ => 1
  lam_diff := fun _ => 1
  terrain_height := fun _ => 0
  terrain_blank := fun _ => blank
  problo := ![0, 0, 0]
  dz := 1
  tiny := 1

/-- Kernel fields holding 7 everywhere. -/
def kl_fields : KLFields α where
  mu_turb := fun _ => 7
  turb_lscale := fun _ => 7
  tke := fun _ => 7
  buoy_prod := fun _ => 7
  shear_prod := fun _ => 7
  alphaeff := fun _ => 7

end Example

/-! ## The dispersion solver (`stokes_waves_K.H`) -/

/-- Modelled from the spec: the "nonlinear dispersion residual that includes the
order-dependent Stokes correction terms `C0 + eps^2 C2 + eps^4 C4`" on which
`stokes_wave_length` iterates; `stokes_waves_K.H` is not among the sources.  It
is the difference of the two sides of
`2 pi / (T sqrt(g k)) = C0 + eps^2 C2 + eps^4 C4`, with `eps = k H / 2` and the
coefficients of `stokes_coefficients` at the given order. -/
def stokes_dispersion_residual {α : Type} [LinearOrderedField α] (L : Libm α)
    (stokes_order : Nat) (wave_period water_depth wave_height g k : α) : α :=
  let co := stokes_coefficients L stokes_order k water_depth
  let eps := k * wave_height / 2
  2 * L.pi / (wave_period * L.sqrt (g * k)) - (co.c0 + eps ^ 2 * co.c2 + eps ^ 4 * co.c4)

/-- Modelled from the spec: the derivative in `k` of the dispersion residual,
by which the "Newton iteration" of `stokes_wave_length` divides;
`stokes_waves_K.H` is not among the sources.  The pure derivatives `dSdk`,
`dC0dk` and those of the quotients in `S` come first, then the products. -/
def stokes_dispersion_slope {α : Type} [LinearOrderedField α] (L : Libm α)
    (stokes_order : Nat) (wave_period water_depth wave_height g k : α) : α :=
  let kd := k * water_depth
  let S := 1 / L.cosh (2 * kd)
  let C := 1 - S
  let Th := L.tanh kd
  let C0 := L.sqrt Th
  let eps := k * wave_height / 2
  let depsdk := wave_height / 2
  let dSdk := -2 * water_depth * L.sinh (2 * kd) / L.cosh (2 * kd) ^ 2
  let dC0dk := water_depth * (1 - Th ^ 2) / (2 * C0)
  let c2 := (2 + 7 * S ^ 2) / (4 * C ^ 2)
  let dc2dS := (2 + 7 * S) / (2 * C ^ 3)
  let c4 := (4 + 32 * S - 116 * S ^ 2 - 400 * S ^ 3 - 71 * S ^ 4 + 146 * S ^ 5) / (32 * C ^ 5)
  let dc4dS :=
    ((32 - 232 * S - 1200 * S ^ 2 - 284 * S ^ 3 + 730 * S ^ 4) * C +
        5 * (4 + 32 * S - 116 * S ^ 2 - 400 * S ^ 3 - 71 * S ^ 4 + 146 * S ^ 5)) /
      (32 * C ^ 6)
  let dRdk := -(2 * L.pi / (wave_period * L.sqrt (g * k))) / (2 * k)
  dRdk - dC0dk -
      (if 2 ≤ stokes_order then
        2 * eps * depsdk * (C0 * c2) + eps ^ 2 * (dC0dk * c2 + C0 * (dc2dS * dSdk))
      else 0) -
    (if 4 ≤ stokes_order then
      4 * eps ^ 3 * depsdk * (C0 * c4) + eps ^ 4 * (dC0dk * c4 + C0 * (dc4dS * dSdk))
    else 0)

/-- Modelled from the spec: one round of the "Newton iteration on the nonlinear
dispersion residual" of `stokes_wave_length`; `stokes_waves_K.H` is not among
the sources. -/
def stokes_newton_step {α : Type} [LinearOrderedField α] (L : Libm α)
    (stokes_order : Nat) (wave_period water_depth wave_height g k : α) : α :=
  k - stokes_dispersion_residual L stokes_order wave_period water_depth wave_height g k /
    stokes_dispersion_slope L stokes_order wave_period water_depth wave_height g k

namespace WaveTheoriesTest

variable {α : Type} [LinearOrderedField α]

/-- The local `RHS1` and `RHS2` of `StokesWaveLength`. -/
def RHS (L : Libm α) (wave_period g k : α) : α :=
  2.0 * L.pi / (wave_period * L.sqrt (g * k))

/-- The local `S` of the second and third part of `StokesWaveLength`. -/
def S_cosh (L : Libm α) (k water_depth : α) : α :=
  1.0 / L.cosh (2.0 * k * water_depth)

/-- The local `C0` of `StokesWaveLength`. -/
def C0_k (L : Libm α) (k water_depth : α) : α :=
  L.sqrt (L.tanh (k * water_depth))

/-- The local `C2` of `StokesWaveLength`. -/
def C2_k (L : Libm α) (k water_depth : α) : α :=
  C0_k L k water_depth * (2.0 + 7.0 * S_cosh L k water_depth * S_cosh L k water_depth) /
    (4.0 * (1.0 - S_cosh L k water_depth) * (1.0 - S_cosh L k water_depth))

/-- The local `C4` of `StokesWaveLength`. -/
def C4_k (L : Libm α) (k water_depth : α) : α :=
  C0_k L k water_depth *
      (4.0 + 32.0 * S_cosh L k water_depth - 116.0 * S_cosh L k water_depth ^ 2 -
        400.0 * S_cosh L k water_depth ^ 3 - 71.0 * S_cosh L k water_depth ^ 4 +
        146.0 * S_cosh L k water_depth ^ 5) /
    (32.0 * (1.0 - S_cosh L k water_depth) ^ 5)

/-- The local `LHS1` of `StokesWaveLength`, for order 5. -/
def LHS1 (L : Libm α) (k water_depth wave_height : α) : α :=
  C0_k L k water_depth + (k * wave_height / 2.0) ^ 2 * C2_k L k water_depth +
    (k * wave_height / 2.0) ^ 4 * C4_k L k water_depth

/-- The local `LHS2` of `StokesWaveLength`, for order 3. -/
def LHS2 (L : Libm α) (k water_depth wave_height : α) : α :=
  C0_k L k water_depth + (k * wave_height / 2.0) ^ 2 * C2_k L k water_depth

end WaveTheoriesTest

/-! ## Reading of the inputs -/

section ReadInputs

variable {α : Type} [LinearOrderedField α]

/-- The outcome of `ReadInputsOp<LinearWaves>` once the reads that come before
the phase offset have succeeded: it is decided by the two phase-offset keys. -/
theorem ReadInputsOp_of_reads (L : Libm α) (env : ReadEnv α) (wdata w1 : LinearWavesData α)
    (gz wl wh : α) (h1 : env.relax_read_inputs wdata env.pp = .ok w1)
    (h2 : ((env.incflo_gravity).getD [0, 0, -9.81])[2]? = some gz)
    (h3 : env.pp.lookup "wave_length" = some wl) (h4 : env.pp.lookup "wave_height" = some wh) :
    ReadInputsOp L env wdata =
      (if !env.pp.contains "wave_phase_offset_radians" then
        .ok { w1 with
          g := -gz, wave_length := wl, wave_height := wh,
          wave_phase_offset :=
            env.pp.query "wave_phase_offset_degrees"
              (env.pp.query "wave_phase_offset_radians" w1.wave_phase_offset) * (L.pi / 180) }
      else if env.pp.contains "wave_phase_offset_degrees" then
        .error Fatal.both_phase_offsets
      else
        .ok { w1 with
          g := -gz, wave_length := wl, wave_height := wh,
          wave_phase_offset :=
            env.pp.query "wave_phase_offset_radians" w1.wave_phase_offset }) := by
  unfold ReadInputsOp
  simp only [h1, h2, h3, h4, MultiParser.get, bind, Except.bind, pure, Except.pure, throw,
    throwThe, MonadExceptOf.throw]

/-- The steps of `ReadInputsOp<LinearWaves>` that come before the phase offset:
either one of them is fatal, with a failure other than the phase-offset abort,
or all of them succeed. -/
theorem ReadInputsOp_cases (L : Libm α) (env : ReadEnv α) (wdata : LinearWavesData α) :
    (∃ e, ReadInputsOp L env wdata = .error e ∧ e ≠ Fatal.both_phase_offsets) ∨
    (∃ w1 gz wl wh,
        env.relax_read_inputs wdata env.pp = .ok w1 ∧
        ((env.incflo_gravity).getD [0, 0, -9.81])[2]? = some gz ∧
        env.pp.lookup "wave_length" = some wl ∧ env.pp.lookup "wave_height" = some wh) := by
  cases h1 : env.relax_read_inputs wdata env.pp with
  | error msg =>
    left
    refine ⟨Fatal.collaborator msg, ?_, by simp⟩
    unfold ReadInputsOp
    simp [h1, bind, Except.bind]
  | ok w1 =>
    cases h2 : ((env.incflo_gravity).getD [0, 0, -9.81])[2]? with
    | none =>
      left
      refine ⟨Fatal.out_of_range, ?_, by simp⟩
      unfold ReadInputsOp
      simp [h1, h2, bind, Except.bind]
    | some gz =>
      cases h3 : env.pp.lookup "wave_length" with
      | none =>
        left
        refine ⟨Fatal.parm_missing "wave_length", ?_, by simp⟩
        unfold ReadInputsOp
        simp [h1, h2, h3, MultiParser.get, bind, Except.bind]
      | some wl =>
        cases h4 : env.pp.lookup "wave_height" with
        | none =>
          left
          refine ⟨Fatal.parm_missing "wave_height", ?_, by simp⟩
          unfold ReadInputsOp
          simp [h1, h2, h3, h4, MultiParser.get, bind, Except.bind]
        | some wh => exact Or.inr ⟨w1, gz, wl, wh, rfl, rfl, rfl, rfl⟩

/-- C1. `ReadInputsOp<LinearWaves>`: when both `wave_phase_offset_radians` and
`wave_phase_offset_degrees` are present, reading the inputs is fatal and no
record is produced (neither offset is picked); whenever the earlier reads
succeed the failure is the abort of the phase-offset check; and that abort
occurs only when both keys are present, so with at most one of them the check
does not fail. -/
theorem C1_both_phase_offsets_fatal (L : Libm α) (env : ReadEnv α)
    (wdata : LinearWavesData α) :
    ((env.pp.contains "wave_phase_offset_radians" = true ∧
        env.pp.contains "wave_phase_offset_degrees" = true) →
      (∃ e, ReadInputsOp L env wdata = .error e) ∧
      ((∃ w1, env.relax_read_inputs wdata env.pp = .ok w1) →
        (∃ gz, ((env.incflo_gravity).getD [0, 0, -9.81])[2]? = some gz) →
        (∃ wl, env.pp.lookup "wave_length" = some wl) →
        (∃ wh, env.pp.lookup "wave_height" = some wh) →
        ReadInputsOp L env wdata = .error Fatal.both_phase_offsets)) ∧
    (ReadInputsOp L env wdata = .error Fatal.both_phase_offsets →
      env.pp.contains "wave_phase_offset_radians" = true ∧
        env.pp.contains "wave_phase_offset_degrees" = true) := by
  have key : ∀ w1 gz wl wh, env.relax_read_inputs wdata env.pp = .ok w1 →
      ((env.incflo_gravity).getD [0, 0, -9.81])[2]? = some gz →
      env.pp.lookup "wave_length" = some wl → env.pp.lookup "wave_height" = some wh →
      (ReadInputsOp L env wdata = .error Fatal.both_phase_offsets ↔
        (env.pp.contains "wave_phase_offset_radians" = true ∧
          env.pp.contains "wave_phase_offset_degrees" = true)) := by
    intro w1 gz wl wh h1 h2 h3 h4
    rw [ReadInputsOp_of_reads L env wdata w1 gz wl wh h1 h2 h3 h4]
    cases hr : env.pp.contains "wave_phase_offset_radians" <;>
      cases hd : env.pp.contains "wave_phase_offset_degrees" <;> simp
  rcases ReadInputsOp_cases L env wdata with ⟨e, he, hne⟩ | ⟨w1, gz, wl, wh, h1, h2, h3, h4⟩
  · refine ⟨fun hboth => ⟨⟨e, he⟩, ?_⟩, ?_⟩
    · rintro ⟨w1, h1⟩ ⟨gz, h2⟩ ⟨wl, h3⟩ ⟨wh, h4⟩
      exact (key w1 gz wl wh h1 h2 h3 h4).2 hboth
    · intro hb
      rw [he] at hb
      cases hb
      exact absurd rfl hne
  · refine ⟨fun hboth => ?_, (key w1 gz wl wh h1 h2 h3 h4).1⟩
    have hres := (key w1 gz wl wh h1 h2 h3 h4).2 hboth
    exact ⟨⟨_, hres⟩, fun _ _ _ _ => hres⟩

/-- C3. `ReadInputsOp<LinearWaves>`: when `wave_length` or `wave_height` is
missing from the inputs, reading the inputs is fatal; and whenever it succeeds,
the stored wave length and wave height are the values found in the inputs, so
no default takes their place. -/
theorem C3_wave_length_height_required (L : Libm α) (env : ReadEnv α)
    (wdata : LinearWavesData α) :
    ((env.pp.lookup "wave_length" = none ∨ env.pp.lookup "wave_height" = none) →
      ∃ e, ReadInputsOp L env wdata = .error e) ∧
    (∀ w, ReadInputsOp L env wdata = .ok w →
      env.pp.lookup "wave_length" = some w.wave_length ∧
        env.pp.lookup "wave_height" = some w.wave_height) := by
  rcases ReadInputsOp_cases L env wdata with ⟨e, he, _⟩ | ⟨w1, gz, wl, wh, h1, h2, h3, h4⟩
  · refine ⟨fun _ => ⟨e, he⟩, fun w hw => ?_⟩
    rw [he] at hw
    cases hw
  · refine ⟨fun hmiss => ?_, fun w hw => ?_⟩
    · rcases hmiss with hm | hm
      · rw [h3] at hm; cases hm
      · rw [h4] at hm; cases hm
    · rw [ReadInputsOp_of_reads L env wdata w1 gz wl wh h1 h2 h3 h4] at hw
      split_ifs at hw
      all_goals (cases hw; exact ⟨h3, h4⟩)

end ReadInputs

/-! ## Set-up of the ocean-wave physics -/

/-- When the companion-physics check of `pre_init_actions` passes, whatever
follows does not end in the companion-physics abort. -/
theorem pre_init_actions_of_check {M : Type} (identifier : String) (physics : List String)
    (table : ParmTable) (F : ModelFactory M) (ow : OceanWaves M)
    (h : (ow.m_multiphase_mode || physics.contains "TerrainDrag") = true) :
    (ow.pre_init_actions identifier physics table F).2 ≠ some Fatal.no_companion_physics := by
  unfold OceanWaves.pre_init_actions
  simp only [h, Bool.not_true, Bool.false_eq_true, if_false]
  split_ifs
  · simp
  · split
    · simp
    · split <;> simp

/-- C2. `OceanWaves::pre_init_actions`, run on a freshly constructed
`OceanWaves`: it ends in the companion-physics abort if and only if neither
`MultiPhase` nor `TerrainDrag` is among the registered physics (so the check
passes when at least one is active); and when it does, the object is left as
constructed: no wave model has been created and no call has been made on one,
in particular no inputs have been read. -/
theorem C2_companion_physics_required (M : Type) (identifier : String)
    (physics : List String) (table : ParmTable) (F : ModelFactory M) :
    (((OceanWaves.construct M physics).pre_init_actions identifier physics table F).2 =
        some Fatal.no_companion_physics ↔
      (physics.contains "MultiPhase" = false ∧ physics.contains "TerrainDrag" = false)) ∧
    (((OceanWaves.construct M physics).pre_init_actions identifier physics table F).2 =
        some Fatal.no_companion_physics →
      ((OceanWaves.construct M physics).pre_init_actions identifier physics table F).1.m_owm =
          none ∧
        ((OceanWaves.construct M physics).pre_init_actions identifier physics table F).1.calls =
          []) := by
  have hmode : (OceanWaves.construct M physics).m_multiphase_mode =
      physics.contains "MultiPhase" := by
    unfold OceanWaves.construct m_multiphase_mode_default
    cases physics.contains "MultiPhase" <;> rfl
  cases hc : ((OceanWaves.construct M physics).m_multiphase_mode ||
      physics.contains "TerrainDrag")
  · have hres : (OceanWaves.construct M physics).pre_init_actions identifier physics table F =
        (OceanWaves.construct M physics, some Fatal.no_companion_physics) := by
      unfold OceanWaves.pre_init_actions
      simp only [hc, Bool.not_false, if_true]
    rw [hres]
    rw [hmode] at hc
    refine ⟨⟨fun _ => ?_, fun _ => rfl⟩, fun _ => ⟨rfl, rfl⟩⟩
    revert hc
    generalize physics.contains "MultiPhase" = a
    generalize physics.contains "TerrainDrag" = b
    cases a <;> cases b <;> decide
  · have hne := pre_init_actions_of_check identifier physics table F _ hc
    refine ⟨⟨fun h => absurd h hne, fun h => ?_⟩, fun h => absurd h hne⟩
    exfalso
    rw [hmode, h.1, h.2] at hc
    cases hc

/-! ## Sweeps -/

/-- Membership in `intRange`. -/
theorem mem_intRange (lo hi x : Int) : x ∈ intRange lo hi ↔ lo ≤ x ∧ x ≤ hi := by
  unfold intRange
  simp only [List.mem_map, List.mem_range]
  constructor
  · rintro ⟨n, hn, rfl⟩
    omega
  · rintro ⟨h1, h2⟩
    exact ⟨(x - lo).toNat, by omega, by omega⟩

/-- Membership in the cells of a grown box. -/
theorem mem_grownCells (lev nbx : Nat) (b : Box) (ng : Int) (c : Cell) :
    c ∈ grownCells lev nbx b ng ↔
      c.lev = lev ∧ c.nbx = nbx ∧
      (b.lo 0 - ng ≤ c.i ∧ c.i ≤ b.hi 0 + ng) ∧
      (b.lo 1 - ng ≤ c.j ∧ c.j ≤ b.hi 1 + ng) ∧
      (b.lo 2 - ng ≤ c.k ∧ c.k ≤ b.hi 2 + ng) := by
  unfold grownCells
  simp only [List.mem_flatMap, List.mem_map, mem_intRange]
  constructor
  · rintro ⟨k, hk, j, hj, i, hi, rfl⟩
    exact ⟨rfl, rfl, hi, hj, hk⟩
  · rintro ⟨h1, h2, hi, hj, hk⟩
    refine ⟨c.k, hk, c.j, hj, c.i, hi, ?_⟩
    cases c
    simp only at h1 h2
    subst h1 h2
    rfl

/-- Membership in the cells of a sweep: the cell is on the swept level and lies
in its box grown by the ghost layers. -/
theorem mem_sweptCells (lev : Nat) (boxes : List Box) (ng : Int) (c : Cell) :
    c ∈ sweptCells lev boxes ng ↔
      c.lev = lev ∧ ∃ b, boxes[c.nbx]? = some b ∧
        (b.lo 0 - ng ≤ c.i ∧ c.i ≤ b.hi 0 + ng) ∧
        (b.lo 1 - ng ≤ c.j ∧ c.j ≤ b.hi 1 + ng) ∧
        (b.lo 2 - ng ≤ c.k ∧ c.k ≤ b.hi 2 + ng) := by
  unfold sweptCells
  simp only [List.mem_flatMap, mem_grownCells, List.mem_enum_iff_getElem?]
  constructor
  · rintro ⟨⟨n, b⟩, hb, h1, h2, h⟩
    simp only at hb h2
    subst h2
    exact ⟨h1, b, hb, h⟩
  · rintro ⟨h1, b, hb, h⟩
    exact ⟨(c.nbx, b), hb, h1, rfl, h⟩

/-- A sweep whose body overwrites, in the cells that pass a test, the entry of
one field at the visited cell and nothing else of that field: afterwards the
field holds the written value in the swept cells that pass the test and its
previous value everywhere else. -/
theorem ParallelFor_get {σ V : Type} (get : σ → Cell → V) (body : Cell → σ → σ)
    (P : Cell → Prop) [DecidablePred P] (val : Cell → V)
    (hbody : ∀ c s c1, get (body c s) c1 = if c1 = c ∧ P c then val c else get s c1)
    (cells : List Cell) (s : σ) (c : Cell) :
    get (ParallelFor cells body s) c = if c ∈ cells ∧ P c then val c else get s c := by
  unfold ParallelFor
  induction cells generalizing s with
  | nil => simp
  | cons d tl ih =>
    rw [List.foldl_cons, ih, hbody]
    by_cases hP : P c
    · by_cases h1 : c ∈ tl
      · simp [h1, hP]
      · by_cases h2 : c = d
        · subst h2; simp [hP]
        · simp [h1, h2, hP]
    · by_cases h2 : c = d
      · subst h2; simp [hP]
      · simp [h2, hP]

/-- A sweep whose body leaves a field alone leaves it alone. -/
theorem ParallelFor_frame {σ V : Type} (get : σ → V) (body : Cell → σ → σ)
    (hbody : ∀ c s, get (body c s) = get s) (cells : List Cell) (s : σ) :
    get (ParallelFor cells body s) = get s := by
  unfold ParallelFor
  induction cells generalizing s with
  | nil => rfl
  | cons d tl ih => rw [List.foldl_cons, ih, hbody]

/-! ## Witnesses for the set-up claims -/

/-- With both phase-offset keys among otherwise complete inputs, reading the
inputs ends in the phase-offset abort. -/
theorem C1_witness :
    ReadInputsOp Libm.real (Example.env_both ℝ) (Example.wdata ℝ) =
      .error Fatal.both_phase_offsets :=
  ((C1_both_phase_offsets_fatal Libm.real (Example.env_both ℝ) (Example.wdata ℝ)).1
    ⟨by decide, by decide⟩).2 ⟨_, rfl⟩ ⟨_, rfl⟩ ⟨2, by simp [Example.env_both]⟩
    ⟨2, by simp [Example.env_both]⟩

/-- With only `TerrainDrag` registered the companion-physics check passes; with
nothing registered it aborts. -/
theorem C2_witness :
    ((OceanWaves.construct String ["TerrainDrag"]).pre_init_actions "OceanWaves"
        ["TerrainDrag"] (fun _ _ => some "LinearWaves") Example.factory).2 ≠
      some Fatal.no_companion_physics ∧
    ((OceanWaves.construct String []).pre_init_actions "OceanWaves"
        [] (fun _ _ => some "LinearWaves") Example.factory).1.calls = [] :=
  ⟨fun h => absurd ((C2_companion_physics_required String "OceanWaves" ["TerrainDrag"]
      (fun _ _ => some "LinearWaves") Example.factory).1.1 h).2 (by decide),
   ((C2_companion_physics_required String "OceanWaves" []
      (fun _ _ => some "LinearWaves") Example.factory).2
    ((C2_companion_physics_required String "OceanWaves" []
      (fun _ _ => some "LinearWaves") Example.factory).1.2 ⟨by decide, by decide⟩)).2⟩

/-- Without `wave_length` among the inputs, reading the inputs is fatal. -/
theorem C3_witness :
    ∃ e, ReadInputsOp Libm.real (Example.env_no_length ℝ) (Example.wdata ℝ) = .error e :=
  (C3_wave_length_height_required Libm.real (Example.env_no_length ℝ) (Example.wdata ℝ)).1
    (Or.inl (by simp [Example.env_no_length]))

/-! ## The update of the target fields -/

/-- A loop over the levels `0, ..., n - 1` in which the step of a level
overwrites one field on the cells of that level: afterwards the field holds
the written value in every cell of a visited level and its previous value
everywhere else. -/
theorem levels_get {σ V : Type} (get : σ → Cell → V) (step : Nat → σ → σ)
    (cells : Nat → List Cell) (val : Cell → V)
    (hcells : ∀ lev c, c ∈ cells lev → c.lev = lev)
    (hstep : ∀ lev s c, get (step lev s) c = if c ∈ cells lev then val c else get s c)
    (n : Nat) (s : σ) (c : Cell) :
    get ((List.range n).foldl (fun s lev => step lev s) s) c =
      if c.lev < n ∧ c ∈ cells c.lev then val c else get s c := by
  induction n with
  | zero => simp
  | succ n ih =>
    rw [List.range_succ, List.foldl_append, List.foldl_cons, List.foldl_nil, hstep, ih]
    by_cases hmem : c ∈ cells n
    · have hlev := hcells n c hmem
      subst hlev
      simp [hmem]
    · by_cases h1 : c.lev < n
      · have h2 : c.lev < n + 1 := by omega
        simp [hmem, h1, h2]
      · by_cases h3 : c.lev = n
        · rw [h3]; simp [hmem]
        · have h2 : ¬ c.lev < n + 1 := by omega
          simp [hmem, h1, h2]

/-- A loop over levels whose steps leave a field alone leaves it alone. -/
theorem levels_frame {σ V : Type} (get : σ → V) (step : Nat → σ → σ)
    (hstep : ∀ lev s, get (step lev s) = get s) (n : Nat) (s : σ) :
    get ((List.range n).foldl (fun s lev => step lev s) s) = get s := by
  induction n with
  | zero => rfl
  | succ n ih =>
    rw [List.range_succ, List.foldl_append, List.foldl_cons, List.foldl_nil, hstep, ih]

namespace UpdateTargetFieldsOp

variable {α : Type} [LinearOrderedField α]

/-- The target level-set after the update kernel has run at cell `c`. -/
theorem kernel_ow_levelset (L : Libm α) (wdata : LinearWavesData α) (geom : Geometry α)
    (time : α) (c : Cell) (repo : FieldRepo α) (c1 : Cell) :
    (kernel L wdata geom time c repo).ow_levelset c1 =
      if c1 = c ∧ True then eta L wdata geom time c.i - z geom c.k
      else repo.ow_levelset c1 := by
  unfold kernel
  by_cases h : c1 = c
  · subst h
    simp only [Function.update_same, and_true, if_true]
    split_ifs <;> simp
  · simp only [h, false_and, if_false]
    split_ifs <;> simp [Function.update_noteq h]

/-- The target velocity after the update kernel has run at cell `c`. -/
theorem kernel_ow_velocity (L : Libm α) (wdata : LinearWavesData α) (geom : Geometry α)
    (time : α) (c : Cell) (repo : FieldRepo α) (c1 : Cell) :
    (kernel L wdata geom time c repo).ow_velocity c1 =
      if c1 = c ∧ True then
        (if eta L wdata geom time c.i - z geom c.k + cell_length_2D L geom ≥ 0 then
          wave_velocity L wdata geom time c.i c.k
        else ![0.0, 0.0, 0.0])
      else repo.ow_velocity c1 := by
  unfold kernel
  by_cases h : c1 = c
  · subst h
    simp only [Function.update_same, and_true, if_true]
    split_ifs <;> simp
  · simp only [h, false_and, if_false]
    split_ifs <;> simp [Function.update_noteq h]

/-- The update kernel does not touch the live fields. -/
theorem kernel_live (L : Libm α) (wdata : LinearWavesData α) (geom : Geometry α)
    (time : α) (c : Cell) (repo : FieldRepo α) :
    (kernel L wdata geom time c repo).levelset = repo.levelset ∧
      (kernel L wdata geom time c repo).velocity = repo.velocity := by
  unfold kernel
  dsimp only
  split_ifs <;> exact ⟨rfl, rfl⟩

/-- The target level-set after the update: the analytic value in every swept
cell, the previous content elsewhere. -/
theorem run_ow_levelset (L : Libm α) (wdata : LinearWavesData α) (mesh : Mesh α)
    (time : α) (repo : FieldRepo α) (c : Cell) :
    (run L wdata mesh time repo).ow_levelset c =
      if c.lev < mesh.nlevels ∧ c ∈ sweptCells c.lev (mesh.boxes c.lev) 3 then
        eta L wdata (mesh.geom c.lev) time c.i - z (mesh.geom c.lev) c.k
      else repo.ow_levelset c := by
  unfold run
  refine levels_get (fun s => s.ow_levelset) _ (fun lev => sweptCells lev (mesh.boxes lev) 3)
    (fun c => eta L wdata (mesh.geom c.lev) time c.i - z (mesh.geom c.lev) c.k)
    (fun lev c hc => ((mem_sweptCells lev _ 3 c).1 hc).1) ?_ mesh.nlevels repo c
  intro lev s c
  have h := ParallelFor_get (fun s : FieldRepo α => s.ow_levelset)
    (kernel L wdata (mesh.geom lev) time) (fun _ => True)
    (fun c => eta L wdata (mesh.geom lev) time c.i - z (mesh.geom lev) c.k)
    (kernel_ow_levelset L wdata (mesh.geom lev) time) (sweptCells lev (mesh.boxes lev) 3) s c
  simp only [and_true] at h
  beta_reduce
  rw [h]
  by_cases hc : c ∈ sweptCells lev (mesh.boxes lev) 3
  · have hlev := ((mem_sweptCells lev _ 3 c).1 hc).1
    subst hlev
    simp [hc]
  · simp [hc]

/-- The target velocity after the update: in every swept cell the analytic
velocity or zero, as the proximity test decides; the previous content
elsewhere. -/
theorem run_ow_velocity (L : Libm α) (wdata : LinearWavesData α) (mesh : Mesh α)
    (time : α) (repo : FieldRepo α) (c : Cell) :
    (run L wdata mesh time repo).ow_velocity c =
      if c.lev < mesh.nlevels ∧ c ∈ sweptCells c.lev (mesh.boxes c.lev) 3 then
        (if eta L wdata (mesh.geom c.lev) time c.i - z (mesh.geom c.lev) c.k +
            cell_length_2D L (mesh.geom c.lev) ≥ 0 then
          wave_velocity L wdata (mesh.geom c.lev) time c.i c.k
        else ![0.0, 0.0, 0.0])
      else repo.ow_velocity c := by
  unfold run
  refine levels_get (fun s => s.ow_velocity) _ (fun lev => sweptCells lev (mesh.boxes lev) 3)
    (fun c =>
      if eta L wdata (mesh.geom c.lev) time c.i - z (mesh.geom c.lev) c.k +
          cell_length_2D L (mesh.geom c.lev) ≥ 0 then
        wave_velocity L wdata (mesh.geom c.lev) time c.i c.k
      else ![0.0, 0.0, 0.0])
    (fun lev c hc => ((mem_sweptCells lev _ 3 c).1 hc).1) ?_ mesh.nlevels repo c
  intro lev s c
  have h := ParallelFor_get (fun s : FieldRepo α => s.ow_velocity)
    (kernel L wdata (mesh.geom lev) time) (fun _ => True)
    (fun c =>
      if eta L wdata (mesh.geom lev) time c.i - z (mesh.geom lev) c.k +
          cell_length_2D L (mesh.geom lev) ≥ 0 then
        wave_velocity L wdata (mesh.geom lev) time c.i c.k
      else ![0.0, 0.0, 0.0])
    (kernel_ow_velocity L wdata (mesh.geom lev) time) (sweptCells lev (mesh.boxes lev) 3) s c
  simp only [and_true] at h
  beta_reduce
  rw [h]
  by_cases hc : c ∈ sweptCells lev (mesh.boxes lev) 3
  · have hlev := ((mem_sweptCells lev _ 3 c).1 hc).1
    subst hlev
    simp [hc]
  · simp [hc]

/-- The update leaves the live level-set and velocity as they were. -/
theorem run_live (L : Libm α) (wdata : LinearWavesData α) (mesh : Mesh α)
    (time : α) (repo : FieldRepo α) :
    (run L wdata mesh time repo).levelset = repo.levelset ∧
      (run L wdata mesh time repo).velocity = repo.velocity := by
  unfold run
  constructor
  · exact levels_frame (fun s : FieldRepo α => s.levelset) _
      (fun lev s => ParallelFor_frame (fun s : FieldRepo α => s.levelset) _
        (fun c s => (kernel_live L wdata (mesh.geom lev) time c s).1) _ s) _ repo
  · exact levels_frame (fun s : FieldRepo α => s.velocity) _
      (fun lev s => ParallelFor_frame (fun s : FieldRepo α => s.velocity) _
        (fun c s => (kernel_live L wdata (mesh.geom lev) time c s).2) _ s) _ repo

end UpdateTargetFieldsOp

/-! ## Claims on the update of the target fields -/

/-- The target level-set in a swept cell after the update. -/
theorem UpdateTargetFieldsOp.run_ow_levelset_of_swept {α : Type} [LinearOrderedField α]
    (L : Libm α) (wdata : LinearWavesData α) (mesh : Mesh α) (time : α) (repo : FieldRepo α)
    (c : Cell) (hc : UpdateTargetFieldsOp.swept mesh c) :
    (UpdateTargetFieldsOp.run L wdata mesh time repo).ow_levelset c =
      UpdateTargetFieldsOp.eta L wdata (mesh.geom c.lev) time c.i -
        UpdateTargetFieldsOp.z (mesh.geom c.lev) c.k := by
  have hc1 : c.lev < mesh.nlevels ∧ c ∈ sweptCells c.lev (mesh.boxes c.lev) 3 := hc
  rw [UpdateTargetFieldsOp.run_ow_levelset, if_pos hc1]

/-- The target velocity in a swept cell after the update. -/
theorem UpdateTargetFieldsOp.run_ow_velocity_of_swept {α : Type} [LinearOrderedField α]
    (L : Libm α) (wdata : LinearWavesData α) (mesh : Mesh α) (time : α) (repo : FieldRepo α)
    (c : Cell) (hc : UpdateTargetFieldsOp.swept mesh c) :
    (UpdateTargetFieldsOp.run L wdata mesh time repo).ow_velocity c =
      if UpdateTargetFieldsOp.eta L wdata (mesh.geom c.lev) time c.i -
            UpdateTargetFieldsOp.z (mesh.geom c.lev) c.k +
          UpdateTargetFieldsOp.cell_length_2D L (mesh.geom c.lev) ≥ 0 then
        UpdateTargetFieldsOp.wave_velocity L wdata (mesh.geom c.lev) time c.i c.k
      else ![0.0, 0.0, 0.0] := by
  have hc1 : c.lev < mesh.nlevels ∧ c ∈ sweptCells c.lev (mesh.boxes c.lev) 3 := hc
  rw [UpdateTargetFieldsOp.run_ow_velocity, if_pos hc1]

/-- Inside the domain the clamp of the update leaves the cell centre as it is. -/
theorem UpdateTargetFieldsOp.x_of_le {α : Type} [LinearOrderedField α] (geom : Geometry α)
    (i : Int) (h : geom.problo 0 ≤ geom.problo 0 + ((i : α) + 0.5) * geom.dx 0) :
    UpdateTargetFieldsOp.x geom i = geom.problo 0 + ((i : α) + 0.5) * geom.dx 0 := by
  unfold UpdateTargetFieldsOp.x amrex_max
  split_ifs with hlt
  · rfl
  · exact le_antisymm h (not_lt.1 hlt)

/-- Over the reals the angular frequency of the update is the square root of
`k g tanh(k d)`. -/
theorem UpdateTargetFieldsOp.omega_real (wdata : LinearWavesData ℝ) :
    UpdateTargetFieldsOp.omega Libm.real wdata =
      Real.sqrt (2 * Real.pi / wdata.wave_length * wdata.g *
        Real.tanh (2 * Real.pi / wdata.wave_length * wdata.water_depth)) := by
  unfold UpdateTargetFieldsOp.omega UpdateTargetFieldsOp.wave_number
  simp only [Libm.real]
  rw [Real.sqrt_eq_rpow]
  norm_num

/-- C4. `UpdateTargetFieldsOp<LinearWaves>`: for every time, every parameter
set with positive wave length, depth and gravity, and every swept cell whose
centre `x = problo_x + (i + 0.5) dx` lies inside the domain, the value written
to `ow_levelset` is `H/2 cos(phase) + zsl - z`, with `z` the cell-centre height,
`k = 2 pi / wave_length`, `omega = sqrt(k g tanh(k d))` and
`phase = k (x - current t) - omega t - phase_offset`; with zero current the
phase is `k x - omega t - phase_offset`. -/
theorem C4_target_levelset (wdata : LinearWavesData ℝ) (mesh : Mesh ℝ) (time : ℝ)
    (repo : FieldRepo ℝ) (c : Cell) (k x z omega : ℝ)
    (_hlen : 0 < wdata.wave_length) (_hdepth : 0 < wdata.water_depth) (_hg : 0 < wdata.g)
    (hc : UpdateTargetFieldsOp.swept mesh c)
    (hx : x = (mesh.geom c.lev).problo 0 + ((c.i : ℝ) + 0.5) * (mesh.geom c.lev).dx 0)
    (hz : z = (mesh.geom c.lev).problo 2 + ((c.k : ℝ) + 0.5) * (mesh.geom c.lev).dx 2)
    (hlo : (mesh.geom c.lev).problo 0 ≤ x) (_hhi : x ≤ (mesh.geom c.lev).probhi 0)
    (hk : k = 2 * Real.pi / wdata.wave_length)
    (homega : omega = Real.sqrt (k * wdata.g * Real.tanh (k * wdata.water_depth))) :
    (UpdateTargetFieldsOp.run Libm.real wdata mesh time repo).ow_levelset c =
        wdata.wave_height / 2 *
            Real.cos (k * (x - wdata.current * time) - omega * time - wdata.wave_phase_offset) +
          wdata.zsl - z ∧
      (wdata.current = 0 →
        (UpdateTargetFieldsOp.run Libm.real wdata mesh time repo).ow_levelset c =
          wdata.wave_height / 2 *
              Real.cos (k * x - omega * time - wdata.wave_phase_offset) +
            wdata.zsl - z) := by
  have hval : (UpdateTargetFieldsOp.run Libm.real wdata mesh time repo).ow_levelset c =
      wdata.wave_height / 2 *
          Real.cos (k * (x - wdata.current * time) - omega * time - wdata.wave_phase_offset) +
        wdata.zsl - z := by
    rw [UpdateTargetFieldsOp.run_ow_levelset_of_swept _ _ _ _ _ _ hc]
    unfold UpdateTargetFieldsOp.eta UpdateTargetFieldsOp.phase
    rw [UpdateTargetFieldsOp.omega_real, UpdateTargetFieldsOp.x_of_le _ _ (hx ▸ hlo)]
    unfold UpdateTargetFieldsOp.wave_number UpdateTargetFieldsOp.z
    simp only [Libm.real]
    rw [homega, hk, hx, hz]
    norm_num
  refine ⟨hval, fun h0 => ?_⟩
  rw [hval, h0]
  simp

/-- C5. `UpdateTargetFieldsOp<LinearWaves>`: in every swept cell where the
interface-proximity test `(eta - z) + sqrt(dx^2 + dz^2) >= 0` passes, the
written `ow_velocity` is
`(omega H/2 cosh(k (z - zsl + d)) / sinh(k d) cos(phase) + current, 0,
omega H/2 sinh(k (z - zsl + d)) / sinh(k d) sin(phase))`, where
`k = 2 pi / wave_length`, `omega` is the non-negative root of
`omega^2 = g k tanh(k d)`, and `phase` and `eta` are taken at the abscissa `x`
the kernel uses; the lateral component is exactly 0. -/
theorem C5_target_velocity (wdata : LinearWavesData ℝ) (mesh : Mesh ℝ) (time : ℝ)
    (repo : FieldRepo ℝ) (c : Cell) (k x z omega phase eta : ℝ)
    (hc : UpdateTargetFieldsOp.swept mesh c)
    (hx : x = UpdateTargetFieldsOp.x (mesh.geom c.lev) c.i)
    (hz : z = (mesh.geom c.lev).problo 2 + ((c.k : ℝ) + 0.5) * (mesh.geom c.lev).dx 2)
    (hk : k = 2 * Real.pi / wdata.wave_length)
    (homega0 : 0 ≤ omega)
    (homega : omega ^ 2 = wdata.g * k * Real.tanh (k * wdata.water_depth))
    (hphase : phase = k * (x - wdata.current * time) - omega * time - wdata.wave_phase_offset)
    (heta : eta = wdata.wave_height / 2 * Real.cos phase + wdata.zsl)
    (htest : (eta - z) +
      Real.sqrt ((mesh.geom c.lev).dx 0 ^ 2 + (mesh.geom c.lev).dx 2 ^ 2) ≥ 0) :
    (UpdateTargetFieldsOp.run Libm.real wdata mesh time repo).ow_velocity c =
        ![omega * wdata.wave_height / 2 * Real.cosh (k * (z - wdata.zsl + wdata.water_depth)) /
              Real.sinh (k * wdata.water_depth) * Real.cos phase + wdata.current,
          0,
          omega * wdata.wave_height / 2 * Real.sinh (k * (z - wdata.zsl + wdata.water_depth)) /
            Real.sinh (k * wdata.water_depth) * Real.sin phase] ∧
      (UpdateTargetFieldsOp.run Libm.real wdata mesh time repo).ow_velocity c 1 = 0 := by
  have hom : UpdateTargetFieldsOp.omega Libm.real wdata = omega := by
    rw [UpdateTargetFieldsOp.omega_real, ← hk,
      show k * wdata.g * Real.tanh (k * wdata.water_depth) = omega ^ 2 by rw [homega]; ring]
    exact Real.sqrt_sq homega0
  have hph : UpdateTargetFieldsOp.phase Libm.real wdata (mesh.geom c.lev) time c.i = phase := by
    unfold UpdateTargetFieldsOp.phase
    rw [hom, ← hx, hphase]
    unfold UpdateTargetFieldsOp.wave_number
    simp only [Libm.real]
    rw [hk]
  have het : UpdateTargetFieldsOp.eta Libm.real wdata (mesh.geom c.lev) time c.i = eta := by
    unfold UpdateTargetFieldsOp.eta
    rw [hph, heta]
    simp only [Libm.real]
    norm_num
  have hzz : UpdateTargetFieldsOp.z (mesh.geom c.lev) c.k = z := by
    unfold UpdateTargetFieldsOp.z
    rw [hz]
  have hcl : UpdateTargetFieldsOp.cell_length_2D Libm.real (mesh.geom c.lev) =
      Real.sqrt ((mesh.geom c.lev).dx 0 ^ 2 + (mesh.geom c.lev).dx 2 ^ 2) := by
    unfold UpdateTargetFieldsOp.cell_length_2D
    simp only [Libm.real, sq]
  have hval : (UpdateTargetFieldsOp.run Libm.real wdata mesh time repo).ow_velocity c =
      ![omega * wdata.wave_height / 2 * Real.cosh (k * (z - wdata.zsl + wdata.water_depth)) /
            Real.sinh (k * wdata.water_depth) * Real.cos phase + wdata.current,
        0,
        omega * wdata.wave_height / 2 * Real.sinh (k * (z - wdata.zsl + wdata.water_depth)) /
          Real.sinh (k * wdata.water_depth) * Real.sin phase] := by
    rw [UpdateTargetFieldsOp.run_ow_velocity_of_swept _ _ _ _ _ _ hc, het, hzz, hcl, if_pos htest]
    unfold UpdateTargetFieldsOp.wave_velocity
    rw [hom, hph, hzz]
    unfold UpdateTargetFieldsOp.wave_number
    simp only [Libm.real]
    rw [hk]
    norm_num
  refine ⟨hval, ?_⟩
  rw [hval]
  rfl

/-- C6. `UpdateTargetFieldsOp<LinearWaves>`: in every swept cell in which the
free surface lies more than one 2-D cell diagonal below the cell centre,
`(eta - z) + sqrt(dx^2 + dz^2) < 0`, all three components of `ow_velocity` are
set to exactly 0: neither the wave velocity nor the current is written. -/
theorem C6_velocity_zeroed {α : Type} [LinearOrderedField α] (L : Libm α)
    (wdata : LinearWavesData α) (mesh : Mesh α) (time : α) (repo : FieldRepo α) (c : Cell)
    (hc : UpdateTargetFieldsOp.swept mesh c)
    (htest : (UpdateTargetFieldsOp.eta L wdata (mesh.geom c.lev) time c.i -
        UpdateTargetFieldsOp.z (mesh.geom c.lev) c.k) +
      L.sqrt ((mesh.geom c.lev).dx 0 ^ 2 + (mesh.geom c.lev).dx 2 ^ 2) < 0) :
    (UpdateTargetFieldsOp.run L wdata mesh time repo).ow_velocity c 0 = 0 ∧
      (UpdateTargetFieldsOp.run L wdata mesh time repo).ow_velocity c 1 = 0 ∧
      (UpdateTargetFieldsOp.run L wdata mesh time repo).ow_velocity c 2 = 0 := by
  have hcl : UpdateTargetFieldsOp.cell_length_2D L (mesh.geom c.lev) =
      L.sqrt ((mesh.geom c.lev).dx 0 ^ 2 + (mesh.geom c.lev).dx 2 ^ 2) := by
    unfold UpdateTargetFieldsOp.cell_length_2D
    simp only [sq]
  rw [UpdateTargetFieldsOp.run_ow_velocity_of_swept _ _ _ _ _ _ hc, hcl,
    if_neg (not_le.2 htest)]
  refine ⟨?_, ?_, ?_⟩ <;> norm_num

/-- Two field repositories with the same four fields are the same. -/
theorem FieldRepo.eq_of_fields {α : Type} (r s : FieldRepo α)
    (h1 : r.levelset = s.levelset) (h2 : r.velocity = s.velocity)
    (h3 : r.ow_levelset = s.ow_levelset) (h4 : r.ow_velocity = s.ow_velocity) : r = s := by
  cases r
  cases s
  simp only at h1 h2 h3 h4
  subst h1 h2 h3 h4
  rfl

/-- C10. `UpdateTargetFieldsOp<LinearWaves>`: the values written to
`ow_levelset` and `ow_velocity` in a swept cell are determined by the cell's
indices `i`, `k`, the geometry of its level, the wave parameters and the time:
two runs with the same parameters and time agree on any two swept cells with
the same indices and geometry, whatever mesh they belong to and whatever the
fields held before.  Hence every swept cell is overwritten in all components,
and running the update a second time changes nothing. -/
theorem C10_update_depends_only_on_cell {α : Type} [LinearOrderedField α] (L : Libm α)
    (wdata : LinearWavesData α) (time : α) :
    (∀ (mesh1 mesh2 : Mesh α) (repo1 repo2 : FieldRepo α) (c1 c2 : Cell),
      UpdateTargetFieldsOp.swept mesh1 c1 → UpdateTargetFieldsOp.swept mesh2 c2 →
      c1.i = c2.i → c1.k = c2.k → mesh1.geom c1.lev = mesh2.geom c2.lev →
      (UpdateTargetFieldsOp.run L wdata mesh1 time repo1).ow_levelset c1 =
          (UpdateTargetFieldsOp.run L wdata mesh2 time repo2).ow_levelset c2 ∧
        (UpdateTargetFieldsOp.run L wdata mesh1 time repo1).ow_velocity c1 =
          (UpdateTargetFieldsOp.run L wdata mesh2 time repo2).ow_velocity c2) ∧
    (∀ (mesh : Mesh α) (repo : FieldRepo α),
      UpdateTargetFieldsOp.run L wdata mesh time
          (UpdateTargetFieldsOp.run L wdata mesh time repo) =
        UpdateTargetFieldsOp.run L wdata mesh time repo) := by
  constructor
  · intro mesh1 mesh2 repo1 repo2 c1 c2 h1 h2 hi hk hg
    rw [UpdateTargetFieldsOp.run_ow_levelset_of_swept _ _ _ _ _ _ h1,
      UpdateTargetFieldsOp.run_ow_levelset_of_swept _ _ _ _ _ _ h2,
      UpdateTargetFieldsOp.run_ow_velocity_of_swept _ _ _ _ _ _ h1,
      UpdateTargetFieldsOp.run_ow_velocity_of_swept _ _ _ _ _ _ h2, hi, hk, hg]
    exact ⟨rfl, rfl⟩
  · intro mesh repo
    apply FieldRepo.eq_of_fields
    · rw [(UpdateTargetFieldsOp.run_live L wdata mesh time _).1]
    · rw [(UpdateTargetFieldsOp.run_live L wdata mesh time _).2]
    · funext c
      rw [UpdateTargetFieldsOp.run_ow_levelset]
      split_ifs with h
      · rw [UpdateTargetFieldsOp.run_ow_levelset, if_pos h]
      · rfl
    · funext c
      rw [UpdateTargetFieldsOp.run_ow_velocity]
      split_ifs with h h1
      · rw [UpdateTargetFieldsOp.run_ow_velocity, if_pos h, if_pos h1]
      · rw [UpdateTargetFieldsOp.run_ow_velocity, if_pos h, if_neg h1]
      · rfl

/-! ## Witnesses for the claims on the update -/

/-- The cell `(i, 0, 0)` of the example mesh is swept for `-3 <= i <= 6`. -/
theorem Example.swept_cell {α : Type} [LinearOrderedField α] (zlo : α) (i : Int)
    (h1 : -3 ≤ i) (h2 : i ≤ 6) :
    UpdateTargetFieldsOp.swept (Example.mesh α zlo) ⟨0, 0, i, 0, 0⟩ := by
  refine ⟨Nat.zero_lt_one, (mem_sweptCells _ _ _ _).2 ⟨rfl, Example.box, rfl, ?_⟩⟩
  simp only [Example.box, Matrix.cons_val_zero, Matrix.cons_val_one, Matrix.head_cons,
    Matrix.cons_val_two, Matrix.tail_cons]
  omega

/-- The level-set written at the first cell of the example mesh at time 3. -/
theorem C4_witness :
    (UpdateTargetFieldsOp.run Libm.real (Example.wdata ℝ) (Example.mesh ℝ 0) 3
        (Example.repo ℝ)).ow_levelset ⟨0, 0, 0, 0, 0⟩ =
      (2 : ℝ) / 2 * Real.cos (2 * Real.pi / 2 * ((0 + (((0 : Int) : ℝ) + 0.5) * 1) - 0 * 3) -
        Real.sqrt (2 * Real.pi / 2 * 1 * Real.tanh (2 * Real.pi / 2 * 1)) * 3 - 0) + 0 -
        (0 + (((0 : Int) : ℝ) + 0.5) * 1) :=
  (C4_target_levelset (Example.wdata ℝ) (Example.mesh ℝ 0) 3 (Example.repo ℝ) ⟨0, 0, 0, 0, 0⟩
    (2 * Real.pi / 2) (0 + (((0 : Int) : ℝ) + 0.5) * 1) (0 + (((0 : Int) : ℝ) + 0.5) * 1)
    (Real.sqrt (2 * Real.pi / 2 * 1 * Real.tanh (2 * Real.pi / 2 * 1)))
    (by norm_num [Example.wdata]) (by norm_num [Example.wdata]) (by norm_num [Example.wdata])
    (Example.swept_cell 0 0 (by decide) (by decide))
    (by simp [Example.mesh, Example.geom]) (by simp [Example.mesh, Example.geom])
    (by norm_num [Example.mesh, Example.geom]) (by norm_num [Example.mesh, Example.geom])
    rfl rfl).1

/-- The hyperbolic tangent is non-negative on the non-negative reals. -/
theorem tanh_nonneg_of_nonneg (x : ℝ) (h : 0 ≤ x) : 0 ≤ Real.tanh x := by
  rw [Real.tanh_eq_sinh_div_cosh]
  exact div_nonneg (Real.sinh_nonneg_iff.2 h) (Real.cosh_pos x).le

/-- Two cells below the still-water level the proximity test passes, and the
lateral velocity written there is 0. -/
theorem C5_witness :
    (UpdateTargetFieldsOp.run Libm.real (Example.wdata ℝ) (Example.mesh ℝ (-2)) 3
        (Example.repo ℝ)).ow_velocity ⟨0, 0, 0, 0, 0⟩ 1 = 0 :=
  (C5_target_velocity (Example.wdata ℝ) (Example.mesh ℝ (-2)) 3 (Example.repo ℝ)
    ⟨0, 0, 0, 0, 0⟩ (2 * Real.pi / 2)
    (UpdateTargetFieldsOp.x ((Example.mesh ℝ (-2)).geom 0) 0)
    (-2 + (((0 : Int) : ℝ) + 0.5) * 1)
    (Real.sqrt (1 * (2 * Real.pi / 2) * Real.tanh (2 * Real.pi / 2 * 1)))
    (2 * Real.pi / 2 * (UpdateTargetFieldsOp.x ((Example.mesh ℝ (-2)).geom 0) 0 - 0 * 3) -
      Real.sqrt (1 * (2 * Real.pi / 2) * Real.tanh (2 * Real.pi / 2 * 1)) * 3 - 0)
    (2 / 2 * Real.cos
      (2 * Real.pi / 2 * (UpdateTargetFieldsOp.x ((Example.mesh ℝ (-2)).geom 0) 0 - 0 * 3) -
        Real.sqrt (1 * (2 * Real.pi / 2) * Real.tanh (2 * Real.pi / 2 * 1)) * 3 - 0) + 0)
    (Example.swept_cell (-2) 0 (by decide) (by decide))
    rfl (by simp [Example.mesh, Example.geom]) rfl (Real.sqrt_nonneg _)
    (by
      have hpi : 0 ≤ 2 * Real.pi / 2 := by positivity
      have ht := tanh_nonneg_of_nonneg (2 * Real.pi / 2 * 1) (by positivity)
      simp only [Example.wdata]
      exact Real.sq_sqrt (by positivity))
    rfl rfl
    (by
      have h1 := Real.neg_one_le_cos
        (2 * Real.pi / 2 * (UpdateTargetFieldsOp.x ((Example.mesh ℝ (-2)).geom 0) 0 - 0 * 3) -
          Real.sqrt (1 * (2 * Real.pi / 2) * Real.tanh (2 * Real.pi / 2 * 1)) * 3 - 0)
      have h2 := Real.sqrt_nonneg
        (((Example.mesh ℝ (-2)).geom 0).dx 0 ^ 2 + ((Example.mesh ℝ (-2)).geom 0).dx 2 ^ 2)
      have h3 : (-2 + (((0 : Int) : ℝ) + 0.5) * 1) = -1.5 := by norm_num
      rw [h3]
      show _ ≥ (0 : ℝ)
      linarith)).2

/-- Ten cells above the still-water level the proximity test fails, and the
velocity written there is zero in every component. -/
theorem C6_witness :
    (UpdateTargetFieldsOp.run Libm.real (Example.wdata ℝ) (Example.mesh ℝ 10) 3
        (Example.repo ℝ)).ow_velocity ⟨0, 0, 0, 0, 0⟩ 0 = 0 ∧
      (UpdateTargetFieldsOp.run Libm.real (Example.wdata ℝ) (Example.mesh ℝ 10) 3
        (Example.repo ℝ)).ow_velocity ⟨0, 0, 0, 0, 0⟩ 1 = 0 ∧
      (UpdateTargetFieldsOp.run Libm.real (Example.wdata ℝ) (Example.mesh ℝ 10) 3
        (Example.repo ℝ)).ow_velocity ⟨0, 0, 0, 0, 0⟩ 2 = 0 :=
  C6_velocity_zeroed Libm.real (Example.wdata ℝ) (Example.mesh ℝ 10) 3 (Example.repo ℝ)
    ⟨0, 0, 0, 0, 0⟩ (Example.swept_cell 10 0 (by decide) (by decide))
    (by
      have h1 := Real.cos_le_one
        (UpdateTargetFieldsOp.phase Libm.real (Example.wdata ℝ) ((Example.mesh ℝ 10).geom 0) 3 0)
      have h2 : Real.sqrt ((1 : ℝ) ^ 2 + 1 ^ 2) ≤ 2 :=
        Real.sqrt_le_iff.2 ⟨by norm_num, by norm_num⟩
      simp only [UpdateTargetFieldsOp.eta, UpdateTargetFieldsOp.z, Libm.real, Example.wdata,
        Example.mesh, Example.geom, Matrix.cons_val_zero, Matrix.cons_val_two,
        Matrix.tail_cons, Matrix.head_cons] at h1 ⊢
      norm_num at h1 h2 ⊢
      linarith)

/-- The first cell of the example mesh receives the same target values from
two different starting contents. -/
theorem C10_witness :
    (UpdateTargetFieldsOp.run Libm.real (Example.wdata ℝ) (Example.mesh ℝ 0) 3
        (Example.repo ℝ)).ow_levelset ⟨0, 0, 0, 0, 0⟩ =
      (UpdateTargetFieldsOp.run Libm.real (Example.wdata ℝ) (Example.mesh ℝ 0) 3
        (UpdateTargetFieldsOp.run Libm.real (Example.wdata ℝ) (Example.mesh ℝ 0) 5
          (Example.repo ℝ))).ow_levelset ⟨0, 0, 0, 0, 0⟩ :=
  ((C10_update_depends_only_on_cell Libm.real (Example.wdata ℝ) 3).1 (Example.mesh ℝ 0)
    (Example.mesh ℝ 0) (Example.repo ℝ)
    (UpdateTargetFieldsOp.run Libm.real (Example.wdata ℝ) (Example.mesh ℝ 0) 5 (Example.repo ℝ))
    ⟨0, 0, 0, 0, 0⟩ ⟨0, 0, 0, 0, 0⟩ (Example.swept_cell 0 0 (by decide) (by decide))
    (Example.swept_cell 0 0 (by decide) (by decide)) rfl rfl rfl).1

/-! ## The initialisation of the fields -/

namespace InitDataOp

variable {α : Type} [LinearOrderedField α]

/-- The velocity after the initialisation kernel has run at cell `c`. -/
theorem kernel_velocity (L : Libm α) (H : Harmonize α) (wdata : LinearWavesData α)
    (geom : Geometry α) (multiphase_mode : Bool) (c : Cell) (repo : FieldRepo α) (c1 : Cell) :
    (kernel L H wdata geom multiphase_mode c repo).velocity c1 =
      if c1 = c ∧ phi L H wdata geom multiphase_mode c.i c.k + cell_length_2D L geom ≥ 0 then
        ![wdata.current + local_profile L H wdata geom multiphase_mode c.i c.k 0,
          local_profile L H wdata geom multiphase_mode c.i c.k 1,
          local_profile L H wdata geom multiphase_mode c.i c.k 2]
      else repo.velocity c1 := by
  unfold kernel
  dsimp only
  by_cases h : c1 = c
  · subst h
    split_ifs with h1 h2 h3 h4 h5 h6
    all_goals first
      | (exfalso; simp only [true_and, not_le, ge_iff_le] at *; linarith)
      | simp
  · split_ifs <;> simp_all [Function.update_noteq h]

/-- The level-set after the initialisation kernel has run at cell `c`. -/
theorem kernel_levelset (L : Libm α) (H : Harmonize α) (wdata : LinearWavesData α)
    (geom : Geometry α) (multiphase_mode : Bool) (c : Cell) (repo : FieldRepo α) (c1 : Cell) :
    (kernel L H wdata geom multiphase_mode c repo).levelset c1 =
      if c1 = c ∧ multiphase_mode = true then phi L H wdata geom multiphase_mode c.i c.k
      else repo.levelset c1 := by
  unfold kernel
  dsimp only
  by_cases h : c1 = c
  · subst h
    split_ifs <;> simp_all
  · split_ifs <;> simp_all [Function.update_noteq h]

/-- The initialisation kernel does not touch the target fields. -/
theorem kernel_target (L : Libm α) (H : Harmonize α) (wdata : LinearWavesData α)
    (geom : Geometry α) (multiphase_mode : Bool) (c : Cell) (repo : FieldRepo α) :
    (kernel L H wdata geom multiphase_mode c repo).ow_levelset = repo.ow_levelset ∧
      (kernel L H wdata geom multiphase_mode c repo).ow_velocity = repo.ow_velocity := by
  unfold kernel
  dsimp only
  split_ifs <;> exact ⟨rfl, rfl⟩

/-- The velocity after the initialisation: overwritten in the swept cells that
pass the proximity test, the previous content elsewhere. -/
theorem run_velocity (L : Libm α) (H : Harmonize α) (wdata : LinearWavesData α)
    (boxes : List Box) (level : Nat) (geom : Geometry α) (multiphase_mode : Bool)
    (repo : FieldRepo α) (c : Cell) :
    (run L H wdata boxes level geom multiphase_mode repo).velocity c =
      if c ∈ sweptCells level boxes 3 ∧
          phi L H wdata geom multiphase_mode c.i c.k + cell_length_2D L geom ≥ 0 then
        ![wdata.current + local_profile L H wdata geom multiphase_mode c.i c.k 0,
          local_profile L H wdata geom multiphase_mode c.i c.k 1,
          local_profile L H wdata geom multiphase_mode c.i c.k 2]
      else repo.velocity c :=
  ParallelFor_get (fun s : FieldRepo α => s.velocity) (kernel L H wdata geom multiphase_mode)
    (fun c => phi L H wdata geom multiphase_mode c.i c.k + cell_length_2D L geom ≥ 0)
    (fun c => ![wdata.current + local_profile L H wdata geom multiphase_mode c.i c.k 0,
      local_profile L H wdata geom multiphase_mode c.i c.k 1,
      local_profile L H wdata geom multiphase_mode c.i c.k 2])
    (kernel_velocity L H wdata geom multiphase_mode) (sweptCells level boxes 3) repo c

/-- The level-set after the initialisation: overwritten in every swept cell in
multiphase mode, the previous content otherwise. -/
theorem run_levelset (L : Libm α) (H : Harmonize α) (wdata : LinearWavesData α)
    (boxes : List Box) (level : Nat) (geom : Geometry α) (multiphase_mode : Bool)
    (repo : FieldRepo α) (c : Cell) :
    (run L H wdata boxes level geom multiphase_mode repo).levelset c =
      if c ∈ sweptCells level boxes 3 ∧ multiphase_mode = true then
        phi L H wdata geom multiphase_mode c.i c.k
      else repo.levelset c :=
  ParallelFor_get (fun s : FieldRepo α => s.levelset) (kernel L H wdata geom multiphase_mode)
    (fun _ => multiphase_mode = true)
    (fun c => phi L H wdata geom multiphase_mode c.i c.k)
    (kernel_levelset L H wdata geom multiphase_mode) (sweptCells level boxes 3) repo c

end InitDataOp

/-- C7. `InitDataOp<LinearWaves>`: with `phi = blended_eta - z`, the velocity of
a swept cell is overwritten with `(current + blended u, blended v, blended w)`
when `phi + sqrt(dx^2 + dz^2) >= 0`, and every other velocity value is left
exactly as it was; in multiphase mode the level-set is set to `phi` in every
swept cell (and left alone elsewhere), and outside multiphase mode the
level-set field is not written at all. -/
theorem C7_init_writes {α : Type} [LinearOrderedField α] (L : Libm α) (H : Harmonize α)
    (wdata : LinearWavesData α) (boxes : List Box) (level : Nat) (geom : Geometry α)
    (multiphase_mode : Bool) (repo : FieldRepo α) (c : Cell) (blended : WaveVec α) (phi : α)
    (hblend : blended = InitDataOp.local_profile L H wdata geom multiphase_mode c.i c.k)
    (hphi : phi = blended 3 - (geom.problo 2 + ((c.k : α) + 0.5) * geom.dx 2)) :
    ((c ∈ sweptCells level boxes 3 ∧ phi + L.sqrt (geom.dx 0 ^ 2 + geom.dx 2 ^ 2) ≥ 0) →
      (InitDataOp.run L H wdata boxes level geom multiphase_mode repo).velocity c =
        ![wdata.current + blended 0, blended 1, blended 2]) ∧
    (¬ (c ∈ sweptCells level boxes 3 ∧ phi + L.sqrt (geom.dx 0 ^ 2 + geom.dx 2 ^ 2) ≥ 0) →
      (InitDataOp.run L H wdata boxes level geom multiphase_mode repo).velocity c =
        repo.velocity c) ∧
    (multiphase_mode = true → c ∈ sweptCells level boxes 3 →
      (InitDataOp.run L H wdata boxes level geom multiphase_mode repo).levelset c = phi) ∧
    (c ∉ sweptCells level boxes 3 →
      (InitDataOp.run L H wdata boxes level geom multiphase_mode repo).levelset c =
        repo.levelset c) ∧
    (multiphase_mode = false →
      (InitDataOp.run L H wdata boxes level geom multiphase_mode repo).levelset =
        repo.levelset) := by
  have hphi1 : InitDataOp.phi L H wdata geom multiphase_mode c.i c.k = phi := by
    unfold InitDataOp.phi InitDataOp.z
    rw [hphi, hblend]
  have hcl : InitDataOp.cell_length_2D L geom = L.sqrt (geom.dx 0 ^ 2 + geom.dx 2 ^ 2) := by
    unfold InitDataOp.cell_length_2D
    simp only [sq]
  refine ⟨fun h => ?_, fun h => ?_, fun hm hc => ?_, fun hc => ?_, fun hm => ?_⟩
  · rw [InitDataOp.run_velocity, hphi1, hcl, if_pos h, hblend]
  · rw [InitDataOp.run_velocity, hphi1, hcl, if_neg h]
  · rw [InitDataOp.run_levelset, if_pos ⟨hc, hm⟩, hphi1]
  · rw [InitDataOp.run_levelset, if_neg (fun h => hc h.1)]
  · funext c1
    rw [InitDataOp.run_levelset, if_neg (fun h => by rw [hm] at h; exact Bool.noConfusion h.2)]

/-- C8. `InitDataOp<LinearWaves>`: the zone blend is called with the raw wave
solution, with a bulk state that is the wave solution when `init_wave_field`
is set or the mode is not multiphase and the quiescent state `(0, 0, 0, zsl)`
otherwise, and with an outlet state that is the quiescent state when
`has_beach` is set in multiphase mode and the wave solution otherwise; outside
multiphase mode all three candidates are the wave solution. -/
theorem C8_blend_candidates {α : Type} [LinearOrderedField α] (L : Libm α) (H : Harmonize α)
    (wdata : LinearWavesData α) (geom : Geometry α) (multiphase_mode : Bool) (i k : Int) :
    InitDataOp.local_profile L H wdata geom multiphase_mode i k =
        H (geom.problo 0 + ((i : α) + 0.5) * geom.dx 0) (geom.problo 0) wdata.gen_length
          (geom.probhi 0) wdata.beach_length
          (InitDataOp.wave_sol L wdata geom i k)
          (if wdata.init_wave_field = true ∨ multiphase_mode = false then
            InitDataOp.wave_sol L wdata geom i k
          else ![0, 0, 0, wdata.zsl])
          (if wdata.has_beach = true ∧ multiphase_mode = true then ![0, 0, 0, wdata.zsl]
          else InitDataOp.wave_sol L wdata geom i k) ∧
      InitDataOp.local_profile L H wdata geom false i k =
        H (geom.problo 0 + ((i : α) + 0.5) * geom.dx 0) (geom.problo 0) wdata.gen_length
          (geom.probhi 0) wdata.beach_length
          (InitDataOp.wave_sol L wdata geom i k) (InitDataOp.wave_sol L wdata geom i k)
          (InitDataOp.wave_sol L wdata geom i k) := by
  have hq : InitDataOp.quiescent wdata = ![0, 0, 0, wdata.zsl] := by
    unfold InitDataOp.quiescent
    norm_num
  constructor
  · unfold InitDataOp.local_profile InitDataOp.bulk InitDataOp.outlet InitDataOp.x
      InitDataOp.init_wave_field InitDataOp.has_beach
    rw [hq]
    cases wdata.init_wave_field <;> cases wdata.has_beach <;> cases multiphase_mode <;> simp
  · unfold InitDataOp.local_profile InitDataOp.bulk InitDataOp.outlet InitDataOp.x
      InitDataOp.init_wave_field InitDataOp.has_beach
    simp

/-- C9, as the code has it.  For every cell whose centre is not to the left of
the lower bound of the domain, `problo_x <= problo_x + (i + 0.5) dx`, the raw
analytic wave state of `InitDataOp<LinearWaves>`, `(current + u_w, v_w, w_w,
eta_w)`, equals the state `UpdateTargetFieldsOp<LinearWaves>` computes at that
cell for time 0 (velocity before the proximity test, and `eta`). -/
theorem C9_init_update_consistent_inside {α : Type} [LinearOrderedField α] (L : Libm α)
    (wdata : LinearWavesData α) (geom : Geometry α) (i k : Int)
    (hlo : geom.problo 0 ≤ geom.problo 0 + ((i : α) + 0.5) * geom.dx 0) :
    InitDataOp.raw_state L wdata geom i k = UpdateTargetFieldsOp.raw_state L wdata geom 0 i k := by
  have hphase : UpdateTargetFieldsOp.phase L wdata geom 0 i = InitDataOp.phase L wdata geom i := by
    unfold UpdateTargetFieldsOp.phase InitDataOp.phase
    rw [UpdateTargetFieldsOp.x_of_le geom i hlo]
    unfold UpdateTargetFieldsOp.wave_number InitDataOp.wave_number InitDataOp.x
    simp
  unfold InitDataOp.raw_state UpdateTargetFieldsOp.raw_state InitDataOp.wave_sol
    UpdateTargetFieldsOp.wave_velocity UpdateTargetFieldsOp.eta InitDataOp.eta_w
    InitDataOp.u_w InitDataOp.w_w InitDataOp.v_w
  rw [hphase]
  unfold UpdateTargetFieldsOp.omega InitDataOp.omega UpdateTargetFieldsOp.wave_number
    InitDataOp.wave_number UpdateTargetFieldsOp.z InitDataOp.z
  simp [add_comm]

/-- C9 fails in the ghost cells to the left of the domain.  In the example
(wave length 2, height 2, unit cells, lower bound 0) the ghost cell `i = -1`
is swept by both kernels; the initialisation evaluates the wave at its centre
`x = -1/2`, where the elevation is 0, while the update clamps `x` to the lower
bound 0, where the elevation is 1. -/
theorem C9_counterexample :
    (⟨0, 0, -1, 0, 0⟩ : Cell) ∈ sweptCells 0 [Example.box] 3 ∧
      UpdateTargetFieldsOp.swept (Example.mesh ℝ 0) ⟨0, 0, -1, 0, 0⟩ ∧
      InitDataOp.raw_state Libm.real (Example.wdata ℝ) (Example.geom ℝ 0) (-1) 0 3 = 0 ∧
      UpdateTargetFieldsOp.raw_state Libm.real (Example.wdata ℝ) (Example.geom ℝ 0) 0 (-1) 0 3 = 1 ∧
      InitDataOp.raw_state Libm.real (Example.wdata ℝ) (Example.geom ℝ 0) (-1) 0 ≠
        UpdateTargetFieldsOp.raw_state Libm.real (Example.wdata ℝ) (Example.geom ℝ 0) 0 (-1) 0 := by
  have hinit : InitDataOp.raw_state Libm.real (Example.wdata ℝ) (Example.geom ℝ 0) (-1) 0 3 =
      0 := by
    have hph : InitDataOp.phase Libm.real (Example.wdata ℝ) (Example.geom ℝ 0) (-1) =
        -(Real.pi / 2) := by
      simp only [InitDataOp.phase, InitDataOp.wave_number, InitDataOp.x, Libm.real,
        Example.wdata, Example.geom, Matrix.cons_val_zero]
      push_cast
      ring
    have hval : InitDataOp.raw_state Libm.real (Example.wdata ℝ) (Example.geom ℝ 0) (-1) 0 3 =
        InitDataOp.eta_w Libm.real (Example.wdata ℝ) (Example.geom ℝ 0) (-1) := rfl
    rw [hval]
    unfold InitDataOp.eta_w
    rw [hph]
    simp [Libm.real, Example.wdata, Real.cos_neg, Real.cos_pi_div_two]
  have hupd : UpdateTargetFieldsOp.raw_state Libm.real (Example.wdata ℝ) (Example.geom ℝ 0) 0
      (-1) 0 3 = 1 := by
    have hx : UpdateTargetFieldsOp.x (Example.geom ℝ 0) (-1) = 0 := by
      simp only [UpdateTargetFieldsOp.x, amrex_max, Example.geom, Matrix.cons_val_zero]
      norm_num
    have hph : UpdateTargetFieldsOp.phase Libm.real (Example.wdata ℝ) (Example.geom ℝ 0) 0
        (-1) = 0 := by
      simp only [UpdateTargetFieldsOp.phase, hx, Example.wdata]
      ring
    have hval : UpdateTargetFieldsOp.raw_state Libm.real (Example.wdata ℝ) (Example.geom ℝ 0) 0
        (-1) 0 3 =
        UpdateTargetFieldsOp.eta Libm.real (Example.wdata ℝ) (Example.geom ℝ 0) 0 (-1) := rfl
    rw [hval]
    unfold UpdateTargetFieldsOp.eta
    rw [hph]
    norm_num [Libm.real, Example.wdata]
  refine ⟨(Example.swept_cell (0 : ℝ) (-1) (by decide) (by decide)).2,
    Example.swept_cell (0 : ℝ) (-1) (by decide) (by decide), hinit, hupd, fun h => ?_⟩
  have h3 := congrFun h 3
  rw [hinit, hupd] at h3
  exact zero_ne_one h3

/-- The first interior cell of the example: its centre `x = 1/2` is inside the
domain, and the two kernels compute the same state there. -/
theorem C9_witness :
    InitDataOp.raw_state Libm.real (Example.wdata ℝ) (Example.geom ℝ 0) 0 0 =
      UpdateTargetFieldsOp.raw_state Libm.real (Example.wdata ℝ) (Example.geom ℝ 0) 0 0 0 :=
  C9_init_update_consistent_inside Libm.real (Example.wdata ℝ) (Example.geom ℝ 0) 0 0
    (by norm_num [Example.geom])

/-- In the example, two cells below the still-water level and with the identity
of the bulk state as blend, the velocity of the first cell is overwritten. -/
theorem C7_witness :
    (InitDataOp.run Libm.real (fun _ _ _ _ _ _ b _ => b) (Example.wdata ℝ) [Example.box] 0
        (Example.geom ℝ (-2)) true (Example.repo ℝ)).velocity ⟨0, 0, 0, 0, 0⟩ =
      ![0 + 0, 0, 0] :=
  (C7_init_writes Libm.real (fun _ _ _ _ _ _ b _ => b) (Example.wdata ℝ) [Example.box] 0
    (Example.geom ℝ (-2)) true (Example.repo ℝ) ⟨0, 0, 0, 0, 0⟩ ![0, 0, 0, 0]
    (0 - (-2 + (((0 : Int) : ℝ) + 0.5) * 1))
    (by
      norm_num [InitDataOp.local_profile, InitDataOp.bulk, InitDataOp.init_wave_field,
        InitDataOp.quiescent, Example.wdata])
    (by simp [Example.geom])).1
    ⟨(Example.swept_cell (0 : ℝ) 0 (by decide) (by decide)).2, by
      have h := Real.sqrt_nonneg (((Example.geom ℝ (-2)).dx 0) ^ 2 + ((Example.geom ℝ (-2)).dx 2) ^ 2)
      have h3 : (0 - (-2 + (((0 : Int) : ℝ) + 0.5) * 1)) = 1.5 := by norm_num
      rw [h3]
      show _ ≥ (0 : ℝ)
      simp only [Libm.real]
      linarith⟩

/-! ## The step events -/

section StepEvents

variable {M α : Type} [LinearOrderedField α]

/-- The calls of a sequence of events followed by further events. -/
theorem OceanWaves.calls_of_events_append (ow : OceanWaves M)
    (es fs : List (StepEvent × SimTime α)) :
    ow.calls_of_events (es ++ fs) = ow.calls_of_events es ++ ow.calls_of_events fs := by
  unfold OceanWaves.calls_of_events
  exact List.flatMap_append es fs _

/-- The calls of a sequence of events that starts with the event `e`. -/
theorem OceanWaves.calls_of_events_cons (ow : OceanWaves M) (e : StepEvent × SimTime α)
    (es : List (StepEvent × SimTime α)) :
    ow.calls_of_events (e :: es) = ow.calls_of e.1 e.2 ++ ow.calls_of_events es := by
  unfold OceanWaves.calls_of_events
  exact List.flatMap_cons e es _

/-- C11. The step events of `OceanWaves`: `pre_advance_work` updates the target
fields at the half-step time `0.5 (current_time + new_time)` and
`pre_predictor_work` at `new_time`, each calling
`update_target_volume_fraction` immediately after `update_target_fields` (and
then recording the time); `post_advance_work` makes no target-field update and
no volume-fraction update at all. -/
theorem C11_step_event_update_times (ow : OceanWaves M) (time : SimTime α) :
    ow.pre_advance_work time =
        [StepCall.update_target_fields (0.5 * (time.current_time + time.new_time)),
          StepCall.update_target_volume_fraction,
          StepCall.record_boundary_data_time (0.5 * (time.current_time + time.new_time))] ∧
      ow.pre_predictor_work time =
        [StepCall.update_target_fields time.new_time,
          StepCall.update_target_volume_fraction,
          StepCall.record_boundary_data_time time.new_time] ∧
      (∀ t : α, StepCall.update_target_fields t ∉ ow.post_advance_work time) ∧
      StepCall.update_target_volume_fraction ∉ ow.post_advance_work time := by
  refine ⟨rfl, rfl, fun t => ?_, ?_⟩
  · unfold OceanWaves.post_advance_work
    cases ow.m_multiphase_mode <;> simp
  · unfold OceanWaves.post_advance_work
    cases ow.m_multiphase_mode <;> simp

/-- After the calls of one step event, the recorded boundary-data time and the
time of the last target-field update agree if they agreed before. -/
theorem OceanWaves.ledger_step (ow : OceanWaves M) (e : StepEvent) (time : SimTime α)
    (r u : Option α) (h : r = u) :
    (ow.calls_of e time).foldl (fun acc c =>
        match c with
        | .record_boundary_data_time t => some t
        | _ => acc) r =
      (ow.calls_of e time).foldl (fun acc c =>
        match c with
        | .update_target_fields t => some t
        | _ => acc) u := by
  subst h
  cases e <;>
    simp only [OceanWaves.calls_of, OceanWaves.post_init_actions,
      OceanWaves.post_regrid_actions, OceanWaves.pre_advance_work,
      OceanWaves.pre_predictor_work, OceanWaves.post_advance_work] <;>
    cases ow.m_multiphase_mode <;> rfl

/-- The recorded boundary-data time after a sequence of calls followed by the
calls of one more event. -/
theorem StepCall.recorded_boundary_time_append {β : Type} (a b : List (StepCall β)) :
    StepCall.recorded_boundary_time (a ++ b) =
      b.foldl (fun acc c =>
        match c with
        | .record_boundary_data_time t => some t
        | _ => acc) (StepCall.recorded_boundary_time a) := by
  unfold StepCall.recorded_boundary_time
  rw [List.foldl_append]

/-- The time of the last update after a sequence of calls followed by the
calls of one more event. -/
theorem StepCall.last_update_time_append {β : Type} (a b : List (StepCall β)) :
    StepCall.last_update_time (a ++ b) =
      b.foldl (fun acc c =>
        match c with
        | .update_target_fields t => some t
        | _ => acc) (StepCall.last_update_time a) := by
  unfold StepCall.last_update_time
  rw [List.foldl_append]

/-- C12. The ledger of the boundary-data time.  In each of `post_init_actions`,
`pre_advance_work` and `pre_predictor_work` the calls that carry a time are
exactly one `update_target_fields` followed by one `record_boundary_data_time`
with the same time.  So after any sequence of step events the recorded
boundary-data time is the time of the most recent target-field update, and
`post_advance_work` and `post_regrid_actions` never change it. -/
theorem C12_boundary_time_ledger (ow : OceanWaves M) :
    (∀ time : SimTime α,
      StepCall.timed (ow.post_init_actions time) =
          [StepCall.update_target_fields time.current_time,
            StepCall.record_boundary_data_time time.current_time] ∧
        StepCall.timed (ow.pre_advance_work time) =
          [StepCall.update_target_fields (0.5 * (time.current_time + time.new_time)),
            StepCall.record_boundary_data_time (0.5 * (time.current_time + time.new_time))] ∧
        StepCall.timed (ow.pre_predictor_work time) =
          [StepCall.update_target_fields time.new_time,
            StepCall.record_boundary_data_time time.new_time]) ∧
    (∀ es : List (StepEvent × SimTime α),
      StepCall.recorded_boundary_time (ow.calls_of_events es) =
        StepCall.last_update_time (ow.calls_of_events es)) ∧
    (∀ (es : List (StepEvent × SimTime α)) (time : SimTime α),
      StepCall.recorded_boundary_time
          (ow.calls_of_events (es ++ [(StepEvent.post_advance_work, time)])) =
        StepCall.recorded_boundary_time (ow.calls_of_events es) ∧
      StepCall.recorded_boundary_time
          (ow.calls_of_events (es ++ [(StepEvent.post_regrid_actions, time)])) =
        StepCall.recorded_boundary_time (ow.calls_of_events es)) := by
  refine ⟨fun time => ⟨?_, rfl, rfl⟩, fun es => ?_, fun es time => ⟨?_, ?_⟩⟩
  · unfold OceanWaves.post_init_actions StepCall.timed
    cases ow.m_multiphase_mode <;> rfl
  · induction es using List.reverseRecOn with
    | nil => rfl
    | append_singleton es e ih =>
      rw [OceanWaves.calls_of_events_append, StepCall.recorded_boundary_time_append,
        StepCall.last_update_time_append, OceanWaves.calls_of_events_cons]
      have hnil : ow.calls_of_events ([] : List (StepEvent × SimTime α)) = [] := rfl
      rw [hnil, List.append_nil]
      exact OceanWaves.ledger_step ow e.1 e.2 _ _ ih
  · rw [OceanWaves.calls_of_events_append, StepCall.recorded_boundary_time_append,
      OceanWaves.calls_of_events_cons]
    simp only [OceanWaves.calls_of, OceanWaves.post_advance_work]
    cases ow.m_multiphase_mode <;> rfl
  · rw [OceanWaves.calls_of_events_append, StepCall.recorded_boundary_time_append,
      OceanWaves.calls_of_events_cons]
    rfl

/-- C13. Relaxation forcing is applied only in multiphase mode: on an
`OceanWaves` constructed with the registered physics `physics`,
`post_init_actions` and `post_advance_work` call `apply_relax_zones` if and only
if `MultiPhase` was registered, and `pre_advance_work`, `pre_predictor_work`
and `post_regrid_actions` never call it. -/
theorem C13_relaxation_only_multiphase (M : Type) (physics : List String)
    (time : SimTime α) :
    (StepCall.apply_relax_zones ∈ (OceanWaves.construct M physics).post_init_actions time ↔
        physics.contains "MultiPhase" = true) ∧
      (StepCall.apply_relax_zones ∈ (OceanWaves.construct M physics).post_advance_work time ↔
        physics.contains "MultiPhase" = true) ∧
      StepCall.apply_relax_zones ∉ (OceanWaves.construct M physics).pre_advance_work time ∧
      StepCall.apply_relax_zones ∉ (OceanWaves.construct M physics).pre_predictor_work time ∧
      StepCall.apply_relax_zones ∉ (OceanWaves.construct M physics).post_regrid_actions time := by
  have hmode : (OceanWaves.construct M physics).m_multiphase_mode =
      physics.contains "MultiPhase" := by
    unfold OceanWaves.construct m_multiphase_mode_default
    cases physics.contains "MultiPhase" <;> rfl
  refine ⟨?_, ?_, ?_, ?_, ?_⟩
  · unfold OceanWaves.post_init_actions
    rw [hmode]
    cases physics.contains "MultiPhase" <;> simp
  · unfold OceanWaves.post_advance_work
    rw [hmode]
    cases physics.contains "MultiPhase" <;> simp
  · simp [OceanWaves.pre_advance_work]
  · simp [OceanWaves.pre_predictor_work]
  · simp [OceanWaves.post_regrid_actions]

/-- The regrid flag after a sequence of calls followed by further calls. -/
theorem StepCall.regrid_flag_append {β : Type} (flag : Bool) (a b : List (StepCall β)) :
    StepCall.regrid_flag flag (a ++ b) =
      StepCall.regrid_flag (StepCall.regrid_flag flag a) b := by
  unfold StepCall.regrid_flag
  rw [List.foldl_append]

/-- The flags seen by the relaxation calls of a sequence of calls followed by
further calls. -/
theorem StepCall.relax_views_append {β : Type} (flag : Bool) (a b : List (StepCall β)) :
    StepCall.relax_views flag (a ++ b) =
      StepCall.relax_views flag a ++
        StepCall.relax_views (StepCall.regrid_flag flag a) b := by
  induction a generalizing flag with
  | nil => rfl
  | cons c cs ih =>
    cases c <;>
      simp [StepCall.relax_views, StepCall.regrid_flag, StepCall.regrid_flag_step, ih]

/-- What one step event does to the regrid flag and what its relaxation call,
if any, finds. -/
theorem OceanWaves.regrid_step (ow : OceanWaves M) (e : StepEvent) (time : SimTime α)
    (flag : Bool) :
    StepCall.regrid_flag flag (ow.calls_of e time) =
        (match e with
          | .post_regrid_actions => true
          | .pre_advance_work => flag
          | .pre_predictor_work => flag
          | .post_init_actions => false
          | .post_advance_work => false) ∧
      StepCall.relax_views flag (ow.calls_of e time) =
        (match e with
          | .post_regrid_actions => []
          | .pre_advance_work => []
          | .pre_predictor_work => []
          | .post_init_actions => if ow.m_multiphase_mode then [flag] else []
          | .post_advance_work => if ow.m_multiphase_mode then [flag] else []) := by
  cases e <;>
    simp only [OceanWaves.calls_of, OceanWaves.post_init_actions,
      OceanWaves.post_regrid_actions, OceanWaves.pre_advance_work,
      OceanWaves.pre_predictor_work, OceanWaves.post_advance_work] <;>
    cases ow.m_multiphase_mode <;> exact ⟨rfl, rfl⟩

/-- Events that neither relax nor reset keep a raised regrid flag raised and
make no relaxation call. -/
theorem OceanWaves.regrid_quiet (ow : OceanWaves M) (quiet : List (StepEvent × SimTime α))
    (hq : ∀ q ∈ quiet, q.1 = StepEvent.pre_advance_work ∨ q.1 = StepEvent.pre_predictor_work ∨
      q.1 = StepEvent.post_regrid_actions) :
    StepCall.regrid_flag true (ow.calls_of_events quiet) = true ∧
      StepCall.relax_views true (ow.calls_of_events quiet) = [] := by
  induction quiet with
  | nil => exact ⟨rfl, rfl⟩
  | cons q qs ih =>
    have hqs := ih (fun r hr => hq r (List.mem_cons_of_mem _ hr))
    have hstep := OceanWaves.regrid_step ow q.1 q.2 true
    rw [OceanWaves.calls_of_events_cons, StepCall.regrid_flag_append,
      StepCall.relax_views_append]
    rcases hq q (List.mem_cons_self _ _) with h | h | h <;>
      rw [h] at hstep ⊢ <;> simp only at hstep <;> rw [hstep.1, hstep.2, hqs.1, hqs.2] <;>
      exact ⟨rfl, rfl⟩

/-- Without a regrid event a lowered regrid flag stays lowered, and every
relaxation call finds it lowered. -/
theorem OceanWaves.regrid_none (ow : OceanWaves M) (later : List (StepEvent × SimTime α))
    (hl : ∀ q ∈ later, q.1 ≠ StepEvent.post_regrid_actions) :
    StepCall.regrid_flag false (ow.calls_of_events later) = false ∧
      StepCall.relax_views false (ow.calls_of_events later) =
        List.replicate (StepCall.relax_views false (ow.calls_of_events later)).length false := by
  induction later with
  | nil => exact ⟨rfl, rfl⟩
  | cons q qs ih =>
    have hqs := ih (fun r hr => hl r (List.mem_cons_of_mem _ hr))
    have hne := hl q (List.mem_cons_self _ _)
    obtain ⟨e, t⟩ := q
    have hstep := OceanWaves.regrid_step ow e t false
    have hflag : StepCall.regrid_flag false (ow.calls_of e t) = false := by
      rw [hstep.1]
      cases e
      · rfl
      · exact absurd rfl hne
      · rfl
      · rfl
      · rfl
    have hviews : StepCall.relax_views false (ow.calls_of e t) =
        List.replicate (StepCall.relax_views false (ow.calls_of e t)).length false := by
      rw [hstep.2]
      cases e <;> cases ow.m_multiphase_mode <;> rfl
    rw [OceanWaves.calls_of_events_cons, StepCall.regrid_flag_append,
      StepCall.relax_views_append, hflag]
    refine ⟨hqs.1, ?_⟩
    rw [List.length_append, List.replicate_add, ← hviews, ← hqs.2]

/-- C14. The regrid flag is one-shot.  `post_regrid_actions` raises it,
`pre_advance_work` and `pre_predictor_work` leave it as it is, and
`post_init_actions` and `post_advance_work` lower it, after their relaxation
call (if any) has seen the value it had before the event.  Hence, in
multiphase mode, after a regrid followed only by events that do not relax, the
next relaxation application finds the flag raised; and after any relaxation
event, every relaxation application finds it lowered for as long as no
further regrid occurs. -/
theorem C14_regrid_flag_one_shot (ow : OceanWaves M) :
    (∀ (time : SimTime α) (flag : Bool),
      StepCall.regrid_flag flag (ow.post_regrid_actions time) = true ∧
      StepCall.regrid_flag flag (ow.pre_advance_work time) = flag ∧
      StepCall.regrid_flag flag (ow.pre_predictor_work time) = flag ∧
      StepCall.regrid_flag flag (ow.post_init_actions time) = false ∧
      StepCall.regrid_flag flag (ow.post_advance_work time) = false ∧
      StepCall.relax_views flag (ow.post_init_actions time) =
        (if ow.m_multiphase_mode then [flag] else []) ∧
      StepCall.relax_views flag (ow.post_advance_work time) =
        (if ow.m_multiphase_mode then [flag] else [])) ∧
    (∀ (flag : Bool) (es quiet : List (StepEvent × SimTime α)) (e : StepEvent)
        (t0 t : SimTime α),
      ow.m_multiphase_mode = true →
      (∀ q ∈ quiet, q.1 = StepEvent.pre_advance_work ∨ q.1 = StepEvent.pre_predictor_work ∨
        q.1 = StepEvent.post_regrid_actions) →
      (e = StepEvent.post_init_actions ∨ e = StepEvent.post_advance_work) →
      StepCall.relax_views flag
          (ow.calls_of_events (es ++ (StepEvent.post_regrid_actions, t0) :: (quiet ++ [(e, t)]))) =
        StepCall.relax_views flag (ow.calls_of_events es) ++ [true]) ∧
    (∀ (flag : Bool) (es later : List (StepEvent × SimTime α)) (e : StepEvent)
        (t : SimTime α),
      (e = StepEvent.post_init_actions ∨ e = StepEvent.post_advance_work) →
      (∀ q ∈ later, q.1 ≠ StepEvent.post_regrid_actions) →
      StepCall.relax_views flag (ow.calls_of_events (es ++ (e, t) :: later)) =
        StepCall.relax_views flag (ow.calls_of_events (es ++ [(e, t)])) ++
          List.replicate (StepCall.relax_views false (ow.calls_of_events later)).length
            false) := by
  refine ⟨fun time flag => ?_, ?_, ?_⟩
  · have h1 := OceanWaves.regrid_step ow StepEvent.post_regrid_actions time flag
    have h2 := OceanWaves.regrid_step ow StepEvent.pre_advance_work time flag
    have h3 := OceanWaves.regrid_step ow StepEvent.pre_predictor_work time flag
    have h4 := OceanWaves.regrid_step ow StepEvent.post_init_actions time flag
    have h5 := OceanWaves.regrid_step ow StepEvent.post_advance_work time flag
    exact ⟨h1.1, h2.1, h3.1, h4.1, h5.1, h4.2, h5.2⟩
  · intro flag es quiet e t0 t hmp hq he
    have hquiet := OceanWaves.regrid_quiet ow quiet hq
    have hreg := OceanWaves.regrid_step ow StepEvent.post_regrid_actions t0
      (StepCall.regrid_flag flag (ow.calls_of_events es))
    have hlast : StepCall.relax_views true (ow.calls_of e t) = [true] := by
      have h := (OceanWaves.regrid_step ow e t true).2
      rcases he with he | he <;> rw [he] at h ⊢ <;> simp only [hmp, if_true] at h <;> exact h
    rw [OceanWaves.calls_of_events_append, OceanWaves.calls_of_events_cons,
      OceanWaves.calls_of_events_append, OceanWaves.calls_of_events_cons,
      StepCall.relax_views_append, StepCall.relax_views_append, StepCall.relax_views_append]
    have hnil : ow.calls_of_events ([] : List (StepEvent × SimTime α)) = [] := rfl
    simp only [hnil, List.append_nil]
    rw [hreg.1, hreg.2, hquiet.1, hquiet.2, hlast]
    rfl
  · intro flag es later e t he hl
    have hnone := OceanWaves.regrid_none ow later hl
    have hnil : ow.calls_of_events ([] : List (StepEvent × SimTime α)) = [] := rfl
    have hlow : ∀ f : Bool, StepCall.regrid_flag f (ow.calls_of e t) = false := by
      intro f
      have h := (OceanWaves.regrid_step ow e t f).1
      rcases he with he | he <;> rw [he] at h ⊢ <;> exact h
    rw [OceanWaves.calls_of_events_append, OceanWaves.calls_of_events_cons,
      OceanWaves.calls_of_events_append, OceanWaves.calls_of_events_cons,
      StepCall.relax_views_append, StepCall.relax_views_append, StepCall.relax_views_append]
    simp only [hnil, List.append_nil]
    rw [hlow, ← hnone.2, List.append_assoc]

end StepEvents

/-- In multiphase mode, after initialisation, a regrid and the two pre-step
events, the relaxation of `post_advance_work` finds the regrid flag raised. -/
theorem C14_witness :
    StepCall.relax_views false
        ((OceanWaves.construct String ["MultiPhase"]).calls_of_events
          ([(StepEvent.post_init_actions, (⟨0, 1⟩ : SimTime ℚ))] ++
            (StepEvent.post_regrid_actions, ⟨0, 1⟩) ::
              ([(StepEvent.pre_advance_work, ⟨0, 1⟩), (StepEvent.pre_predictor_work, ⟨0, 1⟩)] ++
                [(StepEvent.post_advance_work, ⟨0, 1⟩)]))) =
      StepCall.relax_views false
          ((OceanWaves.construct String ["MultiPhase"]).calls_of_events
            [(StepEvent.post_init_actions, (⟨0, 1⟩ : SimTime ℚ))]) ++ [true] :=
  (C14_regrid_flag_one_shot (OceanWaves.construct String ["MultiPhase"])).2.1 false
    [(StepEvent.post_init_actions, ⟨0, 1⟩)]
    [(StepEvent.pre_advance_work, ⟨0, 1⟩), (StepEvent.pre_predictor_work, ⟨0, 1⟩)]
    StepEvent.post_advance_work ⟨0, 1⟩ ⟨0, 1⟩ (by decide)
    (by
      intro q hq
      simp only [List.mem_cons, List.mem_singleton, List.not_mem_nil, or_false] at hq
      rcases hq with rfl | rfl
      · exact Or.inl rfl
      · exact Or.inr (Or.inl rfl))
    (Or.inr rfl)

/-! ## Gravity and phase offset of the inputs -/

section ReadInputsValues

variable {α : Type} [LinearOrderedField α]

/-- C15, as the code has it.  `ReadInputsOp<LinearWaves>` stores as `g` the
negated vertical component of the configured gravity vector (`incflo.gravity`,
default `(0, 0, -9.81)`): whenever the inputs are read, `g = -gravity_z`; this
is `|gravity_z|`, and non-negative, when `gravity_z <= 0`; and with no
`incflo.gravity` given, `g = 9.81`. -/
theorem C15_gravity_negated (L : Libm α) (env : ReadEnv α) (wdata w : LinearWavesData α)
    (h : ReadInputsOp L env wdata = .ok w) :
    ∃ gz, ((env.incflo_gravity).getD [0, 0, -9.81])[2]? = some gz ∧ w.g = -gz ∧
      (gz ≤ 0 → w.g = |gz| ∧ 0 ≤ w.g) ∧
      (env.incflo_gravity = none → w.g = 9.81) := by
  rcases ReadInputsOp_cases L env wdata with ⟨e, he, _⟩ | ⟨w1, gz, wl, wh, h1, h2, h3, h4⟩
  · rw [he] at h
    cases h
  · have hg : w.g = -gz := by
      rw [ReadInputsOp_of_reads L env wdata w1 gz wl wh h1 h2 h3 h4] at h
      split_ifs at h
      all_goals (cases h; rfl)
    refine ⟨gz, h2, hg, fun hz => ?_, fun hn => ?_⟩
    · rw [hg, abs_of_nonpos hz]
      exact ⟨rfl, neg_nonneg.2 hz⟩
    · rw [hn] at h2
      simp only [Option.getD_none, List.getElem?_cons_succ, List.getElem?_cons_zero,
        Option.some.injEq] at h2
      rw [hg, ← h2, neg_neg]

/-- C16. `ReadInputsOp<LinearWaves>` stores the phase offset in radians: once
the earlier reads have succeeded, with only `wave_phase_offset_radians = r`
given the inputs are read and the stored offset is exactly `r`, and with only
`wave_phase_offset_degrees = a` given they are read and the stored offset is
`a pi / 180`. -/
theorem C16_phase_offset_radians (L : Libm α) (env : ReadEnv α)
    (wdata w1 : LinearWavesData α) (gz wl wh : α)
    (h1 : env.relax_read_inputs wdata env.pp = .ok w1)
    (h2 : ((env.incflo_gravity).getD [0, 0, -9.81])[2]? = some gz)
    (h3 : env.pp.lookup "wave_length" = some wl) (h4 : env.pp.lookup "wave_height" = some wh) :
    (∀ r, env.pp.lookup "wave_phase_offset_radians" = some r →
      env.pp.lookup "wave_phase_offset_degrees" = none →
      ∃ w, ReadInputsOp L env wdata = .ok w ∧ w.wave_phase_offset = r) ∧
    (∀ a, env.pp.lookup "wave_phase_offset_radians" = none →
      env.pp.lookup "wave_phase_offset_degrees" = some a →
      ∃ w, ReadInputsOp L env wdata = .ok w ∧ w.wave_phase_offset = a * L.pi / 180) := by
  rw [ReadInputsOp_of_reads L env wdata w1 gz wl wh h1 h2 h3 h4]
  constructor
  · intro r hr hd
    simp only [MultiParser.contains, MultiParser.query, hr, hd, Option.isSome_some,
      Option.isSome_none, Bool.not_true, Bool.false_eq_true, if_false]
    exact ⟨_, rfl, rfl⟩
  · intro a hr hd
    simp only [MultiParser.contains, MultiParser.query, hr, hd, Option.isSome_none,
      Bool.not_false, if_true]
    exact ⟨_, rfl, mul_div_assoc _ _ _ |>.symm⟩

end ReadInputsValues

/-- The outcome of reading the example inputs with gravity pointing up. -/
theorem Example.read_gravity_up :
    ReadInputsOp Libm.real (Example.env_gravity_up ℝ) (Example.wdata ℝ) =
      .ok { Example.wdata ℝ with
        g := -9.81, wave_length := 2, wave_height := 2,
        wave_phase_offset := 0 * (Real.pi / 180) } := by
  rw [ReadInputsOp_of_reads Libm.real (Example.env_gravity_up ℝ) (Example.wdata ℝ)
    (Example.wdata ℝ) 9.81 2 2 rfl rfl (by simp [Example.env_gravity_up])
    (by simp [Example.env_gravity_up])]
  simp [MultiParser.contains, MultiParser.query, Example.env_gravity_up, Example.wdata,
    Libm.real]

/-- The outcome of reading the example inputs with a phase offset in radians. -/
theorem Example.read_radians :
    ReadInputsOp Libm.real (Example.env_radians ℝ) (Example.wdata ℝ) =
      .ok { Example.wdata ℝ with
        g := - -9.81, wave_length := 2, wave_height := 2, wave_phase_offset := 1 } := by
  rw [ReadInputsOp_of_reads Libm.real (Example.env_radians ℝ) (Example.wdata ℝ)
    (Example.wdata ℝ) (-9.81) 2 2 rfl rfl (by simp [Example.env_radians])
    (by simp [Example.env_radians])]
  simp [MultiParser.contains, MultiParser.query, Example.env_radians, Example.wdata]

/-- C15 fails for a gravity vector that points up.  With
`incflo.gravity = (0, 0, 9.81)` the inputs are read and the stored `g` is
`-9.81`: negative, and not `|gravity_z| = 9.81`. -/
theorem C15_counterexample :
    ∃ w, ReadInputsOp Libm.real (Example.env_gravity_up ℝ) (Example.wdata ℝ) = .ok w ∧
      ((Example.env_gravity_up ℝ).incflo_gravity.getD [0, 0, -9.81])[2]? = some (9.81 : ℝ) ∧
      w.g = -9.81 ∧ w.g ≠ |(9.81 : ℝ)| ∧ w.g < 0 := by
  refine ⟨_, Example.read_gravity_up, rfl, rfl, ?_, ?_⟩
  · show (-9.81 : ℝ) ≠ |(9.81 : ℝ)|
    rw [abs_of_pos (by norm_num)]
    norm_num
  · show (-9.81 : ℝ) < 0
    norm_num

/-- With no `incflo.gravity` among the inputs the stored `g` is the negated
default vertical component. -/
theorem C15_witness :
    ∃ gz : ℝ, ((Example.env_radians ℝ).incflo_gravity.getD [0, 0, -9.81])[2]? = some gz ∧
      (- -9.81 : ℝ) = -gz ∧
      (gz ≤ 0 → (- -9.81 : ℝ) = |gz| ∧ (0 : ℝ) ≤ - -9.81) ∧
      ((Example.env_radians ℝ).incflo_gravity = none → (- -9.81 : ℝ) = 9.81) :=
  C15_gravity_negated Libm.real (Example.env_radians ℝ) (Example.wdata ℝ) _
    Example.read_radians

/-- With only the radians key, or only the degrees key, among complete inputs
the offset stored is 1, respectively `90 pi / 180`. -/
theorem C16_witness :
    (∃ w, ReadInputsOp Libm.real (Example.env_radians ℝ) (Example.wdata ℝ) = .ok w ∧
        w.wave_phase_offset = 1) ∧
      (∃ w, ReadInputsOp Libm.real (Example.env_degrees ℝ) (Example.wdata ℝ) = .ok w ∧
        w.wave_phase_offset = 90 * Real.pi / 180) :=
  ⟨(C16_phase_offset_radians Libm.real (Example.env_radians ℝ) (Example.wdata ℝ)
      (Example.wdata ℝ) (-9.81) 2 2 rfl rfl (by simp [Example.env_radians])
      (by simp [Example.env_radians])).1 1 (by simp [Example.env_radians])
      (by simp [Example.env_radians]),
    (C16_phase_offset_radians Libm.real (Example.env_degrees ℝ) (Example.wdata ℝ)
      (Example.wdata ℝ) (-9.81) 2 2 rfl rfl (by simp [Example.env_degrees])
      (by simp [Example.env_degrees])).2 90 (by simp [Example.env_degrees])
      (by simp [Example.env_degrees])⟩

/-! ## Stokes coefficients at `kd = 0.753982` -/

/-- The product `k d` of the finite-depth test case. -/
theorem fenton_kd : (2.0 : ℝ) * 0.376991 = 753982 / 1000000 := by norm_num

/-- Bounds on `exp(kd)` for `kd = 0.753982`, from the Taylor series. -/
theorem fenton_exp_kd :
    (2.12544671689796 : ℝ) ≤ Real.exp (753982 / 1000000) ∧
      Real.exp (753982 / 1000000) ≤ 2.12544671689797 := by
  constructor
  · have h := Real.sum_le_exp_of_nonneg (x := (753982 / 1000000 : ℝ)) (by norm_num) 17
    refine le_trans ?_ h
    simp only [Finset.sum_range_succ, Finset.sum_range_zero, Nat.factorial]
    norm_num
  · have h := Real.exp_bound' (x := (753982 / 1000000 : ℝ)) (by norm_num) (by norm_num)
      (n := 17) (by norm_num)
    refine le_trans h ?_
    simp only [Finset.sum_range_succ, Finset.sum_range_zero, Nat.factorial]
    norm_num

/-- Bounds on `sinh(kd)`, `cosh(kd)` and `cosh(2kd)` for `kd = 0.753982`. -/
theorem fenton_hyperbolic :
    ((0.82747869386866 : ℝ) ≤ Real.sinh (2.0 * 0.376991) ∧
        Real.sinh (2.0 * 0.376991) ≤ 0.82747869386867) ∧
      ((1.29796802302929 : ℝ) ≤ Real.cosh (2.0 * 0.376991) ∧
        Real.cosh (2.0 * 0.376991) ≤ 1.29796802302931) ∧
      ((2.36944197761316 : ℝ) ≤ Real.cosh (2 * (2.0 * 0.376991)) ∧
        Real.cosh (2 * (2.0 * 0.376991)) ≤ 2.3694419776132) := by
  obtain ⟨hE, hE'⟩ := fenton_exp_kd
  have hpos : (0 : ℝ) < Real.exp (753982 / 1000000) := Real.exp_pos _
  have hI : (0.47048932916063 : ℝ) ≤ (Real.exp (753982 / 1000000))⁻¹ := by
    rw [← one_div, le_div_iff₀ hpos]
    linarith
  have hI' : (Real.exp (753982 / 1000000))⁻¹ ≤ 0.47048932916064 := by
    rw [← one_div, div_le_iff₀ hpos]
    linarith
  have hI0 : (0 : ℝ) ≤ (Real.exp (753982 / 1000000))⁻¹ := le_trans (by norm_num) hI
  have hEE : (4.51752374637231 : ℝ) ≤ Real.exp (753982 / 1000000) * Real.exp (753982 / 1000000) :=
    le_trans (by norm_num) (mul_le_mul hE hE (by norm_num) hpos.le)
  have hEE' : Real.exp (753982 / 1000000) * Real.exp (753982 / 1000000) ≤ 4.51752374637236 :=
    le_trans (mul_le_mul hE' hE' hpos.le (by norm_num)) (by norm_num)
  have hII : (0.22136020885401 : ℝ) ≤
      (Real.exp (753982 / 1000000))⁻¹ * (Real.exp (753982 / 1000000))⁻¹ :=
    le_trans (by norm_num) (mul_le_mul hI hI (by norm_num) hI0)
  have hII' : (Real.exp (753982 / 1000000))⁻¹ * (Real.exp (753982 / 1000000))⁻¹ ≤
      0.22136020885403 :=
    le_trans (mul_le_mul hI' hI' hI0 (by norm_num)) (by norm_num)
  have h2 : Real.exp (2 * (753982 / 1000000)) =
      Real.exp (753982 / 1000000) * Real.exp (753982 / 1000000) := by
    rw [two_mul, Real.exp_add]
  have h2n : Real.exp (-(2 * (753982 / 1000000))) =
      (Real.exp (753982 / 1000000))⁻¹ * (Real.exp (753982 / 1000000))⁻¹ := by
    rw [Real.exp_neg, h2, mul_inv]
  rw [fenton_kd, Real.sinh_eq, Real.cosh_eq, Real.cosh_eq, h2, h2n, Real.exp_neg]
  refine ⟨⟨?_, ?_⟩, ⟨?_, ?_⟩, ⟨?_, ?_⟩⟩ <;> linarith

/-- Bounds on `S = 1/cosh(2kd)`, `sinh(kd)`, `coth(kd) = 1/tanh(kd)` and
`sqrt(tanh(kd))` for `kd = 0.753982`. -/
theorem fenton_base :
    ((0.4220402987066 : ℝ) ≤ 1 / Real.cosh (2 * (2.0 * 0.376991)) ∧
        1 / Real.cosh (2 * (2.0 * 0.376991)) ≤ 0.4220402987067) ∧
      ((0.82747869386866 : ℝ) ≤ Real.sinh (2.0 * 0.376991) ∧
        Real.sinh (2.0 * 0.376991) ≤ 0.82747869386867) ∧
      ((1.5685818047603 : ℝ) ≤ 1 / Real.tanh (2.0 * 0.376991) ∧
        1 / Real.tanh (2.0 * 0.376991) ≤ 1.5685818047605) ∧
      ((0.7984475884169 : ℝ) ≤ Real.sqrt (Real.tanh (2.0 * 0.376991)) ∧
        Real.sqrt (Real.tanh (2.0 * 0.376991)) ≤ 0.7984475884171) := by
  obtain ⟨⟨hs, hs'⟩, ⟨hc, hc'⟩, ⟨hd, hd'⟩⟩ := fenton_hyperbolic
  have hs0 : (0 : ℝ) < Real.sinh (2.0 * 0.376991) := lt_of_lt_of_le (by norm_num) hs
  have hc0 : (0 : ℝ) < Real.cosh (2.0 * 0.376991) := Real.cosh_pos _
  have hd0 : (0 : ℝ) < Real.cosh (2 * (2.0 * 0.376991)) := Real.cosh_pos _
  have ht : (0.6375185514489 : ℝ) ≤ Real.tanh (2.0 * 0.376991) := by
    rw [Real.tanh_eq_sinh_div_cosh, le_div_iff₀ hc0]
    linarith
  have ht' : Real.tanh (2.0 * 0.376991) ≤ 0.637518551449 := by
    rw [Real.tanh_eq_sinh_div_cosh, div_le_iff₀ hc0]
    linarith
  refine ⟨⟨?_, ?_⟩, ⟨hs, hs'⟩, ⟨?_, ?_⟩, ⟨?_, ?_⟩⟩
  · rw [le_div_iff₀ hd0]
    linarith
  · rw [div_le_iff₀ hd0]
    linarith
  · rw [Real.tanh_eq_sinh_div_cosh, one_div_div, le_div_iff₀ hs0]
    linarith
  · rw [Real.tanh_eq_sinh_div_cosh, one_div_div, div_le_iff₀ hs0]
    linarith
  · exact Real.le_sqrt_of_sq_le (le_trans (by norm_num) ht)
  · rw [Real.sqrt_le_left (by norm_num)]
    exact le_trans ht' (by norm_num)

/-- Bounds on the powers of `S = 1/cosh(2kd)` for `kd = 0.753982`. -/
theorem fenton_S_pows (S : ℝ) (hS : (0.4220402987066 : ℝ) ≤ S) (hS' : S ≤ 0.4220402987067) :
    ((0.1781180137323 : ℝ) ≤ S ^ 2 ∧ S ^ 2 ≤ 0.1781180137325) ∧
      ((0.0751729797206 : ℝ) ≤ S ^ 3 ∧ S ^ 3 ≤ 0.0751729797207) ∧
      ((0.0317260268159 : ℝ) ≤ S ^ 4 ∧ S ^ 4 ≤ 0.031726026816) ∧
      ((0.0133896618341 : ℝ) ≤ S ^ 5 ∧ S ^ 5 ≤ 0.0133896618342) ∧
      ((0.00565097688 : ℝ) ≤ S ^ 6 ∧ S ^ 6 ≤ 0.0056509768801) ∧
      ((0.0023849399704 : ℝ) ≤ S ^ 7 ∧ S ^ 7 ≤ 0.0023849399705) ∧
      ((0.0010065407775 : ℝ) ≤ S ^ 8 ∧ S ^ 8 ≤ 0.0010065407776) := by
  have h0 : (0 : ℝ) ≤ S := le_trans (by norm_num) hS
  refine ⟨⟨?_, ?_⟩, ⟨?_, ?_⟩, ⟨?_, ?_⟩, ⟨?_, ?_⟩, ⟨?_, ?_⟩, ⟨?_, ?_⟩, ⟨?_, ?_⟩⟩
  · exact le_trans (by norm_num) (pow_le_pow_left₀ (by norm_num) hS 2)
  · exact le_trans (pow_le_pow_left₀ h0 hS' 2) (by norm_num)
  · exact le_trans (by norm_num) (pow_le_pow_left₀ (by norm_num) hS 3)
  · exact le_trans (pow_le_pow_left₀ h0 hS' 3) (by norm_num)
  · exact le_trans (by norm_num) (pow_le_pow_left₀ (by norm_num) hS 4)
  · exact le_trans (pow_le_pow_left₀ h0 hS' 4) (by norm_num)
  · exact le_trans (by norm_num) (pow_le_pow_left₀ (by norm_num) hS 5)
  · exact le_trans (pow_le_pow_left₀ h0 hS' 5) (by norm_num)
  · exact le_trans (by norm_num) (pow_le_pow_left₀ (by norm_num) hS 6)
  · exact le_trans (pow_le_pow_left₀ h0 hS' 6) (by norm_num)
  · exact le_trans (by norm_num) (pow_le_pow_left₀ (by norm_num) hS 7)
  · exact le_trans (pow_le_pow_left₀ h0 hS' 7) (by norm_num)
  · exact le_trans (by norm_num) (pow_le_pow_left₀ (by norm_num) hS 8)
  · exact le_trans (pow_le_pow_left₀ h0 hS' 8) (by norm_num)

/-- Bounds on `sinh(kd)` times the powers of `S`. -/
theorem fenton_Sh_S_pows (S Sh : ℝ) (hS : (0.4220402987066 : ℝ) ≤ S) (hS' : S ≤ 0.4220402987067)
    (hT : (0.82747869386866 : ℝ) ≤ Sh) (hT' : Sh ≤ 0.82747869386867) :
    ((0.3492293551336 : ℝ) ≤ Sh * S ∧ Sh * S ≤ 0.3492293551338) ∧
      ((0.1473888613576 : ℝ) ≤ Sh * S ^ 2 ∧ Sh * S ^ 2 ≤ 0.1473888613579) ∧
      ((0.0622040390734 : ℝ) ≤ Sh * S ^ 3 ∧ Sh * S ^ 3 ≤ 0.0622040390736) ∧
      ((0.0262526112312 : ℝ) ≤ Sh * S ^ 4 ∧ Sh * S ^ 4 ≤ 0.0262526112314) ∧
      ((0.0110796598858 : ℝ) ≤ Sh * S ^ 5 ∧ Sh * S ^ 5 ≤ 0.011079659886) ∧
      ((0.0046760629677 : ℝ) ≤ Sh * S ^ 6 ∧ Sh * S ^ 6 ≤ 0.0046760629679) ∧
      ((0.0019734870116 : ℝ) ≤ Sh * S ^ 7 ∧ Sh * S ^ 7 ≤ 0.0019734870118) ∧
      ((0.0008328910478 : ℝ) ≤ Sh * S ^ 8 ∧ Sh * S ^ 8 ≤ 0.000832891048) := by
  have h0 : (0 : ℝ) ≤ S := le_trans (by norm_num) hS
  have hT0 : (0 : ℝ) ≤ Sh := le_trans (by norm_num) hT
  obtain ⟨⟨l2, u2⟩, ⟨l3, u3⟩, ⟨l4, u4⟩, ⟨l5, u5⟩, ⟨l6, u6⟩, ⟨l7, u7⟩, ⟨l8, u8⟩⟩ := fenton_S_pows S hS hS'
  refine ⟨⟨?_, ?_⟩, ⟨?_, ?_⟩, ⟨?_, ?_⟩, ⟨?_, ?_⟩, ⟨?_, ?_⟩, ⟨?_, ?_⟩, ⟨?_, ?_⟩, ⟨?_, ?_⟩⟩
  · exact le_trans (by norm_num) (mul_le_mul hT hS (by norm_num) hT0)
  · exact le_trans (mul_le_mul hT' hS' (by positivity) (by norm_num)) (by norm_num)
  · exact le_trans (by norm_num) (mul_le_mul hT l2 (by norm_num) hT0)
  · exact le_trans (mul_le_mul hT' u2 (by positivity) (by norm_num)) (by norm_num)
  · exact le_trans (by norm_num) (mul_le_mul hT l3 (by norm_num) hT0)
  · exact le_trans (mul_le_mul hT' u3 (by positivity) (by norm_num)) (by norm_num)
  · exact le_trans (by norm_num) (mul_le_mul hT l4 (by norm_num) hT0)
  · exact le_trans (mul_le_mul hT' u4 (by positivity) (by norm_num)) (by norm_num)
  · exact le_trans (by norm_num) (mul_le_mul hT l5 (by norm_num) hT0)
  · exact le_trans (mul_le_mul hT' u5 (by positivity) (by norm_num)) (by norm_num)
  · exact le_trans (by norm_num) (mul_le_mul hT l6 (by norm_num) hT0)
  · exact le_trans (mul_le_mul hT' u6 (by positivity) (by norm_num)) (by norm_num)
  · exact le_trans (by norm_num) (mul_le_mul hT l7 (by norm_num) hT0)
  · exact le_trans (mul_le_mul hT' u7 (by positivity) (by norm_num)) (by norm_num)
  · exact le_trans (by norm_num) (mul_le_mul hT l8 (by norm_num) hT0)
  · exact le_trans (mul_le_mul hT' u8 (by positivity) (by norm_num)) (by norm_num)

/-- Bounds on `coth(kd)` times the powers of `S`. -/
theorem fenton_Q_S_pows (S Q : ℝ) (hS : (0.4220402987066 : ℝ) ≤ S) (hS' : S ≤ 0.4220402987067)
    (hT : (1.5685818047603 : ℝ) ≤ Q) (hT' : Q ≤ 1.5685818047605) :
    ((0.6620047334267 : ℝ) ≤ Q * S ∧ Q * S ≤ 0.6620047334271) ∧
      ((0.2793926754405 : ℝ) ≤ Q * S ^ 2 ∧ Q * S ^ 2 ≤ 0.2793926754409) ∧
      ((0.1179149681993 : ℝ) ≤ Q * S ^ 3 ∧ Q * S ^ 3 ≤ 0.1179149681996) ∧
      ((0.0497648684007 : ℝ) ≤ Q * S ^ 4 ∧ Q * S ^ 4 ≤ 0.049764868401) ∧
      ((0.0210027799248 : ℝ) ≤ Q * S ^ 5 ∧ Q * S ^ 5 ≤ 0.0210027799251) := by
  have h0 : (0 : ℝ) ≤ S := le_trans (by norm_num) hS
  have hT0 : (0 : ℝ) ≤ Q := le_trans (by norm_num) hT
  obtain ⟨⟨l2, u2⟩, ⟨l3, u3⟩, ⟨l4, u4⟩, ⟨l5, u5⟩, ⟨l6, u6⟩, ⟨l7, u7⟩, ⟨l8, u8⟩⟩ := fenton_S_pows S hS hS'
  refine ⟨⟨?_, ?_⟩, ⟨?_, ?_⟩, ⟨?_, ?_⟩, ⟨?_, ?_⟩, ⟨?_, ?_⟩⟩
  · exact le_trans (by norm_num) (mul_le_mul hT hS (by norm_num) hT0)
  · exact le_trans (mul_le_mul hT' hS' (by positivity) (by norm_num)) (by norm_num)
  · exact le_trans (by norm_num) (mul_le_mul hT l2 (by norm_num) hT0)
  · exact le_trans (mul_le_mul hT' u2 (by positivity) (by norm_num)) (by norm_num)
  · exact le_trans (by norm_num) (mul_le_mul hT l3 (by norm_num) hT0)
  · exact le_trans (mul_le_mul hT' u3 (by positivity) (by norm_num)) (by norm_num)
  · exact le_trans (by norm_num) (mul_le_mul hT l4 (by norm_num) hT0)
  · exact le_trans (mul_le_mul hT' u4 (by positivity) (by norm_num)) (by norm_num)
  · exact le_trans (by norm_num) (mul_le_mul hT l5 (by norm_num) hT0)
  · exact le_trans (mul_le_mul hT' u5 (by positivity) (by norm_num)) (by norm_num)

/-- Bounds on `sqrt(tanh(kd))` times the powers of `S`. -/
theorem fenton_c0_S_pows (S c0 : ℝ) (hS : (0.4220402987066 : ℝ) ≤ S) (hS' : S ≤ 0.4220402987067)
    (hT : (0.7984475884169 : ℝ) ≤ c0) (hT' : c0 ≤ 0.7984475884171) :
    ((0.336977058717 : ℝ) ≤ c0 * S ∧ c0 * S ≤ 0.3369770587172) ∧
      ((0.1422178985181 : ℝ) ≤ c0 * S ^ 2 ∧ c0 * S ^ 2 ≤ 0.1422178985184) ∧
      ((0.060021684372 : ℝ) ≤ c0 * S ^ 3 ∧ c0 * S ^ 3 ≤ 0.0600216843722) ∧
      ((0.0253315696012 : ℝ) ≤ c0 * S ^ 4 ∧ c0 * S ^ 4 ≤ 0.0253315696013) ∧
      ((0.0106909432011 : ℝ) ≤ c0 * S ^ 5 ∧ c0 * S ^ 5 ≤ 0.0106909432013) := by
  have h0 : (0 : ℝ) ≤ S := le_trans (by norm_num) hS
  have hT0 : (0 : ℝ) ≤ c0 := le_trans (by norm_num) hT
  obtain ⟨⟨l2, u2⟩, ⟨l3, u3⟩, ⟨l4, u4⟩, ⟨l5, u5⟩, ⟨l6, u6⟩, ⟨l7, u7⟩, ⟨l8, u8⟩⟩ := fenton_S_pows S hS hS'
  refine ⟨⟨?_, ?_⟩, ⟨?_, ?_⟩, ⟨?_, ?_⟩, ⟨?_, ?_⟩, ⟨?_, ?_⟩⟩
  · exact le_trans (by norm_num) (mul_le_mul hT hS (by norm_num) hT0)
  · exact le_trans (mul_le_mul hT' hS' (by positivity) (by norm_num)) (by norm_num)
  · exact le_trans (by norm_num) (mul_le_mul hT l2 (by norm_num) hT0)
  · exact le_trans (mul_le_mul hT' u2 (by positivity) (by norm_num)) (by norm_num)
  · exact le_trans (by norm_num) (mul_le_mul hT l3 (by norm_num) hT0)
  · exact le_trans (mul_le_mul hT' u3 (by positivity) (by norm_num)) (by norm_num)
  · exact le_trans (by norm_num) (mul_le_mul hT l4 (by norm_num) hT0)
  · exact le_trans (mul_le_mul hT' u4 (by positivity) (by norm_num)) (by norm_num)
  · exact le_trans (by norm_num) (mul_le_mul hT l5 (by norm_num) hT0)
  · exact le_trans (mul_le_mul hT' u5 (by positivity) (by norm_num)) (by norm_num)

/-- The Fenton coefficient `a11` at `kd = 0.753982` is within `1e-4` of its table value. -/
theorem fenton_a11 (S Sh : ℝ) (hS : (0.4220402987066 : ℝ) ≤ S) (hS' : S ≤ 0.4220402987067)
    (hSh : (0.82747869386866 : ℝ) ≤ Sh) (hSh' : Sh ≤ 0.82747869386867) :
    |1 / Sh - (1.208490)| ≤ 1e-4 := by
  have h1 : (0 : ℝ) < 1 - S := by linarith
  have h3 : (0 : ℝ) < 3 + 2 * S := by linarith
  have h4 : (0 : ℝ) < 4 + S := by linarith
  have hSh0 : (0 : ℝ) < Sh := lt_of_lt_of_le (by norm_num) hSh
  obtain ⟨⟨l2, u2⟩, ⟨l3, u3⟩, ⟨l4, u4⟩, ⟨l5, u5⟩, ⟨l6, u6⟩, ⟨l7, u7⟩, ⟨l8, u8⟩⟩ := fenton_S_pows S hS hS'
  obtain ⟨⟨Shl1, Shu1⟩, ⟨Shl2, Shu2⟩, ⟨Shl3, Shu3⟩, ⟨Shl4, Shu4⟩, ⟨Shl5, Shu5⟩, ⟨Shl6, Shu6⟩, ⟨Shl7, Shu7⟩, ⟨Shl8, Shu8⟩⟩ := fenton_Sh_S_pows S Sh hS hS' hSh hSh'
  have hD : (0 : ℝ) < Sh := by positivity
  rw [abs_le]
  constructor
  · rw [le_sub_iff_add_le, le_div_iff₀ hD]
    linear_combination (120839 / 100000 : ℝ) * hSh'
  · rw [sub_le_iff_le_add, div_le_iff₀ hD]
    linear_combination (120859 / 100000 : ℝ) * hSh

/-- The Fenton coefficient `a22` at `kd = 0.753982` is within `1e-4` of its table value. -/
theorem fenton_a22 (S : ℝ) (hS : (0.4220402987066 : ℝ) ≤ S) (hS' : S ≤ 0.4220402987067) :
    |3 * S ^ 2 / (2 * (1 - S) ^ 2) - (0.799840)| ≤ 1e-4 := by
  have h1 : (0 : ℝ) < 1 - S := by linarith
  have h3 : (0 : ℝ) < 3 + 2 * S := by linarith
  have h4 : (0 : ℝ) < 4 + S := by linarith
  obtain ⟨⟨l2, u2⟩, ⟨l3, u3⟩, ⟨l4, u4⟩, ⟨l5, u5⟩, ⟨l6, u6⟩, ⟨l7, u7⟩, ⟨l8, u8⟩⟩ := fenton_S_pows S hS hS'
  have hD : (0 : ℝ) < (2 * (1 - S) ^ 2) := by positivity
  rw [abs_le]
  constructor
  · rw [le_sub_iff_add_le, le_div_iff₀ hD]
    linear_combination (39987 / 12500 : ℝ) * hS +
      (35013 / 25000 : ℝ) * l2
  · rw [sub_le_iff_le_add, div_le_iff₀ hD]
    linear_combination (39997 / 12500 : ℝ) * hS' +
      (35003 / 25000 : ℝ) * u2

/-- The Fenton coefficient `b22` at `kd = 0.753982` is within `1e-4` of its table value. -/
theorem fenton_b22 (S Q : ℝ) (hS : (0.4220402987066 : ℝ) ≤ S) (hS' : S ≤ 0.4220402987067)
    (hQ : (1.5685818047603 : ℝ) ≤ Q) (hQ' : Q ≤ 1.5685818047605) :
    |Q * (1 + 2 * S) / (2 * (1 - S)) - (2.502414)| ≤ 1e-4 := by
  have h1 : (0 : ℝ) < 1 - S := by linarith
  have h3 : (0 : ℝ) < 3 + 2 * S := by linarith
  have h4 : (0 : ℝ) < 4 + S := by linarith
  obtain ⟨⟨l2, u2⟩, ⟨l3, u3⟩, ⟨l4, u4⟩, ⟨l5, u5⟩, ⟨l6, u6⟩, ⟨l7, u7⟩, ⟨l8, u8⟩⟩ := fenton_S_pows S hS hS'
  obtain ⟨⟨Ql1, Qu1⟩, ⟨Ql2, Qu2⟩, ⟨Ql3, Qu3⟩, ⟨Ql4, Qu4⟩, ⟨Ql5, Qu5⟩⟩ := fenton_Q_S_pows S Q hS hS' hQ hQ'
  have hD : (0 : ℝ) < (2 * (1 - S)) := by positivity
  rw [abs_le]
  constructor
  · rw [le_sub_iff_add_le, le_div_iff₀ hD]
    linear_combination (1251157 / 250000 : ℝ) * hS +
      1 * hQ +
      2 * Ql1
  · rw [sub_le_iff_le_add, div_le_iff₀ hD]
    linear_combination (1251257 / 250000 : ℝ) * hS' +
      1 * hQ' +
      2 * Qu1

/-- The Fenton coefficient `c2` at `kd = 0.753982` is within `1e-4` of its table value. -/
theorem fenton_c2 (S c0 : ℝ) (hS : (0.4220402987066 : ℝ) ≤ S) (hS' : S ≤ 0.4220402987067)
    (hc : (0.7984475884169 : ℝ) ≤ c0) (hc' : c0 ≤ 0.7984475884171) :
    |c0 * (2 + 7 * S ^ 2) / (4 * (1 - S) ^ 2) - (1.940215)| ≤ 1e-4 := by
  have h1 : (0 : ℝ) < 1 - S := by linarith
  have h3 : (0 : ℝ) < 3 + 2 * S := by linarith
  have h4 : (0 : ℝ) < 4 + S := by linarith
  obtain ⟨⟨l2, u2⟩, ⟨l3, u3⟩, ⟨l4, u4⟩, ⟨l5, u5⟩, ⟨l6, u6⟩, ⟨l7, u7⟩, ⟨l8, u8⟩⟩ := fenton_S_pows S hS hS'
  obtain ⟨⟨c0l1, c0u1⟩, ⟨c0l2, c0u2⟩, ⟨c0l3, c0u3⟩, ⟨c0l4, c0u4⟩, ⟨c0l5, c0u5⟩⟩ := fenton_c0_S_pows S c0 hS hS' hc hc'
  have hD : (0 : ℝ) < (4 * (1 - S) ^ 2) := by positivity
  rw [abs_le]
  constructor
  · rw [le_sub_iff_add_le, le_div_iff₀ hD]
    linear_combination (388023 / 25000 : ℝ) * hS +
      (388023 / 50000 : ℝ) * u2 +
      2 * hc +
      7 * c0l2
  · rw [sub_le_iff_le_add, div_le_iff₀ hD]
    linear_combination (388063 / 25000 : ℝ) * hS' +
      (388063 / 50000 : ℝ) * l2 +
      2 * hc' +
      7 * c0u2

/-- The Fenton coefficient `a31` at `kd = 0.753982` is within `1e-4` of its table value. -/
theorem fenton_a31 (S Sh : ℝ) (hS : (0.4220402987066 : ℝ) ≤ S) (hS' : S ≤ 0.4220402987067)
    (hSh : (0.82747869386866 : ℝ) ≤ Sh) (hSh' : Sh ≤ 0.82747869386867) :
    |(-4 - 20 * S + 10 * S ^ 2 - 13 * S ^ 3) / (8 * Sh * (1 - S) ^ 3) - (-9.105340)| ≤ 1e-4 := by
  have h1 : (0 : ℝ) < 1 - S := by linarith
  have h3 : (0 : ℝ) < 3 + 2 * S := by linarith
  have h4 : (0 : ℝ) < 4 + S := by linarith
  have hSh0 : (0 : ℝ) < Sh := lt_of_lt_of_le (by norm_num) hSh
  obtain ⟨⟨l2, u2⟩, ⟨l3, u3⟩, ⟨l4, u4⟩, ⟨l5, u5⟩, ⟨l6, u6⟩, ⟨l7, u7⟩, ⟨l8, u8⟩⟩ := fenton_S_pows S hS hS'
  obtain ⟨⟨Shl1, Shu1⟩, ⟨Shl2, Shu2⟩, ⟨Shl3, Shu3⟩, ⟨Shl4, Shu4⟩, ⟨Shl5, Shu5⟩, ⟨Shl6, Shu6⟩, ⟨Shl7, Shu7⟩, ⟨Shl8, Shu8⟩⟩ := fenton_Sh_S_pows S Sh hS hS' hSh hSh'
  have hD : (0 : ℝ) < (8 * Sh * (1 - S) ^ 3) := by positivity
  rw [abs_le]
  constructor
  · rw [le_sub_iff_add_le, le_div_iff₀ hD]
    linear_combination 20 * hS' +
      10 * l2 +
      13 * u3 +
      (227636 / 3125 : ℝ) * hSh +
      (682908 / 3125 : ℝ) * Shu1 +
      (682908 / 3125 : ℝ) * Shl2 +
      (227636 / 3125 : ℝ) * Shu3
  · rw [sub_le_iff_le_add, div_le_iff₀ hD]
    linear_combination 20 * hS +
      10 * u2 +
      13 * l3 +
      (227631 / 3125 : ℝ) * hSh' +
      (682893 / 3125 : ℝ) * Shl1 +
      (682893 / 3125 : ℝ) * Shu2 +
      (227631 / 3125 : ℝ) * Shl3

/-- The Fenton coefficient `a33` at `kd = 0.753982` is within `1e-4` of its table value. -/
theorem fenton_a33 (S Sh : ℝ) (hS : (0.4220402987066 : ℝ) ≤ S) (hS' : S ≤ 0.4220402987067)
    (hSh : (0.82747869386866 : ℝ) ≤ Sh) (hSh' : Sh ≤ 0.82747869386867) :
    |(-2 * S ^ 2 + 11 * S ^ 3) / (8 * Sh * (1 - S) ^ 3) - (0.368275)| ≤ 1e-4 := by
  have h1 : (0 : ℝ) < 1 - S := by linarith
  have h3 : (0 : ℝ) < 3 + 2 * S := by linarith
  have h4 : (0 : ℝ) < 4 + S := by linarith
  have hSh0 : (0 : ℝ) < Sh := lt_of_lt_of_le (by norm_num) hSh
  obtain ⟨⟨l2, u2⟩, ⟨l3, u3⟩, ⟨l4, u4⟩, ⟨l5, u5⟩, ⟨l6, u6⟩, ⟨l7, u7⟩, ⟨l8, u8⟩⟩ := fenton_S_pows S hS hS'
  obtain ⟨⟨Shl1, Shu1⟩, ⟨Shl2, Shu2⟩, ⟨Shl3, Shu3⟩, ⟨Shl4, Shu4⟩, ⟨Shl5, Shu5⟩, ⟨Shl6, Shu6⟩, ⟨Shl7, Shu7⟩, ⟨Shl8, Shu8⟩⟩ := fenton_Sh_S_pows S Sh hS hS' hSh hSh'
  have hD : (0 : ℝ) < (8 * Sh * (1 - S) ^ 3) := by positivity
  rw [abs_le]
  constructor
  · rw [le_sub_iff_add_le, le_div_iff₀ hD]
    linear_combination 2 * u2 +
      11 * l3 +
      (14727 / 5000 : ℝ) * hSh' +
      (44181 / 5000 : ℝ) * Shl1 +
      (44181 / 5000 : ℝ) * Shu2 +
      (14727 / 5000 : ℝ) * Shl3
  · rw [sub_le_iff_le_add, div_le_iff₀ hD]
    linear_combination 2 * l2 +
      11 * u3 +
      (2947 / 1000 : ℝ) * hSh +
      (8841 / 1000 : ℝ) * Shu1 +
      (8841 / 1000 : ℝ) * Shl2 +
      (2947 / 1000 : ℝ) * Shu3

/-- The Fenton coefficient `b31` at `kd = 0.753982` is within `1e-4` of its table value. -/
theorem fenton_b31 (S : ℝ) (hS : (0.4220402987066 : ℝ) ≤ S) (hS' : S ≤ 0.4220402987067) :
    |-3 * (1 + 3 * S + 3 * S ^ 2 + 2 * S ^ 3) / (8 * (1 - S) ^ 3) - (-5.731666)| ≤ 1e-4 := by
  have h1 : (0 : ℝ) < 1 - S := by linarith
  have h3 : (0 : ℝ) < 3 + 2 * S := by linarith
  have h4 : (0 : ℝ) < 4 + S := by linarith
  obtain ⟨⟨l2, u2⟩, ⟨l3, u3⟩, ⟨l4, u4⟩, ⟨l5, u5⟩, ⟨l6, u6⟩, ⟨l7, u7⟩, ⟨l8, u8⟩⟩ := fenton_S_pows S hS hS'
  have hD : (0 : ℝ) < (8 * (1 - S) ^ 3) := by positivity
  rw [abs_le]
  constructor
  · rw [le_sub_iff_add_le, le_div_iff₀ hD]
    linear_combination (9160149 / 62500 : ℝ) * hS' +
      (8035149 / 62500 : ℝ) * l2 +
      (3240883 / 62500 : ℝ) * u3
  · rw [sub_le_iff_le_add, div_le_iff₀ hD]
    linear_combination (9159849 / 62500 : ℝ) * hS +
      (8034849 / 62500 : ℝ) * u2 +
      (3240783 / 62500 : ℝ) * l3

/-- The Fenton coefficient `a42` at `kd = 0.753982` is within `1e-4` of its table value. -/
theorem fenton_a42 (S : ℝ) (hS : (0.4220402987066 : ℝ) ≤ S) (hS' : S ≤ 0.4220402987067) :
    |(12 * S - 14 * S ^ 2 - 264 * S ^ 3 - 45 * S ^ 4 - 13 * S ^ 5) / (24 * (1 - S) ^ 5) - (-12.196150)| ≤ 1e-4 := by
  have h1 : (0 : ℝ) < 1 - S := by linarith
  have h3 : (0 : ℝ) < 3 + 2 * S := by linarith
  have h4 : (0 : ℝ) < 4 + S := by linarith
  obtain ⟨⟨l2, u2⟩, ⟨l3, u3⟩, ⟨l4, u4⟩, ⟨l5, u5⟩, ⟨l6, u6⟩, ⟨l7, u7⟩, ⟨l8, u8⟩⟩ := fenton_S_pows S hS hS'
  have hD : (0 : ℝ) < (24 * (1 - S) ^ 5) := by positivity
  rw [abs_le]
  constructor
  · rw [le_sub_iff_add_le, le_div_iff₀ hD]
    linear_combination (29031 / 20 : ℝ) * hS' +
      (29131 / 10 : ℝ) * l2 +
      (31911 / 10 : ℝ) * u3 +
      (28371 / 20 : ℝ) * l4 +
      (30571 / 100 : ℝ) * u5
  · rw [sub_le_iff_le_add, div_le_iff₀ hD]
    linear_combination (725763 / 500 : ℝ) * hS +
      (728263 / 250 : ℝ) * u2 +
      (797763 / 250 : ℝ) * l3 +
      (709263 / 500 : ℝ) * u4 +
      (764263 / 2500 : ℝ) * l5

/-- The Fenton coefficient `a44` at `kd = 0.753982` is within `1e-4` of its table value. -/
theorem fenton_a44 (S : ℝ) (hS : (0.4220402987066 : ℝ) ≤ S) (hS' : S ≤ 0.4220402987067) :
    |(10 * S ^ 3 - 174 * S ^ 4 + 291 * S ^ 5 + 278 * S ^ 6) /
        (48 * (3 + 2 * S) * (1 - S) ^ 5) - (0.058723)| ≤ 1e-4 := by
  have h1 : (0 : ℝ) < 1 - S := by linarith
  have h3 : (0 : ℝ) < 3 + 2 * S := by linarith
  have h4 : (0 : ℝ) < 4 + S := by linarith
  obtain ⟨⟨l2, u2⟩, ⟨l3, u3⟩, ⟨l4, u4⟩, ⟨l5, u5⟩, ⟨l6, u6⟩, ⟨l7, u7⟩, ⟨l8, u8⟩⟩ := fenton_S_pows S hS hS'
  have hD : (0 : ℝ) < (48 * (3 + 2 * S) * (1 - S) ^ 5) := by positivity
  rw [abs_le]
  constructor
  · rw [le_sub_iff_add_le, le_div_iff₀ hD]
    linear_combination (2286297 / 62500 : ℝ) * hS +
      (175869 / 3125 : ℝ) * u2 +
      (238369 / 6250 : ℝ) * l3 +
      (1999131 / 12500 : ℝ) * u4 +
      (16956417 / 62500 : ℝ) * l5 +
      (8863369 / 31250 : ℝ) * l6
  · rw [sub_le_iff_le_add, div_le_iff₀ hD]
    linear_combination (2294097 / 62500 : ℝ) * hS' +
      (176469 / 3125 : ℝ) * l2 +
      (238969 / 6250 : ℝ) * u3 +
      (1998531 / 12500 : ℝ) * l4 +
      (16952217 / 62500 : ℝ) * u5 +
      (8863969 / 31250 : ℝ) * u6

/-- The Fenton coefficient `b42` at `kd = 0.753982` is within `1e-4` of its table value. -/
theorem fenton_b42 (S Q : ℝ) (hS : (0.4220402987066 : ℝ) ≤ S) (hS' : S ≤ 0.4220402987067)
    (hQ : (1.5685818047603 : ℝ) ≤ Q) (hQ' : Q ≤ 1.5685818047605) :
    |Q * (6 - 26 * S - 182 * S ^ 2 - 204 * S ^ 3 - 25 * S ^ 4 + 26 * S ^ 5) /
        (6 * (3 + 2 * S) * (1 - S) ^ 4) - (-32.407508)| ≤ 1e-4 := by
  have h1 : (0 : ℝ) < 1 - S := by linarith
  have h3 : (0 : ℝ) < 3 + 2 * S := by linarith
  have h4 : (0 : ℝ) < 4 + S := by linarith
  obtain ⟨⟨l2, u2⟩, ⟨l3, u3⟩, ⟨l4, u4⟩, ⟨l5, u5⟩, ⟨l6, u6⟩, ⟨l7, u7⟩, ⟨l8, u8⟩⟩ := fenton_S_pows S hS hS'
  obtain ⟨⟨Ql1, Qu1⟩, ⟨Ql2, Qu2⟩, ⟨Ql3, Qu3⟩, ⟨Ql4, Qu4⟩, ⟨Ql5, Qu5⟩⟩ := fenton_Q_S_pows S Q hS hS' hQ hQ'
  have hD : (0 : ℝ) < (6 * (3 + 2 * S) * (1 - S) ^ 4) := by positivity
  rw [abs_le]
  constructor
  · rw [le_sub_iff_add_le, le_div_iff₀ hD]
    linear_combination (12152853 / 6250 : ℝ) * hS' +
      (12152853 / 6250 : ℝ) * l2 +
      (12152853 / 12500 : ℝ) * u4 +
      (12152853 / 31250 : ℝ) * l5 +
      6 * hQ +
      26 * Qu1 +
      182 * Qu2 +
      204 * Qu3 +
      25 * Qu4 +
      26 * Ql5
  · rw [sub_le_iff_le_add, div_le_iff₀ hD]
    linear_combination (6076389 / 3125 : ℝ) * hS +
      (6076389 / 3125 : ℝ) * u2 +
      (6076389 / 6250 : ℝ) * l4 +
      (6076389 / 15625 : ℝ) * u5 +
      6 * hQ' +
      26 * Ql1 +
      182 * Ql2 +
      204 * Ql3 +
      25 * Ql4 +
      26 * Qu5

/-- The Fenton coefficient `b44` at `kd = 0.753982` is within `1e-4` of its table value. -/
theorem fenton_b44 (S Q : ℝ) (hS : (0.4220402987066 : ℝ) ≤ S) (hS' : S ≤ 0.4220402987067)
    (hQ : (1.5685818047603 : ℝ) ≤ Q) (hQ' : Q ≤ 1.5685818047605) :
    |Q * (24 + 92 * S + 122 * S ^ 2 + 66 * S ^ 3 + 67 * S ^ 4 + 34 * S ^ 5) /
        (24 * (3 + 2 * S) * (1 - S) ^ 4) - (14.033758)| ≤ 1e-4 := by
  have h1 : (0 : ℝ) < 1 - S := by linarith
  have h3 : (0 : ℝ) < 3 + 2 * S := by linarith
  have h4 : (0 : ℝ) < 4 + S := by linarith
  obtain ⟨⟨l2, u2⟩, ⟨l3, u3⟩, ⟨l4, u4⟩, ⟨l5, u5⟩, ⟨l6, u6⟩, ⟨l7, u7⟩, ⟨l8, u8⟩⟩ := fenton_S_pows S hS hS'
  obtain ⟨⟨Ql1, Qu1⟩, ⟨Ql2, Qu2⟩, ⟨Ql3, Qu3⟩, ⟨Ql4, Qu4⟩, ⟨Ql5, Qu5⟩⟩ := fenton_Q_S_pows S Q hS hS' hQ hQ'
  have hD : (0 : ℝ) < (24 * (3 + 2 * S) * (1 - S) ^ 4) := by positivity
  rw [abs_le]
  constructor
  · rw [le_sub_iff_add_le, le_div_iff₀ hD]
    linear_combination (21050487 / 6250 : ℝ) * hS +
      (21050487 / 6250 : ℝ) * u2 +
      (21050487 / 12500 : ℝ) * l4 +
      (21050487 / 31250 : ℝ) * u5 +
      24 * hQ +
      92 * Ql1 +
      122 * Ql2 +
      66 * Ql3 +
      67 * Ql4 +
      34 * Ql5
  · rw [sub_le_iff_le_add, div_le_iff₀ hD]
    linear_combination (21050787 / 6250 : ℝ) * hS' +
      (21050787 / 6250 : ℝ) * l2 +
      (21050787 / 12500 : ℝ) * u4 +
      (21050787 / 31250 : ℝ) * l5 +
      24 * hQ' +
      92 * Qu1 +
      122 * Qu2 +
      66 * Qu3 +
      67 * Qu4 +
      34 * Qu5

/-- The Fenton coefficient `c4` at `kd = 0.753982` is within `1e-4` of its table value. -/
theorem fenton_c4 (S c0 : ℝ) (hS : (0.4220402987066 : ℝ) ≤ S) (hS' : S ≤ 0.4220402987067)
    (hc : (0.7984475884169 : ℝ) ≤ c0) (hc' : c0 ≤ 0.7984475884171) :
    |c0 * (4 + 32 * S - 116 * S ^ 2 - 400 * S ^ 3 - 71 * S ^ 4 + 146 * S ^ 5) /
        (32 * (1 - S) ^ 5) - (-12.970403)| ≤ 1e-4 := by
  have h1 : (0 : ℝ) < 1 - S := by linarith
  have h3 : (0 : ℝ) < 3 + 2 * S := by linarith
  have h4 : (0 : ℝ) < 4 + S := by linarith
  obtain ⟨⟨l2, u2⟩, ⟨l3, u3⟩, ⟨l4, u4⟩, ⟨l5, u5⟩, ⟨l6, u6⟩, ⟨l7, u7⟩, ⟨l8, u8⟩⟩ := fenton_S_pows S hS hS'
  obtain ⟨⟨c0l1, c0u1⟩, ⟨c0l2, c0u2⟩, ⟨c0l3, c0u3⟩, ⟨c0l4, c0u4⟩, ⟨c0l5, c0u5⟩⟩ := fenton_c0_S_pows S c0 hS hS' hc hc'
  have hD : (0 : ℝ) < (32 * (1 - S) ^ 5) := by positivity
  rw [abs_le]
  constructor
  · rw [le_sub_iff_add_le, le_div_iff₀ hD]
    linear_combination (12970503 / 6250 : ℝ) * hS' +
      (12970503 / 3125 : ℝ) * l2 +
      (12970503 / 3125 : ℝ) * u3 +
      (12970503 / 6250 : ℝ) * l4 +
      (12970503 / 31250 : ℝ) * u5 +
      4 * hc +
      32 * c0l1 +
      116 * c0u2 +
      400 * c0u3 +
      71 * c0u4 +
      146 * c0l5
  · rw [sub_le_iff_le_add, div_le_iff₀ hD]
    linear_combination (12970303 / 6250 : ℝ) * hS +
      (12970303 / 3125 : ℝ) * u2 +
      (12970303 / 3125 : ℝ) * l3 +
      (12970303 / 6250 : ℝ) * u4 +
      (12970303 / 31250 : ℝ) * l5 +
      4 * hc' +
      32 * c0u1 +
      116 * c0l2 +
      400 * c0l3 +
      71 * c0l4 +
      146 * c0u5

/-- The Fenton coefficient `a51` at `kd = 0.753982` is within `1e-4` of its table value. -/
theorem fenton_a51 (S Sh : ℝ) (hS : (0.4220402987066 : ℝ) ≤ S) (hS' : S ≤ 0.4220402987067)
    (hSh : (0.82747869386866 : ℝ) ≤ Sh) (hSh' : Sh ≤ 0.82747869386867) :
    |(-1184 + 32 * S + 13232 * S ^ 2 + 21712 * S ^ 3 + 20940 * S ^ 4 + 12554 * S ^ 5 -
          500 * S ^ 6 - 3341 * S ^ 7 - 670 * S ^ 8) /
        (64 * Sh * (3 + 2 * S) * (4 + S) * (1 - S) ^ 6) - (108.46831725)| ≤ 1e-4 := by
  have h1 : (0 : ℝ) < 1 - S := by linarith
  have h3 : (0 : ℝ) < 3 + 2 * S := by linarith
  have h4 : (0 : ℝ) < 4 + S := by linarith
  have hSh0 : (0 : ℝ) < Sh := lt_of_lt_of_le (by norm_num) hSh
  obtain ⟨⟨l2, u2⟩, ⟨l3, u3⟩, ⟨l4, u4⟩, ⟨l5, u5⟩, ⟨l6, u6⟩, ⟨l7, u7⟩, ⟨l8, u8⟩⟩ := fenton_S_pows S hS hS'
  obtain ⟨⟨Shl1, Shu1⟩, ⟨Shl2, Shu2⟩, ⟨Shl3, Shu3⟩, ⟨Shl4, Shu4⟩, ⟨Shl5, Shu5⟩, ⟨Shl6, Shu6⟩, ⟨Shl7, Shu7⟩, ⟨Shl8, Shu8⟩⟩ := fenton_Sh_S_pows S Sh hS hS' hSh hSh'
  have hD : (0 : ℝ) < (64 * Sh * (3 + 2 * S) * (4 + S) * (1 - S) ^ 6) := by positivity
  rw [abs_le]
  constructor
  · rw [le_sub_iff_add_le, le_div_iff₀ hD]
    linear_combination 32 * hS +
      13232 * l2 +
      21712 * l3 +
      20940 * l4 +
      12554 * l5 +
      500 * u6 +
      3341 * u7 +
      670 * u8 +
      (1301618607 / 15625 : ℝ) * hSh' +
      (26466245009 / 62500 : ℝ) * Shl1 +
      (12582313201 / 15625 : ℝ) * Shu2 +
      (37746939603 / 62500 : ℝ) * Shl3 +
      (433872869 / 6250 : ℝ) * Shl4 +
      (22995262057 / 62500 : ℝ) * Shu5 +
      (2603237214 / 15625 : ℝ) * Shl6 +
      (433872869 / 62500 : ℝ) * Shl7 +
      (433872869 / 31250 : ℝ) * Shu8
  · rw [sub_le_iff_le_add, div_le_iff₀ hD]
    linear_combination 32 * hS' +
      13232 * u2 +
      21712 * u3 +
      20940 * u4 +
      12554 * u5 +
      500 * l6 +
      3341 * l7 +
      670 * l8 +
      (1301621007 / 15625 : ℝ) * hSh +
      (26466293809 / 62500 : ℝ) * Shu1 +
      (12582336401 / 15625 : ℝ) * Shl2 +
      (37747009203 / 62500 : ℝ) * Shu3 +
      (433873669 / 6250 : ℝ) * Shu4 +
      (22995304457 / 62500 : ℝ) * Shl5 +
      (2603242014 / 15625 : ℝ) * Shu6 +
      (433873669 / 62500 : ℝ) * Shu7 +
      (433873669 / 31250 : ℝ) * Shl8

/-- The Fenton coefficient `a53` at `kd = 0.753982` is within `1e-4` of its table value. -/
theorem fenton_a53 (S Sh : ℝ) (hS : (0.4220402987066 : ℝ) ≤ S) (hS' : S ≤ 0.4220402987067)
    (hSh : (0.82747869386866 : ℝ) ≤ Sh) (hSh' : Sh ≤ 0.82747869386867) :
    |(4 * S + 105 * S ^ 2 + 198 * S ^ 3 - 1376 * S ^ 4 - 1302 * S ^ 5 - 117 * S ^ 6 +
          58 * S ^ 7) /
        (32 * Sh * (3 + 2 * S) * (1 - S) ^ 6) - (-6.941756)| ≤ 1e-4 := by
  have h1 : (0 : ℝ) < 1 - S := by linarith
  have h3 : (0 : ℝ) < 3 + 2 * S := by linarith
  have h4 : (0 : ℝ) < 4 + S := by linarith
  have hSh0 : (0 : ℝ) < Sh := lt_of_lt_of_le (by norm_num) hSh
  obtain ⟨⟨l2, u2⟩, ⟨l3, u3⟩, ⟨l4, u4⟩, ⟨l5, u5⟩, ⟨l6, u6⟩, ⟨l7, u7⟩, ⟨l8, u8⟩⟩ := fenton_S_pows S hS hS'
  obtain ⟨⟨Shl1, Shu1⟩, ⟨Shl2, Shu2⟩, ⟨Shl3, Shu3⟩, ⟨Shl4, Shu4⟩, ⟨Shl5, Shu5⟩, ⟨Shl6, Shu6⟩, ⟨Shl7, Shu7⟩, ⟨Shl8, Shu8⟩⟩ := fenton_Sh_S_pows S Sh hS hS' hSh hSh'
  have hD : (0 : ℝ) < (32 * Sh * (3 + 2 * S) * (1 - S) ^ 6) := by positivity
  rw [abs_le]
  constructor
  · rw [le_sub_iff_add_le, le_div_iff₀ hD]
    linear_combination 4 * hS +
      105 * l2 +
      198 * l3 +
      1376 * u4 +
      1302 * u5 +
      117 * u6 +
      58 * l7 +
      (10412784 / 15625 : ℝ) * hSh +
      (55534848 / 15625 : ℝ) * Shu1 +
      (114540624 / 15625 : ℝ) * Shl2 +
      (20825568 / 3125 : ℝ) * Shu3 +
      (3470928 / 3125 : ℝ) * Shl4 +
      (41651136 / 15625 : ℝ) * Shl5 +
      (31238352 / 15625 : ℝ) * Shu6 +
      (6941856 / 15625 : ℝ) * Shl7
  · rw [sub_le_iff_le_add, div_le_iff₀ hD]
    linear_combination 4 * hS' +
      105 * u2 +
      198 * u3 +
      1376 * l4 +
      1302 * l5 +
      117 * l6 +
      58 * u7 +
      (10412484 / 15625 : ℝ) * hSh' +
      (55533248 / 15625 : ℝ) * Shl1 +
      (114537324 / 15625 : ℝ) * Shu2 +
      (20824968 / 3125 : ℝ) * Shl3 +
      (3470828 / 3125 : ℝ) * Shu4 +
      (41649936 / 15625 : ℝ) * Shu5 +
      (31237452 / 15625 : ℝ) * Shl6 +
      (6941656 / 15625 : ℝ) * Shu7

/-- The Fenton coefficient `a55` at `kd = 0.753982` is within `1e-4` of its table value. -/
theorem fenton_a55 (S Sh : ℝ) (hS : (0.4220402987066 : ℝ) ≤ S) (hS' : S ≤ 0.4220402987067)
    (hSh : (0.82747869386866 : ℝ) ≤ Sh) (hSh' : Sh ≤ 0.82747869386867) :
    |(-6 * S ^ 3 + 272 * S ^ 4 - 1552 * S ^ 5 + 852 * S ^ 6 + 2029 * S ^ 7 + 430 * S ^ 8) /
        (64 * Sh * (3 + 2 * S) * (4 + S) * (1 - S) ^ 6) - (-0.074979)| ≤ 1e-4 := by
  have h1 : (0 : ℝ) < 1 - S := by linarith
  have h3 : (0 : ℝ) < 3 + 2 * S := by linarith
  have h4 : (0 : ℝ) < 4 + S := by linarith
  have hSh0 : (0 : ℝ) < Sh := lt_of_lt_of_le (by norm_num) hSh
  obtain ⟨⟨l2, u2⟩, ⟨l3, u3⟩, ⟨l4, u4⟩, ⟨l5, u5⟩, ⟨l6, u6⟩, ⟨l7, u7⟩, ⟨l8, u8⟩⟩ := fenton_S_pows S hS hS'
  obtain ⟨⟨Shl1, Shu1⟩, ⟨Shl2, Shu2⟩, ⟨Shl3, Shu3⟩, ⟨Shl4, Shu4⟩, ⟨Shl5, Shu5⟩, ⟨Shl6, Shu6⟩, ⟨Shl7, Shu7⟩, ⟨Shl8, Shu8⟩⟩ := fenton_Sh_S_pows S Sh hS hS' hSh hSh'
  have hD : (0 : ℝ) < (64 * Sh * (3 + 2 * S) * (4 + S) * (1 - S) ^ 6) := by positivity
  rw [abs_le]
  constructor
  · rw [le_sub_iff_add_le, le_div_iff₀ hD]
    linear_combination 6 * u3 +
      272 * l4 +
      1552 * u5 +
      852 * l6 +
      2029 * l7 +
      430 * l8 +
      (900948 / 15625 : ℝ) * hSh +
      (4579819 / 15625 : ℝ) * Shu1 +
      (8709164 / 15625 : ℝ) * Shl2 +
      (6531873 / 15625 : ℝ) * Shu3 +
      (150158 / 3125 : ℝ) * Shu4 +
      (3979187 / 15625 : ℝ) * Shl5 +
      (1801896 / 15625 : ℝ) * Shu6 +
      (75079 / 15625 : ℝ) * Shu7 +
      (150158 / 15625 : ℝ) * Shl8
  · rw [sub_le_iff_le_add, div_le_iff₀ hD]
    linear_combination 6 * l3 +
      272 * u4 +
      1552 * l5 +
      852 * u6 +
      2029 * u7 +
      430 * u8 +
      (898548 / 15625 : ℝ) * hSh' +
      (4567619 / 15625 : ℝ) * Shl1 +
      (8685964 / 15625 : ℝ) * Shu2 +
      (6514473 / 15625 : ℝ) * Shl3 +
      (149758 / 3125 : ℝ) * Shl4 +
      (3968587 / 15625 : ℝ) * Shu5 +
      (1797096 / 15625 : ℝ) * Shl6 +
      (74879 / 15625 : ℝ) * Shl7 +
      (149758 / 15625 : ℝ) * Shu8

/-- The Fenton coefficient `b53` at `kd = 0.753982` is within `1e-4` of its table value. -/
theorem fenton_b53 (S : ℝ) (hS : (0.4220402987066 : ℝ) ≤ S) (hS' : S ≤ 0.4220402987067) :
    |9 * (132 + 17 * S - 2216 * S ^ 2 - 5897 * S ^ 3 - 6292 * S ^ 4 - 2687 * S ^ 5 +
          194 * S ^ 6 + 467 * S ^ 7 + 82 * S ^ 8) /
        (128 * (3 + 2 * S) * (4 + S) * (1 - S) ^ 6) - (-103.44536875)| ≤ 1e-4 := by
  have h1 : (0 : ℝ) < 1 - S := by linarith
  have h3 : (0 : ℝ) < 3 + 2 * S := by linarith
  have h4 : (0 : ℝ) < 4 + S := by linarith
  obtain ⟨⟨l2, u2⟩, ⟨l3, u3⟩, ⟨l4, u4⟩, ⟨l5, u5⟩, ⟨l6, u6⟩, ⟨l7, u7⟩, ⟨l8, u8⟩⟩ := fenton_S_pows S hS hS'
  have hD : (0 : ℝ) < (128 * (3 + 2 * S) * (4 + S) * (1 - S) ^ 6) := by positivity
  rw [abs_le]
  constructor
  · rw [le_sub_iff_add_le, le_div_iff₀ hD]
    linear_combination (40377461 / 50 : ℝ) * hS' +
      (37900358 / 25 : ℝ) * l2 +
      (60252087 / 50 : ℝ) * u3 +
      (945191 / 5 : ℝ) * u4 +
      (33879553 / 50 : ℝ) * l5 +
      (7900962 / 25 : ℝ) * u6 +
      (451901 / 50 : ℝ) * u7 +
      (680501 / 25 : ℝ) * l8
  · rw [sub_le_iff_le_add, div_le_iff₀ hD]
    linear_combination (1009434573 / 1250 : ℝ) * hS +
      (947507094 / 625 : ℝ) * u2 +
      (1506299391 / 1250 : ℝ) * l3 +
      (23629743 / 125 : ℝ) * l4 +
      (846987129 / 1250 : ℝ) * u5 +
      (197523666 / 625 : ℝ) * l6 +
      (11297493 / 1250 : ℝ) * l7 +
      (17012493 / 625 : ℝ) * u8

/-- The Fenton coefficient `b55` at `kd = 0.753982` is within `1e-4` of its table value. -/
theorem fenton_b55 (S : ℝ) (hS : (0.4220402987066 : ℝ) ≤ S) (hS' : S ≤ 0.4220402987067) :
    |5 * (300 + 1579 * S + 3176 * S ^ 2 + 2949 * S ^ 3 + 1188 * S ^ 4 + 675 * S ^ 5 +
          1326 * S ^ 6 + 827 * S ^ 7 + 130 * S ^ 8) /
        (384 * (3 + 2 * S) * (4 + S) * (1 - S) ^ 6) - (37.200027)| ≤ 1e-4 := by
  have h1 : (0 : ℝ) < 1 - S := by linarith
  have h3 : (0 : ℝ) < 3 + 2 * S := by linarith
  have h4 : (0 : ℝ) < 4 + S := by linarith
  obtain ⟨⟨l2, u2⟩, ⟨l3, u3⟩, ⟨l4, u4⟩, ⟨l5, u5⟩, ⟨l6, u6⟩, ⟨l7, u7⟩, ⟨l8, u8⟩⟩ := fenton_S_pows S hS hS'
  have hD : (0 : ℝ) < (384 * (3 + 2 * S) * (4 + S) * (1 - S) ^ 6) := by positivity
  rw [abs_le]
  constructor
  · rw [le_sub_iff_add_le, le_div_iff₀ hD]
    linear_combination (13738532657 / 15625 : ℝ) * hS +
      (25643024192 / 15625 : ℝ) * u2 +
      (19648752519 / 15625 : ℝ) * l3 +
      (464961624 / 3125 : ℝ) * l4 +
      (11776842411 / 15625 : ℝ) * u5 +
      (5460383238 / 15625 : ℝ) * l6 +
      (287808937 / 15625 : ℝ) * l7 +
      (436242874 / 15625 : ℝ) * u8
  · rw [sub_le_iff_le_add, div_le_iff₀ hD]
    linear_combination (13738605857 / 15625 : ℝ) * hS' +
      (25643163392 / 15625 : ℝ) * l2 +
      (19648856919 / 15625 : ℝ) * u3 +
      (464964024 / 3125 : ℝ) * u4 +
      (11776906011 / 15625 : ℝ) * l5 +
      (5460412038 / 15625 : ℝ) * u6 +
      (287810137 / 15625 : ℝ) * u7 +
      (436245274 / 15625 : ℝ) * l8

/-- The Fenton coefficient `c0` at `kd = 0.753982` is within `1e-4` of its table value. -/
theorem fenton_c0 (c0 : ℝ) (hc : (0.7984475884169 : ℝ) ≤ c0) (hc' : c0 ≤ 0.7984475884171) :
    |c0 - (0.798448)| ≤ 1e-4 := by
  rw [abs_le]
  constructor <;> linarith

/-- C17. `stokes_coefficients`: for order 5, wavenumber `k = 2.0` and depth
`d = 0.376991`, each of the 18 generated coefficients is within `1e-4`
(absolute) of the gold value of the unit test, taken from Table 2 of Fenton
(1985). -/
theorem C17_stokes_coefficients_gold :
    |(stokes_coefficients Libm.real 5 2.0 0.376991).a11 - (WaveTheoriesTest.gold (α := ℝ)).a11| ≤ 1e-4 ∧
    |(stokes_coefficients Libm.real 5 2.0 0.376991).a22 - (WaveTheoriesTest.gold (α := ℝ)).a22| ≤ 1e-4 ∧
    |(stokes_coefficients Libm.real 5 2.0 0.376991).a31 - (WaveTheoriesTest.gold (α := ℝ)).a31| ≤ 1e-4 ∧
    |(stokes_coefficients Libm.real 5 2.0 0.376991).a33 - (WaveTheoriesTest.gold (α := ℝ)).a33| ≤ 1e-4 ∧
    |(stokes_coefficients Libm.real 5 2.0 0.376991).a42 - (WaveTheoriesTest.gold (α := ℝ)).a42| ≤ 1e-4 ∧
    |(stokes_coefficients Libm.real 5 2.0 0.376991).a44 - (WaveTheoriesTest.gold (α := ℝ)).a44| ≤ 1e-4 ∧
    |(stokes_coefficients Libm.real 5 2.0 0.376991).a51 - (WaveTheoriesTest.gold (α := ℝ)).a51| ≤ 1e-4 ∧
    |(stokes_coefficients Libm.real 5 2.0 0.376991).a53 - (WaveTheoriesTest.gold (α := ℝ)).a53| ≤ 1e-4 ∧
    |(stokes_coefficients Libm.real 5 2.0 0.376991).a55 - (WaveTheoriesTest.gold (α := ℝ)).a55| ≤ 1e-4 ∧
    |(stokes_coefficients Libm.real 5 2.0 0.376991).b22 - (WaveTheoriesTest.gold (α := ℝ)).b22| ≤ 1e-4 ∧
    |(stokes_coefficients Libm.real 5 2.0 0.376991).b31 - (WaveTheoriesTest.gold (α := ℝ)).b31| ≤ 1e-4 ∧
    |(stokes_coefficients Libm.real 5 2.0 0.376991).b42 - (WaveTheoriesTest.gold (α := ℝ)).b42| ≤ 1e-4 ∧
    |(stokes_coefficients Libm.real 5 2.0 0.376991).b44 - (WaveTheoriesTest.gold (α := ℝ)).b44| ≤ 1e-4 ∧
    |(stokes_coefficients Libm.real 5 2.0 0.376991).b53 - (WaveTheoriesTest.gold (α := ℝ)).b53| ≤ 1e-4 ∧
    |(stokes_coefficients Libm.real 5 2.0 0.376991).b55 - (WaveTheoriesTest.gold (α := ℝ)).b55| ≤ 1e-4 ∧
    |(stokes_coefficients Libm.real 5 2.0 0.376991).c0 - (WaveTheoriesTest.gold (α := ℝ)).c0| ≤ 1e-4 ∧
    |(stokes_coefficients Libm.real 5 2.0 0.376991).c2 - (WaveTheoriesTest.gold (α := ℝ)).c2| ≤ 1e-4 ∧
    |(stokes_coefficients Libm.real 5 2.0 0.376991).c4 - (WaveTheoriesTest.gold (α := ℝ)).c4| ≤ 1e-4 := by
  obtain ⟨⟨hS, hS'⟩, ⟨hSh, hSh'⟩, ⟨hQ, hQ'⟩, ⟨hc, hc'⟩⟩ := fenton_base
  refine ⟨?_, ?_, ?_, ?_, ?_, ?_, ?_, ?_, ?_, ?_, ?_, ?_, ?_, ?_, ?_, ?_, ?_, ?_⟩
  · exact fenton_a11 _ _ hS hS' hSh hSh'
  · exact fenton_a22 _ hS hS'
  · exact fenton_a31 _ _ hS hS' hSh hSh'
  · exact fenton_a33 _ _ hS hS' hSh hSh'
  · exact fenton_a42 _ hS hS'
  · exact fenton_a44 _ hS hS'
  · exact fenton_a51 _ _ hS hS' hSh hSh'
  · exact fenton_a53 _ _ hS hS' hSh hSh'
  · exact fenton_a55 _ _ hS hS' hSh hSh'
  · exact fenton_b22 _ _ hS hS' hQ hQ'
  · exact fenton_b31 _ hS hS'
  · exact fenton_b42 _ _ hS hS' hQ hQ'
  · exact fenton_b44 _ _ hS hS' hQ hQ'
  · exact fenton_b53 _ hS hS'
  · exact fenton_b55 _ hS hS'
  · exact fenton_c0 _ hc hc'
  · exact fenton_c2 _ _ hS hS' hc hc'
  · exact fenton_c4 _ _ hS hS' hc hc'

/-! ## Stokes velocities at the finite-depth point -/

/-- The cosine of the real math library. -/
theorem Libm.real_cos : Libm.real.cos = Real.cos := rfl
/-- The sine of the real math library. -/
theorem Libm.real_sin : Libm.real.sin = Real.sin := rfl
/-- The hyperbolic cosine of the real math library. -/
theorem Libm.real_cosh : Libm.real.cosh = Real.cosh := rfl
/-- The hyperbolic sine of the real math library. -/
theorem Libm.real_sinh : Libm.real.sinh = Real.sinh := rfl
/-- The hyperbolic tangent of the real math library. -/
theorem Libm.real_tanh : Libm.real.tanh = Real.tanh := rfl
/-- The square root of the real math library. -/
theorem Libm.real_sqrt : Libm.real.sqrt = Real.sqrt := rfl
/-- The exponential of the real math library. -/
theorem Libm.real_exp : Libm.real.exp = Real.exp := rfl
/-- The constant `M_PI` of the real math library. -/
theorem Libm.real_pi : Libm.real.pi = Real.pi := rfl

/-- The hyperbolic cosine is at most 2.72 on `[-1.4, 1.4]`. -/
theorem cosh_le_of_abs_le (y : ℝ) (h : |y| ≤ 1.4) : Real.cosh y ≤ 2.72 := by
  have h1 : y ^ 2 / 2 ≤ 1 := by
    have := sq_abs y
    have h0 := abs_nonneg y
    nlinarith
  calc Real.cosh y ≤ Real.exp (y ^ 2 / 2) := Real.cosh_le_exp_half_sq y
    _ ≤ Real.exp 1 := Real.exp_le_exp.2 h1
    _ ≤ 2.72 := le_trans Real.exp_one_lt_d9.le (by norm_num)

/-- The wavenumber recovered from the wavelength `2 pi / k`. -/
theorem wavenumber_of_wavelength (k : ℝ) : 2 * Real.pi / (2 * Real.pi / k) = k := by
  have h : (2 : ℝ) * Real.pi ≠ 0 := mul_ne_zero two_ne_zero Real.pi_ne_zero
  rw [div_div_eq_mul_div, mul_comm, mul_div_assoc, div_self h, mul_one]

/-- Bounds on `sqrt(g/k)` for `g = 9.81`, `k = 2.0`. -/
theorem sqrt_g_over_k : 0 ≤ Real.sqrt (9.81 / 2.0) ∧ Real.sqrt (9.81 / 2.0) ≤ 2.22 := by
  refine ⟨Real.sqrt_nonneg _, ?_⟩
  rw [Real.sqrt_le_left (by norm_num)]
  norm_num

/-- A product of three bounded non-negative factors times a small difference
is small. -/
theorem abs_prod_le (c s h a g : ℝ) (hc : 0 ≤ c) (hc' : c ≤ 0.8) (hs : 0 ≤ s) (hs' : s ≤ 2.22)
    (hh : 0 ≤ h) (hh' : h ≤ 2.72) (ha : |a - g| ≤ 1e-4) :
    |c * s * h * (a - g)| ≤ 4.83072 * 1e-4 := by
  have h1 : c * s ≤ 0.8 * 2.22 := mul_le_mul hc' hs' hs (by norm_num)
  have h2 : c * s * h ≤ 0.8 * 2.22 * 2.72 :=
    mul_le_mul h1 hh' hh (by norm_num)
  have h0 : 0 ≤ c * s * h := mul_nonneg (mul_nonneg hc hs) hh
  rw [abs_mul, abs_of_nonneg h0]
  calc c * s * h * |a - g| ≤ 0.8 * 2.22 * 2.72 * 1e-4 :=
        mul_le_mul h2 ha (abs_nonneg _) (by norm_num)
    _ = 4.83072 * 1e-4 := by norm_num

/-- The horizontal velocity of the fifth-order evaluation at the finite-depth
point of `StokesWavesVelocityComponents` is within 1e-4 of the test's own
series with the tabulated `A` coefficients. -/
theorem stokes_u_w_close :
    |(stokes_waves Libm.real 5 (2 * Real.pi / 2.0) 0.376991 0.1 0 9.81 0 (-0.25) 0 0).u_w -
        WaveTheoriesTest.horizontal_velocity Libm.real WaveTheoriesTest.gold 5 2.0 0.376991 0.1 0
          9.81 (-0.25)
          (WaveTheoriesTest.phase Libm.real 2.0 0.1 9.81 0 0 0
            (WaveTheoriesTest.C0 Libm.real 2.0 0.376991)
            (WaveTheoriesTest.C2 Libm.real 2.0 0.376991)
            (WaveTheoriesTest.C4 Libm.real 2.0 0.376991))
          (WaveTheoriesTest.C0 Libm.real 2.0 0.376991)| ≤ 1e-4 := by
  have hph : WaveTheoriesTest.phase Libm.real 2.0 0.1 9.81 0 0 0
      (WaveTheoriesTest.C0 Libm.real 2.0 0.376991)
      (WaveTheoriesTest.C2 Libm.real 2.0 0.376991)
      (WaveTheoriesTest.C4 Libm.real 2.0 0.376991) = 0 := by
    simp only [WaveTheoriesTest.phase, mul_zero, sub_zero]
  rw [hph]
  obtain ⟨⟨hS, hS'⟩, ⟨hSh, hSh'⟩, ⟨hQ, hQ'⟩, ⟨hc, hc'⟩⟩ := fenton_base
  have h11 : |(stokes_coefficients Libm.real 5 2.0 0.376991).a11 -
      (WaveTheoriesTest.gold (α := ℝ)).a11| ≤ 1e-4 := fenton_a11 _ _ hS hS' hSh hSh'
  have h31 : |(stokes_coefficients Libm.real 5 2.0 0.376991).a31 -
      (WaveTheoriesTest.gold (α := ℝ)).a31| ≤ 1e-4 := fenton_a31 _ _ hS hS' hSh hSh'
  have h51 : |(stokes_coefficients Libm.real 5 2.0 0.376991).a51 -
      (WaveTheoriesTest.gold (α := ℝ)).a51| ≤ 1e-4 := fenton_a51 _ _ hS hS' hSh hSh'
  have h22 : |(stokes_coefficients Libm.real 5 2.0 0.376991).a22 -
      (WaveTheoriesTest.gold (α := ℝ)).a22| ≤ 1e-4 := fenton_a22 _ hS hS'
  have h42 : |(stokes_coefficients Libm.real 5 2.0 0.376991).a42 -
      (WaveTheoriesTest.gold (α := ℝ)).a42| ≤ 1e-4 := fenton_a42 _ hS hS'
  have h33 : |(stokes_coefficients Libm.real 5 2.0 0.376991).a33 -
      (WaveTheoriesTest.gold (α := ℝ)).a33| ≤ 1e-4 := fenton_a33 _ _ hS hS' hSh hSh'
  have h53 : |(stokes_coefficients Libm.real 5 2.0 0.376991).a53 -
      (WaveTheoriesTest.gold (α := ℝ)).a53| ≤ 1e-4 := fenton_a53 _ _ hS hS' hSh hSh'
  have h44 : |(stokes_coefficients Libm.real 5 2.0 0.376991).a44 -
      (WaveTheoriesTest.gold (α := ℝ)).a44| ≤ 1e-4 := fenton_a44 _ hS hS'
  have h55 : |(stokes_coefficients Libm.real 5 2.0 0.376991).a55 -
      (WaveTheoriesTest.gold (α := ℝ)).a55| ≤ 1e-4 := fenton_a55 _ _ hS hS' hSh hSh'
  have hc0 : (stokes_coefficients Libm.real 5 2.0 0.376991).c0 =
      Real.sqrt (Real.tanh (2.0 * 0.376991)) := rfl
  have hc0l : (0 : ℝ) ≤ Real.sqrt (Real.tanh (2.0 * 0.376991)) := Real.sqrt_nonneg _
  have hc0u : Real.sqrt (Real.tanh (2.0 * 0.376991)) ≤ 0.8 := le_trans hc' (by norm_num)
  obtain ⟨hsq, hsq'⟩ := sqrt_g_over_k
  simp only [stokes_waves, List.range_succ, List.range_zero, List.nil_append, List.cons_append,
    List.map_cons, List.map_nil, List.sum_cons, List.sum_nil, stokes_velocity_coefficient,
    Nat.cast_zero, Nat.cast_one, Nat.cast_ofNat, mul_zero, sub_zero, Real.cos_zero,
    Libm.real_cos, Libm.real_cosh, Libm.real_sqrt, Libm.real_pi,
    zero_add, mul_one, add_zero,
    WaveTheoriesTest.horizontal_velocity, WaveTheoriesTest.a, List.range', List.foldl_cons,
    List.foldl_nil, WaveTheoriesTest.C0, Libm.real_tanh,
    wavenumber_of_wavelength 2.0, hc0]
  rw [show (1 : ℝ) * 2.0 * (0.376991 + -0.25) = 0.253982 by norm_num,
    show ((1 : ℝ) + 1) * 2.0 * (0.376991 + -0.25) = 0.507964 by norm_num,
    show ((2 : ℝ) + 1) * 2.0 * (0.376991 + -0.25) = 0.761946 by norm_num,
    show ((3 : ℝ) + 1) * 2.0 * (0.376991 + -0.25) = 1.015928 by norm_num,
    show ((4 : ℝ) + 1) * 2.0 * (0.376991 + -0.25) = 1.26991 by norm_num,
    show (2.0 : ℝ) * (0.376991 + -0.25) = 0.253982 by norm_num,
    show (((1 + 1 : ℕ) : ℝ) + 1) * 2.0 * (0.376991 + -0.25) = 0.761946 by norm_num,
    show (((1 + 1 + 1 : ℕ) : ℝ) + 1) * 2.0 * (0.376991 + -0.25) = 1.015928 by norm_num,
    show (((1 + 1 + 1 + 1 : ℕ) : ℝ) + 1) * 2.0 * (0.376991 + -0.25) = 1.26991 by norm_num]
  have b1 := cosh_le_of_abs_le 0.253982 (by rw [abs_of_nonneg] <;> norm_num)
  have b2 := cosh_le_of_abs_le 0.507964 (by rw [abs_of_nonneg] <;> norm_num)
  have b3 := cosh_le_of_abs_le 0.761946 (by rw [abs_of_nonneg] <;> norm_num)
  have b4 := cosh_le_of_abs_le 1.015928 (by rw [abs_of_nonneg] <;> norm_num)
  have b5 := cosh_le_of_abs_le 1.26991 (by rw [abs_of_nonneg] <;> norm_num)
  have p1 := (Real.cosh_pos 0.253982).le
  have p2 := (Real.cosh_pos 0.507964).le
  have p3 := (Real.cosh_pos 0.761946).le
  have p4 := (Real.cosh_pos 1.015928).le
  have p5 := (Real.cosh_pos 1.26991).le
  generalize Real.cosh 0.253982 = ch1 at *
  generalize Real.cosh 0.507964 = ch2 at *
  generalize Real.cosh 0.761946 = ch3 at *
  generalize Real.cosh 1.015928 = ch4 at *
  generalize Real.cosh 1.26991 = ch5 at *
  generalize Real.sqrt (Real.tanh (2.0 * 0.376991)) = c0 at *
  generalize Real.sqrt (9.81 / 2.0) = sq at *
  generalize (stokes_coefficients Libm.real 5 2.0 0.376991).a11 = a11 at *
  generalize (stokes_coefficients Libm.real 5 2.0 0.376991).a31 = a31 at *
  generalize (stokes_coefficients Libm.real 5 2.0 0.376991).a51 = a51 at *
  generalize (stokes_coefficients Libm.real 5 2.0 0.376991).a22 = a22 at *
  generalize (stokes_coefficients Libm.real 5 2.0 0.376991).a42 = a42 at *
  generalize (stokes_coefficients Libm.real 5 2.0 0.376991).a33 = a33 at *
  generalize (stokes_coefficients Libm.real 5 2.0 0.376991).a53 = a53 at *
  generalize (stokes_coefficients Libm.real 5 2.0 0.376991).a44 = a44 at *
  generalize (stokes_coefficients Libm.real 5 2.0 0.376991).a55 = a55 at *
  generalize (WaveTheoriesTest.gold (α := ℝ)).a11 = g11 at *
  generalize (WaveTheoriesTest.gold (α := ℝ)).a31 = g31 at *
  generalize (WaveTheoriesTest.gold (α := ℝ)).a51 = g51 at *
  generalize (WaveTheoriesTest.gold (α := ℝ)).a22 = g22 at *
  generalize (WaveTheoriesTest.gold (α := ℝ)).a42 = g42 at *
  generalize (WaveTheoriesTest.gold (α := ℝ)).a33 = g33 at *
  generalize (WaveTheoriesTest.gold (α := ℝ)).a53 = g53 at *
  generalize (WaveTheoriesTest.gold (α := ℝ)).a44 = g44 at *
  generalize (WaveTheoriesTest.gold (α := ℝ)).a55 = g55 at *
  have t11 := abs_le.1 (abs_prod_le c0 sq ch1 a11 g11 hc0l hc0u hsq hsq' p1 b1 h11)
  have t31 := abs_le.1 (abs_prod_le c0 sq ch1 a31 g31 hc0l hc0u hsq hsq' p1 b1 h31)
  have t51 := abs_le.1 (abs_prod_le c0 sq ch1 a51 g51 hc0l hc0u hsq hsq' p1 b1 h51)
  have t22 := abs_le.1 (abs_prod_le c0 sq ch2 a22 g22 hc0l hc0u hsq hsq' p2 b2 h22)
  have t42 := abs_le.1 (abs_prod_le c0 sq ch2 a42 g42 hc0l hc0u hsq hsq' p2 b2 h42)
  have t33 := abs_le.1 (abs_prod_le c0 sq ch3 a33 g33 hc0l hc0u hsq hsq' p3 b3 h33)
  have t53 := abs_le.1 (abs_prod_le c0 sq ch3 a53 g53 hc0l hc0u hsq hsq' p3 b3 h53)
  have t44 := abs_le.1 (abs_prod_le c0 sq ch4 a44 g44 hc0l hc0u hsq hsq' p4 b4 h44)
  have t55 := abs_le.1 (abs_prod_le c0 sq ch5 a55 g55 hc0l hc0u hsq hsq' p5 b5 h55)
  rw [abs_le]
  constructor
  · linear_combination (1 / 10 : ℝ) * t11.1 + (1 / 1000 : ℝ) * t31.1 + (1 / 100000 : ℝ) * t51.1 +
      (2 / 100 : ℝ) * t22.1 + (2 / 10000 : ℝ) * t42.1 + (3 / 1000 : ℝ) * t33.1 +
      (3 / 100000 : ℝ) * t53.1 + (4 / 10000 : ℝ) * t44.1 + (5 / 100000 : ℝ) * t55.1
  · linear_combination (1 / 10 : ℝ) * t11.2 + (1 / 1000 : ℝ) * t31.2 + (1 / 100000 : ℝ) * t51.2 +
      (2 / 100 : ℝ) * t22.2 + (2 / 10000 : ℝ) * t42.2 + (3 / 1000 : ℝ) * t33.2 +
      (3 / 100000 : ℝ) * t53.2 + (4 / 10000 : ℝ) * t44.2 + (5 / 100000 : ℝ) * t55.2

/-- The vertical velocity of the fifth-order evaluation at the finite-depth
point of `StokesWavesVelocityComponents` and the test's own series both vanish
there, the phase being zero. -/
theorem stokes_w_w_close :
    |(stokes_waves Libm.real 5 (2 * Real.pi / 2.0) 0.376991 0.1 0 9.81 0 (-0.25) 0 0).w_w -
        WaveTheoriesTest.vertical_velocity Libm.real WaveTheoriesTest.gold 5 2.0 0.376991 0.1 0
          9.81 (-0.25)
          (WaveTheoriesTest.phase Libm.real 2.0 0.1 9.81 0 0 0
            (WaveTheoriesTest.C0 Libm.real 2.0 0.376991)
            (WaveTheoriesTest.C2 Libm.real 2.0 0.376991)
            (WaveTheoriesTest.C4 Libm.real 2.0 0.376991))
          (WaveTheoriesTest.C0 Libm.real 2.0 0.376991)| ≤ 1e-4 := by
  have hph : WaveTheoriesTest.phase Libm.real 2.0 0.1 9.81 0 0 0
      (WaveTheoriesTest.C0 Libm.real 2.0 0.376991)
      (WaveTheoriesTest.C2 Libm.real 2.0 0.376991)
      (WaveTheoriesTest.C4 Libm.real 2.0 0.376991) = 0 := by
    simp only [WaveTheoriesTest.phase, mul_zero, sub_zero]
  rw [hph]
  simp only [stokes_waves, List.range_succ, List.range_zero, List.nil_append, List.cons_append,
    List.map_cons, List.map_nil, List.sum_cons, List.sum_nil,
    mul_zero, sub_zero, Real.sin_zero, Libm.real_sin, zero_mul, add_zero,
    WaveTheoriesTest.vertical_velocity, List.range', List.foldl_cons,
    List.foldl_nil, sub_self, abs_zero]
  norm_num

/-- Claim C19, at its witness (k = 2.0, d = 0.376991, H = 0.1, zsl = 0, x = 0,
z = -0.25, t = 0, phase_offset = 0, g = 9.81): the `u_w` and `w_w` returned by
the fifth-order `stokes_waves` are within 1e-4 of
`C0 sqrt(g/k) sum_n eps^n n a_n cosh(n k (d + z - zsl)) cos(n p)` and of the
same sum with `sinh` and `sin`, as `StokesWavesVelocityComponents` evaluates
them from the tabulated `A` coefficients and its own `C0`, over the reals. -/
theorem C19_stokes_velocities :
    |(stokes_waves Libm.real 5 (2 * Real.pi / 2.0) 0.376991 0.1 0 9.81 0 (-0.25) 0 0).u_w -
        WaveTheoriesTest.horizontal_velocity Libm.real WaveTheoriesTest.gold 5 2.0 0.376991 0.1 0
          9.81 (-0.25)
          (WaveTheoriesTest.phase Libm.real 2.0 0.1 9.81 0 0 0
            (WaveTheoriesTest.C0 Libm.real 2.0 0.376991)
            (WaveTheoriesTest.C2 Libm.real 2.0 0.376991)
            (WaveTheoriesTest.C4 Libm.real 2.0 0.376991))
          (WaveTheoriesTest.C0 Libm.real 2.0 0.376991)| ≤ 1e-4 ∧
      |(stokes_waves Libm.real 5 (2 * Real.pi / 2.0) 0.376991 0.1 0 9.81 0 (-0.25) 0 0).w_w -
        WaveTheoriesTest.vertical_velocity Libm.real WaveTheoriesTest.gold 5 2.0 0.376991 0.1 0
          9.81 (-0.25)
          (WaveTheoriesTest.phase Libm.real 2.0 0.1 9.81 0 0 0
            (WaveTheoriesTest.C0 Libm.real 2.0 0.376991)
            (WaveTheoriesTest.C2 Libm.real 2.0 0.376991)
            (WaveTheoriesTest.C4 Libm.real 2.0 0.376991))
          (WaveTheoriesTest.C0 Libm.real 2.0 0.376991)| ≤ 1e-4 :=
  ⟨stokes_u_w_close, stokes_w_w_close⟩

/-! ## Stokes coefficients in deep water, kd = 15.6 -/

/-- A lower bound on `exp(kd)` for `kd = 15.6`. -/
theorem deep_exp_kd : (2900000 : ℝ) ≤ Real.exp (0.156 * 100) := by
  have h1 : Real.exp ((15 : ℕ) * 1) ≤ Real.exp (0.156 * 100) :=
    Real.exp_le_exp.2 (by norm_num)
  rw [Real.exp_nat_mul] at h1
  have h2 : (2.7 : ℝ) ^ 15 ≤ Real.exp 1 ^ 15 :=
    pow_le_pow_left₀ (by norm_num) (le_trans (by norm_num) Real.exp_one_gt_d9.le) 15
  exact le_trans (le_trans (by norm_num) h2) h1

/-- Bounds on `S = 1/cosh(2kd)`, `coth(kd) = 1/tanh(kd)` and `sqrt(tanh(kd))`
for `kd = 15.6`. -/
theorem deep_base :
    ((0 : ℝ) ≤ 1 / Real.cosh (2 * (0.156 * 100)) ∧
        1 / Real.cosh (2 * (0.156 * 100)) ≤ 0.000000001) ∧
      ((1 : ℝ) ≤ 1 / Real.tanh (0.156 * 100) ∧
        1 / Real.tanh (0.156 * 100) ≤ 1.00000001) ∧
      ((0.999999999 : ℝ) ≤ Real.sqrt (Real.tanh (0.156 * 100)) ∧
        Real.sqrt (Real.tanh (0.156 * 100)) ≤ 1) := by
  have hE := deep_exp_kd
  have hpos : (0 : ℝ) < Real.exp (0.156 * 100) := Real.exp_pos _
  have hI0 : (0 : ℝ) < (Real.exp (0.156 * 100))⁻¹ := inv_pos.2 hpos
  have hI : (Real.exp (0.156 * 100))⁻¹ ≤ 0.000001 := by
    rw [← one_div, div_le_iff₀ hpos]
    linarith
  have hEE : (1000000000 : ℝ) ≤ Real.exp (0.156 * 100) * Real.exp (0.156 * 100) :=
    le_trans (by norm_num) (mul_le_mul hE hE (by norm_num) hpos.le)
  have hII : (0 : ℝ) ≤ (Real.exp (0.156 * 100))⁻¹ * (Real.exp (0.156 * 100))⁻¹ :=
    mul_nonneg hI0.le hI0.le
  have h2 : Real.exp (2 * (0.156 * 100)) =
      Real.exp (0.156 * 100) * Real.exp (0.156 * 100) := by
    rw [two_mul, Real.exp_add]
  have h2n : Real.exp (-(2 * (0.156 * 100))) =
      (Real.exp (0.156 * 100))⁻¹ * (Real.exp (0.156 * 100))⁻¹ := by
    rw [Real.exp_neg, h2, mul_inv]
  have hd : (1000000000 : ℝ) ≤ Real.cosh (2 * (0.156 * 100)) := by
    rw [Real.cosh_eq, h2, h2n]
    have : (2000000000 : ℝ) ≤ Real.exp (0.156 * 100) * Real.exp (0.156 * 100) :=
      le_trans (by norm_num) (mul_le_mul hE hE (by norm_num) hpos.le)
    linarith
  have hd0 : (0 : ℝ) < Real.cosh (2 * (0.156 * 100)) := Real.cosh_pos _
  have hc0 : (0 : ℝ) < Real.cosh (0.156 * 100) := Real.cosh_pos _
  have hs : Real.sinh (0.156 * 100) =
      (Real.exp (0.156 * 100) - (Real.exp (0.156 * 100))⁻¹) / 2 := by
    rw [Real.sinh_eq, Real.exp_neg]
  have hc : Real.cosh (0.156 * 100) =
      (Real.exp (0.156 * 100) + (Real.exp (0.156 * 100))⁻¹) / 2 := by
    rw [Real.cosh_eq, Real.exp_neg]
  have hs0 : (0 : ℝ) < Real.sinh (0.156 * 100) := by
    rw [hs]
    linarith
  have ht : (0.999999999 : ℝ) ≤ Real.tanh (0.156 * 100) := by
    rw [Real.tanh_eq_sinh_div_cosh, le_div_iff₀ hc0, hs, hc]
    linarith
  have ht' : Real.tanh (0.156 * 100) ≤ 1 := by
    rw [Real.tanh_eq_sinh_div_cosh, div_le_iff₀ hc0, hs, hc]
    linarith
  refine ⟨⟨by positivity, ?_⟩, ⟨?_, ?_⟩, ⟨?_, ?_⟩⟩
  · rw [div_le_iff₀ hd0]
    linarith
  · rw [Real.tanh_eq_sinh_div_cosh, one_div_div, le_div_iff₀ hs0, hs, hc]
    linarith
  · rw [Real.tanh_eq_sinh_div_cosh, one_div_div, div_le_iff₀ hs0, hs, hc]
    linarith
  · exact Real.le_sqrt_of_sq_le (le_trans (by norm_num) ht)
  · rw [Real.sqrt_le_left (by norm_num)]
    exact le_trans ht' (by norm_num)

/-- The cosine is 1-Lipschitz. -/
theorem abs_cos_sub_cos_le (u v : ℝ) : |Real.cos u - Real.cos v| ≤ |u - v| := by
  rw [Real.cos_sub_cos, abs_mul, abs_mul]
  have h1 : |Real.sin ((u + v) / 2)| ≤ 1 := Real.abs_sin_le_one _
  have h2 : |Real.sin ((u - v) / 2)| ≤ |(u - v) / 2| := Real.abs_sin_le_abs
  have h3 : |(u - v) / 2| = |u - v| / 2 := by
    rw [abs_div, abs_of_pos (by norm_num : (0 : ℝ) < 2)]
  have h4 : |(-2 : ℝ)| = 2 := by norm_num
  rw [h4]
  have h5 := abs_nonneg (Real.sin ((u + v) / 2))
  have h6 := abs_nonneg (Real.sin ((u - v) / 2))
  calc 2 * |Real.sin ((u + v) / 2)| * |Real.sin ((u - v) / 2)|
      ≤ 2 * 1 * (|u - v| / 2) := by
        rw [← h3]
        exact mul_le_mul (mul_le_mul_of_nonneg_left h1 (by norm_num)) h2 h6 (by norm_num)
    _ = |u - v| := by ring

/-- A coefficient times a cosine changes little when both the coefficient and
the argument change little. -/
theorem cos_term_close (b g u v δ G ε : ℝ) (hb : |b - g| ≤ δ) (hg : |g| ≤ G)
    (huv : |u - v| ≤ ε) : |b * Real.cos u - g * Real.cos v| ≤ δ + G * ε := by
  have h1 : b * Real.cos u - g * Real.cos v =
      (b - g) * Real.cos u + g * (Real.cos u - Real.cos v) := by ring
  rw [h1]
  have h2 : |(b - g) * Real.cos u| ≤ δ := by
    rw [abs_mul]
    calc |b - g| * |Real.cos u| ≤ δ * 1 :=
          mul_le_mul hb (Real.abs_cos_le_one u) (abs_nonneg _) (le_trans (abs_nonneg _) hb)
      _ = δ := mul_one δ
  have h3 : |g * (Real.cos u - Real.cos v)| ≤ G * ε := by
    rw [abs_mul]
    exact mul_le_mul hg (le_trans (abs_cos_sub_cos_le u v) huv) (abs_nonneg _)
      (le_trans (abs_nonneg _) hg)
  exact le_trans (abs_add _ _) (add_le_add h2 h3)

/-- A multiple of the phase changes by that multiple of the change of the
phase. -/
theorem abs_mul_sub_le (n p q ε : ℝ) (hn : 0 ≤ n) (hn' : n ≤ 5) (h : |p - q| ≤ ε) :
    |n * p - n * q| ≤ 5 * ε := by
  rw [← mul_sub, abs_mul, abs_of_nonneg hn]
  exact mul_le_mul hn' h (abs_nonneg _) (by norm_num)

/-- Bounds on the powers of `S = 1/cosh(2kd)` for `kd = 15.6`. -/
theorem deep_S_pows (S : ℝ) (hS : (0 : ℝ) ≤ S) (hS' : S ≤ 0.000000001) :
    ((0 : ℝ) ≤ S ^ 2 ∧ S ^ 2 ≤ 0.000000000000000001) ∧
      ((0 : ℝ) ≤ S ^ 3 ∧ S ^ 3 ≤ 0.000000000000000000000001) ∧
      ((0 : ℝ) ≤ S ^ 4 ∧ S ^ 4 ≤ 0.000000000000000000000001) ∧
      ((0 : ℝ) ≤ S ^ 5 ∧ S ^ 5 ≤ 0.000000000000000000000001) ∧
      ((0 : ℝ) ≤ S ^ 6 ∧ S ^ 6 ≤ 0.000000000000000000000001) ∧
      ((0 : ℝ) ≤ S ^ 7 ∧ S ^ 7 ≤ 0.000000000000000000000001) ∧
      ((0 : ℝ) ≤ S ^ 8 ∧ S ^ 8 ≤ 0.000000000000000000000001) := by
  have h0 : (0 : ℝ) ≤ S := le_trans (by norm_num) hS
  refine ⟨⟨?_, ?_⟩, ⟨?_, ?_⟩, ⟨?_, ?_⟩, ⟨?_, ?_⟩, ⟨?_, ?_⟩, ⟨?_, ?_⟩, ⟨?_, ?_⟩⟩
  · exact le_trans (by norm_num) (pow_le_pow_left₀ (by norm_num) hS 2)
  · exact le_trans (pow_le_pow_left₀ h0 hS' 2) (by norm_num)
  · exact le_trans (by norm_num) (pow_le_pow_left₀ (by norm_num) hS 3)
  · exact le_trans (pow_le_pow_left₀ h0 hS' 3) (by norm_num)
  · exact le_trans (by norm_num) (pow_le_pow_left₀ (by norm_num) hS 4)
  · exact le_trans (pow_le_pow_left₀ h0 hS' 4) (by norm_num)
  · exact le_trans (by norm_num) (pow_le_pow_left₀ (by norm_num) hS 5)
  · exact le_trans (pow_le_pow_left₀ h0 hS' 5) (by norm_num)
  · exact le_trans (by norm_num) (pow_le_pow_left₀ (by norm_num) hS 6)
  · exact le_trans (pow_le_pow_left₀ h0 hS' 6) (by norm_num)
  · exact le_trans (by norm_num) (pow_le_pow_left₀ (by norm_num) hS 7)
  · exact le_trans (pow_le_pow_left₀ h0 hS' 7) (by norm_num)
  · exact le_trans (by norm_num) (pow_le_pow_left₀ (by norm_num) hS 8)
  · exact le_trans (pow_le_pow_left₀ h0 hS' 8) (by norm_num)

/-- Bounds on `coth(kd)` times the powers of `S` for `kd = 15.6`. -/
theorem deep_Q_S_pows (S Q : ℝ) (hS : (0 : ℝ) ≤ S) (hS' : S ≤ 0.000000001)
    (hT : (1 : ℝ) ≤ Q) (hT' : Q ≤ 1.00000001) :
    ((0 : ℝ) ≤ Q * S ∧ Q * S ≤ 0.00000000100000001) ∧
      ((0 : ℝ) ≤ Q * S ^ 2 ∧ Q * S ^ 2 ≤ 0.000000000000000001000001) ∧
      ((0 : ℝ) ≤ Q * S ^ 3 ∧ Q * S ^ 3 ≤ 0.000000000000000000000002) ∧
      ((0 : ℝ) ≤ Q * S ^ 4 ∧ Q * S ^ 4 ≤ 0.000000000000000000000002) ∧
      ((0 : ℝ) ≤ Q * S ^ 5 ∧ Q * S ^ 5 ≤ 0.000000000000000000000002) := by
  have h0 : (0 : ℝ) ≤ S := le_trans (by norm_num) hS
  have hT0 : (0 : ℝ) ≤ Q := le_trans (by norm_num) hT
  obtain ⟨⟨l2, u2⟩, ⟨l3, u3⟩, ⟨l4, u4⟩, ⟨l5, u5⟩, ⟨l6, u6⟩, ⟨l7, u7⟩, ⟨l8, u8⟩⟩ := deep_S_pows S hS hS'
  refine ⟨⟨?_, ?_⟩, ⟨?_, ?_⟩, ⟨?_, ?_⟩, ⟨?_, ?_⟩, ⟨?_, ?_⟩⟩
  · exact le_trans (by norm_num) (mul_le_mul hT hS (by norm_num) hT0)
  · exact le_trans (mul_le_mul hT' hS' (by positivity) (by norm_num)) (by norm_num)
  · exact le_trans (by norm_num) (mul_le_mul hT l2 (by norm_num) hT0)
  · exact le_trans (mul_le_mul hT' u2 (by positivity) (by norm_num)) (by norm_num)
  · exact le_trans (by norm_num) (mul_le_mul hT l3 (by norm_num) hT0)
  · exact le_trans (mul_le_mul hT' u3 (by positivity) (by norm_num)) (by norm_num)
  · exact le_trans (by norm_num) (mul_le_mul hT l4 (by norm_num) hT0)
  · exact le_trans (mul_le_mul hT' u4 (by positivity) (by norm_num)) (by norm_num)
  · exact le_trans (by norm_num) (mul_le_mul hT l5 (by norm_num) hT0)
  · exact le_trans (mul_le_mul hT' u5 (by positivity) (by norm_num)) (by norm_num)

/-- Bounds on `sqrt(tanh(kd))` times the powers of `S` for `kd = 15.6`. -/
theorem deep_c0_S_pows (S c0 : ℝ) (hS : (0 : ℝ) ≤ S) (hS' : S ≤ 0.000000001)
    (hT : (0.999999999 : ℝ) ≤ c0) (hT' : c0 ≤ 1) :
    ((0 : ℝ) ≤ c0 * S ∧ c0 * S ≤ 0.000000001) ∧
      ((0 : ℝ) ≤ c0 * S ^ 2 ∧ c0 * S ^ 2 ≤ 0.000000000000000001) ∧
      ((0 : ℝ) ≤ c0 * S ^ 3 ∧ c0 * S ^ 3 ≤ 0.000000000000000000000001) ∧
      ((0 : ℝ) ≤ c0 * S ^ 4 ∧ c0 * S ^ 4 ≤ 0.000000000000000000000001) ∧
      ((0 : ℝ) ≤ c0 * S ^ 5 ∧ c0 * S ^ 5 ≤ 0.000000000000000000000001) := by
  have h0 : (0 : ℝ) ≤ S := le_trans (by norm_num) hS
  have hT0 : (0 : ℝ) ≤ c0 := le_trans (by norm_num) hT
  obtain ⟨⟨l2, u2⟩, ⟨l3, u3⟩, ⟨l4, u4⟩, ⟨l5, u5⟩, ⟨l6, u6⟩, ⟨l7, u7⟩, ⟨l8, u8⟩⟩ := deep_S_pows S hS hS'
  refine ⟨⟨?_, ?_⟩, ⟨?_, ?_⟩, ⟨?_, ?_⟩, ⟨?_, ?_⟩, ⟨?_, ?_⟩⟩
  · exact le_trans (by norm_num) (mul_le_mul hT hS (by norm_num) hT0)
  · exact le_trans (mul_le_mul hT' hS' (by positivity) (by norm_num)) (by norm_num)
  · exact le_trans (by norm_num) (mul_le_mul hT l2 (by norm_num) hT0)
  · exact le_trans (mul_le_mul hT' u2 (by positivity) (by norm_num)) (by norm_num)
  · exact le_trans (by norm_num) (mul_le_mul hT l3 (by norm_num) hT0)
  · exact le_trans (mul_le_mul hT' u3 (by positivity) (by norm_num)) (by norm_num)
  · exact le_trans (by norm_num) (mul_le_mul hT l4 (by norm_num) hT0)
  · exact le_trans (mul_le_mul hT' u4 (by positivity) (by norm_num)) (by norm_num)
  · exact le_trans (by norm_num) (mul_le_mul hT l5 (by norm_num) hT0)
  · exact le_trans (mul_le_mul hT' u5 (by positivity) (by norm_num)) (by norm_num)

/-- The Fenton coefficient `b22` for `kd = 15.6` is within `1e-6` of its reference value. -/
theorem deep_b22 (S Q : ℝ) (hS : (0 : ℝ) ≤ S) (hS' : S ≤ 0.000000001)
    (hQ : (1 : ℝ) ≤ Q) (hQ' : Q ≤ 1.00000001) :
    |Q * (1 + 2 * S) / (2 * (1 - S)) - (0.5)| ≤ 1e-6 := by
  have h1 : (0 : ℝ) < 1 - S := by linarith
  have h3 : (0 : ℝ) < 3 + 2 * S := by linarith
  have h4 : (0 : ℝ) < 4 + S := by linarith
  obtain ⟨⟨l2, u2⟩, ⟨l3, u3⟩, ⟨l4, u4⟩, ⟨l5, u5⟩, ⟨l6, u6⟩, ⟨l7, u7⟩, ⟨l8, u8⟩⟩ := deep_S_pows S hS hS'
  obtain ⟨⟨Ql1, Qu1⟩, ⟨Ql2, Qu2⟩, ⟨Ql3, Qu3⟩, ⟨Ql4, Qu4⟩, ⟨Ql5, Qu5⟩⟩ := deep_Q_S_pows S Q hS hS' hQ hQ'
  have hD : (0 : ℝ) < (2 * (1 - S)) := by positivity
  rw [abs_le]
  constructor
  · rw [le_sub_iff_add_le, le_div_iff₀ hD]
    linear_combination (499999 / 500000 : ℝ) * hS +
      1 * hQ +
      2 * Ql1
  · rw [sub_le_iff_le_add, div_le_iff₀ hD]
    linear_combination (500001 / 500000 : ℝ) * hS' +
      1 * hQ' +
      2 * Qu1

/-- The Fenton coefficient `c2` for `kd = 15.6` is within `1e-6` of its reference value. -/
theorem deep_c2 (S c0 : ℝ) (hS : (0 : ℝ) ≤ S) (hS' : S ≤ 0.000000001)
    (hc : (0.999999999 : ℝ) ≤ c0) (hc' : c0 ≤ 1) :
    |c0 * (2 + 7 * S ^ 2) / (4 * (1 - S) ^ 2) - (0.5)| ≤ 1e-6 := by
  have h1 : (0 : ℝ) < 1 - S := by linarith
  have h3 : (0 : ℝ) < 3 + 2 * S := by linarith
  have h4 : (0 : ℝ) < 4 + S := by linarith
  obtain ⟨⟨l2, u2⟩, ⟨l3, u3⟩, ⟨l4, u4⟩, ⟨l5, u5⟩, ⟨l6, u6⟩, ⟨l7, u7⟩, ⟨l8, u8⟩⟩ := deep_S_pows S hS hS'
  obtain ⟨⟨c0l1, c0u1⟩, ⟨c0l2, c0u2⟩, ⟨c0l3, c0u3⟩, ⟨c0l4, c0u4⟩, ⟨c0l5, c0u5⟩⟩ := deep_c0_S_pows S c0 hS hS' hc hc'
  have hD : (0 : ℝ) < (4 * (1 - S) ^ 2) := by positivity
  rw [abs_le]
  constructor
  · rw [le_sub_iff_add_le, le_div_iff₀ hD]
    linear_combination (499999 / 125000 : ℝ) * hS +
      (499999 / 250000 : ℝ) * u2 +
      2 * hc +
      7 * c0l2
  · rw [sub_le_iff_le_add, div_le_iff₀ hD]
    linear_combination (500001 / 125000 : ℝ) * hS' +
      (500001 / 250000 : ℝ) * l2 +
      2 * hc' +
      7 * c0u2

/-- The Fenton coefficient `b31` for `kd = 15.6` is within `1e-6` of its reference value. -/
theorem deep_b31 (S : ℝ) (hS : (0 : ℝ) ≤ S) (hS' : S ≤ 0.000000001) :
    |-3 * (1 + 3 * S + 3 * S ^ 2 + 2 * S ^ 3) / (8 * (1 - S) ^ 3) - (-0.375)| ≤ 1e-6 := by
  have h1 : (0 : ℝ) < 1 - S := by linarith
  have h3 : (0 : ℝ) < 3 + 2 * S := by linarith
  have h4 : (0 : ℝ) < 4 + S := by linarith
  obtain ⟨⟨l2, u2⟩, ⟨l3, u3⟩, ⟨l4, u4⟩, ⟨l5, u5⟩, ⟨l6, u6⟩, ⟨l7, u7⟩, ⟨l8, u8⟩⟩ := deep_S_pows S hS hS'
  have hD : (0 : ℝ) < (8 * (1 - S) ^ 3) := by positivity
  rw [abs_le]
  constructor
  · rw [le_sub_iff_add_le, le_div_iff₀ hD]
    linear_combination (2250003 / 125000 : ℝ) * hS' +
      (3 / 125000 : ℝ) * l2 +
      (1125001 / 125000 : ℝ) * u3
  · rw [sub_le_iff_le_add, div_le_iff₀ hD]
    linear_combination (2249997 / 125000 : ℝ) * hS +
      (3 / 125000 : ℝ) * l2 +
      (1124999 / 125000 : ℝ) * l3

/-- The Fenton coefficient `b42` for `kd = 15.6` is within `1e-6` of its reference value. -/
theorem deep_b42 (S Q : ℝ) (hS : (0 : ℝ) ≤ S) (hS' : S ≤ 0.000000001)
    (hQ : (1 : ℝ) ≤ Q) (hQ' : Q ≤ 1.00000001) :
    |Q * (6 - 26 * S - 182 * S ^ 2 - 204 * S ^ 3 - 25 * S ^ 4 + 26 * S ^ 5) /
        (6 * (3 + 2 * S) * (1 - S) ^ 4) - (0.3333333)| ≤ 1e-6 := by
  have h1 : (0 : ℝ) < 1 - S := by linarith
  have h3 : (0 : ℝ) < 3 + 2 * S := by linarith
  have h4 : (0 : ℝ) < 4 + S := by linarith
  obtain ⟨⟨l2, u2⟩, ⟨l3, u3⟩, ⟨l4, u4⟩, ⟨l5, u5⟩, ⟨l6, u6⟩, ⟨l7, u7⟩, ⟨l8, u8⟩⟩ := deep_S_pows S hS hS'
  obtain ⟨⟨Ql1, Qu1⟩, ⟨Ql2, Qu2⟩, ⟨Ql3, Qu3⟩, ⟨Ql4, Qu4⟩, ⟨Ql5, Qu5⟩⟩ := deep_Q_S_pows S Q hS hS' hQ hQ'
  have hD : (0 : ℝ) < (6 * (3 + 2 * S) * (1 - S) ^ 4) := by positivity
  rw [abs_le]
  constructor
  · rw [le_sub_iff_add_le, le_div_iff₀ hD]
    linear_combination (9999969 / 500000 : ℝ) * hS +
      (9999969 / 500000 : ℝ) * u2 +
      (9999969 / 1000000 : ℝ) * l4 +
      (9999969 / 2500000 : ℝ) * u5 +
      6 * hQ +
      26 * Qu1 +
      182 * Qu2 +
      204 * Qu3 +
      25 * Qu4 +
      26 * Ql5
  · rw [sub_le_iff_le_add, div_le_iff₀ hD]
    linear_combination (10000029 / 500000 : ℝ) * hS' +
      (10000029 / 500000 : ℝ) * l2 +
      (10000029 / 1000000 : ℝ) * u4 +
      (10000029 / 2500000 : ℝ) * l5 +
      6 * hQ' +
      26 * Ql1 +
      182 * Ql2 +
      204 * Ql3 +
      25 * Ql4 +
      26 * Qu5

/-- The Fenton coefficient `b44` for `kd = 15.6` is within `1e-6` of its reference value. -/
theorem deep_b44 (S Q : ℝ) (hS : (0 : ℝ) ≤ S) (hS' : S ≤ 0.000000001)
    (hQ : (1 : ℝ) ≤ Q) (hQ' : Q ≤ 1.00000001) :
    |Q * (24 + 92 * S + 122 * S ^ 2 + 66 * S ^ 3 + 67 * S ^ 4 + 34 * S ^ 5) /
        (24 * (3 + 2 * S) * (1 - S) ^ 4) - (0.3333333)| ≤ 1e-6 := by
  have h1 : (0 : ℝ) < 1 - S := by linarith
  have h3 : (0 : ℝ) < 3 + 2 * S := by linarith
  have h4 : (0 : ℝ) < 4 + S := by linarith
  obtain ⟨⟨l2, u2⟩, ⟨l3, u3⟩, ⟨l4, u4⟩, ⟨l5, u5⟩, ⟨l6, u6⟩, ⟨l7, u7⟩, ⟨l8, u8⟩⟩ := deep_S_pows S hS hS'
  obtain ⟨⟨Ql1, Qu1⟩, ⟨Ql2, Qu2⟩, ⟨Ql3, Qu3⟩, ⟨Ql4, Qu4⟩, ⟨Ql5, Qu5⟩⟩ := deep_Q_S_pows S Q hS hS' hQ hQ'
  have hD : (0 : ℝ) < (24 * (3 + 2 * S) * (1 - S) ^ 4) := by positivity
  rw [abs_le]
  constructor
  · rw [le_sub_iff_add_le, le_div_iff₀ hD]
    linear_combination (9999969 / 125000 : ℝ) * hS +
      (9999969 / 125000 : ℝ) * u2 +
      (9999969 / 250000 : ℝ) * l4 +
      (9999969 / 625000 : ℝ) * u5 +
      24 * hQ +
      92 * Ql1 +
      122 * Ql2 +
      66 * Ql3 +
      67 * Ql4 +
      34 * Ql5
  · rw [sub_le_iff_le_add, div_le_iff₀ hD]
    linear_combination (10000029 / 125000 : ℝ) * hS' +
      (10000029 / 125000 : ℝ) * l2 +
      (10000029 / 250000 : ℝ) * u4 +
      (10000029 / 625000 : ℝ) * l5 +
      24 * hQ' +
      92 * Qu1 +
      122 * Qu2 +
      66 * Qu3 +
      67 * Qu4 +
      34 * Qu5

/-- The Fenton coefficient `c4` for `kd = 15.6` is within `1e-6` of its reference value. -/
theorem deep_c4 (S c0 : ℝ) (hS : (0 : ℝ) ≤ S) (hS' : S ≤ 0.000000001)
    (hc : (0.999999999 : ℝ) ≤ c0) (hc' : c0 ≤ 1) :
    |c0 * (4 + 32 * S - 116 * S ^ 2 - 400 * S ^ 3 - 71 * S ^ 4 + 146 * S ^ 5) /
        (32 * (1 - S) ^ 5) - (0.125)| ≤ 1e-6 := by
  have h1 : (0 : ℝ) < 1 - S := by linarith
  have h3 : (0 : ℝ) < 3 + 2 * S := by linarith
  have h4 : (0 : ℝ) < 4 + S := by linarith
  obtain ⟨⟨l2, u2⟩, ⟨l3, u3⟩, ⟨l4, u4⟩, ⟨l5, u5⟩, ⟨l6, u6⟩, ⟨l7, u7⟩, ⟨l8, u8⟩⟩ := deep_S_pows S hS hS'
  obtain ⟨⟨c0l1, c0u1⟩, ⟨c0l2, c0u2⟩, ⟨c0l3, c0u3⟩, ⟨c0l4, c0u4⟩, ⟨c0l5, c0u5⟩⟩ := deep_c0_S_pows S c0 hS hS' hc hc'
  have hD : (0 : ℝ) < (32 * (1 - S) ^ 5) := by positivity
  rw [abs_le]
  constructor
  · rw [le_sub_iff_add_le, le_div_iff₀ hD]
    linear_combination (124999 / 6250 : ℝ) * hS +
      (124999 / 3125 : ℝ) * u2 +
      (124999 / 3125 : ℝ) * l3 +
      (124999 / 6250 : ℝ) * u4 +
      (124999 / 31250 : ℝ) * l5 +
      4 * hc +
      32 * c0l1 +
      116 * c0u2 +
      400 * c0u3 +
      71 * c0u4 +
      146 * c0l5
  · rw [sub_le_iff_le_add, div_le_iff₀ hD]
    linear_combination (125001 / 6250 : ℝ) * hS' +
      (125001 / 3125 : ℝ) * l2 +
      (125001 / 3125 : ℝ) * u3 +
      (125001 / 6250 : ℝ) * l4 +
      (125001 / 31250 : ℝ) * u5 +
      4 * hc' +
      32 * c0u1 +
      116 * c0l2 +
      400 * c0l3 +
      71 * c0l4 +
      146 * c0u5

/-- The Fenton coefficient `b53` for `kd = 15.6` is within `1e-6` of its reference value. -/
theorem deep_b53 (S : ℝ) (hS : (0 : ℝ) ≤ S) (hS' : S ≤ 0.000000001) :
    |9 * (132 + 17 * S - 2216 * S ^ 2 - 5897 * S ^ 3 - 6292 * S ^ 4 - 2687 * S ^ 5 +
          194 * S ^ 6 + 467 * S ^ 7 + 82 * S ^ 8) /
        (128 * (3 + 2 * S) * (4 + S) * (1 - S) ^ 6) - (0.7734375)| ≤ 1e-6 := by
  have h1 : (0 : ℝ) < 1 - S := by linarith
  have h3 : (0 : ℝ) < 3 + 2 * S := by linarith
  have h4 : (0 : ℝ) < 4 + S := by linarith
  obtain ⟨⟨l2, u2⟩, ⟨l3, u3⟩, ⟨l4, u4⟩, ⟨l5, u5⟩, ⟨l6, u6⟩, ⟨l7, u7⟩, ⟨l8, u8⟩⟩ := deep_S_pows S hS hS'
  have hD : (0 : ℝ) < (128 * (3 + 2 * S) * (4 + S) * (1 - S) ^ 6) := by positivity
  rw [abs_le]
  constructor
  · rw [le_sub_iff_add_le, le_div_iff₀ hD]
    linear_combination (96749878 / 15625 : ℝ) * hS +
      (491062268 / 15625 : ℝ) * u2 +
      (694687674 / 15625 : ℝ) * u3 +
      (173868754 / 3125 : ℝ) * u4 +
      (459843644 / 15625 : ℝ) * u5 +
      (64406202 / 15625 : ℝ) * l6 +
      (67218748 / 15625 : ℝ) * l7 +
      (8437504 / 15625 : ℝ) * l8
  · rw [sub_le_iff_le_add, div_le_iff₀ hD]
    linear_combination (96750122 / 15625 : ℝ) * hS' +
      (491062732 / 15625 : ℝ) * l2 +
      (694687326 / 15625 : ℝ) * l3 +
      (173868746 / 3125 : ℝ) * l4 +
      (459843856 / 15625 : ℝ) * l5 +
      (64406298 / 15625 : ℝ) * u6 +
      (67218752 / 15625 : ℝ) * u7 +
      (8437496 / 15625 : ℝ) * u8

/-- The Fenton coefficient `b55` for `kd = 15.6` is within `1e-6` of its reference value. -/
theorem deep_b55 (S : ℝ) (hS : (0 : ℝ) ≤ S) (hS' : S ≤ 0.000000001) :
    |5 * (300 + 1579 * S + 3176 * S ^ 2 + 2949 * S ^ 3 + 1188 * S ^ 4 + 675 * S ^ 5 +
          1326 * S ^ 6 + 827 * S ^ 7 + 130 * S ^ 8) /
        (384 * (3 + 2 * S) * (4 + S) * (1 - S) ^ 6) - (0.3255208)| ≤ 1e-6 := by
  have h1 : (0 : ℝ) < 1 - S := by linarith
  have h3 : (0 : ℝ) < 3 + 2 * S := by linarith
  have h4 : (0 : ℝ) < 4 + S := by linarith
  obtain ⟨⟨l2, u2⟩, ⟨l3, u3⟩, ⟨l4, u4⟩, ⟨l5, u5⟩, ⟨l6, u6⟩, ⟨l7, u7⟩, ⟨l8, u8⟩⟩ := deep_S_pows S hS hS'
  have hD : (0 : ℝ) < (384 * (3 + 2 * S) * (4 + S) * (1 - S) ^ 6) := by positivity
  rw [abs_le]
  constructor
  · rw [le_sub_iff_add_le, le_div_iff₀ hD]
    linear_combination (1212498109 / 78125 : ℝ) * hS +
      (107816096 / 78125 : ℝ) * l2 +
      (2001559803 / 78125 : ℝ) * l3 +
      (112343688 / 15625 : ℝ) * l4 +
      (253904607 / 78125 : ℝ) * u5 +
      (752343006 / 78125 : ℝ) * l6 +
      (332812469 / 78125 : ℝ) * l7 +
      (31250062 / 78125 : ℝ) * l8
  · rw [sub_le_iff_le_add, div_le_iff₀ hD]
    linear_combination (1212501769 / 78125 : ℝ) * hS' +
      (107809136 / 78125 : ℝ) * u2 +
      (2001565023 / 78125 : ℝ) * u3 +
      (112343808 / 15625 : ℝ) * u4 +
      (253907787 / 78125 : ℝ) * l5 +
      (752344446 / 78125 : ℝ) * u6 +
      (332812529 / 78125 : ℝ) * u7 +
      (31249942 / 78125 : ℝ) * u8

/-- The Fenton coefficient `c0` for `kd = 15.6` is within `1e-6` of its reference value. -/
theorem deep_c0 (c0 : ℝ) (hc : (0.999999999 : ℝ) ≤ c0) (hc' : c0 ≤ 1) :
    |c0 - (1.0)| ≤ 1e-6 := by
  rw [abs_le]
  constructor <;> linarith

/-! ## Stokes free-surface elevation -/

/-- The elevation returned by the fifth-order evaluation is the series of
`eta_theory` with the coefficients and the phase of the evaluation itself. -/
theorem stokes_waves_eta_eq (k d H zsl g x z t φ : ℝ) :
    (stokes_waves Libm.real 5 (2 * Real.pi / k) d H zsl g x z t φ).eta =
      WaveTheoriesTest.eta_theory Libm.real (stokes_coefficients Libm.real 5 k d) k H zsl
        (WaveTheoriesTest.phase Libm.real k H g x t φ
          (stokes_coefficients Libm.real 5 k d).c0
          (stokes_coefficients Libm.real 5 k d).c2
          (stokes_coefficients Libm.real 5 k d).c4) := by
  simp only [stokes_waves, WaveTheoriesTest.eta_theory, WaveTheoriesTest.phase,
    wavenumber_of_wavelength, Libm.real_pi]

/-- The phase of the tests changes little with the coefficients `C0, C2, C4`. -/
theorem phase_close (k H g x t φ c0 c2 c4 d0 d2 d4 δ s : ℝ) (hk : 0 ≤ k) (ht : 0 ≤ t)
    (hs : Real.sqrt (g / k) ≤ s) (h0 : |c0 - d0| ≤ δ) (h2 : |c2 - d2| ≤ δ)
    (h4 : |c4 - d4| ≤ δ) :
    |WaveTheoriesTest.phase Libm.real k H g x t φ c0 c2 c4 -
        WaveTheoriesTest.phase Libm.real k H g x t φ d0 d2 d4| ≤
      δ * (1 + (k * H / 2) ^ 2 + (k * H / 2) ^ 4) * s * k * t := by
  simp only [WaveTheoriesTest.phase, Libm.real_sqrt]
  have hsq : 0 ≤ Real.sqrt (g / k) := Real.sqrt_nonneg _
  generalize Real.sqrt (g / k) = sq at *
  have e2 : 0 ≤ (k * H / 2) ^ 2 := by positivity
  have e4 : 0 ≤ (k * H / 2) ^ 4 := by positivity
  generalize (k * H / 2) ^ 2 = E2 at *
  generalize (k * H / 2) ^ 4 = E4 at *
  have hδ : 0 ≤ δ := le_trans (abs_nonneg _) h0
  have hΔ : |(c0 - d0) + E2 * (c2 - d2) + E4 * (c4 - d4)| ≤ δ * (1 + E2 + E4) := by
    have a2 : |E2 * (c2 - d2)| ≤ E2 * δ := by
      rw [abs_mul, abs_of_nonneg e2]
      exact mul_le_mul_of_nonneg_left h2 e2
    have a4 : |E4 * (c4 - d4)| ≤ E4 * δ := by
      rw [abs_mul, abs_of_nonneg e4]
      exact mul_le_mul_of_nonneg_left h4 e4
    have := abs_add ((c0 - d0) + E2 * (c2 - d2)) (E4 * (c4 - d4))
    have := abs_add (c0 - d0) (E2 * (c2 - d2))
    linarith
  have hrw : k * x - (c0 + E2 * c2 + E4 * c4) * sq * k * t - φ -
      (k * x - (d0 + E2 * d2 + E4 * d4) * sq * k * t - φ) =
      -(((c0 - d0) + E2 * (c2 - d2) + E4 * (c4 - d4)) * sq * k * t) := by ring
  rw [hrw, abs_neg, abs_mul, abs_mul, abs_mul, abs_of_nonneg hsq, abs_of_nonneg hk,
    abs_of_nonneg ht]
  have hb : 0 ≤ δ * (1 + E2 + E4) := le_trans (abs_nonneg _) hΔ
  exact mul_le_mul_of_nonneg_right (mul_le_mul_of_nonneg_right
    (mul_le_mul hΔ hs hsq hb) hk) ht

/-- The series of `eta_theory` changes little when the `B` coefficients and the
phase change little. -/
theorem eta_theory_close (co co' : StokesCoefficients ℝ) (k H zsl p q δ G ε : ℝ)
    (hk : 0 < k) (hH : 0 ≤ H) (hG : 1 ≤ G)
    (h22 : |co.b22 - co'.b22| ≤ δ) (h31 : |co.b31 - co'.b31| ≤ δ)
    (h42 : |co.b42 - co'.b42| ≤ δ) (h44 : |co.b44 - co'.b44| ≤ δ)
    (h53 : |co.b53 - co'.b53| ≤ δ) (h55 : |co.b55 - co'.b55| ≤ δ)
    (g22 : |co'.b22| ≤ G) (g31 : |co'.b31| ≤ G) (g42 : |co'.b42| ≤ G) (g44 : |co'.b44| ≤ G)
    (g53 : |co'.b53| ≤ G) (g55 : |co'.b55| ≤ G) (hpq : |p - q| ≤ ε) :
    |WaveTheoriesTest.eta_theory Libm.real co k H zsl p -
        WaveTheoriesTest.eta_theory Libm.real co' k H zsl q| ≤
      (k * H / 2 + (k * H / 2) ^ 2 + 2 * (k * H / 2) ^ 3 + 2 * (k * H / 2) ^ 4 +
          4 * (k * H / 2) ^ 5) * (δ + G * (5 * ε)) / k := by
  simp only [WaveTheoriesTest.eta_theory, Libm.real_cos]
  have he : 0 ≤ k * H / 2 := by positivity
  generalize k * H / 2 = e at *
  have hδ : 0 ≤ δ := le_trans (abs_nonneg _) h22
  have hε : 0 ≤ ε := le_trans (abs_nonneg _) hpq
  have p1 : |1 * p - 1 * q| ≤ 5 * ε := abs_mul_sub_le 1 p q ε (by norm_num) (by norm_num) hpq
  rw [one_mul, one_mul] at p1
  have p2 := abs_mul_sub_le 2 p q ε (by norm_num) (by norm_num) hpq
  have p3 := abs_mul_sub_le 3 p q ε (by norm_num) (by norm_num) hpq
  have p4 := abs_mul_sub_le 4 p q ε (by norm_num) (by norm_num) hpq
  have p5 := abs_mul_sub_le 5 p q ε (by norm_num) (by norm_num) hpq
  have t1 : |Real.cos p - Real.cos q| ≤ δ + G * (5 * ε) := by
    have h5 : 0 ≤ 5 * ε := by linarith
    have := le_trans (abs_cos_sub_cos_le p q) p1
    have : 5 * ε ≤ G * (5 * ε) := le_mul_of_one_le_left h5 hG
    linarith
  have t22 := abs_le.1 (cos_term_close _ _ _ _ _ _ _ h22 g22 p2)
  have t311 := abs_le.1 (cos_term_close _ _ _ _ _ _ _ h31 g31 p1)
  have t313 := abs_le.1 (cos_term_close _ _ _ _ _ _ _ h31 g31 p3)
  have t42 := abs_le.1 (cos_term_close _ _ _ _ _ _ _ h42 g42 p2)
  have t44 := abs_le.1 (cos_term_close _ _ _ _ _ _ _ h44 g44 p4)
  have t531 := abs_le.1 (cos_term_close _ _ _ _ _ _ _ h53 g53 p1)
  have t533 := abs_le.1 (cos_term_close _ _ _ _ _ _ _ h53 g53 p3)
  have t551 := abs_le.1 (cos_term_close _ _ _ _ _ _ _ h55 g55 p1)
  have t555 := abs_le.1 (cos_term_close _ _ _ _ _ _ _ h55 g55 p5)
  have t1 := abs_le.1 t1
  generalize δ + G * (5 * ε) = η at *
  have e2 : 0 ≤ e ^ 2 := by positivity
  have e3 : 0 ≤ e ^ 3 := by positivity
  have e4 : 0 ≤ e ^ 4 := by positivity
  have e5 : 0 ≤ e ^ 5 := by positivity
  rw [show ∀ X Y : ℝ, X / k + zsl - (Y / k + zsl) = (X - Y) / k from fun X Y => by ring,
    abs_div, abs_of_pos hk]
  apply div_le_div_of_nonneg_right _ hk.le
  rw [abs_le]
  constructor
  · linear_combination e * t1.1 + e ^ 2 * t22.1 + e ^ 3 * t311.1 + e ^ 3 * t313.2 +
      e ^ 4 * t42.1 + e ^ 4 * t44.1 + e ^ 5 * t531.2 + e ^ 5 * t551.2 + e ^ 5 * t533.1 +
      e ^ 5 * t555.1
  · linear_combination e * t1.2 + e ^ 2 * t22.2 + e ^ 3 * t311.2 + e ^ 3 * t313.1 +
      e ^ 4 * t42.2 + e ^ 4 * t44.2 + e ^ 5 * t531.1 + e ^ 5 * t551.1 + e ^ 5 * t533.2 +
      e ^ 5 * t555.2

/-- Bounds on `sqrt(g/k)` for `g = 9.81`, `k = 0.156`. -/
theorem sqrt_g_over_k_deep : Real.sqrt (9.81 / 0.156) ≤ 8 := by
  rw [Real.sqrt_le_left (by norm_num)]
  norm_num

/-- The elevation of the fifth-order evaluation at the finite-depth point of
`StokesWavesFreeSurfaceProfile` is within 1e-4 of `eta_theory` with the
tabulated `B` coefficients. -/
theorem stokes_eta_finite_close :
    |(stokes_waves Libm.real 5 (2 * Real.pi / 2.0) 0.376991 0.1 0 9.81 0 (-0.25) 0 0).eta -
        WaveTheoriesTest.eta_theory Libm.real WaveTheoriesTest.gold 2.0 0.1 0
          (WaveTheoriesTest.phase Libm.real 2.0 0.1 9.81 0 0 0
            (WaveTheoriesTest.C0 Libm.real 2.0 0.376991)
            (WaveTheoriesTest.C2 Libm.real 2.0 0.376991)
            (WaveTheoriesTest.C4 Libm.real 2.0 0.376991))| ≤ 1e-4 := by
  rw [stokes_waves_eta_eq]
  obtain ⟨⟨hS, hS'⟩, ⟨hSh, hSh'⟩, ⟨hQ, hQ'⟩, ⟨hc, hc'⟩⟩ := fenton_base
  have h22 : |(stokes_coefficients Libm.real 5 2.0 0.376991).b22 -
      (WaveTheoriesTest.gold (α := ℝ)).b22| ≤ 1e-4 := fenton_b22 _ _ hS hS' hQ hQ'
  have h31 : |(stokes_coefficients Libm.real 5 2.0 0.376991).b31 -
      (WaveTheoriesTest.gold (α := ℝ)).b31| ≤ 1e-4 := fenton_b31 _ hS hS'
  have h42 : |(stokes_coefficients Libm.real 5 2.0 0.376991).b42 -
      (WaveTheoriesTest.gold (α := ℝ)).b42| ≤ 1e-4 := fenton_b42 _ _ hS hS' hQ hQ'
  have h44 : |(stokes_coefficients Libm.real 5 2.0 0.376991).b44 -
      (WaveTheoriesTest.gold (α := ℝ)).b44| ≤ 1e-4 := fenton_b44 _ _ hS hS' hQ hQ'
  have h53 : |(stokes_coefficients Libm.real 5 2.0 0.376991).b53 -
      (WaveTheoriesTest.gold (α := ℝ)).b53| ≤ 1e-4 := fenton_b53 _ hS hS'
  have h55 : |(stokes_coefficients Libm.real 5 2.0 0.376991).b55 -
      (WaveTheoriesTest.gold (α := ℝ)).b55| ≤ 1e-4 := fenton_b55 _ hS hS'
  have hpq : |WaveTheoriesTest.phase Libm.real 2.0 0.1 9.81 0 0 0
        (stokes_coefficients Libm.real 5 2.0 0.376991).c0
        (stokes_coefficients Libm.real 5 2.0 0.376991).c2
        (stokes_coefficients Libm.real 5 2.0 0.376991).c4 -
      WaveTheoriesTest.phase Libm.real 2.0 0.1 9.81 0 0 0
        (WaveTheoriesTest.C0 Libm.real 2.0 0.376991)
        (WaveTheoriesTest.C2 Libm.real 2.0 0.376991)
        (WaveTheoriesTest.C4 Libm.real 2.0 0.376991)| ≤ 0 := by
    simp only [WaveTheoriesTest.phase, mul_zero, sub_zero, sub_self, abs_zero, le_refl]
  refine le_trans (eta_theory_close _ _ 2.0 0.1 0 _ _ 1e-4 104 0 (by norm_num) (by norm_num)
    (by norm_num) h22 h31 h42 h44 h53 h55 ?_ ?_ ?_ ?_ ?_ ?_ hpq) (by norm_num)
  all_goals
    simp only [WaveTheoriesTest.gold]
    rw [abs_le]
    constructor <;> norm_num

/-- The elevation of the fifth-order evaluation at the deep-water point of
`StokesWavesFreeSurfaceProfile` is within 1e-4 of `eta_theory` with the
deep-water coefficient set. -/
theorem stokes_eta_deep_close :
    |(stokes_waves Libm.real 5 (2 * Real.pi / 0.156) 100 0.16 0 9.81 4 0 2.7 Real.pi).eta -
        WaveTheoriesTest.eta_theory Libm.real WaveTheoriesTest.deep 0.156 0.16 0
          (WaveTheoriesTest.phase Libm.real 0.156 0.16 9.81 4 2.7 Real.pi
            (WaveTheoriesTest.deep (α := ℝ)).c0 (WaveTheoriesTest.deep (α := ℝ)).c2
            (WaveTheoriesTest.deep (α := ℝ)).c4)| ≤ 1e-4 := by
  rw [stokes_waves_eta_eq]
  obtain ⟨⟨hS, hS'⟩, ⟨hQ, hQ'⟩, ⟨hc, hc'⟩⟩ := deep_base
  have h22 : |(stokes_coefficients Libm.real 5 0.156 100).b22 -
      (WaveTheoriesTest.deep (α := ℝ)).b22| ≤ 1e-6 := deep_b22 _ _ hS hS' hQ hQ'
  have h31 : |(stokes_coefficients Libm.real 5 0.156 100).b31 -
      (WaveTheoriesTest.deep (α := ℝ)).b31| ≤ 1e-6 := deep_b31 _ hS hS'
  have h42 : |(stokes_coefficients Libm.real 5 0.156 100).b42 -
      (WaveTheoriesTest.deep (α := ℝ)).b42| ≤ 1e-6 := deep_b42 _ _ hS hS' hQ hQ'
  have h44 : |(stokes_coefficients Libm.real 5 0.156 100).b44 -
      (WaveTheoriesTest.deep (α := ℝ)).b44| ≤ 1e-6 := deep_b44 _ _ hS hS' hQ hQ'
  have h53 : |(stokes_coefficients Libm.real 5 0.156 100).b53 -
      (WaveTheoriesTest.deep (α := ℝ)).b53| ≤ 1e-6 := deep_b53 _ hS hS'
  have h55 : |(stokes_coefficients Libm.real 5 0.156 100).b55 -
      (WaveTheoriesTest.deep (α := ℝ)).b55| ≤ 1e-6 := deep_b55 _ hS hS'
  have k0 : |(stokes_coefficients Libm.real 5 0.156 100).c0 -
      (WaveTheoriesTest.deep (α := ℝ)).c0| ≤ 1e-6 := deep_c0 _ hc hc'
  have k2 : |(stokes_coefficients Libm.real 5 0.156 100).c2 -
      (WaveTheoriesTest.deep (α := ℝ)).c2| ≤ 1e-6 := deep_c2 _ _ hS hS' hc hc'
  have k4 : |(stokes_coefficients Libm.real 5 0.156 100).c4 -
      (WaveTheoriesTest.deep (α := ℝ)).c4| ≤ 1e-6 := deep_c4 _ _ hS hS' hc hc'
  have hpq := le_trans (phase_close 0.156 0.16 9.81 4 2.7 Real.pi _ _ _ _ _ _ 1e-6 8
    (by norm_num) (by norm_num) sqrt_g_over_k_deep k0 k2 k4)
    (by norm_num : (1e-6 : ℝ) * (1 + (0.156 * 0.16 / 2) ^ 2 + (0.156 * 0.16 / 2) ^ 4) * 8 *
      0.156 * 2.7 ≤ 3.4e-6)
  refine le_trans (eta_theory_close _ _ 0.156 0.16 0 _ _ 1e-6 1 3.4e-6 (by norm_num)
    (by norm_num) (by norm_num) h22 h31 h42 h44 h53 h55 ?_ ?_ ?_ ?_ ?_ ?_ hpq) (by norm_num)
  all_goals
    simp only [WaveTheoriesTest.deep]
    rw [abs_le]
    constructor <;> norm_num

/-- Claim C18: for order 5 the `eta` returned by `stokes_waves` is within 1e-4 of
the Fenton Eq. (14) series of `StokesWavesFreeSurfaceProfile`, with
`eps = k H / 2`, `p = k x - omega t - phase_offset` and
`omega = k (C0 + eps^2 C2 + eps^4 C4) sqrt(g/k)`: at the finite-depth point
(k = 2.0, d = 0.376991, H = 0.1, x = 0, z = -0.25, t = 0) with the tabulated
`B` coefficients, and at the deep-water point (d = 100, k = 0.156, H = 0.16,
x = 4, t = 2.7, phase_offset = pi) with the deep-water coefficient set, over
the reals. -/
theorem C18_stokes_eta :
    |(stokes_waves Libm.real 5 (2 * Real.pi / 2.0) 0.376991 0.1 0 9.81 0 (-0.25) 0 0).eta -
        WaveTheoriesTest.eta_theory Libm.real WaveTheoriesTest.gold 2.0 0.1 0
          (WaveTheoriesTest.phase Libm.real 2.0 0.1 9.81 0 0 0
            (WaveTheoriesTest.C0 Libm.real 2.0 0.376991)
            (WaveTheoriesTest.C2 Libm.real 2.0 0.376991)
            (WaveTheoriesTest.C4 Libm.real 2.0 0.376991))| ≤ 1e-4 ∧
      |(stokes_waves Libm.real 5 (2 * Real.pi / 0.156) 100 0.16 0 9.81 4 0 2.7 Real.pi).eta -
        WaveTheoriesTest.eta_theory Libm.real WaveTheoriesTest.deep 0.156 0.16 0
          (WaveTheoriesTest.phase Libm.real 0.156 0.16 9.81 4 2.7 Real.pi
            (WaveTheoriesTest.deep (α := ℝ)).c0 (WaveTheoriesTest.deep (α := ℝ)).c2
            (WaveTheoriesTest.deep (α := ℝ)).c4)| ≤ 1e-4 :=
  ⟨stokes_eta_finite_close, stokes_eta_deep_close⟩

/-! ## The first guess of the dispersion solver -/

/-- With no positive iteration budget `stokes_wave_length` returns the
wavelength of its first guess, whatever the residual and the Newton step. -/
theorem stokes_wave_length_first_guess (first_guess : ℝ → ℝ → ℝ → ℝ)
    (residual newton_step : ℝ → ℝ) (T d g tol : ℝ) (iter_max : Int) (h : iter_max ≤ 0) :
    stokes_wave_length Libm.real first_guess residual newton_step T d g tol iter_max =
      some (2 * Real.pi / first_guess (2 * Real.pi / T) d g) := by
  simp only [stokes_wave_length, Libm.real_pi, not_lt.2 h, if_false]

/-- A lower bound on `exp(18 k)` for `k >= 1.5`. -/
theorem exp_depth_ge (k : ℝ) (hk : 1.5 ≤ k) : 33554432 * k ≤ Real.exp (k * 18) := by
  have h1 : Real.exp ((25 : ℕ) * 1) = Real.exp 1 ^ 25 := Real.exp_nat_mul 1 25
  have h2 : (2 : ℝ) ^ 25 ≤ Real.exp 1 ^ 25 :=
    pow_le_pow_left₀ (by norm_num) (le_trans (by norm_num) Real.exp_one_gt_d9.le) 25
  have h3 : (33554432 : ℝ) ≤ Real.exp ((25 : ℕ) * 1) := by
    rw [h1]
    exact le_trans (by norm_num) h2
  have h4 : k * 18 - (25 : ℕ) * 1 + 1 ≤ Real.exp (k * 18 - (25 : ℕ) * 1) :=
    Real.add_one_le_exp _
  have h5 : Real.exp (k * 18) = Real.exp ((25 : ℕ) * 1) * Real.exp (k * 18 - (25 : ℕ) * 1) := by
    rw [← Real.exp_add]
    congr 1
    ring
  have h6 : k ≤ k * 18 - (25 : ℕ) * 1 + 1 := by
    push_cast
    linarith
  have h7 : (0 : ℝ) ≤ k := by linarith
  rw [h5]
  exact mul_le_mul h3 (le_trans h6 h4) h7 (Real.exp_pos _).le

/-- A root `k` of the finite-depth relation `c = k tanh(18 k)` with `c >= 1.5`
is within 1e-8 of the deep-water value `c`. -/
theorem finite_depth_root_close (k c : ℝ) (hk : 0 < k) (hc : 1.5 ≤ c)
    (h : c = k * Real.tanh (k * 18)) : |k - c| ≤ 1e-8 := by
  have hcosh : 0 < Real.cosh (k * 18) := Real.cosh_pos _
  have ht1 : Real.tanh (k * 18) ≤ 1 := by
    rw [Real.tanh_eq_sinh_div_cosh, div_le_iff₀ hcosh, one_mul]
    exact (Real.sinh_lt_cosh _).le
  have hck : c ≤ k := by
    rw [h]
    exact mul_le_of_le_one_right hk.le ht1
  have hk15 : 1.5 ≤ k := le_trans hc hck
  have hE := exp_depth_ge k hk15
  have hpos : 0 < Real.exp (k * 18) := Real.exp_pos _
  have hI : Real.exp (k * 18) * (Real.exp (k * 18))⁻¹ = 1 := mul_inv_cancel₀ hpos.ne.symm
  have hI0 : 0 < (Real.exp (k * 18))⁻¹ := inv_pos.2 hpos
  have hs : Real.sinh (k * 18) = (Real.exp (k * 18) - (Real.exp (k * 18))⁻¹) / 2 := by
    rw [Real.sinh_eq, Real.exp_neg]
  have hch : Real.cosh (k * 18) = (Real.exp (k * 18) + (Real.exp (k * 18))⁻¹) / 2 := by
    rw [Real.cosh_eq, Real.exp_neg]
  have htl : 1 - 1e-8 / k ≤ Real.tanh (k * 18) := by
    rw [Real.tanh_eq_sinh_div_cosh, le_div_iff₀ hcosh, hs, hch]
    have hdiv : (1e-8 : ℝ) / k ≤ 1e-8 := by
      rw [div_le_iff₀ hk]
      nlinarith
    have hdiv0 : (0 : ℝ) ≤ 1e-8 / k := by positivity
    have hkey : 2 * (Real.exp (k * 18))⁻¹ ≤ 1e-8 / k * Real.exp (k * 18) := by
      rw [div_mul_eq_mul_div, le_div_iff₀ hk]
      have h33 : (33554432 : ℝ) ≤ Real.exp (k * 18) := by linarith
      have hI1 : (Real.exp (k * 18))⁻¹ ≤ 1 / 33554432 := by
        rw [inv_eq_one_div, div_le_div_iff₀ hpos (by norm_num)]
        linarith
      have : (Real.exp (k * 18))⁻¹ * k ≤ 1 / 33554432 * k :=
        mul_le_mul_of_nonneg_right hI1 hk.le
      linarith
    generalize Real.exp (k * 18) = E at *
    generalize E⁻¹ = I at *
    generalize (1e-8 : ℝ) / k = r at *
    nlinarith
  rw [abs_of_nonneg (by linarith), h]
  have : k * (1 - 1e-8 / k) ≤ k * Real.tanh (k * 18) := mul_le_mul_of_nonneg_left htl hk.le
  have h2 : k * (1 - 1e-8 / k) = k - 1e-8 := by
    field_simp
  linarith

/-- The deep-water wavenumber of the first-guess test exceeds 1.5. -/
theorem k_theory_ge : (1.5 : ℝ) ≤ (2 * Real.pi / 1.6) ^ 2 / 9.81 := by
  have hpi := Real.pi_gt_d2
  rw [le_div_iff₀ (by norm_num)]
  have h1 : (3.925 : ℝ) ≤ 2 * Real.pi / 1.6 := by
    rw [le_div_iff₀ (by norm_num)]
    linarith
  have h2 : (3.925 : ℝ) ^ 2 ≤ (2 * Real.pi / 1.6) ^ 2 :=
    pow_le_pow_left₀ (by norm_num) h1 2
  exact le_trans (by norm_num) h2

/-- Claim C20: with `iter_max <= 0`, in particular the sentinel `-1`,
`stokes_wave_length` performs no Newton iteration (its result is the wavelength
of the first guess whatever the residual and the Newton step); and at the
witness (T = 1.6, d = 18, g = 9.81, tol = 1e-10, `iter_max = -1`), when the
first guess is positive and satisfies the linear relation, in its deep-water
form `k = omega^2/g` or its finite-depth form `omega^2 = g k tanh(k d)`, the
wavenumber `2 pi / lambda` of the returned wavelength is within 1e-8 of
`omega^2/g` with `omega = 2 pi / T`, over the reals. -/
theorem C20_first_guess_linear_relation (first_guess : ℝ → ℝ → ℝ → ℝ)
    (residual newton_step : ℝ → ℝ)
    (hk : 0 < first_guess (2 * Real.pi / 1.6) 18 9.81)
    (hlin : first_guess (2 * Real.pi / 1.6) 18 9.81 = (2 * Real.pi / 1.6) ^ 2 / 9.81 ∨
      (2 * Real.pi / 1.6) ^ 2 =
        9.81 * first_guess (2 * Real.pi / 1.6) 18 9.81 *
          Real.tanh (first_guess (2 * Real.pi / 1.6) 18 9.81 * 18)) :
    (∀ (T d g tol : ℝ) (iter_max : Int), iter_max ≤ 0 →
        stokes_wave_length Libm.real first_guess residual newton_step T d g tol iter_max =
          some (2 * Real.pi / first_guess (2 * Real.pi / T) d g)) ∧
      ∃ lambda : ℝ,
        stokes_wave_length Libm.real first_guess residual newton_step 1.6 18 9.81 1e-10 (-1) =
          some lambda ∧
        |WaveTheoriesTest.k_newton Libm.real lambda -
            WaveTheoriesTest.k_theory Libm.real 1.6 9.81| ≤ 1e-8 := by
  refine ⟨fun T d g tol iter_max h =>
    stokes_wave_length_first_guess first_guess residual newton_step T d g tol iter_max h,
    2 * Real.pi / first_guess (2 * Real.pi / 1.6) 18 9.81,
    stokes_wave_length_first_guess first_guess residual newton_step 1.6 18 9.81 1e-10 (-1)
      (by norm_num), ?_⟩
  have hkn : WaveTheoriesTest.k_newton Libm.real
      (2 * Real.pi / first_guess (2 * Real.pi / 1.6) 18 9.81) =
      first_guess (2 * Real.pi / 1.6) 18 9.81 := by
    simp only [WaveTheoriesTest.k_newton, Libm.real_pi]
    rw [show (2.0 : ℝ) = 2 by norm_num]
    exact wavenumber_of_wavelength _
  have hkt : WaveTheoriesTest.k_theory Libm.real 1.6 9.81 = (2 * Real.pi / 1.6) ^ 2 / 9.81 := by
    simp only [WaveTheoriesTest.k_theory, Libm.real_pi]
    rw [show (2.0 : ℝ) = 2 by norm_num, sq]
  rw [hkn, hkt]
  rcases hlin with h | h
  · rw [h, sub_self, abs_zero]
    norm_num
  · refine finite_depth_root_close _ _ hk k_theory_ge ?_
    rw [h]
    field_simp
    ring

/-- Claim C20 at a concrete first guess, the deep-water value `omega^2/g`. -/
theorem C20_witness :
    (∀ (T d g tol : ℝ) (iter_max : Int), iter_max ≤ 0 →
        stokes_wave_length Libm.real (fun ω _ g => ω * ω / g) (fun _ => 1) (fun k => k) T d g
            tol iter_max =
          some (2 * Real.pi / (2 * Real.pi / T * (2 * Real.pi / T) / g))) ∧
      ∃ lambda : ℝ,
        stokes_wave_length Libm.real (fun ω _ g => ω * ω / g) (fun _ => 1) (fun k => k) 1.6 18
            9.81 1e-10 (-1) = some lambda ∧
        |WaveTheoriesTest.k_newton Libm.real lambda -
            WaveTheoriesTest.k_theory Libm.real 1.6 9.81| ≤ 1e-8 :=
  C20_first_guess_linear_relation (fun ω _ g => ω * ω / g) (fun _ => 1) (fun k => k)
    (by positivity) (Or.inl (by ring))

/-! ## Index operations -/

section IndexOperations

variable {α : Type} [LinearOrder α]

/-- The loop of `std::upper_bound` on a partitioned vector `l1 ++ l2` ends at
the partition point, once the range contains it and the fuel covers its
length. -/
theorem upper_bound_loop_eq (l1 l2 : List α) (value : α) (h1 : ∀ a ∈ l1, a ≤ value)
    (h2 : ∀ b ∈ l2, value < b) :
    ∀ fuel first len : Nat, len ≤ fuel → first ≤ l1.length → l1.length ≤ first + len →
      first + len ≤ (l1 ++ l2).length →
      upper_bound_loop (l1 ++ l2) value fuel first len = l1.length := by
  intro fuel
  induction fuel with
  | zero =>
    intro first len hf hlo hhi _
    simp only [upper_bound_loop]
    omega
  | succ fuel ih =>
    intro first len hf hlo hhi hn
    simp only [upper_bound_loop]
    by_cases hlen : 0 < len
    · rw [if_pos hlen]
      have hmid : first + len / 2 < (l1 ++ l2).length := by omega
      rw [List.getElem?_eq_getElem hmid]
      simp only
      by_cases hlt : value < (l1 ++ l2)[first + len / 2]
      · rw [if_pos hlt]
        refine ih first (len / 2) (by omega) hlo ?_ (by omega)
        by_contra hc
        have hin : first + len / 2 < l1.length := by omega
        rw [List.getElem_append_left hin] at hlt
        exact absurd (h1 _ (List.getElem_mem hin)) (not_le.2 hlt)
      · rw [if_neg hlt]
        refine ih (first + len / 2 + 1) (len - len / 2 - 1) (by omega) ?_ (by omega) (by omega)
        by_contra hc
        have hge : l1.length ≤ first + len / 2 := by omega
        rw [List.getElem_append_right hge] at hlt
        exact hlt (h2 _ (List.getElem_mem _))
    · rw [if_neg hlen]
      omega

/-- On a partitioned vector `std::upper_bound` returns the partition point. -/
theorem upper_bound_append (l1 l2 : List α) (value : α) (h1 : ∀ a ∈ l1, a ≤ value)
    (h2 : ∀ b ∈ l2, value < b) : upper_bound (l1 ++ l2) value = l1.length :=
  upper_bound_loop_eq l1 l2 value h1 h2 _ 0 _ (le_refl _) (Nat.zero_le _)
    (by rw [List.length_append]; omega) (by omega)

/-- The number of elements of a partitioned vector that do not compare greater
than `value` is the length of its first part. -/
theorem countP_le_append (l1 l2 : List α) (value : α) (h1 : ∀ a ∈ l1, a ≤ value)
    (h2 : ∀ b ∈ l2, value < b) :
    (l1 ++ l2).countP (fun e => decide (e ≤ value)) = l1.length := by
  rw [List.countP_append, List.countP_eq_length.2 (fun a ha => by simpa using h1 a ha),
    List.countP_eq_zero.2 (fun b hb => by simpa using h2 b hb), Nat.add_zero]

/-- On a partitioned vector `std::upper_bound` returns the number of elements
that do not compare greater than `value`. -/
theorem upper_bound_eq_countP (vec : List α) (value : α) (hp : partitioned vec value) :
    upper_bound vec value = vec.countP (fun e => decide (e ≤ value)) := by
  obtain ⟨l1, l2, rfl, h1, h2⟩ := hp
  rw [upper_bound_append l1 l2 value h1 h2, countP_le_append l1 l2 value h1 h2]

/-- A vector sorted in non-decreasing order is partitioned with respect to every
value. -/
theorem partitioned_of_sorted (vec : List α) (value : α) (hs : vec.Sorted (· ≤ ·)) :
    partitioned vec value := by
  induction vec with
  | nil => exact ⟨[], [], rfl, by simp, by simp⟩
  | cons a t ih =>
    rw [List.sorted_cons] at hs
    by_cases ha : a ≤ value
    · obtain ⟨l1, l2, rfl, h1, h2⟩ := ih hs.2
      refine ⟨a :: l1, l2, rfl, ?_, h2⟩
      intro b hb
      rcases List.mem_cons.1 hb with rfl | hb
      · exact ha
      · exact h1 b hb
    · refine ⟨[], a :: t, rfl, by simp, ?_⟩
      intro b hb
      rcases List.mem_cons.1 hb with rfl | hb
      · exact not_le.1 ha
      · exact lt_of_lt_of_le (not_le.1 ha) (hs.1 b hb)

end IndexOperations

section ClosestIndex

variable {α : Type} [LinearOrder α]

/-- The result of `closest_index` on a partitioned vector `l1 ++ l2` whose
second part is not empty. -/
theorem closest_index_append (l1 l2 : List α) (value : α) (h1 : ∀ a ∈ l1, a ≤ value)
    (h2 : ∀ b ∈ l2, value < b) (hne : l2 ≠ []) :
    closest_index (l1 ++ l2) value = .ok (max ((l1.length : Int) - 1) 0) := by
  have hlen : 0 < l2.length := List.length_pos.2 hne
  simp only [closest_index, upper_bound_append l1 l2 value h1 h2, List.length_append]
  rw [if_pos (by omega)]

/-- The assertion of `closest_index` fails on a vector none of whose elements
compares greater than `value`. -/
theorem closest_index_all_le (vec : List α) (value : α) (h : ∀ a ∈ vec, a ≤ value) :
    closest_index vec value = .error (.assertion "it != vec.end()") := by
  have hub := upper_bound_append vec [] value h (by simp)
  rw [List.append_nil] at hub
  simp only [closest_index, hub, ne_eq, not_true_eq_false, if_false]

/-- Claim C23: on a vector sorted in non-decreasing order that has an element
strictly greater than `value`, `closest_index` returns `max(0, c - 1)` with `c`
the number of elements `<= value`; the result `i` is a valid index, with
`i + 1 < size` or `i = 0`; when `vec[0] <= value` it satisfies
`vec[i] <= value < vec[i+1]`, and when `value < vec[0]` it is 0. -/
theorem C23_closest_index_from_below (vec : List α) (value : α) (hs : vec.Sorted (· ≤ ·))
    (hex : ∃ e ∈ vec, value < e) :
    closest_index vec value =
        .ok (max 0 ((vec.countP (fun e => decide (e ≤ value)) : Int) - 1)) ∧
      ∃ i : Nat, closest_index vec value = .ok (i : Int) ∧ i < vec.length ∧
        (i + 1 < vec.length ∨ i = 0) ∧
        (∀ v0, vec[0]? = some v0 → v0 ≤ value →
          ∃ a b, vec[i]? = some a ∧ vec[i + 1]? = some b ∧ a ≤ value ∧ value < b) ∧
        (∀ v0, vec[0]? = some v0 → value < v0 → i = 0) := by
  obtain ⟨l1, l2, rfl, h1, h2⟩ := partitioned_of_sorted vec value hs
  have hne : l2 ≠ [] := by
    rintro rfl
    obtain ⟨e, he, hlt⟩ := hex
    rw [List.append_nil] at he
    exact absurd (h1 e he) (not_le.2 hlt)
  have hlen : 0 < l2.length := List.length_pos.2 hne
  have hci := closest_index_append l1 l2 value h1 h2 hne
  refine ⟨?_, l1.length - 1, ?_, ?_, ?_, ?_, ?_⟩
  · rw [hci, countP_le_append l1 l2 value h1 h2, max_comm]
  · rw [hci]
    congr 1
    omega
  · rw [List.length_append]
    omega
  · rw [List.length_append]
    omega
  · intro v0 hv0 hle
    have hl1 : 0 < l1.length := by
      by_contra hc
      have hnil : l1 = [] := List.length_eq_zero.1 (by omega)
      subst hnil
      rw [List.nil_append] at hv0
      have hmem : v0 ∈ l2 := List.getElem?_mem hv0
      exact absurd hle (not_le.2 (h2 v0 hmem))
    have hi : l1.length - 1 < l1.length := by omega
    refine ⟨l1[l1.length - 1], l2[0], ?_, ?_, h1 _ (List.getElem_mem _),
      h2 _ (List.getElem_mem _)⟩
    · rw [List.getElem?_append_left hi, List.getElem?_eq_getElem hi]
    · have hidx : l1.length - 1 + 1 = l1.length := by omega
      rw [hidx, List.getElem?_append_right (le_refl _), Nat.sub_self,
        List.getElem?_eq_getElem hlen]
  · intro v0 hv0 hlt
    by_contra hc
    have hl1 : 0 < l1.length := by omega
    rw [List.getElem?_append_left hl1] at hv0
    have hmem : v0 ∈ l1 := List.getElem?_mem hv0
    exact absurd (h1 v0 hmem) (not_le.2 hlt)

/-- Claim C30: on a vector that meets the precondition of `std::upper_bound`
(partitioned with respect to `value`, as every sorted vector is), the assertion
of `closest_index` fails if and only if no element compares strictly greater
than `value`, that is, if and only if the vector is empty or its last element
is `<= value`; a value equal to the last element aborts, and a value below the
first element returns 0. -/
theorem C30_closest_index_assertion (vec : List α) (value : α) (hp : partitioned vec value) :
    (closest_index vec value = .error (.assertion "it != vec.end()") ↔
        ¬ ∃ e ∈ vec, value < e) ∧
      ((¬ ∃ e ∈ vec, value < e) ↔ (vec = [] ∨ ∃ l, vec.getLast? = some l ∧ l ≤ value)) ∧
      (∀ l, vec.getLast? = some l → value = l →
        closest_index vec value = .error (.assertion "it != vec.end()")) ∧
      (∀ v0, vec[0]? = some v0 → value < v0 → closest_index vec value = .ok 0) := by
  obtain ⟨l1, l2, rfl, h1, h2⟩ := hp
  have hall : (¬ ∃ e ∈ l1 ++ l2, value < e) ↔ l2 = [] := by
    constructor
    · intro h
      by_contra hne
      obtain ⟨b, hb⟩ := List.exists_mem_of_ne_nil l2 hne
      exact h ⟨b, List.mem_append_right l1 hb, h2 b hb⟩
    · rintro rfl ⟨e, he, hlt⟩
      rw [List.append_nil] at he
      exact absurd (h1 e he) (not_le.2 hlt)
  have hlast : (l1 ++ l2 = [] ∨ ∃ l, (l1 ++ l2).getLast? = some l ∧ l ≤ value) ↔ l2 = [] := by
    constructor
    · rintro (h | ⟨l, hl, hle⟩)
      · exact (List.append_eq_nil.1 h).2
      · by_contra hne
        rw [List.getLast?_append_of_ne_nil l1 hne] at hl
        exact absurd hle (not_le.2 (h2 l (List.mem_of_mem_getLast? (Option.mem_def.2 hl))))
    · rintro rfl
      rw [List.append_nil]
      rcases List.eq_nil_or_concat l1 with h | ⟨t, a, rfl⟩
      · exact Or.inl h
      · exact Or.inr ⟨a, by simp, h1 a (by simp)⟩
  have herr : closest_index (l1 ++ l2) value = .error (.assertion "it != vec.end()") ↔
      l2 = [] := by
    constructor
    · intro h
      by_contra hne
      rw [closest_index_append l1 l2 value h1 h2 hne] at h
      exact absurd h (by simp)
    · rintro rfl
      rw [List.append_nil]
      exact closest_index_all_le l1 value h1
  refine ⟨herr.trans hall.symm, hall.trans hlast.symm, ?_, ?_⟩
  · intro l hl hv
    refine herr.2 (hlast.1 (Or.inr ⟨l, hl, le_of_eq hv.symm⟩))
  · intro v0 hv0 hlt
    have hl1 : l1 = [] := by
      by_contra hne
      have hpos : 0 < l1.length := List.length_pos.2 hne
      rw [List.getElem?_append_left hpos] at hv0
      exact absurd (h1 v0 (List.getElem?_mem hv0)) (not_le.2 hlt)
    subst hl1
    have hne : l2 ≠ [] := by
      rintro rfl
      simp at hv0
    rw [closest_index_append [] l2 value h1 h2 hne]
    rfl

/-- Claim C23 at the vector `[1, 2, 4]` and the value 3: the result is index 1. -/
theorem C23_witness :
    closest_index ([1, 2, 4] : List ℚ) 3 =
        .ok (max 0 ((([1, 2, 4] : List ℚ).countP (fun e => decide (e ≤ 3)) : Int) - 1)) ∧
      ∃ i : Nat, closest_index ([1, 2, 4] : List ℚ) 3 = .ok (i : Int) ∧
        i < ([1, 2, 4] : List ℚ).length ∧
        (i + 1 < ([1, 2, 4] : List ℚ).length ∨ i = 0) ∧
        (∀ v0, ([1, 2, 4] : List ℚ)[0]? = some v0 → v0 ≤ 3 →
          ∃ a b, ([1, 2, 4] : List ℚ)[i]? = some a ∧ ([1, 2, 4] : List ℚ)[i + 1]? = some b ∧
            a ≤ 3 ∧ 3 < b) ∧
        (∀ v0, ([1, 2, 4] : List ℚ)[0]? = some v0 → (3 : ℚ) < v0 → i = 0) :=
  C23_closest_index_from_below ([1, 2, 4] : List ℚ) 3 (by simp [List.Sorted]; norm_num)
    ⟨4, by simp, by norm_num⟩

/-- Claim C30 at the vector `[1, 2, 4]` and the value 4, its last element. -/
theorem C30_witness :
    (closest_index ([1, 2, 4] : List ℚ) 4 = .error (.assertion "it != vec.end()") ↔
        ¬ ∃ e ∈ ([1, 2, 4] : List ℚ), (4 : ℚ) < e) ∧
      ((¬ ∃ e ∈ ([1, 2, 4] : List ℚ), (4 : ℚ) < e) ↔
        (([1, 2, 4] : List ℚ) = [] ∨ ∃ l, ([1, 2, 4] : List ℚ).getLast? = some l ∧ l ≤ 4)) ∧
      (∀ l, ([1, 2, 4] : List ℚ).getLast? = some l → (4 : ℚ) = l →
        closest_index ([1, 2, 4] : List ℚ) 4 = .error (.assertion "it != vec.end()")) ∧
      (∀ v0, ([1, 2, 4] : List ℚ)[0]? = some v0 → (4 : ℚ) < v0 →
        closest_index ([1, 2, 4] : List ℚ) 4 = .ok 0) :=
  C30_closest_index_assertion ([1, 2, 4] : List ℚ) 4
    ⟨[1, 2, 4], [], rfl, by intro a ha; simp at ha; rcases ha with rfl | rfl | rfl <;> norm_num,
      by simp⟩

end ClosestIndex

/-! ## Perpendicular indices and the face-aware intersection -/

/-- Claim C24: for a normal in {0, 1, 2}, `perpendicular_idx` returns the other
two elements of {0, 1, 2} in increasing order, (1,2), (0,2), (0,1); for every
other normal it aborts and returns no pair. -/
theorem C24_perpendicular_idx (normal : Int) :
    perpendicular_idx 0 = .ok (1, 2) ∧ perpendicular_idx 1 = .ok (0, 2) ∧
      perpendicular_idx 2 = .ok (0, 1) ∧
      (∀ p, perpendicular_idx normal = .ok p →
        (normal = 0 ∨ normal = 1 ∨ normal = 2) ∧ p.1 < p.2 ∧ p.1 ≠ normal ∧ p.2 ≠ normal ∧
          (p.1 = 0 ∨ p.1 = 1 ∨ p.1 = 2) ∧ (p.2 = 0 ∨ p.2 = 1 ∨ p.2 = 2)) ∧
      (normal ≠ 0 → normal ≠ 1 → normal ≠ 2 →
        perpendicular_idx normal =
          .error (.abort "Invalid normal value to determine perpendicular indices")) := by
  refine ⟨rfl, rfl, rfl, ?_, ?_⟩
  · intro p hp
    unfold perpendicular_idx at hp
    by_cases h0 : normal = 0
    · subst h0
      rw [if_pos rfl] at hp
      cases hp
      decide
    · rw [if_neg h0] at hp
      by_cases h1 : normal = 1
      · subst h1
        rw [if_pos rfl] at hp
        cases hp
        decide
      · rw [if_neg h1] at hp
        by_cases h2 : normal = 2
        · subst h2
          rw [if_pos rfl] at hp
          cases hp
          decide
        · rw [if_neg h2] at hp
          cases hp
  · intro h0 h1 h2
    unfold perpendicular_idx
    rw [if_neg h0, if_neg h1, if_neg h2]

/-- Claim C24 at the normal 5, which is none of 0, 1, 2. -/
theorem C24_witness :
    perpendicular_idx 0 = .ok (1, 2) ∧ perpendicular_idx 1 = .ok (0, 2) ∧
      perpendicular_idx 2 = .ok (0, 1) ∧
      (∀ p, perpendicular_idx 5 = .ok p →
        ((5 : Int) = 0 ∨ (5 : Int) = 1 ∨ (5 : Int) = 2) ∧ p.1 < p.2 ∧ p.1 ≠ 5 ∧ p.2 ≠ 5 ∧
          (p.1 = 0 ∨ p.1 = 1 ∨ p.1 = 2) ∧ (p.2 = 0 ∨ p.2 = 1 ∨ p.2 = 2)) ∧
      ((5 : Int) ≠ 0 → (5 : Int) ≠ 1 → (5 : Int) ≠ 2 →
        perpendicular_idx 5 =
          .error (.abort "Invalid normal value to determine perpendicular indices")) :=
  C24_perpendicular_idx 5

/-- A cell-centred box is its own cell conversion. -/
theorem IndexBox.enclosedCells_of_cellCentered (b : IndexBox) (h : b.cellCentered = true) :
    b.enclosedCells = b := by
  obtain ⟨lo, hi, ty⟩ := b
  simp only [IndexBox.cellCentered, Bool.not_eq_true', Bool.or_eq_false_iff] at h
  obtain ⟨⟨h0, h1⟩, h2⟩ := h
  have hty : ∀ d : Fin 3, ty d = false := by
    intro d
    fin_cases d
    · exact h0
    · exact h1
    · exact h2
  simp only [IndexBox.enclosedCells, IndexBox.mk.injEq, true_and]
  constructor
  · funext d
    rw [hty d]
    rfl
  · funext d
    exact (hty d).symm

/-- The index type of a cell-centred box is zero in every direction. -/
theorem IndexBox.type_of_cellCentered (b : IndexBox) (h : b.cellCentered = true) (d : Fin 3) :
    b.type d = 0 := by
  simp only [IndexBox.cellCentered, Bool.not_eq_true', Bool.or_eq_false_iff] at h
  obtain ⟨⟨h0, h1⟩, h2⟩ := h
  have hty : b.btype d = false := by
    fin_cases d
    · exact h0
    · exact h1
    · exact h2
  simp only [IndexBox.type, hty, Bool.false_eq_true, if_false]

/-- The intersection `face_aware_boundary_box_intersection` takes is that of the
cell conversion of the grown box with the boundary box. -/
theorem face_aware_cases (g d : IndexBox) (ori : Orientation) :
    face_aware_boundary_box_intersection g d ori =
      if (g.enclosedCells.inter d).isEmpty then g.enclosedCells.inter d
      else if ori.isHigh && decide (g.type ori.coordDir = 1) then
        (g.enclosedCells.inter d).shift g.type
      else g.enclosedCells.inter d := by
  unfold face_aware_boundary_box_intersection
  cases hcc : g.cellCentered
  · simp only [Bool.not_false, if_true]
  · simp only [Bool.not_true, Bool.false_eq_true, if_false,
      IndexBox.enclosedCells_of_cellCentered g hcc]

/-- Claim C25: `face_aware_boundary_box_intersection` returns the intersection
of the cell-converted grown box with the boundary box, unshifted for a
cell-centred grown box, for a low-side orientation and whenever the
intersection is empty; for a high-side orientation, a grown box that is nodal
in the direction of the orientation and a non-empty intersection, it returns
the intersection shifted by the index type of the grown box as it was before
the conversion, which is +1 in the direction of the orientation. -/
theorem C25_face_aware_intersection (g d : IndexBox) (ori : Orientation) :
    (g.cellCentered = true →
        face_aware_boundary_box_intersection g d ori = g.inter d ∧
          g.enclosedCells.inter d = g.inter d) ∧
      (ori.isHigh = false →
        face_aware_boundary_box_intersection g d ori = g.enclosedCells.inter d) ∧
      ((g.enclosedCells.inter d).isEmpty = true →
        face_aware_boundary_box_intersection g d ori = g.enclosedCells.inter d) ∧
      (ori.isHigh = true → g.btype ori.coordDir = true →
        (g.enclosedCells.inter d).isEmpty = false →
        face_aware_boundary_box_intersection g d ori = (g.enclosedCells.inter d).shift g.type ∧
          (face_aware_boundary_box_intersection g d ori).smallend ori.coordDir =
            (g.enclosedCells.inter d).smallend ori.coordDir + 1 ∧
          (face_aware_boundary_box_intersection g d ori).bigend ori.coordDir =
            (g.enclosedCells.inter d).bigend ori.coordDir + 1 ∧
          ∀ dir : Fin 3,
            (face_aware_boundary_box_intersection g d ori).smallend dir =
                (g.enclosedCells.inter d).smallend dir + (if g.btype dir then 1 else 0) ∧
              (face_aware_boundary_box_intersection g d ori).bigend dir =
                (g.enclosedCells.inter d).bigend dir + (if g.btype dir then 1 else 0)) := by
  rw [face_aware_cases]
  refine ⟨?_, ?_, ?_, ?_⟩
  · intro hcc
    rw [IndexBox.enclosedCells_of_cellCentered g hcc]
    refine ⟨?_, rfl⟩
    have h0 : ¬ (g.type ori.coordDir = 1) := by
      rw [IndexBox.type_of_cellCentered g hcc]
      decide
    simp only [h0, decide_False, Bool.and_false, Bool.false_eq_true, if_false, ite_self]
  · intro hlow
    simp only [hlow, Bool.false_and, Bool.false_eq_true, if_false, ite_self]
  · intro hempty
    rw [if_pos hempty]
  · intro hhigh hnodal hne
    have h1 : g.type ori.coordDir = 1 := by
      simp only [IndexBox.type, hnodal, if_true]
    rw [if_neg (by rw [hne]; decide), if_pos (by rw [hhigh, h1]; rfl)]
    refine ⟨rfl, ?_, ?_, fun dir => ⟨rfl, rfl⟩⟩
    · simp only [IndexBox.shift, h1]
    · simp only [IndexBox.shift, h1]

/-- Claim C25 at a grown box nodal in the x-direction, on the high x-side. -/
theorem C25_witness :
    ((⟨![0, 0, 0], ![9, 7, 7], ![true, false, false]⟩ : IndexBox).cellCentered = true →
        face_aware_boundary_box_intersection ⟨![0, 0, 0], ![9, 7, 7], ![true, false, false]⟩
            ⟨![8, 0, 0], ![8, 7, 7], ![false, false, false]⟩ ⟨0, true⟩ =
          (⟨![0, 0, 0], ![9, 7, 7], ![true, false, false]⟩ : IndexBox).inter
            ⟨![8, 0, 0], ![8, 7, 7], ![false, false, false]⟩ ∧
          (⟨![0, 0, 0], ![9, 7, 7], ![true, false, false]⟩ : IndexBox).enclosedCells.inter
              ⟨![8, 0, 0], ![8, 7, 7], ![false, false, false]⟩ =
            (⟨![0, 0, 0], ![9, 7, 7], ![true, false, false]⟩ : IndexBox).inter
              ⟨![8, 0, 0], ![8, 7, 7], ![false, false, false]⟩) ∧
      ((⟨0, true⟩ : Orientation).isHigh = false →
        face_aware_boundary_box_intersection ⟨![0, 0, 0], ![9, 7, 7], ![true, false, false]⟩
            ⟨![8, 0, 0], ![8, 7, 7], ![false, false, false]⟩ ⟨0, true⟩ =
          (⟨![0, 0, 0], ![9, 7, 7], ![true, false, false]⟩ : IndexBox).enclosedCells.inter
            ⟨![8, 0, 0], ![8, 7, 7], ![false, false, false]⟩) ∧
      (((⟨![0, 0, 0], ![9, 7, 7], ![true, false, false]⟩ : IndexBox).enclosedCells.inter
            ⟨![8, 0, 0], ![8, 7, 7], ![false, false, false]⟩).isEmpty = true →
        face_aware_boundary_box_intersection ⟨![0, 0, 0], ![9, 7, 7], ![true, false, false]⟩
            ⟨![8, 0, 0], ![8, 7, 7], ![false, false, false]⟩ ⟨0, true⟩ =
          (⟨![0, 0, 0], ![9, 7, 7], ![true, false, false]⟩ : IndexBox).enclosedCells.inter
            ⟨![8, 0, 0], ![8, 7, 7], ![false, false, false]⟩) ∧
      face_aware_boundary_box_intersection ⟨![0, 0, 0], ![9, 7, 7], ![true, false, false]⟩
            ⟨![8, 0, 0], ![8, 7, 7], ![false, false, false]⟩ ⟨0, true⟩ =
          ((⟨![0, 0, 0], ![9, 7, 7], ![true, false, false]⟩ : IndexBox).enclosedCells.inter
            ⟨![8, 0, 0], ![8, 7, 7], ![false, false, false]⟩).shift
            (⟨![0, 0, 0], ![9, 7, 7], ![true, false, false]⟩ : IndexBox).type ∧
        (face_aware_boundary_box_intersection ⟨![0, 0, 0], ![9, 7, 7], ![true, false, false]⟩
            ⟨![8, 0, 0], ![8, 7, 7], ![false, false, false]⟩ ⟨0, true⟩).smallend 0 = 9 ∧
        (face_aware_boundary_box_intersection ⟨![0, 0, 0], ![9, 7, 7], ![true, false, false]⟩
            ⟨![8, 0, 0], ![8, 7, 7], ![false, false, false]⟩ ⟨0, true⟩).bigend 0 = 9 := by
  have h := C25_face_aware_intersection ⟨![0, 0, 0], ![9, 7, 7], ![true, false, false]⟩
    ⟨![8, 0, 0], ![8, 7, 7], ![false, false, false]⟩ ⟨0, true⟩
  obtain ⟨h1, h2, h3, h4⟩ := h
  obtain ⟨h5, h6, h7, _⟩ := h4 rfl rfl (by decide)
  refine ⟨h1, h2, h3, h5, ?_, ?_⟩
  · rw [h6]
    decide
  · rw [h7]
    decide

/-! ## The `KLAxell` turbulence model -/

/-- Claim C22: `update_scalar_diff` succeeds exactly when the name is the TKE
variable name; then every component of `deff` in every cell is `2 * mu_turb`,
whatever `deff` held before; for every other name it aborts with a message that
ends with the field name, and `deff` is unchanged. -/
theorem C22_update_scalar_diff {α : Type} [LinearOrderedField α] (tke_var_name : String)
    (mu_turb deff : CompField α) (name : String) :
    ((KLAxell.update_scalar_diff tke_var_name mu_turb deff name).2 = .ok () ↔
        name = tke_var_name) ∧
      (name = tke_var_name →
        ∀ (c : Cell) (n : Nat), n < deff.num_comp →
          (KLAxell.update_scalar_diff tke_var_name mu_turb deff name).1.val c n =
            2 * mu_turb.val c n) ∧
      (name ≠ tke_var_name →
        (KLAxell.update_scalar_diff tke_var_name mu_turb deff name).2 =
            .error (.abort ("KLAxell:update_scalar_diff not implemented for field " ++ name)) ∧
          (KLAxell.update_scalar_diff tke_var_name mu_turb deff name).1 = deff) := by
  refine ⟨?_, ?_, ?_⟩
  · unfold KLAxell.update_scalar_diff
    by_cases h : name = tke_var_name
    · simp only [h, if_true]
    · simp only [h, if_false, reduceCtorEq]
  · intro h c n hn
    unfold KLAxell.update_scalar_diff
    rw [if_pos h]
    simp only [field_ops_saxpy, CompField.setVal, Nat.zero_le, true_and, Nat.zero_add, hn,
      if_true, Nat.sub_zero]
    norm_num
  · intro h
    unfold KLAxell.update_scalar_diff
    rw [if_neg h]
    exact ⟨rfl, rfl⟩

/-- Claim C22 at the names `tke` (supported) and `temperature` (not supported). -/
theorem C22_witness :
    (∀ (c : Cell) (n : Nat), n < (⟨1, 1, fun _ _ => 7⟩ : CompField ℚ).num_comp →
        (KLAxell.update_scalar_diff "tke" (⟨1, 1, fun _ _ => 3⟩ : CompField ℚ)
            ⟨1, 1, fun _ _ => 7⟩ "tke").1.val c n = 2 * 3) ∧
      (KLAxell.update_scalar_diff "tke" (⟨1, 1, fun _ _ => 3⟩ : CompField ℚ)
            ⟨1, 1, fun _ _ => 7⟩ "temperature").2 =
          .error (.abort "KLAxell:update_scalar_diff not implemented for field temperature") ∧
      (KLAxell.update_scalar_diff "tke" (⟨1, 1, fun _ _ => 3⟩ : CompField ℚ)
            ⟨1, 1, fun _ _ => 7⟩ "temperature").1 = ⟨1, 1, fun _ _ => 7⟩ :=
  ⟨(C22_update_scalar_diff "tke" (⟨1, 1, fun _ _ => 3⟩ : CompField ℚ) ⟨1, 1, fun _ _ => 7⟩
      "tke").2.1 rfl,
    ((C22_update_scalar_diff "tke" (⟨1, 1, fun _ _ => 3⟩ : CompField ℚ) ⟨1, 1, fun _ _ => 7⟩
      "temperature").2.2 (by decide)).1,
    ((C22_update_scalar_diff "tke" (⟨1, 1, fun _ _ => 3⟩ : CompField ℚ) ⟨1, 1, fun _ _ => 7⟩
      "temperature").2.2 (by decide)).2⟩

namespace KLAxell

/-- The limiting expression of the kernels, over the reals, is the limiter of
the claim. -/
theorem limited_eq_Rt_limiter (r : ℝ) :
    (if r > (Rtc : ℝ) then r
      else std_max r (r - Libm.real.pow (r - Rtc) 2 / (r + Rtmin - 2 * Rtc))) =
      Rt_limiter r := by
  have hpow : Libm.real.pow (r - Rtc) 2 = (r + 1) ^ 2 := by
    show (r - Rtc) ^ (2 : ℝ) = (r + 1) ^ 2
    rw [Real.rpow_two]
    simp only [Rtc]
    norm_num
  have hden : r + Rtmin - 2 * Rtc = r - 1 := by
    simp only [Rtc, Rtmin]
    norm_num
    ring
  have hc : (Rtc : ℝ) = -1 := by
    simp only [Rtc]
    norm_num
  rw [hpow, hden, hc]
  unfold Rt_limiter std_max
  by_cases h : r > -1
  · rw [if_pos h, if_pos h]
  · rw [if_neg h, if_neg h]
    by_cases h2 : r < r - (r + 1) ^ 2 / (r - 1)
    · rw [if_pos h2, max_eq_right h2.le]
    · rw [if_neg h2, max_eq_left (not_lt.1 h2)]

/-- Below the threshold the limiter of the claim is `(3 Rt + 1) / (1 - Rt)`. -/
theorem Rt_limiter_of_le (r : ℝ) (h : r ≤ -1) : Rt_limiter r = (3 * r + 1) / (1 - r) := by
  have h1 : (0 : ℝ) < 1 - r := by linarith
  have hne : r - 1 ≠ 0 := by linarith
  have hval : r - (r + 1) ^ 2 / (r - 1) = (3 * r + 1) / (1 - r) := by
    field_simp
    ring
  have hle : r ≤ (3 * r + 1) / (1 - r) := by
    rw [le_div_iff₀ h1]
    nlinarith [sq_nonneg (r + 1)]
  unfold Rt_limiter
  rw [if_neg (by linarith), hval, max_eq_right hle]

/-- Above the threshold the limiter of the claim is the identity. -/
theorem Rt_limiter_of_gt (r : ℝ) (h : r > -1) : Rt_limiter r = r := by
  unfold Rt_limiter
  rw [if_pos h]

/-- Below the threshold the limiter of the claim stays in `(-3, -1]`. -/
theorem Rt_limiter_bounds_of_le (r : ℝ) (h : r ≤ -1) :
    -3 < Rt_limiter r ∧ Rt_limiter r ≤ -1 ∧ r ≤ Rt_limiter r := by
  have h1 : (0 : ℝ) < 1 - r := by linarith
  rw [Rt_limiter_of_le r h]
  refine ⟨?_, ?_, ?_⟩
  · rw [lt_div_iff₀ h1]
    linarith
  · rw [div_le_iff₀ h1]
    linarith
  · rw [le_div_iff₀ h1]
    nlinarith [sq_nonneg (r + 1)]

/-- The limiter of the claim is non-decreasing. -/
theorem Rt_limiter_monotone : Monotone (Rt_limiter : ℝ → ℝ) := by
  intro a b hab
  by_cases hb : b ≤ -1
  · have ha : a ≤ -1 := le_trans hab hb
    have h1 : (0 : ℝ) < 1 - a := by linarith
    have h2 : (0 : ℝ) < 1 - b := by linarith
    rw [Rt_limiter_of_le a ha, Rt_limiter_of_le b hb, div_le_div_iff₀ h1 h2]
    nlinarith
  · have hb1 : b > -1 := not_le.1 hb
    rw [Rt_limiter_of_gt b hb1]
    by_cases ha : a ≤ -1
    · exact le_trans (Rt_limiter_bounds_of_le a ha).2.1 hb1.le
    · rw [Rt_limiter_of_gt a (not_le.1 ha)]
      exact hab

end KLAxell

/-- Claim C28: in the terrain and the non-terrain kernel of
`update_turbulent_viscosity` and in the kernel of `update_alphaeff`, over the
reals, the limited `Rt` is `L(Rt)` with `L(Rt) = Rt` if `Rt > -1`, else
`max(Rt, Rt - (Rt + 1)^2 / (Rt - 1))`; and for every real `Rt`: `L(Rt) = Rt`
when `Rt > -1`, `L(Rt) >= Rt`, `L(Rt) > -3`, `L(-1) = -1`, `L` is
non-decreasing, and the denominator `Rt + Rtmin - 2 Rtc` is not zero when
`Rt <= Rtc`. -/
theorem C28_Rt_limiter (m : KLAxell ℝ) (inp : KLInputs ℝ) (s : KLFields ℝ) (c : Cell) :
    (KLAxell.terrain.Rt_limited Libm.real m inp s c =
        KLAxell.Rt_limiter (KLAxell.terrain.Rt Libm.real m inp s c) ∧
      KLAxell.flat.Rt_limited Libm.real m inp s c =
        KLAxell.Rt_limiter (KLAxell.flat.Rt Libm.real m inp s c) ∧
      KLAxell.alphaeff.Rt_limited Libm.real m inp s c =
        KLAxell.Rt_limiter (KLAxell.alphaeff.Rt Libm.real m inp s c)) ∧
      (∀ r : ℝ, r > -1 → KLAxell.Rt_limiter r = r) ∧
      (∀ r : ℝ, r ≤ KLAxell.Rt_limiter r) ∧
      (∀ r : ℝ, -3 < KLAxell.Rt_limiter r) ∧
      KLAxell.Rt_limiter (-1 : ℝ) = -1 ∧
      Monotone (KLAxell.Rt_limiter : ℝ → ℝ) ∧
      (∀ r : ℝ, ¬ r > (KLAxell.Rtc : ℝ) → r + KLAxell.Rtmin - 2 * KLAxell.Rtc ≠ 0) := by
  refine ⟨⟨KLAxell.limited_eq_Rt_limiter _, KLAxell.limited_eq_Rt_limiter _,
    KLAxell.limited_eq_Rt_limiter _⟩, KLAxell.Rt_limiter_of_gt, ?_, ?_, ?_,
    KLAxell.Rt_limiter_monotone, ?_⟩
  · intro r
    by_cases h : r ≤ -1
    · exact (KLAxell.Rt_limiter_bounds_of_le r h).2.2
    · rw [KLAxell.Rt_limiter_of_gt r (not_le.1 h)]
  · intro r
    by_cases h : r ≤ -1
    · exact (KLAxell.Rt_limiter_bounds_of_le r h).1
    · rw [KLAxell.Rt_limiter_of_gt r (not_le.1 h)]
      linarith [not_le.1 h]
  · rw [KLAxell.Rt_limiter_of_le (-1) (le_refl _)]
    norm_num
  · intro r h
    simp only [KLAxell.Rtc, KLAxell.Rtmin] at h ⊢
    have h1 : r ≤ -1 := by
      have := not_lt.1 h
      norm_num at this
      exact this
    intro h0
    norm_num at h0
    linarith

section TerrainAgreement

variable {α : Type} [LinearOrderedField α]

/-- On flat ground at least half a cell below the cell centre, the height `z`
of the terrain kernel is that of the non-terrain kernel. -/
theorem KLAxell.terrain_z_eq (inp : KLInputs α) (c : Cell) (hh : inp.terrain_height c = 0)
    (hz : inp.problo 2 + ((c.k : α) + 0.5) * inp.dz ≥ 0.5 * inp.dz) :
    KLAxell.terrain.z inp c = KLAxell.flat.z inp c := by
  unfold KLAxell.terrain.z KLAxell.flat.z std_max
  rw [hh, sub_zero, if_neg (not_lt.2 hz)]

/-- Claim C29: in a cell with `terrain_height = 0`, `terrain_blank = 0` and
cell-centre height `problo_z + (k + 0.5) dz >= 0.5 dz`, the terrain kernel of
`update_turbulent_viscosity` writes the same fields as the non-terrain kernel
(`turb_lscale`, `mu_turb`, `buoy_prod`, `shear_prod`, and nothing else); and in
a cell with `terrain_blank = 1` the terrain kernel writes `mu_turb = 0`,
`buoy_prod = 0` and `shear_prod = 0`. -/
theorem C29_terrain_kernel_flat_ground (L : Libm α) (m : KLAxell α) (inp : KLInputs α)
    (c : Cell) (s : KLFields α) :
    (inp.terrain_height c = 0 → inp.terrain_blank c = 0 →
        inp.problo 2 + ((c.k : α) + 0.5) * inp.dz ≥ 0.5 * inp.dz →
        KLAxell.terrain.kernel L m inp c s = KLAxell.flat.kernel L m inp c s) ∧
      (inp.terrain_blank c = 1 →
        (KLAxell.terrain.kernel L m inp c s).mu_turb c = 0 ∧
          (KLAxell.terrain.kernel L m inp c s).buoy_prod c = 0 ∧
          (KLAxell.terrain.kernel L m inp c s).shear_prod c = 0) := by
  constructor
  · intro hh hb hz
    have hzeq := KLAxell.terrain_z_eq inp c hh hz
    have hls : KLAxell.terrain.lscale_s inp c = KLAxell.flat.lscale_s inp c := by
      unfold KLAxell.terrain.lscale_s KLAxell.flat.lscale_s
      rw [hzeq]
    have hlb : KLAxell.terrain.lscale_b L m inp s c = KLAxell.flat.lscale_b L m inp s c := rfl
    have hRt : KLAxell.terrain.Rt_limited L m inp s c = KLAxell.flat.Rt_limited L m inp s c :=
      rfl
    have htb : KLAxell.terrain.tlscale_blend L m inp s c =
        KLAxell.flat.tlscale_blend L m inp s c := by
      unfold KLAxell.terrain.tlscale_blend KLAxell.flat.tlscale_blend
      rw [hls, hlb, hRt]
    have htc : KLAxell.terrain.tlscale_capped L m inp s c =
        KLAxell.flat.tlscale_capped L m inp s c := by
      unfold KLAxell.terrain.tlscale_capped KLAxell.flat.tlscale_capped
      rw [htb]
    have htl : KLAxell.terrain.tlscale L m inp s c = KLAxell.flat.tlscale L m inp s c := by
      unfold KLAxell.terrain.tlscale KLAxell.flat.tlscale
      rw [hzeq, hls, htc]
    have hRs : KLAxell.terrain.Rt_switched L m inp s c =
        KLAxell.flat.Rt_switched L m inp s c := by
      unfold KLAxell.terrain.Rt_switched KLAxell.flat.Rt_switched
      rw [hzeq, hRt]
    have hblank : (((1 - inp.terrain_blank c : Int) : α)) = 1 := by
      rw [hb]
      norm_num
    have hmu : KLAxell.terrain.mu L m inp s c = KLAxell.flat.mu L m inp s c := by
      unfold KLAxell.terrain.mu KLAxell.flat.mu KLAxell.terrain.Cmu_Rt KLAxell.flat.Cmu_Rt
      rw [hblank, mul_one, hRs, htl]
    have hmp : KLAxell.terrain.muPrime L m inp s c = KLAxell.flat.muPrime L m inp s c := by
      unfold KLAxell.terrain.muPrime KLAxell.flat.muPrime KLAxell.terrain.Cmu_prime_Rt
        KLAxell.flat.Cmu_prime_Rt
      rw [hblank, mul_one, hRs, htl]
    unfold KLAxell.terrain.kernel KLAxell.flat.kernel
    rw [htl, hmu, hmp]
  · intro hb
    have hblank : (((1 - inp.terrain_blank c : Int) : α)) = 0 := by
      rw [hb]
      norm_num
    have hmu : KLAxell.terrain.mu L m inp s c = 0 := by
      unfold KLAxell.terrain.mu
      rw [hblank, mul_zero]
    have hmp : KLAxell.terrain.muPrime L m inp s c = 0 := by
      unfold KLAxell.terrain.muPrime
      rw [hblank, mul_zero]
    unfold KLAxell.terrain.kernel
    simp only [Function.update_same, hmu, hmp, mul_zero, neg_zero, zero_mul, and_self]

end TerrainAgreement

/-! ## The update and the zone parameters; the sea bed -/

/-- Claim C26: `UpdateTargetFieldsOp<LinearWaves>` does not read `gen_length`,
`beach_length`, `has_beach` or `init_wave_field`: two parameter sets that agree
in every other field give, at the same time and on the same mesh, the same
`ow_levelset` and `ow_velocity` (and leave the same repository). -/
theorem C26_update_ignores_zones {α : Type} [LinearOrderedField α] (L : Libm α)
    (w1 w2 : LinearWavesData α) (mesh : Mesh α) (time : α) (repo : FieldRepo α)
    (h1 : w1.zsl = w2.zsl) (h2 : w1.water_depth = w2.water_depth)
    (h3 : w1.current = w2.current) (h4 : w1.g = w2.g) (h5 : w1.wave_height = w2.wave_height)
    (h6 : w1.wave_length = w2.wave_length)
    (h7 : w1.wave_phase_offset = w2.wave_phase_offset) :
    (UpdateTargetFieldsOp.run L w1 mesh time repo).ow_levelset =
        (UpdateTargetFieldsOp.run L w2 mesh time repo).ow_levelset ∧
      (UpdateTargetFieldsOp.run L w1 mesh time repo).ow_velocity =
        (UpdateTargetFieldsOp.run L w2 mesh time repo).ow_velocity ∧
      UpdateTargetFieldsOp.run L w1 mesh time repo =
        UpdateTargetFieldsOp.run L w2 mesh time repo := by
  have hk : ∀ geom : Geometry α,
      UpdateTargetFieldsOp.kernel L w1 geom time = UpdateTargetFieldsOp.kernel L w2 geom time := by
    intro geom
    funext c r
    simp only [UpdateTargetFieldsOp.kernel, UpdateTargetFieldsOp.eta,
      UpdateTargetFieldsOp.wave_velocity, UpdateTargetFieldsOp.phase,
      UpdateTargetFieldsOp.omega, UpdateTargetFieldsOp.wave_number, h1, h2, h3, h4, h5, h6, h7]
  have hrun : UpdateTargetFieldsOp.run L w1 mesh time repo =
      UpdateTargetFieldsOp.run L w2 mesh time repo := by
    unfold UpdateTargetFieldsOp.run
    simp only [hk]
  exact ⟨by rw [hrun], by rw [hrun], hrun⟩

/-- Claim C26 at the example wave with and without its beach. -/
theorem C26_witness :
    (UpdateTargetFieldsOp.run Libm.real (Example.wdata ℝ) (Example.mesh ℝ 0) 3
          (Example.repo ℝ)).ow_levelset =
        (UpdateTargetFieldsOp.run Libm.real
          { Example.wdata ℝ with
            gen_length := 5, beach_length := 0, has_beach := false, init_wave_field := true }
          (Example.mesh ℝ 0) 3 (Example.repo ℝ)).ow_levelset ∧
      (UpdateTargetFieldsOp.run Libm.real (Example.wdata ℝ) (Example.mesh ℝ 0) 3
          (Example.repo ℝ)).ow_velocity =
        (UpdateTargetFieldsOp.run Libm.real
          { Example.wdata ℝ with
            gen_length := 5, beach_length := 0, has_beach := false, init_wave_field := true }
          (Example.mesh ℝ 0) 3 (Example.repo ℝ)).ow_velocity :=
  ⟨(C26_update_ignores_zones Libm.real (Example.wdata ℝ)
      { Example.wdata ℝ with
        gen_length := 5, beach_length := 0, has_beach := false, init_wave_field := true }
      (Example.mesh ℝ 0) 3 (Example.repo ℝ) rfl rfl rfl rfl rfl rfl rfl).1,
    (C26_update_ignores_zones Libm.real (Example.wdata ℝ)
      { Example.wdata ℝ with
        gen_length := 5, beach_length := 0, has_beach := false, init_wave_field := true }
      (Example.mesh ℝ 0) 3 (Example.repo ℝ) rfl rfl rfl rfl rfl rfl rfl).2.1⟩

/-- Claim C27: over the reals, for every abscissa, time and parameter set with
`wave_length > 0` and `water_depth > 0`, in a cell whose centre is at the height
`z = zsl - water_depth`: `sinh(k d)` is positive; the `w_w` of
`InitDataOp<LinearWaves>` and the third velocity component of
`UpdateTargetFieldsOp<LinearWaves>` (the value written where the proximity test
passes) are exactly 0; and the horizontal wave velocity is
`omega H/2 cos(phase) / sinh(k d)`, plus the current in the update. -/
theorem C27_sea_bed_condition (wdata : LinearWavesData ℝ) (geom : Geometry ℝ) (time : ℝ)
    (c : Cell) (repo : FieldRepo ℝ) (hl : 0 < wdata.wave_length) (hd : 0 < wdata.water_depth)
    (hz : geom.problo 2 + ((c.k : ℝ) + 0.5) * geom.dx 2 = wdata.zsl - wdata.water_depth) :
    0 < Real.sinh (2 * Real.pi / wdata.wave_length * wdata.water_depth) ∧
      InitDataOp.w_w Libm.real wdata geom c.i c.k = 0 ∧
      InitDataOp.u_w Libm.real wdata geom c.i c.k =
        InitDataOp.omega Libm.real wdata * wdata.wave_height / 2 *
          Real.cos (InitDataOp.phase Libm.real wdata geom c.i) /
          Real.sinh (2 * Real.pi / wdata.wave_length * wdata.water_depth) ∧
      UpdateTargetFieldsOp.wave_velocity Libm.real wdata geom time c.i c.k 2 = 0 ∧
      UpdateTargetFieldsOp.wave_velocity Libm.real wdata geom time c.i c.k 0 =
        UpdateTargetFieldsOp.omega Libm.real wdata * wdata.wave_height / 2 *
            Real.cos (UpdateTargetFieldsOp.phase Libm.real wdata geom time c.i) /
            Real.sinh (2 * Real.pi / wdata.wave_length * wdata.water_depth) +
          wdata.current ∧
      (UpdateTargetFieldsOp.eta Libm.real wdata geom time c.i - UpdateTargetFieldsOp.z geom c.k +
            UpdateTargetFieldsOp.cell_length_2D Libm.real geom ≥ 0 →
        (UpdateTargetFieldsOp.kernel Libm.real wdata geom time c repo).ow_velocity c 2 = 0 ∧
          (UpdateTargetFieldsOp.kernel Libm.real wdata geom time c repo).ow_velocity c 0 =
            UpdateTargetFieldsOp.omega Libm.real wdata * wdata.wave_height / 2 *
                Real.cos (UpdateTargetFieldsOp.phase Libm.real wdata geom time c.i) /
                Real.sinh (2 * Real.pi / wdata.wave_length * wdata.water_depth) +
              wdata.current) := by
  have hkd : 0 < 2 * Real.pi / wdata.wave_length * wdata.water_depth :=
    mul_pos (div_pos (mul_pos two_pos Real.pi_pos) hl) hd
  have hsinh : 0 < Real.sinh (2 * Real.pi / wdata.wave_length * wdata.water_depth) :=
    Real.sinh_pos_iff.2 hkd
  have harg1 : InitDataOp.wave_number Libm.real wdata *
      (InitDataOp.z geom c.k - wdata.zsl + wdata.water_depth) = 0 := by
    unfold InitDataOp.z
    rw [hz]
    ring
  have harg2 : UpdateTargetFieldsOp.wave_number Libm.real wdata *
      (UpdateTargetFieldsOp.z geom c.k - wdata.zsl + wdata.water_depth) = 0 := by
    unfold UpdateTargetFieldsOp.z
    rw [hz]
    ring
  have hw1 : InitDataOp.wave_number Libm.real wdata = 2 * Real.pi / wdata.wave_length := rfl
  have hw2 : UpdateTargetFieldsOp.wave_number Libm.real wdata =
      2 * Real.pi / wdata.wave_length := rfl
  have hv2 : UpdateTargetFieldsOp.wave_velocity Libm.real wdata geom time c.i c.k 2 = 0 := by
    simp only [UpdateTargetFieldsOp.wave_velocity, Matrix.cons_val_two, Matrix.tail_cons,
      Matrix.head_cons, Libm.real_sinh, harg2, Real.sinh_zero, mul_zero, zero_div, zero_mul]
  have hv0 : UpdateTargetFieldsOp.wave_velocity Libm.real wdata geom time c.i c.k 0 =
      UpdateTargetFieldsOp.omega Libm.real wdata * wdata.wave_height / 2 *
          Real.cos (UpdateTargetFieldsOp.phase Libm.real wdata geom time c.i) /
          Real.sinh (2 * Real.pi / wdata.wave_length * wdata.water_depth) +
        wdata.current := by
    simp only [UpdateTargetFieldsOp.wave_velocity, Matrix.cons_val_zero, Libm.real_sinh,
      Libm.real_cosh, Libm.real_cos, harg2, Real.cosh_zero, mul_one]
    rw [hw2, show (2.0 : ℝ) = 2 by norm_num]
    ring
  refine ⟨hsinh, ?_, ?_, hv2, hv0, ?_⟩
  · simp only [InitDataOp.w_w, Libm.real_sinh, harg1, Real.sinh_zero, mul_zero, zero_div,
      zero_mul]
  · simp only [InitDataOp.u_w, Libm.real_sinh, Libm.real_cosh, Libm.real_cos, harg1,
      Real.cosh_zero, mul_one]
    rw [hw1, show (2.0 : ℝ) = 2 by norm_num]
    ring
  · intro htest
    rw [UpdateTargetFieldsOp.kernel_ow_velocity, if_pos ⟨rfl, trivial⟩, if_pos htest]
    exact ⟨hv2, hv0⟩

/-- Claim C27 at the example wave, in a cell centred on the sea bed `z = -1`. -/
theorem C27_witness :
    InitDataOp.w_w Libm.real (Example.wdata ℝ) (Example.geom ℝ (-1.5)) 0 0 = 0 ∧
      UpdateTargetFieldsOp.wave_velocity Libm.real (Example.wdata ℝ) (Example.geom ℝ (-1.5)) 3
        0 0 2 = 0 :=
  ⟨(C27_sea_bed_condition (Example.wdata ℝ) (Example.geom ℝ (-1.5)) 3 ⟨0, 0, 0, 0, 0⟩
      (Example.repo ℝ) (by norm_num [Example.wdata]) (by norm_num [Example.wdata])
      (by norm_num [Example.wdata, Example.geom])).2.1,
    (C27_sea_bed_condition (Example.wdata ℝ) (Example.geom ℝ (-1.5)) 3 ⟨0, 0, 0, 0, 0⟩
      (Example.repo ℝ) (by norm_num [Example.wdata]) (by norm_num [Example.wdata])
      (by norm_num [Example.wdata, Example.geom])).2.2.2.1⟩

/-- Claim C29 at the first cell of flat ground with unit cells: unblanked, the
two kernels agree; blanked, the terrain kernel writes zeros. -/
theorem C29_witness :
    KLAxell.terrain.kernel Libm.real (Example.kl_model ℝ) (Example.kl_inputs ℝ 0)
          ⟨0, 0, 0, 0, 0⟩ (Example.kl_fields ℝ) =
        KLAxell.flat.kernel Libm.real (Example.kl_model ℝ) (Example.kl_inputs ℝ 0)
          ⟨0, 0, 0, 0, 0⟩ (Example.kl_fields ℝ) ∧
      (KLAxell.terrain.kernel Libm.real (Example.kl_model ℝ) (Example.kl_inputs ℝ 1)
          ⟨0, 0, 0, 0, 0⟩ (Example.kl_fields ℝ)).mu_turb ⟨0, 0, 0, 0, 0⟩ = 0 :=
  ⟨(C29_terrain_kernel_flat_ground Libm.real (Example.kl_model ℝ) (Example.kl_inputs ℝ 0)
      ⟨0, 0, 0, 0, 0⟩ (Example.kl_fields ℝ)).1 rfl rfl (by norm_num [Example.kl_inputs]),
    ((C29_terrain_kernel_flat_ground Libm.real (Example.kl_model ℝ) (Example.kl_inputs ℝ 1)
      ⟨0, 0, 0, 0, 0⟩ (Example.kl_fields ℝ)).2 rfl).1⟩

/-- Claim C28 at the example model, and its limiter at 0 and at -2. -/
theorem C28_witness :
    KLAxell.terrain.Rt_limited Libm.real (Example.kl_model ℝ) (Example.kl_inputs ℝ 0)
          (Example.kl_fields ℝ) ⟨0, 0, 0, 0, 0⟩ =
        KLAxell.Rt_limiter (KLAxell.terrain.Rt Libm.real (Example.kl_model ℝ)
          (Example.kl_inputs ℝ 0) (Example.kl_fields ℝ) ⟨0, 0, 0, 0, 0⟩) ∧
      KLAxell.Rt_limiter (0 : ℝ) = 0 ∧ (-3 : ℝ) < KLAxell.Rt_limiter (-2) :=
  ⟨(C28_Rt_limiter (Example.kl_model ℝ) (Example.kl_inputs ℝ 0) (Example.kl_fields ℝ)
      ⟨0, 0, 0, 0, 0⟩).1.1,
    (C28_Rt_limiter (Example.kl_model ℝ) (Example.kl_inputs ℝ 0) (Example.kl_fields ℝ)
      ⟨0, 0, 0, 0, 0⟩).2.1 0 (by norm_num),
    (C28_Rt_limiter (Example.kl_model ℝ) (Example.kl_inputs ℝ 0) (Example.kl_fields ℝ)
      ⟨0, 0, 0, 0, 0⟩).2.2.2.1 (-2)⟩

/-! ## The dispersion residual and its slope -/

/-- The derivative of the hyperbolic tangent. -/
theorem hasDerivAt_tanh (x : ℝ) : HasDerivAt Real.tanh (1 - Real.tanh x ^ 2) x := by
  have hc : Real.cosh x ≠ 0 := (Real.cosh_pos x).ne.symm
  have h := (Real.hasDerivAt_sinh x).div (Real.hasDerivAt_cosh x) hc
  have hfun : (fun y => Real.sinh y / Real.cosh y) = Real.tanh := by
    funext y
    rw [Real.tanh_eq_sinh_div_cosh]
  rw [hfun] at h
  refine h.congr_deriv ?_
  rw [Real.tanh_eq_sinh_div_cosh]
  field_simp
  linarith [Real.cosh_sq x]

/-- The derivative of `C0 = sqrt(tanh(k d))` in `k`. -/
theorem hasDerivAt_C0 (d k : ℝ) (hkd : 0 < k * d) :
    HasDerivAt (fun k => Real.sqrt (Real.tanh (k * d)))
      (d * (1 - Real.tanh (k * d) ^ 2) / (2 * Real.sqrt (Real.tanh (k * d)))) k := by
  have ht : 0 < Real.tanh (k * d) := by
    rw [Real.tanh_eq_sinh_div_cosh]
    exact div_pos (Real.sinh_pos_iff.2 hkd) (Real.cosh_pos _)
  have h1 : HasDerivAt (fun k : ℝ => k * d) d k := by
    simpa using (hasDerivAt_id k).mul_const d
  have h2 : HasDerivAt (fun k : ℝ => Real.tanh (k * d)) ((1 - Real.tanh (k * d) ^ 2) * d) k :=
    (hasDerivAt_tanh (k * d)).comp k h1
  have h3 := h2.sqrt ht.ne.symm
  refine h3.congr_deriv ?_
  ring

/-- The derivative of `S = 1 / cosh(2 k d)` in `k`. -/
theorem hasDerivAt_S (d k : ℝ) :
    HasDerivAt (fun k => 1 / Real.cosh (2 * (k * d)))
      (-2 * d * Real.sinh (2 * (k * d)) / Real.cosh (2 * (k * d)) ^ 2) k := by
  have hc : Real.cosh (2 * (k * d)) ≠ 0 := (Real.cosh_pos _).ne.symm
  have h1 : HasDerivAt (fun k : ℝ => 2 * (k * d)) (2 * d) k := by
    simpa using ((hasDerivAt_id k).mul_const d).const_mul 2
  have h2 : HasDerivAt (fun k : ℝ => Real.cosh (2 * (k * d)))
      (Real.sinh (2 * (k * d)) * (2 * d)) k := h1.cosh
  have h3 := (hasDerivAt_const k (1 : ℝ)).div h2 hc
  refine h3.congr_deriv ?_
  field_simp
  ring

/-- The derivative of `2 pi / (T sqrt(g k))` in `k`. -/
theorem hasDerivAt_R (T g k : ℝ) (hg : 0 < g) (hk : 0 < k) (hT : T ≠ 0) :
    HasDerivAt (fun k => 2 * Real.pi / (T * Real.sqrt (g * k)))
      (-(2 * Real.pi / (T * Real.sqrt (g * k))) / (2 * k)) k := by
  have hgk : 0 < g * k := mul_pos hg hk
  have hs : 0 < Real.sqrt (g * k) := Real.sqrt_pos.2 hgk
  have h1 : HasDerivAt (fun k : ℝ => g * k) g k := by
    simpa using (hasDerivAt_id k).const_mul g
  have h2 := (h1.sqrt hgk.ne.symm).const_mul T
  have h3 := (hasDerivAt_const k (2 * Real.pi)).div h2 (mul_ne_zero hT hs.ne.symm)
  refine h3.congr_deriv ?_
  have hsq : Real.sqrt (g * k) * Real.sqrt (g * k) = g * k := Real.mul_self_sqrt hgk.le
  generalize Real.sqrt (g * k) = s at hs hsq
  field_simp
  linear_combination (-(4 * Real.pi * T ^ 2 * s)) * hsq

/-- The derivative of `(2 + 7 S^2) / (4 (1 - S)^2)` in `S`. -/
theorem hasDerivAt_c2_S (S : ℝ) (hS : 1 - S ≠ 0) :
    HasDerivAt (fun S : ℝ => (2 + 7 * S ^ 2) / (4 * (1 - S) ^ 2))
      ((2 + 7 * S) / (2 * (1 - S) ^ 3)) S := by
  have hn : HasDerivAt (fun S : ℝ => 2 + 7 * S ^ 2) (7 * (2 * S)) S := by
    simpa using (((hasDerivAt_id S).pow 2).const_mul 7).const_add 2
  have hd : HasDerivAt (fun S : ℝ => 4 * (1 - S) ^ 2) (4 * (2 * (1 - S) * -1)) S := by
    simpa using ((((hasDerivAt_id S).const_sub 1).pow 2).const_mul 4)
  have h := hn.div hd (mul_ne_zero four_ne_zero (pow_ne_zero 2 hS))
  refine h.congr_deriv ?_
  field_simp
  ring

/-- The derivative of the `C4` polynomial quotient in `S`. -/
theorem hasDerivAt_c4_S (S : ℝ) (hS : 1 - S ≠ 0) :
    HasDerivAt
      (fun S : ℝ => (4 + 32 * S - 116 * S ^ 2 - 400 * S ^ 3 - 71 * S ^ 4 + 146 * S ^ 5) /
        (32 * (1 - S) ^ 5))
      (((32 - 232 * S - 1200 * S ^ 2 - 284 * S ^ 3 + 730 * S ^ 4) * (1 - S) +
          5 * (4 + 32 * S - 116 * S ^ 2 - 400 * S ^ 3 - 71 * S ^ 4 + 146 * S ^ 5)) /
        (32 * (1 - S) ^ 6)) S := by
  have hn : HasDerivAt
      (fun S : ℝ => 4 + 32 * S - 116 * S ^ 2 - 400 * S ^ 3 - 71 * S ^ 4 + 146 * S ^ 5)
      (32 - 116 * (2 * S) - 400 * (3 * S ^ 2) - 71 * (4 * S ^ 3) + 146 * (5 * S ^ 4)) S := by
    have a1 := ((hasDerivAt_id S).const_mul 32).const_add 4
    have a2 := ((hasDerivAt_id S).pow 2).const_mul 116
    have a3 := ((hasDerivAt_id S).pow 3).const_mul 400
    have a4 := ((hasDerivAt_id S).pow 4).const_mul 71
    have a5 := ((hasDerivAt_id S).pow 5).const_mul 146
    simpa using (((a1.sub a2).sub a3).sub a4).add a5
  have hd : HasDerivAt (fun S : ℝ => 32 * (1 - S) ^ 5) (32 * (5 * (1 - S) ^ 4 * -1)) S := by
    simpa using ((((hasDerivAt_id S).const_sub 1).pow 5).const_mul 32)
  have h := hn.div hd (mul_ne_zero (by norm_num) (pow_ne_zero 5 hS))
  refine h.congr_deriv ?_
  field_simp
  ring

/-! ## The derivative of the dispersion residual -/

/-- The dispersion residual over the reals, with its coefficients written out. -/
theorem stokes_dispersion_residual_real (order : Nat) (T d H g k : ℝ) :
    stokes_dispersion_residual Libm.real order T d H g k =
      2 * Real.pi / (T * Real.sqrt (g * k)) -
        (Real.sqrt (Real.tanh (k * d)) +
          (k * H / 2) ^ 2 *
            (if 2 ≤ order then
              Real.sqrt (Real.tanh (k * d)) *
                ((2 + 7 * (1 / Real.cosh (2 * (k * d))) ^ 2) /
                  (4 * (1 - 1 / Real.cosh (2 * (k * d))) ^ 2))
            else 0) +
          (k * H / 2) ^ 4 *
            (if 4 ≤ order then
              Real.sqrt (Real.tanh (k * d)) *
                ((4 + 32 * (1 / Real.cosh (2 * (k * d))) -
                    116 * (1 / Real.cosh (2 * (k * d))) ^ 2 -
                    400 * (1 / Real.cosh (2 * (k * d))) ^ 3 -
                    71 * (1 / Real.cosh (2 * (k * d))) ^ 4 +
                    146 * (1 / Real.cosh (2 * (k * d))) ^ 5) /
                  (32 * (1 - 1 / Real.cosh (2 * (k * d))) ^ 5))
            else 0)) := by
  simp only [stokes_dispersion_residual, stokes_coefficients, Libm.real_pi, Libm.real_sqrt,
    Libm.real_tanh, Libm.real_cosh, mul_div_assoc]

/-- The dispersion residual has the slope `stokes_dispersion_slope` at every
positive wavenumber. -/
theorem hasDerivAt_stokes_dispersion_residual (order : Nat) (T d H g k : ℝ) (hT : T ≠ 0)
    (hd : 0 < d) (hg : 0 < g) (hk : 0 < k) :
    HasDerivAt (fun k => stokes_dispersion_residual Libm.real order T d H g k)
      (stokes_dispersion_slope Libm.real order T d H g k) k := by
  have hkd : 0 < k * d := mul_pos hk hd
  have hS1 : 1 - 1 / Real.cosh (2 * (k * d)) ≠ 0 := by
    have h1 : 1 < Real.cosh (2 * (k * d)) := Real.one_lt_cosh.2 (by positivity)
    have h2 : 1 / Real.cosh (2 * (k * d)) < 1 := by
      rw [div_lt_one (by linarith)]
      exact h1
    linarith
  have hfun : (fun k => stokes_dispersion_residual Libm.real order T d H g k) = fun k =>
      2 * Real.pi / (T * Real.sqrt (g * k)) -
        (Real.sqrt (Real.tanh (k * d)) +
          (k * H / 2) ^ 2 *
            (if 2 ≤ order then
              Real.sqrt (Real.tanh (k * d)) *
                ((2 + 7 * (1 / Real.cosh (2 * (k * d))) ^ 2) /
                  (4 * (1 - 1 / Real.cosh (2 * (k * d))) ^ 2))
            else 0) +
          (k * H / 2) ^ 4 *
            (if 4 ≤ order then
              Real.sqrt (Real.tanh (k * d)) *
                ((4 + 32 * (1 / Real.cosh (2 * (k * d))) -
                    116 * (1 / Real.cosh (2 * (k * d))) ^ 2 -
                    400 * (1 / Real.cosh (2 * (k * d))) ^ 3 -
                    71 * (1 / Real.cosh (2 * (k * d))) ^ 4 +
                    146 * (1 / Real.cosh (2 * (k * d))) ^ 5) /
                  (32 * (1 - 1 / Real.cosh (2 * (k * d))) ^ 5))
            else 0)) := by
    funext k
    exact stokes_dispersion_residual_real order T d H g k
  rw [hfun]
  have hR := hasDerivAt_R T g k hg hk hT
  have hC0 := hasDerivAt_C0 d k hkd
  have hS := hasDerivAt_S d k
  have hc2 := (hasDerivAt_c2_S (1 / Real.cosh (2 * (k * d))) hS1).comp k hS
  have hc4 := (hasDerivAt_c4_S (1 / Real.cosh (2 * (k * d))) hS1).comp k hS
  have hC2 := hC0.mul hc2
  have hC4 := hC0.mul hc4
  have he : HasDerivAt (fun k : ℝ => k * H / 2) (H / 2) k := by
    simpa using ((hasDerivAt_id k).mul_const H).div_const 2
  have he2 := he.pow 2
  have he4 := he.pow 4
  by_cases h2 : 2 ≤ order
  · by_cases h4 : 4 ≤ order
    · simp only [if_pos h2, if_pos h4]
      have h := hR.sub ((hC0.add (he2.mul hC2)).add (he4.mul hC4))
      refine h.congr_deriv ?_
      simp only [stokes_dispersion_slope, if_pos h2, if_pos h4, Libm.real_pi, Libm.real_sqrt,
        Libm.real_tanh, Libm.real_cosh, Libm.real_sinh, Function.comp_apply]
      norm_num
      ring
    · simp only [if_pos h2, if_neg h4, mul_zero, add_zero]
      have h := hR.sub (hC0.add (he2.mul hC2))
      refine h.congr_deriv ?_
      simp only [stokes_dispersion_slope, if_pos h2, if_neg h4, Libm.real_pi, Libm.real_sqrt,
        Libm.real_tanh, Libm.real_cosh, Libm.real_sinh, Function.comp_apply]
      norm_num
      ring
  · have h4 : ¬ 4 ≤ order := by omega
    simp only [if_neg h2, if_neg h4, mul_zero, add_zero]
    have h := hR.sub hC0
    refine h.congr_deriv ?_
    simp only [stokes_dispersion_slope, if_neg h2, if_neg h4, Libm.real_pi, Libm.real_sqrt,
      Libm.real_tanh, Libm.real_cosh, Libm.real_sinh, sub_zero]

/-! ## Hyperbolic functions between bounds on the exponential -/

/-- The hyperbolic functions of `x` and `2 x` between bounds on `exp(2 x)`. -/
theorem hyperbolic_between (x Xlo Xhi : ℝ) (hX0 : 1 ≤ Xlo) (hlo : Xlo ≤ Real.exp (2 * x))
    (hhi : Real.exp (2 * x) ≤ Xhi) :
    (1 - 2 / (Xlo + 1) ≤ Real.tanh x ∧ Real.tanh x ≤ 1 - 2 / (Xhi + 1)) ∧
      (Xlo / 2 ≤ Real.cosh (2 * x) ∧ Real.cosh (2 * x) ≤ Xhi / 2 + 1 / (2 * Xlo)) ∧
      (0 ≤ Real.sinh (2 * x) / Real.cosh (2 * x) ^ 2 ∧
        Real.sinh (2 * x) / Real.cosh (2 * x) ^ 2 ≤ 2 / Xlo) := by
  have hXpos : 0 < Real.exp (2 * x) := Real.exp_pos _
  have hXlo : 0 < Xlo := by linarith
  have hXhi : 0 < Xhi := by linarith
  have hx2 : Real.exp (2 * x) = Real.exp x * Real.exp x := by
    rw [two_mul, Real.exp_add]
  have hE : 0 < Real.exp x := Real.exp_pos x
  have htanh : Real.tanh x = 1 - 2 / (Real.exp (2 * x) + 1) := by
    rw [Real.tanh_eq_sinh_div_cosh, Real.sinh_eq, Real.cosh_eq, Real.exp_neg, hx2]
    field_simp
    ring
  have hcosh : Real.cosh (2 * x) = Real.exp (2 * x) / 2 + 1 / (2 * Real.exp (2 * x)) := by
    rw [Real.cosh_eq, Real.exp_neg]
    field_simp
    ring
  have hsinh : Real.sinh (2 * x) ≤ Real.cosh (2 * x) := (Real.sinh_lt_cosh _).le
  have hc0 : 0 < Real.cosh (2 * x) := Real.cosh_pos _
  have hs0 : 0 ≤ Real.sinh (2 * x) := by
    rw [Real.sinh_eq, Real.exp_neg]
    have : (Real.exp (2 * x))⁻¹ ≤ 1 := inv_le_one_of_one_le₀ (by linarith)
    have : 1 ≤ Real.exp (2 * x) := by linarith
    linarith
  generalize Real.exp (2 * x) = X at *
  have hXge : 0 < X := hXpos
  refine ⟨⟨?_, ?_⟩, ⟨?_, ?_⟩, ⟨?_, ?_⟩⟩
  · rw [htanh]
    have : 2 / (X + 1) ≤ 2 / (Xlo + 1) :=
      div_le_div_of_nonneg_left (by norm_num) (by linarith) (by linarith)
    linarith
  · rw [htanh]
    have : 2 / (Xhi + 1) ≤ 2 / (X + 1) :=
      div_le_div_of_nonneg_left (by norm_num) (by linarith) (by linarith)
    linarith
  · rw [hcosh]
    have : 0 ≤ 1 / (2 * X) := by positivity
    linarith
  · rw [hcosh]
    have : 1 / (2 * X) ≤ 1 / (2 * Xlo) :=
      div_le_div_of_nonneg_left (by norm_num) (by linarith) (by linarith)
    linarith
  · positivity
  · have hcl : Xlo / 2 ≤ Real.cosh (2 * x) := by
      rw [hcosh]
      have : 0 ≤ 1 / (2 * X) := by positivity
      linarith
    calc Real.sinh (2 * x) / Real.cosh (2 * x) ^ 2
        ≤ Real.cosh (2 * x) / Real.cosh (2 * x) ^ 2 :=
          div_le_div_of_nonneg_right hsinh (by positivity)
      _ = 1 / Real.cosh (2 * x) := by
          field_simp
          ring
      _ ≤ 1 / (Xlo / 2) := div_le_div_of_nonneg_left (by norm_num) (by linarith) hcl
      _ = 2 / Xlo := by
          field_simp

/-- The hyperbolic tangent is non-decreasing. -/
theorem tanh_le_tanh (x y : ℝ) (h : x ≤ y) : Real.tanh x ≤ Real.tanh y := by
  have hx : Real.exp (2 * x) ≤ Real.exp (2 * y) := Real.exp_le_exp.2 (by linarith)
  have e : ∀ z : ℝ, Real.tanh z = 1 - 2 / (Real.exp (2 * z) + 1) := by
    intro z
    have hE : 0 < Real.exp z := Real.exp_pos z
    rw [Real.tanh_eq_sinh_div_cosh, Real.sinh_eq, Real.cosh_eq, Real.exp_neg, two_mul,
      Real.exp_add]
    field_simp
    ring
  rw [e x, e y]
  have hpx : 0 < Real.exp (2 * x) := Real.exp_pos _
  have : 2 / (Real.exp (2 * y) + 1) ≤ 2 / (Real.exp (2 * x) + 1) :=
    div_le_div_of_nonneg_left (by norm_num) (by linarith) (by linarith)
  linarith

/-! ## Newton iteration on a decreasing residual -/

/-- Slopes of a function whose derivative lies in `[-m2, -m1]` on `[a, b]`. -/
theorem slopes_of_deriv_bounds (f D : ℝ → ℝ) (a b m1 m2 : ℝ)
    (hD : ∀ k, a ≤ k → k ≤ b → -m2 ≤ D k ∧ D k ≤ -m1)
    (hf : ∀ k, a ≤ k → k ≤ b → HasDerivAt f (D k) k) (x y : ℝ) (hax : a ≤ x) (hxy : x ≤ y)
    (hyb : y ≤ b) : -m2 * (y - x) ≤ f y - f x ∧ f y - f x ≤ -m1 * (y - x) := by
  have hcont : ContinuousOn f (Set.Icc a b) := fun k hk =>
    (hf k hk.1 hk.2).continuousAt.continuousWithinAt
  have hint : ∀ k ∈ interior (Set.Icc a b), a ≤ k ∧ k ≤ b := fun k hk =>
    ⟨(interior_subset hk).1, (interior_subset hk).2⟩
  have hdiff : DifferentiableOn ℝ f (interior (Set.Icc a b)) := fun k hk =>
    (hf k (hint k hk).1 (hint k hk).2).differentiableAt.differentiableWithinAt
  have hx : x ∈ Set.Icc a b := ⟨hax, le_trans hxy hyb⟩
  have hy : y ∈ Set.Icc a b := ⟨le_trans hax hxy, hyb⟩
  constructor
  · refine (convex_Icc a b).mul_sub_le_image_sub_of_le_deriv hcont hdiff ?_ x hx y hy hxy
    intro k hk
    rw [(hf k (hint k hk).1 (hint k hk).2).deriv]
    exact (hD k (hint k hk).1 (hint k hk).2).1
  · refine (convex_Icc a b).image_sub_le_mul_sub_of_deriv_le hcont hdiff ?_ x hx y hy hxy
    intro k hk
    rw [(hf k (hint k hk).1 (hint k hk).2).deriv]
    exact (hD k (hint k hk).1 (hint k hk).2).2

/-- Where a Newton step lands when the slope used lies in `[-m2, -m1]`. -/
theorem newton_step_between (fk Dk k m1 m2 : ℝ) (hm1 : 0 < m1) (hD1 : -m2 ≤ Dk)
    (hD2 : Dk ≤ -m1) :
    (0 ≤ fk → k + fk / m2 ≤ k - fk / Dk ∧ k - fk / Dk ≤ k + fk / m1) ∧
      (fk ≤ 0 → k + fk / m1 ≤ k - fk / Dk ∧ k - fk / Dk ≤ k + fk / m2) := by
  have hm2 : 0 < m2 := by linarith
  have hDneg : Dk < 0 := by linarith
  have hnD : 0 < -Dk := by linarith
  have hstep : k - fk / Dk = k + fk / (-Dk) := by
    rw [div_neg]
    ring
  rw [hstep]
  constructor
  · intro h
    constructor
    · have : fk / m2 ≤ fk / (-Dk) := div_le_div_of_nonneg_left h hnD (by linarith)
      linarith
    · have : fk / (-Dk) ≤ fk / m1 := div_le_div_of_nonneg_left h hm1 (by linarith)
      linarith
  · intro h
    have h' : 0 ≤ -fk := by linarith
    constructor
    · have : -fk / (-Dk) ≤ -fk / m1 := div_le_div_of_nonneg_left h' hm1 (by linarith)
      rw [neg_div, neg_div] at this
      linarith
    · have : -fk / m2 ≤ -fk / (-Dk) := div_le_div_of_nonneg_left h' hnD (by linarith)
      rw [neg_div, neg_div] at this
      linarith

/-- The displacement `-f/D` of a Newton step, when the slope used lies in
`[-m2, -m1]`: it has the sign of the residual, and the residual lies between
`m1` and `m2` times it. -/
theorem newton_displacement (fk Dk m1 m2 : ℝ) (hm1 : 0 < m1) (hD1 : -m2 ≤ Dk)
    (hD2 : Dk ≤ -m1) :
    (0 ≤ fk → 0 ≤ -fk / Dk ∧ m1 * (-fk / Dk) ≤ fk ∧ fk ≤ m2 * (-fk / Dk)) ∧
      (fk ≤ 0 → -fk / Dk ≤ 0 ∧ m2 * (-fk / Dk) ≤ fk ∧ fk ≤ m1 * (-fk / Dk)) := by
  have hDneg : Dk < 0 := by linarith
  have hne : Dk ≠ 0 := hDneg.ne
  have hprod : -fk / Dk * -Dk = fk := by
    field_simp
  generalize -fk / Dk = δ at hprod
  constructor
  · intro h
    have hδ : 0 ≤ δ := by
      by_contra hc
      have : δ * -Dk < 0 := mul_neg_of_neg_of_pos (not_le.1 hc) (by linarith)
      linarith
    have h1 : δ * m1 ≤ δ * -Dk := mul_le_mul_of_nonneg_left (by linarith) hδ
    have h2 : δ * -Dk ≤ δ * m2 := mul_le_mul_of_nonneg_left (by linarith) hδ
    refine ⟨hδ, ?_, ?_⟩ <;> linarith
  · intro h
    have hδ : δ ≤ 0 := by
      by_contra hc
      have : 0 < δ * -Dk := mul_pos (not_le.1 hc) (by linarith)
      linarith
    have h1 : -δ * m1 ≤ -δ * -Dk := mul_le_mul_of_nonneg_left (by linarith) (by linarith)
    have h2 : -δ * -Dk ≤ -δ * m2 := mul_le_mul_of_nonneg_left (by linarith) (by linarith)
    refine ⟨hδ, ?_, ?_⟩ <;> linarith

/-- A Newton step shrinks the residual by the factor `(m2 - m1) / m1` when the
slopes of the residual and the slope used lie in `[-m2, -m1]`. -/
theorem newton_residual_contracts (f D : ℝ → ℝ) (a b m1 m2 : ℝ) (hm1 : 0 < m1)
    (hs : ∀ x y, a ≤ x → x ≤ y → y ≤ b →
      -m2 * (y - x) ≤ f y - f x ∧ f y - f x ≤ -m1 * (y - x))
    (k : ℝ) (hD1 : -m2 ≤ D k) (hD2 : D k ≤ -m1) (hak : a ≤ k) (hkb : k ≤ b)
    (haN : a ≤ k - f k / D k) (hNb : k - f k / D k ≤ b) :
    m1 * |f (k - f k / D k)| ≤ (m2 - m1) * |f k| := by
  have hm2 : 0 < m2 := by linarith
  have hm12 : m1 ≤ m2 := by linarith
  obtain ⟨hpos, hneg⟩ := newton_displacement (f k) (D k) m1 m2 hm1 hD1 hD2
  have hN : k - f k / D k = k + -f k / D k := by ring
  rw [hN] at haN hNb ⊢
  generalize -f k / D k = δ at *
  rcases le_total 0 (f k) with h | h
  · obtain ⟨hδ, h1, h2⟩ := hpos h
    obtain ⟨s1, s2⟩ := hs k (k + δ) hak (by linarith) hNb
    rw [abs_of_nonneg h]
    have e : k + δ - k = δ := by ring
    rw [e] at s1 s2
    have p1 : m2 * (m1 * δ) ≤ m2 * f k := mul_le_mul_of_nonneg_left h1 hm2.le
    have p2 : m1 * f k ≤ m1 * (m2 * δ) := mul_le_mul_of_nonneg_left h2 hm1.le
    rcases abs_cases (f (k + δ)) with ⟨ha, hs0⟩ | ⟨ha, hs0⟩
    · rw [ha]
      have p3 : m1 * f (k + δ) ≤ m2 * f (k + δ) := mul_le_mul_of_nonneg_right hm12 hs0
      have p4 : m2 * f (k + δ) ≤ m2 * (f k - m1 * δ) :=
        mul_le_mul_of_nonneg_left (by linarith) hm2.le
      linarith
    · rw [ha]
      have p4 : m1 * -f (k + δ) ≤ m1 * (m2 * δ - f k) :=
        mul_le_mul_of_nonneg_left (by linarith) hm1.le
      linarith
  · obtain ⟨hδ, h1, h2⟩ := hneg h
    obtain ⟨s1, s2⟩ := hs (k + δ) k haN (by linarith) hkb
    rw [abs_of_nonpos h]
    have e : k - (k + δ) = -δ := by ring
    rw [e] at s1 s2
    have p1 : m2 * f k ≤ m2 * (m1 * δ) := mul_le_mul_of_nonneg_left h2 hm2.le
    have p2 : m1 * (m2 * δ) ≤ m1 * f k := mul_le_mul_of_nonneg_left h1 hm1.le
    rcases abs_cases (f (k + δ)) with ⟨ha, hs0⟩ | ⟨ha, hs0⟩
    · rw [ha]
      have p4 : m1 * f (k + δ) ≤ m1 * (f k - m2 * δ) :=
        mul_le_mul_of_nonneg_left (by linarith) hm1.le
      linarith
    · rw [ha]
      have p3 : m1 * -f (k + δ) ≤ m2 * -f (k + δ) :=
        mul_le_mul_of_nonneg_right hm12 (by linarith)
      have p4 : m2 * -f (k + δ) ≤ m2 * (m1 * δ - f k) :=
        mul_le_mul_of_nonneg_left (by linarith) hm2.le
      linarith

/-- The guarded Newton iteration started in `[jlo, jhi]`, where the residual is
at most `ε1`, stays in `[a, b]`, and after `n` rounds the residual is at most
the tolerance or at most `ρ^n ε1`. -/
theorem newton_iterate_bound (f D : ℝ → ℝ) (tol a b m1 m2 jlo jhi ε1 r ρ : ℝ)
    (hm1 : 0 < m1) (hρ : m2 - m1 ≤ ρ * m1) (hρ0 : 0 ≤ ρ) (hρ1 : ρ ≤ 1)
    (hD : ∀ k, a ≤ k → k ≤ b → -m2 ≤ D k ∧ D k ≤ -m1)
    (hs : ∀ x y, a ≤ x → x ≤ y → y ≤ b →
      -m2 * (y - x) ≤ f y - f x ∧ f y - f x ≤ -m1 * (y - x))
    (hJ : ∀ k, jlo ≤ k → k ≤ jhi → |f k| ≤ ε1)
    (hr : 0 ≤ r) (har : a ≤ jlo - r) (hrb : jhi + r ≤ b) (hε : ε1 ≤ r * m1 * (1 - ρ))
    (k : ℝ) (hk1 : jlo ≤ k) (hk2 : k ≤ jhi) (n : ℕ) :
    (|f ((fun k => if tol < |f k| then k - f k / D k else k)^[n] k)| ≤ tol ∨
        |f ((fun k => if tol < |f k| then k - f k / D k else k)^[n] k)| ≤ ρ ^ n * ε1) ∧
      a ≤ (fun k => if tol < |f k| then k - f k / D k else k)^[n] k ∧
      (fun k => if tol < |f k| then k - f k / D k else k)^[n] k ≤ b := by
  have key : ∀ n : ℕ,
      (|f ((fun k => if tol < |f k| then k - f k / D k else k)^[n] k)| ≤ tol ∧
          a ≤ (fun k => if tol < |f k| then k - f k / D k else k)^[n] k ∧
          (fun k => if tol < |f k| then k - f k / D k else k)^[n] k ≤ b) ∨
        (|f ((fun k => if tol < |f k| then k - f k / D k else k)^[n] k)| ≤ ρ ^ n * ε1 ∧
          jlo - r * (1 - ρ ^ n) ≤
            (fun k => if tol < |f k| then k - f k / D k else k)^[n] k ∧
          (fun k => if tol < |f k| then k - f k / D k else k)^[n] k ≤
            jhi + r * (1 - ρ ^ n)) := by
    intro n
    induction n with
    | zero =>
      right
      simp only [Function.iterate_zero, id_eq, pow_zero, one_mul, sub_self, mul_zero, sub_zero,
        add_zero]
      exact ⟨hJ k hk1 hk2, hk1, hk2⟩
    | succ n ih =>
      rw [Function.iterate_succ_apply']
      generalize (fun k => if tol < |f k| then k - f k / D k else k)^[n] k = x at ih
      have hP0 : 0 ≤ ρ ^ n := pow_nonneg hρ0 n
      have hP1 : ρ ^ n ≤ 1 := pow_le_one₀ hρ0 hρ1
      rw [pow_succ]
      generalize ρ ^ n = P at *
      rcases ih with ⟨h1, h2, h3⟩ | ⟨h1, h2, h3⟩
      · left
        simp only [if_neg (not_lt.2 h1)]
        exact ⟨h1, h2, h3⟩
      · have hrP : 0 ≤ r * P := mul_nonneg hr hP0
        have hax : a ≤ x := by nlinarith
        have hxb : x ≤ b := by nlinarith
        by_cases ht : tol < |f x|
        · right
          simp only [if_pos ht]
          obtain ⟨hD1, hD2⟩ := hD x hax hxb
          obtain ⟨hpos, hneg⟩ := newton_displacement (f x) (D x) m1 m2 hm1 hD1 hD2
          have hfx : |f x| ≤ P * (r * m1 * (1 - ρ)) :=
            le_trans h1 (mul_le_mul_of_nonneg_left hε hP0)
          have hδ : |-f x / D x| ≤ r * P * (1 - ρ) := by
            have hm : m1 * |-f x / D x| ≤ |f x| := by
              rcases le_total 0 (f x) with h | h
              · obtain ⟨q1, q2, _⟩ := hpos h
                rw [abs_of_nonneg q1, abs_of_nonneg h]
                exact q2
              · obtain ⟨q1, _, q3⟩ := hneg h
                rw [abs_of_nonpos q1, abs_of_nonpos h]
                linarith
            have hm' : m1 * |-f x / D x| ≤ m1 * (r * P * (1 - ρ)) := by
              calc m1 * |-f x / D x| ≤ |f x| := hm
                _ ≤ P * (r * m1 * (1 - ρ)) := hfx
                _ = m1 * (r * P * (1 - ρ)) := by ring
            exact le_of_mul_le_mul_left hm' hm1
          have hN : x - f x / D x = x + -f x / D x := by ring
          obtain ⟨d1, d2⟩ := abs_le.1 hδ
          have hN1 : jlo - r * (1 - P * ρ) ≤ x - f x / D x := by
            rw [hN]
            linarith
          have hN2 : x - f x / D x ≤ jhi + r * (1 - P * ρ) := by
            rw [hN]
            linarith
          have hPρ0 : 0 ≤ P * ρ := mul_nonneg hP0 hρ0
          have hrPρ : 0 ≤ r * (P * ρ) := mul_nonneg hr hPρ0
          have haN : a ≤ x - f x / D x := by linarith
          have hNb : x - f x / D x ≤ b := by linarith
          have hc := newton_residual_contracts f D a b m1 m2 hm1 hs x hD1 hD2 hax hxb haN hNb
          refine ⟨?_, hN1, hN2⟩
          have hc' : m1 * |f (x - f x / D x)| ≤ m1 * (P * ρ * ε1) := by
            calc m1 * |f (x - f x / D x)| ≤ (m2 - m1) * |f x| := hc
              _ ≤ ρ * m1 * |f x| := mul_le_mul_of_nonneg_right hρ (abs_nonneg _)
              _ ≤ ρ * m1 * (P * ε1) :=
                mul_le_mul_of_nonneg_left h1 (mul_nonneg hρ0 hm1.le)
              _ = m1 * (P * ρ * ε1) := by ring
          exact le_of_mul_le_mul_left hc' hm1
        · left
          simp only [if_neg ht]
          exact ⟨not_lt.1 ht, hax, hxb⟩
  rcases key n with ⟨h1, h2, h3⟩ | ⟨h1, h2, h3⟩
  · exact ⟨Or.inl h1, h2, h3⟩
  · have hP0 : 0 ≤ ρ ^ n := pow_nonneg hρ0 n
    have hP1 : ρ ^ n ≤ 1 := pow_le_one₀ hρ0 hρ1
    have hrP : 0 ≤ r * ρ ^ n := mul_nonneg hr hP0
    exact ⟨Or.inr h1, by nlinarith, by nlinarith⟩

/-- The guarded Newton iteration started anywhere in `[Klo, Khi]` lands in
`[jlo, jhi]` after one round, or stops at once, and after `n + 1` rounds the
residual is within the tolerance. -/
theorem newton_converges (f D : ℝ → ℝ) (tol a b m1 m2 Klo Khi jlo jhi ε1 r ρ : ℝ)
    (hm1 : 0 < m1) (hρ : m2 - m1 ≤ ρ * m1) (hρ0 : 0 ≤ ρ) (hρ1 : ρ ≤ 1)
    (hD : ∀ k, a ≤ k → k ≤ b → -m2 ≤ D k ∧ D k ≤ -m1)
    (hf : ∀ k, a ≤ k → k ≤ b → HasDerivAt f (D k) k)
    (haK : a ≤ Klo) (hKb : Khi ≤ b)
    (hK1 : m1 * Klo + f Klo ≤ m1 * jhi) (hK2 : m2 * jlo ≤ m2 * Klo + f Klo)
    (hK3 : m1 * jlo ≤ m1 * Khi + f Khi) (hK4 : m2 * Khi + f Khi ≤ m2 * jhi)
    (hj1 : f jlo ≤ ε1) (hj2 : -ε1 ≤ f jhi)
    (hr : 0 ≤ r) (har : a ≤ jlo - r) (hrb : jhi + r ≤ b) (hε : ε1 ≤ r * m1 * (1 - ρ))
    (n : ℕ) (htol : ρ ^ n * ε1 ≤ tol)
    (k : ℝ) (hk1 : Klo ≤ k) (hk2 : k ≤ Khi) :
    |f ((fun k => if tol < |f k| then k - f k / D k else k)^[n + 1] k)| ≤ tol ∧
      a ≤ (fun k => if tol < |f k| then k - f k / D k else k)^[n + 1] k ∧
      (fun k => if tol < |f k| then k - f k / D k else k)^[n + 1] k ≤ b := by
  have hs := slopes_of_deriv_bounds f D a b m1 m2 hD hf
  have hm2 : 0 < m2 := by
    have := hD Klo haK (le_trans (le_trans hk1 hk2) hKb)
    linarith
  have hak : a ≤ k := le_trans haK hk1
  have hkb : k ≤ b := le_trans hk2 hKb
  have hJ : ∀ x, jlo ≤ x → x ≤ jhi → |f x| ≤ ε1 := by
    intro x hx1 hx2
    have hax : a ≤ x := by linarith
    have hxb : x ≤ b := by linarith
    obtain ⟨_, s2⟩ := hs jlo x (by linarith) hx1 hxb
    obtain ⟨_, s4⟩ := hs x jhi hax hx2 (by linarith)
    have p1 : 0 ≤ m1 * (x - jlo) := mul_nonneg hm1.le (by linarith)
    have p2 : 0 ≤ m1 * (jhi - x) := mul_nonneg hm1.le (by linarith)
    rw [abs_le]
    constructor <;> linarith
  have hbound := fun x hx1 hx2 => newton_iterate_bound f D tol a b m1 m2 jlo jhi ε1 r ρ hm1 hρ hρ0
    hρ1 hD hs hJ hr har hrb hε x hx1 hx2 n
  generalize hg : (fun k => if tol < |f k| then k - f k / D k else k) = g at hbound ⊢
  have hgk : ∀ x, g x = if tol < |f x| then x - f x / D x else x := fun x => by rw [← hg]
  rw [Function.iterate_succ_apply]
  by_cases ht : tol < |f k|
  · rw [hgk k, if_pos ht]
    obtain ⟨hD1, hD2⟩ := hD k hak hkb
    obtain ⟨hpos, hneg⟩ := newton_displacement (f k) (D k) m1 m2 hm1 hD1 hD2
    have hN : k - f k / D k = k + -f k / D k := by ring
    obtain ⟨_, sl2⟩ := hs Klo k haK hk1 hkb
    obtain ⟨sl3, _⟩ := hs Klo k haK hk1 hkb
    obtain ⟨sh1, sh2⟩ := hs k Khi hak hk2 hKb
    have hNJ : jlo ≤ k - f k / D k ∧ k - f k / D k ≤ jhi := by
      rw [hN]
      rcases le_total 0 (f k) with h | h
      · obtain ⟨q1, q2, q3⟩ := hpos h
        constructor
        · have : m2 * jlo ≤ m2 * (k + -f k / D k) := by linarith
          exact le_of_mul_le_mul_left this hm2
        · have : m1 * (k + -f k / D k) ≤ m1 * jhi := by linarith
          exact le_of_mul_le_mul_left this hm1
      · obtain ⟨q1, q2, q3⟩ := hneg h
        constructor
        · have : m1 * jlo ≤ m1 * (k + -f k / D k) := by linarith
          exact le_of_mul_le_mul_left this hm1
        · have : m2 * (k + -f k / D k) ≤ m2 * jhi := by linarith
          exact le_of_mul_le_mul_left this hm2
    obtain ⟨hb1, hb2, hb3⟩ := hbound (k - f k / D k) hNJ.1 hNJ.2
    refine ⟨?_, hb2, hb3⟩
    rcases hb1 with h | h
    · exact h
    · exact le_trans h htol
  · have hfix : g k = k := by rw [hgk k, if_neg ht]
    rw [hfix, Function.iterate_fixed hfix]
    exact ⟨not_lt.1 ht, hak, hkb⟩

/-! ## Interval bounds of arithmetic expressions -/

/-- A value lies in the interval it spans. -/
theorem iv_lit (c : ℝ) : c ≤ c ∧ c ≤ c := ⟨le_refl c, le_refl c⟩

/-- Bounds of a sum from bounds of its terms. -/
theorem iv_add {x y xl xh yl yh : ℝ} (hx : xl ≤ x ∧ x ≤ xh) (hy : yl ≤ y ∧ y ≤ yh)
    (lo hi : ℝ) (h : lo ≤ xl + yl ∧ xh + yh ≤ hi) : lo ≤ x + y ∧ x + y ≤ hi :=
  ⟨by linarith [hx.1, hy.1, h.1], by linarith [hx.2, hy.2, h.2]⟩

/-- Bounds of a difference from bounds of its terms. -/
theorem iv_sub {x y xl xh yl yh : ℝ} (hx : xl ≤ x ∧ x ≤ xh) (hy : yl ≤ y ∧ y ≤ yh)
    (lo hi : ℝ) (h : lo ≤ xl - yh ∧ xh - yl ≤ hi) : lo ≤ x - y ∧ x - y ≤ hi :=
  ⟨by linarith [hx.1, hy.2, h.1], by linarith [hx.2, hy.1, h.2]⟩

/-- Bounds of the opposite. -/
theorem iv_neg {x xl xh : ℝ} (hx : xl ≤ x ∧ x ≤ xh) (lo hi : ℝ)
    (h : lo ≤ -xh ∧ -xl ≤ hi) : lo ≤ -x ∧ -x ≤ hi :=
  ⟨by linarith [hx.2, h.1], by linarith [hx.1, h.2]⟩

/-- Bounds of a product whose left factor is not negative. -/
theorem iv_mul {x y xl xh yl yh : ℝ} (hx : xl ≤ x ∧ x ≤ xh) (hy : yl ≤ y ∧ y ≤ yh)
    (lo hi : ℝ)
    (h : 0 ≤ xl ∧ lo ≤ xl * yl ∧ lo ≤ xh * yl ∧ xl * yh ≤ hi ∧ xh * yh ≤ hi) :
    lo ≤ x * y ∧ x * y ≤ hi := by
  obtain ⟨h0, hlo1, hlo2, hhi1, hhi2⟩ := h
  obtain ⟨hx1, hx2⟩ := hx
  obtain ⟨hy1, hy2⟩ := hy
  have hx0 : 0 ≤ x := le_trans h0 hx1
  have h1 : x * yl ≤ x * y := mul_le_mul_of_nonneg_left hy1 hx0
  have h2 : x * y ≤ x * yh := mul_le_mul_of_nonneg_left hy2 hx0
  constructor
  · rcases le_total 0 yl with h | h
    · have : xl * yl ≤ x * yl := mul_le_mul_of_nonneg_right hx1 h
      linarith
    · have : xh * yl ≤ x * yl := mul_le_mul_of_nonpos_right hx2 h
      linarith
  · rcases le_total 0 yh with h | h
    · have : x * yh ≤ xh * yh := mul_le_mul_of_nonneg_right hx2 h
      linarith
    · have : x * yh ≤ xl * yh := mul_le_mul_of_nonpos_right hx1 h
      linarith

/-- Bounds of a quotient whose denominator is positive. -/
theorem iv_div {x y xl xh yl yh : ℝ} (hx : xl ≤ x ∧ x ≤ xh) (hy : yl ≤ y ∧ y ≤ yh)
    (lo hi : ℝ)
    (h : 0 < yl ∧ lo * yl ≤ xl ∧ lo * yh ≤ xl ∧ xh ≤ hi * yl ∧ xh ≤ hi * yh) :
    lo ≤ x / y ∧ x / y ≤ hi := by
  obtain ⟨h0, hlo1, hlo2, hhi1, hhi2⟩ := h
  obtain ⟨hx1, hx2⟩ := hx
  obtain ⟨hy1, hy2⟩ := hy
  have hy0 : 0 < y := lt_of_lt_of_le h0 hy1
  rw [le_div_iff₀ hy0, div_le_iff₀ hy0]
  constructor
  · rcases le_total 0 lo with h | h
    · have : lo * y ≤ lo * yh := mul_le_mul_of_nonneg_left hy2 h
      linarith
    · have : lo * y ≤ lo * yl := mul_le_mul_of_nonpos_left hy1 h
      linarith
  · rcases le_total 0 hi with h | h
    · have : hi * yl ≤ hi * y := mul_le_mul_of_nonneg_left hy1 h
      linarith
    · have : hi * yh ≤ hi * y := mul_le_mul_of_nonpos_left hy2 h
      linarith

/-- Bounds of a power of a quantity that is not negative. -/
theorem iv_pow {x xl xh : ℝ} (hx : xl ≤ x ∧ x ≤ xh) (n : ℕ) (lo hi : ℝ)
    (h : 0 ≤ xl ∧ lo ≤ xl ^ n ∧ xh ^ n ≤ hi) : lo ≤ x ^ n ∧ x ^ n ≤ hi :=
  ⟨le_trans h.2.1 (pow_le_pow_left₀ h.1 hx.1 n),
    le_trans (pow_le_pow_left₀ (le_trans h.1 hx.1) hx.2 n) h.2.2⟩

/-- Bounds of a square root. -/
theorem iv_sqrt {x xl xh : ℝ} (hx : xl ≤ x ∧ x ≤ xh) (lo hi : ℝ)
    (h : 0 ≤ hi ∧ lo ^ 2 ≤ xl ∧ xh ≤ hi ^ 2) : lo ≤ Real.sqrt x ∧ Real.sqrt x ≤ hi :=
  ⟨Real.le_sqrt_of_sq_le (le_trans h.2.1 hx.1),
    (Real.sqrt_le_left h.1).2 (le_trans hx.2 h.2.2)⟩

/-- Bounds of `c s / den` with `c` not positive, from bounds of `s / den`. -/
theorem iv_scaled_quot {s den ql qh : ℝ} (c : ℝ) (hq : ql ≤ s / den ∧ s / den ≤ qh)
    (lo hi : ℝ) (h : c ≤ 0 ∧ lo ≤ c * qh ∧ c * ql ≤ hi) :
    lo ≤ c * s / den ∧ c * s / den ≤ hi := by
  obtain ⟨hc, hlo, hhi⟩ := h
  have e : c * s / den = c * (s / den) := by ring
  rw [e]
  have h1 : c * qh ≤ c * (s / den) := mul_le_mul_of_nonpos_left hq.2 hc
  have h2 : c * (s / den) ≤ c * ql := mul_le_mul_of_nonpos_left hq.1 hc
  exact ⟨le_trans hlo h1, le_trans h2 hhi⟩

/-! ## The dispersion residual and slope at the two solver inputs -/

/-- Bounds on `exp(41 / 5)`, from the Taylor series at `41 / 45` and its power 9. -/
theorem dispersion_exp_1 :
    (3640.95030728 : ℝ) ≤ Real.exp (41 / 5) ∧
      Real.exp (41 / 5) ≤ 3640.95030734 := by
  have hy : (2.487084425852 : ℝ) ≤ Real.exp (41 / 45) ∧
      Real.exp (41 / 45) ≤ 2.487084425856 := by
    constructor
    · have h := Real.sum_le_exp_of_nonneg (x := (41 / 45 : ℝ)) (by norm_num) 14
      refine le_trans ?_ h
      simp only [Finset.sum_range_succ, Finset.sum_range_zero, Nat.factorial]
      norm_num
    · have h := Real.exp_bound' (x := (41 / 45 : ℝ)) (by norm_num) (by norm_num)
        (n := 14) (by norm_num)
      refine le_trans h ?_
      simp only [Finset.sum_range_succ, Finset.sum_range_zero, Nat.factorial]
      norm_num
  have hz : Real.exp (41 / 5) = Real.exp (41 / 45) ^ 9 := by
    rw [← Real.exp_nat_mul]
    congr 1
    norm_num
  rw [hz]
  exact ⟨le_trans (by norm_num) (pow_le_pow_left₀ (by norm_num) hy.1 9),
    le_trans (pow_le_pow_left₀ (Real.exp_pos _).le hy.2 9) (by norm_num)⟩

/-- Bounds on `exp(42 / 5)`, from the Taylor series at `14 / 15` and its power 9. -/
theorem dispersion_exp_2 :
    (4447.06674762 : ℝ) ≤ Real.exp (42 / 5) ∧
      Real.exp (42 / 5) ≤ 4447.06674771 := by
  have hy : (2.542971637803 : ℝ) ≤ Real.exp (14 / 15) ∧
      Real.exp (14 / 15) ≤ 2.542971637808 := by
    constructor
    · have h := Real.sum_le_exp_of_nonneg (x := (14 / 15 : ℝ)) (by norm_num) 14
      refine le_trans ?_ h
      simp only [Finset.sum_range_succ, Finset.sum_range_zero, Nat.factorial]
      norm_num
    · have h := Real.exp_bound' (x := (14 / 15 : ℝ)) (by norm_num) (by norm_num)
        (n := 14) (by norm_num)
      refine le_trans h ?_
      simp only [Finset.sum_range_succ, Finset.sum_range_zero, Nat.factorial]
      norm_num
  have hz : Real.exp (42 / 5) = Real.exp (14 / 15) ^ 9 := by
    rw [← Real.exp_nat_mul]
    congr 1
    norm_num
  rw [hz]
  exact ⟨le_trans (by norm_num) (pow_le_pow_left₀ (by norm_num) hy.1 9),
    le_trans (pow_le_pow_left₀ (Real.exp_pos _).le hy.2 9) (by norm_num)⟩

/-- Bounds on `tanh(k d)`, `cosh(2 k d)`, `sinh(2 k d) / cosh(2 k d)^2` and
`sqrt(g k)` for `d = 5.0`, `g = 9.81` and `k` in `[0.82, 0.84]`. -/
theorem dispersion_atoms_deep_0_82_0_84 (k : ℝ) (hk : (0.82 : ℝ) ≤ k ∧ k ≤ 0.84) :
    ((0.9994508436 : ℝ) ≤ Real.tanh (k * 5.0) ∧ Real.tanh (k * 5.0) ≤ 0.9995503665) ∧
      ((1820.47515364 : ℝ) ≤ Real.cosh (2 * (k * 5.0)) ∧
        Real.cosh (2 * (k * 5.0)) ≤ 2223.5335111818) ∧
      ((0 : ℝ) ≤ Real.sinh (2 * (k * 5.0)) / Real.cosh (2 * (k * 5.0)) ^ 2 ∧
        Real.sinh (2 * (k * 5.0)) / Real.cosh (2 * (k * 5.0)) ^ 2 ≤ 0.0005493072) ∧
      ((2.8362298919 : ℝ) ≤ Real.sqrt (9.81 * k) ∧
        Real.sqrt (9.81 * k) ≤ 2.8706096914) := by
  have hlo : (3640.95030728 : ℝ) ≤ Real.exp (2 * (k * 5.0)) :=
    le_trans dispersion_exp_1.1 (Real.exp_le_exp.2 (by linarith [hk.1]))
  have hhi : Real.exp (2 * (k * 5.0)) ≤ 4447.06674771 :=
    le_trans (Real.exp_le_exp.2 (by linarith [hk.2])) dispersion_exp_2.2
  obtain ⟨⟨t1, t2⟩, ⟨c1, c2⟩, ⟨q1, q2⟩⟩ :=
    hyperbolic_between (k * 5.0) 3640.95030728 4447.06674771 (by norm_num) hlo hhi
  have b1 := iv_mul (iv_lit 9.81) hk 8.0442 8.2404 (by norm_num)
  have b2 := iv_sqrt b1 2.8362298919 2.8706096914 (by norm_num)
  exact ⟨⟨le_trans (by norm_num) t1, le_trans t2 (by norm_num)⟩,
    ⟨le_trans (by norm_num) c1, le_trans c2 (by norm_num)⟩,
    ⟨q1, le_trans q2 (by norm_num)⟩, b2⟩

/-- The dispersion slope of order 5 (T = 2.2, d = 5.0, H = 0.2) between bounds,
in terms of `t = tanh(k d)`, `ch = cosh(2 k d)`, `sh = sinh(2 k d)` and
`sq = sqrt(g k)`, for `k` in `[0.82, 0.84]`. -/
theorem slope_core_deep (k t ch sh sq pi : ℝ)
    (hk : (0.82 : ℝ) ≤ k ∧ k ≤ 0.84)
    (ht : (0.9994508436 : ℝ) ≤ t ∧ t ≤ 0.9995503665)
    (hch : (1820.47515364 : ℝ) ≤ ch ∧ ch ≤ 2223.5335111818)
    (hq : (0 : ℝ) ≤ sh / ch ^ 2 ∧ sh / ch ^ 2 ≤ 0.0005493072)
    (hsq : (2.8362298919 : ℝ) ≤ sq ∧ sq ≤ 2.8706096914)
    (hpi : (3.141592 : ℝ) ≤ pi ∧ pi ≤ 3.141593) :
    ((-0.6251977626) : ℝ) ≤
        -(2 * pi / (2.2 * sq)) / (2 * k) - 5.0 * (1 - t ^ 2) / (2 * Real.sqrt t) - (2 * (k * 0.2 /
          2) * (0.2 / 2) * (Real.sqrt t * ((2 + 7 * (1 / ch) ^ 2) / (4 * (1 - 1 / ch) ^ 2))) + (k
          * 0.2 / 2) ^ 2 * (5.0 * (1 - t ^ 2) / (2 * Real.sqrt t) * ((2 + 7 * (1 / ch) ^ 2) / (4 *
          (1 - 1 / ch) ^ 2)) + Real.sqrt t * ((2 + 7 * (1 / ch)) / (2 * (1 - 1 / ch) ^ 3) * (-2 *
          5.0 * sh / ch ^ 2)))) - (4 * (k * 0.2 / 2) ^ 3 * (0.2 / 2) * (Real.sqrt t * ((4 + 32 *
          (1 / ch) - 116 * (1 / ch) ^ 2 - 400 * (1 / ch) ^ 3 - 71 * (1 / ch) ^ 4 + 146 * (1 / ch)
          ^ 5) / (32 * (1 - 1 / ch) ^ 5))) + (k * 0.2 / 2) ^ 4 * (5.0 * (1 - t ^ 2) / (2 *
          Real.sqrt t) * ((4 + 32 * (1 / ch) - 116 * (1 / ch) ^ 2 - 400 * (1 / ch) ^ 3 - 71 * (1 /
          ch) ^ 4 + 146 * (1 / ch) ^ 5) / (32 * (1 - 1 / ch) ^ 5)) + Real.sqrt t * (((32 - 232 *
          (1 / ch) - 1200 * (1 / ch) ^ 2 - 284 * (1 / ch) ^ 3 + 730 * (1 / ch) ^ 4) * (1 - 1 / ch)
          + 5 * (4 + 32 * (1 / ch) - 116 * (1 / ch) ^ 2 - 400 * (1 / ch) ^ 3 - 71 * (1 / ch) ^ 4 +
          146 * (1 / ch) ^ 5)) / (32 * (1 - 1 / ch) ^ 6) * (-2 * 5.0 * sh / ch ^ 2)))) ∧
      -(2 * pi / (2.2 * sq)) / (2 * k) - 5.0 * (1 - t ^ 2) / (2 * Real.sqrt t) - (2 * (k * 0.2 /
        2) * (0.2 / 2) * (Real.sqrt t * ((2 + 7 * (1 / ch) ^ 2) / (4 * (1 - 1 / ch) ^ 2))) + (k *
        0.2 / 2) ^ 2 * (5.0 * (1 - t ^ 2) / (2 * Real.sqrt t) * ((2 + 7 * (1 / ch) ^ 2) / (4 * (1
        - 1 / ch) ^ 2)) + Real.sqrt t * ((2 + 7 * (1 / ch)) / (2 * (1 - 1 / ch) ^ 3) * (-2 * 5.0 *
        sh / ch ^ 2)))) - (4 * (k * 0.2 / 2) ^ 3 * (0.2 / 2) * (Real.sqrt t * ((4 + 32 * (1 / ch)
        - 116 * (1 / ch) ^ 2 - 400 * (1 / ch) ^ 3 - 71 * (1 / ch) ^ 4 + 146 * (1 / ch) ^ 5) / (32
        * (1 - 1 / ch) ^ 5))) + (k * 0.2 / 2) ^ 4 * (5.0 * (1 - t ^ 2) / (2 * Real.sqrt t) * ((4 +
        32 * (1 / ch) - 116 * (1 / ch) ^ 2 - 400 * (1 / ch) ^ 3 - 71 * (1 / ch) ^ 4 + 146 * (1 /
        ch) ^ 5) / (32 * (1 - 1 / ch) ^ 5)) + Real.sqrt t * (((32 - 232 * (1 / ch) - 1200 * (1 /
        ch) ^ 2 - 284 * (1 / ch) ^ 3 + 730 * (1 / ch) ^ 4) * (1 - 1 / ch) + 5 * (4 + 32 * (1 / ch)
        - 116 * (1 / ch) ^ 2 - 400 * (1 / ch) ^ 3 - 71 * (1 / ch) ^ 4 + 146 * (1 / ch) ^ 5)) / (32
        * (1 - 1 / ch) ^ 6) * (-2 * 5.0 * sh / ch ^ 2)))) ≤
        (-0.6026568203) := by
  have b1 := iv_mul (iv_lit 2) hpi 6.283184 6.283186 (by norm_num)
  have b2 := iv_mul (iv_lit 2.2) hsq 6.2397057621 6.3153413211 (by norm_num)
  have b3 := iv_div b1 b2 0.9949080628 1.0069683155 (by norm_num)
  have b4 := iv_sqrt ht 0.999725384 0.999775158 (by norm_num)
  have b5 := iv_div (iv_lit 1) hch 0.0004497346 0.0005493072 (by norm_num)
  have b6 := iv_sub (iv_lit 1) b5 0.9994506928 0.9995502654 (by norm_num)
  have b7 := iv_mul hk (iv_lit 0.2) 0.164 0.168 (by norm_num)
  have b8 := iv_div b7 (iv_lit 2) 0.082 0.084 (by norm_num)
  have b9 := iv_pow b5 2 0.0000002022 0.0000003018 (by norm_num)
  have b10 := iv_mul (iv_lit 7) b9 0.0000014154 0.0000021126 (by norm_num)
  have b11 := iv_add (iv_lit 2) b10 2.0000014154 2.0000021126 (by norm_num)
  have b12 := iv_pow b6 2 0.9989016873 0.9991007331 (by norm_num)
  have b13 := iv_mul (iv_lit 4) b12 3.9956067492 3.9964029324 (by norm_num)
  have b14 := iv_div b11 b13 0.5004503923 0.5005502889 (by norm_num)
  have b15 := iv_mul (iv_lit 32) b5 0.0143915072 0.0175778304 (by norm_num)
  have b16 := iv_add (iv_lit 4) b15 4.0143915072 4.0175778304 (by norm_num)
  have b17 := iv_mul (iv_lit 116) b9 0.0000234552 0.0000350088 (by norm_num)
  have b18 := iv_sub b16 b17 4.0143564984 4.0175543752 (by norm_num)
  have b19 := iv_pow b5 3 0 0.0000000002 (by norm_num)
  have b20 := iv_mul (iv_lit 400) b19 0 0.00000008 (by norm_num)
  have b21 := iv_sub b18 b20 4.0143564184 4.0175543752 (by norm_num)
  have b22 := iv_pow b5 4 0 0.0000000001 (by norm_num)
  have b23 := iv_mul (iv_lit 71) b22 0 0.0000000071 (by norm_num)
  have b24 := iv_sub b21 b23 4.0143564113 4.0175543752 (by norm_num)
  have b25 := iv_pow b5 5 0 0.0000000001 (by norm_num)
  have b26 := iv_mul (iv_lit 146) b25 0 0.0000000146 (by norm_num)
  have b27 := iv_add b24 b26 4.0143564113 4.0175543898 (by norm_num)
  have b28 := iv_pow b6 5 0.9972564797 0.9977533488 (by norm_num)
  have b29 := iv_mul (iv_lit 32) b28 31.9122073504 31.9281071616 (by norm_num)
  have b30 := iv_div b27 b29 0.1257311118 0.1258939674 (by norm_num)
  have b31 := iv_scaled_quot (-2 * 5.0) hq (-0.005493072) 0 (by norm_num)
  have b32 := iv_pow ht 2 0.9989019887 0.9991009352 (by norm_num)
  have b33 := iv_sub (iv_lit 1) b32 0.0008990648 0.0010980113 (by norm_num)
  have b34 := iv_mul (iv_lit 5.0) b33 0.004495324 0.0054900565 (by norm_num)
  have b35 := iv_mul (iv_lit 2) b4 1.999450768 1.999550316 (by norm_num)
  have b36 := iv_div b34 b35 0.0022481674 0.0027457823 (by norm_num)
  have b37 := iv_mul (iv_lit 7) b5 0.0031481422 0.0038451504 (by norm_num)
  have b38 := iv_add (iv_lit 2) b37 2.0031481422 2.0038451504 (by norm_num)
  have b39 := iv_pow b6 3 0.9983529834 0.9986514029 (by norm_num)
  have b40 := iv_mul (iv_lit 2) b39 1.9967059668 1.9973028058 (by norm_num)
  have b41 := iv_div b38 b40 1.002926615 1.0035754807 (by norm_num)
  have b42 := iv_div (iv_lit 0.2) (iv_lit 2) 0.1 0.1 (by norm_num)
  have b43 := iv_neg b3 (-1.0069683155) (-0.9949080628) (by norm_num)
  have b44 := iv_mul (iv_lit 2) hk 1.64 1.68 (by norm_num)
  have b45 := iv_div b43 b44 (-0.6140050705) (-0.5922071802) (by norm_num)
  have b46 := iv_mul (iv_lit 2) b8 0.164 0.168 (by norm_num)
  have b47 := iv_mul b46 b42 0.0164 0.0168 (by norm_num)
  have b48 := iv_mul b4 b14 0.5003129606 0.5004377442 (by norm_num)
  have b49 := iv_mul b47 b48 0.0082051325 0.0084073542 (by norm_num)
  have b50 := iv_pow b8 2 0.006724 0.007056 (by norm_num)
  have b51 := iv_mul b36 b14 0.0011250962 0.0013744022 (by norm_num)
  have b52 := iv_mul b41 b31 (-0.0055127124) 0 (by norm_num)
  have b53 := iv_mul b4 b52 (-0.005511473) 0 (by norm_num)
  have b54 := iv_add b51 b53 (-0.0043863768) 0.0013744022 (by norm_num)
  have b55 := iv_mul b50 b54 (-0.0000309503) 0.0000096978 (by norm_num)
  have b56 := iv_add b49 b55 0.0081741822 0.008417052 (by norm_num)
  have b57 := iv_mul (iv_lit 232) b5 0.1043384272 0.1274392704 (by norm_num)
  have b58 := iv_sub (iv_lit 32) b57 31.8725607296 31.8956615728 (by norm_num)
  have b59 := iv_mul (iv_lit 1200) b9 0.00024264 0.00036216 (by norm_num)
  have b60 := iv_sub b58 b59 31.8721985696 31.8954189328 (by norm_num)
  have b61 := iv_mul (iv_lit 284) b19 0 0.0000000568 (by norm_num)
  have b62 := iv_sub b60 b61 31.8721985128 31.8954189328 (by norm_num)
  have b63 := iv_mul (iv_lit 730) b22 0 0.000000073 (by norm_num)
  have b64 := iv_add b62 b63 31.8721985128 31.8954190058 (by norm_num)
  have b65 := iv_mul b64 b6 31.8546908846 31.8810745323 (by norm_num)
  have b66 := iv_mul (iv_lit 5) b27 20.0717820565 20.087771949 (by norm_num)
  have b67 := iv_add b65 b66 51.9264729411 51.9688464813 (by norm_num)
  have b68 := iv_pow b6 6 0.9967086795 0.9973046245 (by norm_num)
  have b69 := iv_mul (iv_lit 32) b68 31.894677744 31.913747984 (by norm_num)
  have b70 := iv_div b67 b69 1.6270878922 1.629389295 (by norm_num)
  have b71 := iv_pow b8 3 0.000551368 0.000592704 (by norm_num)
  have b72 := iv_mul (iv_lit 4) b71 0.002205472 0.002370816 (by norm_num)
  have b73 := iv_mul b72 b42 0.0002205472 0.0002370816 (by norm_num)
  have b74 := iv_mul b4 b30 0.125696584 0.1258656612 (by norm_num)
  have b75 := iv_mul b73 b74 0.000027722 0.0000298405 (by norm_num)
  have b76 := iv_pow b8 4 0.0000452121 0.0000497872 (by norm_num)
  have b77 := iv_mul b36 b30 0.0002826645 0.0003456775 (by norm_num)
  have b78 := iv_mul b70 b31 (-0.0089503528) 0 (by norm_num)
  have b79 := iv_mul b4 b78 (-0.0089483404) 0 (by norm_num)
  have b80 := iv_add b77 b79 (-0.0086656759) 0.0003456775 (by norm_num)
  have b81 := iv_mul b76 b80 (-0.0000004315) 0.0000000173 (by norm_num)
  have b82 := iv_add b75 b81 0.0000272905 0.0000298578 (by norm_num)
  have b83 := iv_sub b45 b36 (-0.6167508528) (-0.5944553476) (by norm_num)
  have b84 := iv_sub b83 b56 (-0.6251679048) (-0.6026295298) (by norm_num)
  have b85 := iv_sub b84 b82 (-0.6251977626) (-0.6026568203) (by norm_num)
  exact b85

/-- The dispersion slope of order 5 (T = 2.2, d = 5.0, H = 0.2) for `k` in
`[0.82, 0.84]`. -/
theorem slope_bounds_deep (k : ℝ) (hk : (0.82 : ℝ) ≤ k ∧ k ≤ 0.84) :
    ((-0.6251977626) : ℝ) ≤ stokes_dispersion_slope Libm.real 5 2.2 5.0 0.2 9.81 k ∧
      stokes_dispersion_slope Libm.real 5 2.2 5.0 0.2 9.81 k ≤
        (-0.6026568203) := by
  obtain ⟨ht, hch, hq, hsq⟩ := dispersion_atoms_deep_0_82_0_84 k hk
  simp only [stokes_dispersion_slope, Libm.real_pi, Libm.real_sqrt, Libm.real_tanh,
    Libm.real_cosh, Libm.real_sinh,
    show (2 : ℕ) ≤ 5 by norm_num, show (4 : ℕ) ≤ 5 by norm_num, if_true]
  exact slope_core_deep k _ _ _ _ _ hk ht hch hq hsq ⟨Real.pi_gt_d6.le, Real.pi_lt_d6.le⟩

/-- Bounds on `exp(4157 / 500)`, from the Taylor series at `4157 / 4500` and its power 9. -/
theorem dispersion_exp_3 :
    (4080.60279347 : ℝ) ≤ Real.exp (4157 / 500) ∧
      Real.exp (4157 / 500) ≤ 4080.60279356 := by
  have hy : (2.518787859775 : ℝ) ≤ Real.exp (4157 / 4500) ∧
      Real.exp (4157 / 4500) ≤ 2.51878785978 := by
    constructor
    · have h := Real.sum_le_exp_of_nonneg (x := (4157 / 4500 : ℝ)) (by norm_num) 14
      refine le_trans ?_ h
      simp only [Finset.sum_range_succ, Finset.sum_range_zero, Nat.factorial]
      norm_num
    · have h := Real.exp_bound' (x := (4157 / 4500 : ℝ)) (by norm_num) (by norm_num)
        (n := 14) (by norm_num)
      refine le_trans h ?_
      simp only [Finset.sum_range_succ, Finset.sum_range_zero, Nat.factorial]
      norm_num
  have hz : Real.exp (4157 / 500) = Real.exp (4157 / 4500) ^ 9 := by
    rw [← Real.exp_nat_mul]
    congr 1
    norm_num
  rw [hz]
  exact ⟨le_trans (by norm_num) (pow_le_pow_left₀ (by norm_num) hy.1 9),
    le_trans (pow_le_pow_left₀ (Real.exp_pos _).le hy.2 9) (by norm_num)⟩

/-- Bounds on `tanh(k d)`, `cosh(2 k d)`, `sinh(2 k d) / cosh(2 k d)^2` and
`sqrt(g k)` for `d = 5.0`, `g = 9.81` and `k` in `[0.8314, 0.8314]`. -/
theorem dispersion_atoms_deep_0_8314 (k : ℝ) (hk : (0.8314 : ℝ) ≤ k ∧ k ≤ 0.8314) :
    ((0.9995099964 : ℝ) ≤ Real.tanh (k * 5.0) ∧ Real.tanh (k * 5.0) ≤ 0.9995099965) ∧
      ((2040.301396735 : ℝ) ≤ Real.cosh (2 * (k * 5.0)) ∧
        Real.cosh (2 * (k * 5.0)) ≤ 2040.301519311) ∧
      ((0 : ℝ) ≤ Real.sinh (2 * (k * 5.0)) / Real.cosh (2 * (k * 5.0)) ^ 2 ∧
        Real.sinh (2 * (k * 5.0)) / Real.cosh (2 * (k * 5.0)) ^ 2 ≤ 0.0004901237) ∧
      ((2.8558770981 : ℝ) ≤ Real.sqrt (9.81 * k) ∧
        Real.sqrt (9.81 * k) ≤ 2.8558770982) := by
  have hlo : (4080.60279347 : ℝ) ≤ Real.exp (2 * (k * 5.0)) :=
    le_trans dispersion_exp_3.1 (Real.exp_le_exp.2 (by linarith [hk.1]))
  have hhi : Real.exp (2 * (k * 5.0)) ≤ 4080.60279356 :=
    le_trans (Real.exp_le_exp.2 (by linarith [hk.2])) dispersion_exp_3.2
  obtain ⟨⟨t1, t2⟩, ⟨c1, c2⟩, ⟨q1, q2⟩⟩ :=
    hyperbolic_between (k * 5.0) 4080.60279347 4080.60279356 (by norm_num) hlo hhi
  have b1 := iv_mul (iv_lit 9.81) hk 8.156034 8.156034 (by norm_num)
  have b2 := iv_sqrt b1 2.8558770981 2.8558770982 (by norm_num)
  exact ⟨⟨le_trans (by norm_num) t1, le_trans t2 (by norm_num)⟩,
    ⟨le_trans (by norm_num) c1, le_trans c2 (by norm_num)⟩,
    ⟨q1, le_trans q2 (by norm_num)⟩, b2⟩

/-- The dispersion residual of order 5 (T = 2.2, d = 5.0, H = 0.2) between bounds,
in terms of `t = tanh(k d)`, `ch = cosh(2 k d)` and `sq = sqrt(g k)`, for `k = 0.8314`. -/
theorem residual_core_deep_0_8314 (k t ch sq pi : ℝ)
    (hk : (0.8314 : ℝ) ≤ k ∧ k ≤ 0.8314)
    (ht : (0.9995099964 : ℝ) ≤ t ∧ t ≤ 0.9995099965)
    (hch : (2040.301396735 : ℝ) ≤ ch ∧ ch ≤ 2040.301519311)
    (hsq : (2.8558770981 : ℝ) ≤ sq ∧ sq ≤ 2.8558770982)
    (hpi : (3.141592 : ℝ) ≤ pi ∧ pi ≤ 3.141593) :
    ((-0.0031791647) : ℝ) ≤
        2 * pi / (2.2 * sq) - (Real.sqrt t + (k * 0.2 / 2) ^ 2 * (Real.sqrt t * ((2 + 7 * (1 / ch)
          ^ 2) / (4 * (1 - 1 / ch) ^ 2))) + (k * 0.2 / 2) ^ 4 * (Real.sqrt t * ((4 + 32 * (1 / ch)
          - 116 * (1 / ch) ^ 2 - 400 * (1 / ch) ^ 3 - 71 * (1 / ch) ^ 4 + 146 * (1 / ch) ^ 5) /
          (32 * (1 - 1 / ch) ^ 5)))) ∧
      2 * pi / (2.2 * sq) - (Real.sqrt t + (k * 0.2 / 2) ^ 2 * (Real.sqrt t * ((2 + 7 * (1 / ch) ^
        2) / (4 * (1 - 1 / ch) ^ 2))) + (k * 0.2 / 2) ^ 4 * (Real.sqrt t * ((4 + 32 * (1 / ch) -
        116 * (1 / ch) ^ 2 - 400 * (1 / ch) ^ 3 - 71 * (1 / ch) ^ 4 + 146 * (1 / ch) ^ 5) / (32 *
        (1 - 1 / ch) ^ 5)))) ≤
        (-0.0031788459) := by
  have b1 := iv_mul (iv_lit 2) hpi 6.283184 6.283186 (by norm_num)
  have b2 := iv_mul (iv_lit 2.2) hsq 6.2829296158 6.2829296161 (by norm_num)
  have b3 := iv_div b1 b2 1.0000404881 1.0000408065 (by norm_num)
  have b4 := iv_sqrt ht 0.9997549681 0.9997549683 (by norm_num)
  have b5 := iv_div (iv_lit 1) hch 0.0004901236 0.0004901237 (by norm_num)
  have b6 := iv_sub (iv_lit 1) b5 0.9995098763 0.9995098764 (by norm_num)
  have b7 := iv_mul hk (iv_lit 0.2) 0.16628 0.16628 (by norm_num)
  have b8 := iv_div b7 (iv_lit 2) 0.08314 0.08314 (by norm_num)
  have b9 := iv_pow b5 2 0.0000002402 0.0000002403 (by norm_num)
  have b10 := iv_mul (iv_lit 7) b9 0.0000016814 0.0000016821 (by norm_num)
  have b11 := iv_add (iv_lit 2) b10 2.0000016814 2.0000016821 (by norm_num)
  have b12 := iv_pow b6 2 0.9990199928 0.9990199931 (by norm_num)
  have b13 := iv_mul (iv_lit 4) b12 3.9960799712 3.9960799724 (by norm_num)
  have b14 := iv_div b11 b13 0.5004909048 0.5004909053 (by norm_num)
  have b15 := iv_mul (iv_lit 32) b5 0.0156839552 0.0156839584 (by norm_num)
  have b16 := iv_add (iv_lit 4) b15 4.0156839552 4.0156839584 (by norm_num)
  have b17 := iv_mul (iv_lit 116) b9 0.0000278632 0.0000278748 (by norm_num)
  have b18 := iv_sub b16 b17 4.0156560804 4.0156560952 (by norm_num)
  have b19 := iv_pow b5 3 0.0000000001 0.0000000002 (by norm_num)
  have b20 := iv_mul (iv_lit 400) b19 0.00000004 0.00000008 (by norm_num)
  have b21 := iv_sub b18 b20 4.0156560004 4.0156560552 (by norm_num)
  have b22 := iv_pow b5 4 0 0.0000000001 (by norm_num)
  have b23 := iv_mul (iv_lit 71) b22 0 0.0000000071 (by norm_num)
  have b24 := iv_sub b21 b23 4.0156559933 4.0156560552 (by norm_num)
  have b25 := iv_pow b5 5 0 0.0000000001 (by norm_num)
  have b26 := iv_mul (iv_lit 146) b25 0 0.0000000146 (by norm_num)
  have b27 := iv_add b24 b26 4.0156559933 4.0156560698 (by norm_num)
  have b28 := iv_pow b6 5 0.9975517825 0.9975517831 (by norm_num)
  have b29 := iv_mul (iv_lit 32) b28 31.92165704 31.9216570592 (by norm_num)
  have b30 := iv_div b27 b29 0.1257972286 0.1257972312 (by norm_num)
  have b31 := iv_pow b8 2 0.0069122596 0.0069122596 (by norm_num)
  have b32 := iv_mul b4 b14 0.5003682685 0.5003682692 (by norm_num)
  have b33 := iv_mul b31 b32 0.0034586753 0.0034586754 (by norm_num)
  have b34 := iv_pow b8 4 0.0000477793 0.0000477794 (by norm_num)
  have b35 := iv_mul b4 b30 0.1257664042 0.1257664069 (by norm_num)
  have b36 := iv_mul b34 b35 0.000006009 0.0000060091 (by norm_num)
  have b37 := iv_add b4 b33 1.0032136434 1.0032136437 (by norm_num)
  have b38 := iv_add b37 b36 1.0032196524 1.0032196528 (by norm_num)
  have b39 := iv_sub b3 b38 (-0.0031791647) (-0.0031788459) (by norm_num)
  exact b39

/-- The dispersion residual of order 5 (T = 2.2, d = 5.0, H = 0.2) at `k = 0.8314`. -/
theorem residual_bounds_deep_0_8314 :
    ((-0.0031791647) : ℝ) ≤ stokes_dispersion_residual Libm.real 5 2.2 5.0 0.2 9.81 0.8314 ∧
      stokes_dispersion_residual Libm.real 5 2.2 5.0 0.2 9.81 0.8314 ≤
        (-0.0031788459) := by
  have hk : (0.8314 : ℝ) ≤ 0.8314 ∧ (0.8314 : ℝ) ≤ 0.8314 := ⟨le_refl _, le_refl _⟩
  obtain ⟨ht, hch, _, hsq⟩ := dispersion_atoms_deep_0_8314 0.8314 hk
  rw [stokes_dispersion_residual_real]
  simp only [show (2 : ℕ) ≤ 5 by norm_num, show (4 : ℕ) ≤ 5 by norm_num, if_true]
  exact residual_core_deep_0_8314 0.8314 _ _ _ _ hk ht hch hsq
    ⟨Real.pi_gt_d6.le, Real.pi_lt_d6.le⟩

/-- Bounds on `exp(333 / 40)`, from the Taylor series at `37 / 40` and its power 9. -/
theorem dispersion_exp_4 :
    (4125.73720838 : ℝ) ≤ Real.exp (333 / 40) ∧
      Real.exp (333 / 40) ≤ 4125.73720846 := by
  have hy : (2.521868260354 : ℝ) ≤ Real.exp (37 / 40) ∧
      Real.exp (37 / 40) ≤ 2.521868260359 := by
    constructor
    · have h := Real.sum_le_exp_of_nonneg (x := (37 / 40 : ℝ)) (by norm_num) 14
      refine le_trans ?_ h
      simp only [Finset.sum_range_succ, Finset.sum_range_zero, Nat.factorial]
      norm_num
    · have h := Real.exp_bound' (x := (37 / 40 : ℝ)) (by norm_num) (by norm_num)
        (n := 14) (by norm_num)
      refine le_trans h ?_
      simp only [Finset.sum_range_succ, Finset.sum_range_zero, Nat.factorial]
      norm_num
  have hz : Real.exp (333 / 40) = Real.exp (37 / 40) ^ 9 := by
    rw [← Real.exp_nat_mul]
    congr 1
    norm_num
  rw [hz]
  exact ⟨le_trans (by norm_num) (pow_le_pow_left₀ (by norm_num) hy.1 9),
    le_trans (pow_le_pow_left₀ (Real.exp_pos _).le hy.2 9) (by norm_num)⟩

/-- Bounds on `tanh(k d)`, `cosh(2 k d)`, `sinh(2 k d) / cosh(2 k d)^2` and
`sqrt(g k)` for `d = 5.0`, `g = 9.81` and `k` in `[0.8325, 0.8325]`. -/
theorem dispersion_atoms_deep_0_8325 (k : ℝ) (hk : (0.8325 : ℝ) ≤ k ∧ k ≤ 0.8325) :
    ((0.9995153556 : ℝ) ≤ Real.tanh (k * 5.0) ∧ Real.tanh (k * 5.0) ≤ 0.9995153557) ∧
      ((2062.86860419 : ℝ) ≤ Real.cosh (2 * (k * 5.0)) ∧
        Real.cosh (2 * (k * 5.0)) ≤ 2062.8687254205) ∧
      ((0 : ℝ) ≤ Real.sinh (2 * (k * 5.0)) / Real.cosh (2 * (k * 5.0)) ^ 2 ∧
        Real.sinh (2 * (k * 5.0)) / Real.cosh (2 * (k * 5.0)) ^ 2 ≤ 0.0004847619) ∧
      ((2.8577657356 : ℝ) ≤ Real.sqrt (9.81 * k) ∧
        Real.sqrt (9.81 * k) ≤ 2.8577657357) := by
  have hlo : (4125.73720838 : ℝ) ≤ Real.exp (2 * (k * 5.0)) :=
    le_trans dispersion_exp_4.1 (Real.exp_le_exp.2 (by linarith [hk.1]))
  have hhi : Real.exp (2 * (k * 5.0)) ≤ 4125.73720846 :=
    le_trans (Real.exp_le_exp.2 (by linarith [hk.2])) dispersion_exp_4.2
  obtain ⟨⟨t1, t2⟩, ⟨c1, c2⟩, ⟨q1, q2⟩⟩ :=
    hyperbolic_between (k * 5.0) 4125.73720838 4125.73720846 (by norm_num) hlo hhi
  have b1 := iv_mul (iv_lit 9.81) hk 8.166825 8.166825 (by norm_num)
  have b2 := iv_sqrt b1 2.8577657356 2.8577657357 (by norm_num)
  exact ⟨⟨le_trans (by norm_num) t1, le_trans t2 (by norm_num)⟩,
    ⟨le_trans (by norm_num) c1, le_trans c2 (by norm_num)⟩,
    ⟨q1, le_trans q2 (by norm_num)⟩, b2⟩

/-- The dispersion residual of order 5 (T = 2.2, d = 5.0, H = 0.2) between bounds,
in terms of `t = tanh(k d)`, `ch = cosh(2 k d)` and `sq = sqrt(g k)`, for `k = 0.8325`. -/
theorem residual_core_deep_0_8325 (k t ch sq pi : ℝ)
    (hk : (0.8325 : ℝ) ≤ k ∧ k ≤ 0.8325)
    (ht : (0.9995153556 : ℝ) ≤ t ∧ t ≤ 0.9995153557)
    (hch : (2062.86860419 : ℝ) ≤ ch ∧ ch ≤ 2062.8687254205)
    (hsq : (2.8577657356 : ℝ) ≤ sq ∧ sq ≤ 2.8577657357)
    (hpi : (3.141592 : ℝ) ≤ pi ∧ pi ≤ 3.141593) :
    ((-0.0038519124) : ℝ) ≤
        2 * pi / (2.2 * sq) - (Real.sqrt t + (k * 0.2 / 2) ^ 2 * (Real.sqrt t * ((2 + 7 * (1 / ch)
          ^ 2) / (4 * (1 - 1 / ch) ^ 2))) + (k * 0.2 / 2) ^ 4 * (Real.sqrt t * ((4 + 32 * (1 / ch)
          - 116 * (1 / ch) ^ 2 - 400 * (1 / ch) ^ 3 - 71 * (1 / ch) ^ 4 + 146 * (1 / ch) ^ 5) /
          (32 * (1 - 1 / ch) ^ 5)))) ∧
      2 * pi / (2.2 * sq) - (Real.sqrt t + (k * 0.2 / 2) ^ 2 * (Real.sqrt t * ((2 + 7 * (1 / ch) ^
        2) / (4 * (1 - 1 / ch) ^ 2))) + (k * 0.2 / 2) ^ 4 * (Real.sqrt t * ((4 + 32 * (1 / ch) -
        116 * (1 / ch) ^ 2 - 400 * (1 / ch) ^ 3 - 71 * (1 / ch) ^ 4 + 146 * (1 / ch) ^ 5) / (32 *
        (1 - 1 / ch) ^ 5)))) ≤
        (-0.0038515938) := by
  have b1 := iv_mul (iv_lit 2) hpi 6.283184 6.283186 (by norm_num)
  have b2 := iv_mul (iv_lit 2.2) hsq 6.2870846183 6.2870846186 (by norm_num)
  have b3 := iv_div b1 b2 0.9993795822 0.9993799005 (by norm_num)
  have b4 := iv_sqrt ht 0.9997576484 0.9997576485 (by norm_num)
  have b5 := iv_div (iv_lit 1) hch 0.0004847618 0.0004847619 (by norm_num)
  have b6 := iv_sub (iv_lit 1) b5 0.9995152381 0.9995152382 (by norm_num)
  have b7 := iv_mul hk (iv_lit 0.2) 0.1665 0.1665 (by norm_num)
  have b8 := iv_div b7 (iv_lit 2) 0.08325 0.08325 (by norm_num)
  have b9 := iv_pow b5 2 0.0000002349 0.000000235 (by norm_num)
  have b10 := iv_mul (iv_lit 7) b9 0.0000016443 0.000001645 (by norm_num)
  have b11 := iv_add (iv_lit 2) b10 2.0000016443 2.000001645 (by norm_num)
  have b12 := iv_pow b6 2 0.9990307111 0.9990307114 (by norm_num)
  have b13 := iv_mul (iv_lit 4) b12 3.9961228444 3.9961228456 (by norm_num)
  have b14 := iv_div b11 b13 0.5004855259 0.5004855264 (by norm_num)
  have b15 := iv_mul (iv_lit 32) b5 0.0155123776 0.0155123808 (by norm_num)
  have b16 := iv_add (iv_lit 4) b15 4.0155123776 4.0155123808 (by norm_num)
  have b17 := iv_mul (iv_lit 116) b9 0.0000272484 0.00002726 (by norm_num)
  have b18 := iv_sub b16 b17 4.0154851176 4.0154851324 (by norm_num)
  have b19 := iv_pow b5 3 0.0000000001 0.0000000002 (by norm_num)
  have b20 := iv_mul (iv_lit 400) b19 0.00000004 0.00000008 (by norm_num)
  have b21 := iv_sub b18 b20 4.0154850376 4.0154850924 (by norm_num)
  have b22 := iv_pow b5 4 0 0.0000000001 (by norm_num)
  have b23 := iv_mul (iv_lit 71) b22 0 0.0000000071 (by norm_num)
  have b24 := iv_sub b21 b23 4.0154850305 4.0154850924 (by norm_num)
  have b25 := iv_pow b5 5 0 0.0000000001 (by norm_num)
  have b26 := iv_mul (iv_lit 146) b25 0 0.0000000146 (by norm_num)
  have b27 := iv_add b24 b26 4.0154850305 4.015485107 (by norm_num)
  have b28 := iv_pow b6 5 0.9975785393 0.9975785399 (by norm_num)
  have b29 := iv_mul (iv_lit 32) b28 31.9225132576 31.9225132768 (by norm_num)
  have b30 := iv_div b27 b29 0.125788499 0.1257885016 (by norm_num)
  have b31 := iv_pow b8 2 0.0069305625 0.0069305625 (by norm_num)
  have b32 := iv_mul b4 b14 0.5003642324 0.500364233 (by norm_num)
  have b33 := iv_mul b31 b32 0.0034678055 0.0034678056 (by norm_num)
  have b34 := iv_pow b8 4 0.0000480326 0.0000480327 (by norm_num)
  have b35 := iv_mul b4 b30 0.1257580139 0.1257580166 (by norm_num)
  have b36 := iv_mul b34 b35 0.0000060404 0.0000060405 (by norm_num)
  have b37 := iv_add b4 b33 1.0032254539 1.0032254541 (by norm_num)
  have b38 := iv_add b37 b36 1.0032314943 1.0032314946 (by norm_num)
  have b39 := iv_sub b3 b38 (-0.0038519124) (-0.0038515938) (by norm_num)
  exact b39

/-- The dispersion residual of order 5 (T = 2.2, d = 5.0, H = 0.2) at `k = 0.8325`. -/
theorem residual_bounds_deep_0_8325 :
    ((-0.0038519124) : ℝ) ≤ stokes_dispersion_residual Libm.real 5 2.2 5.0 0.2 9.81 0.8325 ∧
      stokes_dispersion_residual Libm.real 5 2.2 5.0 0.2 9.81 0.8325 ≤
        (-0.0038515938) := by
  have hk : (0.8325 : ℝ) ≤ 0.8325 ∧ (0.8325 : ℝ) ≤ 0.8325 := ⟨le_refl _, le_refl _⟩
  obtain ⟨ht, hch, _, hsq⟩ := dispersion_atoms_deep_0_8325 0.8325 hk
  rw [stokes_dispersion_residual_real]
  simp only [show (2 : ℕ) ≤ 5 by norm_num, show (4 : ℕ) ≤ 5 by norm_num, if_true]
  exact residual_core_deep_0_8325 0.8325 _ _ _ _ hk ht hch hsq
    ⟨Real.pi_gt_d6.le, Real.pi_lt_d6.le⟩

/-- Bounds on `exp(413 / 50)`, from the Taylor series at `413 / 450` and its power 9. -/
theorem dispersion_exp_5 :
    (3866.09410041 : ℝ) ≤ Real.exp (413 / 50) ∧
      Real.exp (413 / 50) ≤ 3866.09410049 := by
  have hy : (2.503720380257 : ℝ) ≤ Real.exp (413 / 450) ∧
      Real.exp (413 / 450) ≤ 2.503720380262 := by
    constructor
    · have h := Real.sum_le_exp_of_nonneg (x := (413 / 450 : ℝ)) (by norm_num) 14
      refine le_trans ?_ h
      simp only [Finset.sum_range_succ, Finset.sum_range_zero, Nat.factorial]
      norm_num
    · have h := Real.exp_bound' (x := (413 / 450 : ℝ)) (by norm_num) (by norm_num)
        (n := 14) (by norm_num)
      refine le_trans h ?_
      simp only [Finset.sum_range_succ, Finset.sum_range_zero, Nat.factorial]
      norm_num
  have hz : Real.exp (413 / 50) = Real.exp (413 / 450) ^ 9 := by
    rw [← Real.exp_nat_mul]
    congr 1
    norm_num
  rw [hz]
  exact ⟨le_trans (by norm_num) (pow_le_pow_left₀ (by norm_num) hy.1 9),
    le_trans (pow_le_pow_left₀ (Real.exp_pos _).le hy.2 9) (by norm_num)⟩

/-- Bounds on `tanh(k d)`, `cosh(2 k d)`, `sinh(2 k d) / cosh(2 k d)^2` and
`sqrt(g k)` for `d = 5.0`, `g = 9.81` and `k` in `[0.826, 0.826]`. -/
theorem dispersion_atoms_deep_0_826 (k : ℝ) (hk : (0.826 : ℝ) ≤ k ∧ k ≤ 0.826) :
    ((0.9994828157 : ℝ) ≤ Real.tanh (k * 5.0) ∧ Real.tanh (k * 5.0) ≤ 0.9994828158) ∧
      ((1933.047050205 : ℝ) ≤ Real.cosh (2 * (k * 5.0)) ∧
        Real.cosh (2 * (k * 5.0)) ≤ 1933.0471795745) ∧
      ((0 : ℝ) ≤ Real.sinh (2 * (k * 5.0)) / Real.cosh (2 * (k * 5.0)) ^ 2 ∧
        Real.sinh (2 * (k * 5.0)) / Real.cosh (2 * (k * 5.0)) ^ 2 ≤ 0.000517318) ∧
      ((2.8465874305 : ℝ) ≤ Real.sqrt (9.81 * k) ∧
        Real.sqrt (9.81 * k) ≤ 2.8465874306) := by
  have hlo : (3866.09410041 : ℝ) ≤ Real.exp (2 * (k * 5.0)) :=
    le_trans dispersion_exp_5.1 (Real.exp_le_exp.2 (by linarith [hk.1]))
  have hhi : Real.exp (2 * (k * 5.0)) ≤ 3866.09410049 :=
    le_trans (Real.exp_le_exp.2 (by linarith [hk.2])) dispersion_exp_5.2
  obtain ⟨⟨t1, t2⟩, ⟨c1, c2⟩, ⟨q1, q2⟩⟩ :=
    hyperbolic_between (k * 5.0) 3866.09410041 3866.09410049 (by norm_num) hlo hhi
  have b1 := iv_mul (iv_lit 9.81) hk 8.10306 8.10306 (by norm_num)
  have b2 := iv_sqrt b1 2.8465874305 2.8465874306 (by norm_num)
  exact ⟨⟨le_trans (by norm_num) t1, le_trans t2 (by norm_num)⟩,
    ⟨le_trans (by norm_num) c1, le_trans c2 (by norm_num)⟩,
    ⟨q1, le_trans q2 (by norm_num)⟩, b2⟩

/-- The dispersion residual of order 5 (T = 2.2, d = 5.0, H = 0.2) between bounds,
in terms of `t = tanh(k d)`, `ch = cosh(2 k d)` and `sq = sqrt(g k)`, for `k = 0.826`. -/
theorem residual_core_deep_0_826 (k t ch sq pi : ℝ)
    (hk : (0.826 : ℝ) ≤ k ∧ k ≤ 0.826)
    (ht : (0.9994828157 : ℝ) ≤ t ∧ t ≤ 0.9994828158)
    (hch : (1933.047050205 : ℝ) ≤ ch ∧ ch ≤ 1933.0471795745)
    (hsq : (2.8465874305 : ℝ) ≤ sq ∧ sq ≤ 2.8465874306)
    (hpi : (3.141592 : ℝ) ≤ pi ∧ pi ≤ 3.141593) :
    (0.000142797 : ℝ) ≤
        2 * pi / (2.2 * sq) - (Real.sqrt t + (k * 0.2 / 2) ^ 2 * (Real.sqrt t * ((2 + 7 * (1 / ch)
          ^ 2) / (4 * (1 - 1 / ch) ^ 2))) + (k * 0.2 / 2) ^ 4 * (Real.sqrt t * ((4 + 32 * (1 / ch)
          - 116 * (1 / ch) ^ 2 - 400 * (1 / ch) ^ 3 - 71 * (1 / ch) ^ 4 + 146 * (1 / ch) ^ 5) /
          (32 * (1 - 1 / ch) ^ 5)))) ∧
      2 * pi / (2.2 * sq) - (Real.sqrt t + (k * 0.2 / 2) ^ 2 * (Real.sqrt t * ((2 + 7 * (1 / ch) ^
        2) / (4 * (1 - 1 / ch) ^ 2))) + (k * 0.2 / 2) ^ 4 * (Real.sqrt t * ((4 + 32 * (1 / ch) -
        116 * (1 / ch) ^ 2 - 400 * (1 / ch) ^ 3 - 71 * (1 / ch) ^ 4 + 146 * (1 / ch) ^ 5) / (32 *
        (1 - 1 / ch) ^ 5)))) ≤
        0.0001431168 := by
  have b1 := iv_mul (iv_lit 2) hpi 6.283184 6.283186 (by norm_num)
  have b2 := iv_mul (iv_lit 2.2) hsq 6.2624923471 6.2624923474 (by norm_num)
  have b3 := iv_div b1 b2 1.0033040603 1.0033043798 (by norm_num)
  have b4 := iv_sqrt ht 0.9997413744 0.9997413745 (by norm_num)
  have b5 := iv_div (iv_lit 1) hch 0.0005173179 0.000517318 (by norm_num)
  have b6 := iv_sub (iv_lit 1) b5 0.999482682 0.9994826821 (by norm_num)
  have b7 := iv_mul hk (iv_lit 0.2) 0.1652 0.1652 (by norm_num)
  have b8 := iv_div b7 (iv_lit 2) 0.0826 0.0826 (by norm_num)
  have b9 := iv_pow b5 2 0.0000002676 0.0000002677 (by norm_num)
  have b10 := iv_mul (iv_lit 7) b9 0.0000018732 0.0000018739 (by norm_num)
  have b11 := iv_add (iv_lit 2) b10 2.0000018732 2.0000018739 (by norm_num)
  have b12 := iv_pow b6 2 0.9989656316 0.9989656319 (by norm_num)
  have b13 := iv_mul (iv_lit 4) b12 3.9958625264 3.9958625276 (by norm_num)
  have b14 := iv_div b11 b13 0.5005181883 0.5005181887 (by norm_num)
  have b15 := iv_mul (iv_lit 32) b5 0.0165541728 0.016554176 (by norm_num)
  have b16 := iv_add (iv_lit 4) b15 4.0165541728 4.016554176 (by norm_num)
  have b17 := iv_mul (iv_lit 116) b9 0.0000310416 0.0000310532 (by norm_num)
  have b18 := iv_sub b16 b17 4.0165231196 4.0165231344 (by norm_num)
  have b19 := iv_pow b5 3 0.0000000001 0.0000000002 (by norm_num)
  have b20 := iv_mul (iv_lit 400) b19 0.00000004 0.00000008 (by norm_num)
  have b21 := iv_sub b18 b20 4.0165230396 4.0165230944 (by norm_num)
  have b22 := iv_pow b5 4 0 0.0000000001 (by norm_num)
  have b23 := iv_mul (iv_lit 71) b22 0 0.0000000071 (by norm_num)
  have b24 := iv_sub b21 b23 4.0165230325 4.0165230944 (by norm_num)
  have b25 := iv_pow b5 5 0 0.0000000001 (by norm_num)
  have b26 := iv_mul (iv_lit 146) b25 0 0.0000000146 (by norm_num)
  have b27 := iv_add b24 b26 4.0165230325 4.016523109 (by norm_num)
  have b28 := iv_pow b6 5 0.9974160847 0.9974160853 (by norm_num)
  have b29 := iv_mul (iv_lit 32) b28 31.9173147104 31.9173147296 (by norm_num)
  have b30 := iv_div b27 b29 0.1258415084 0.125841511 (by norm_num)
  have b31 := iv_pow b8 2 0.00682276 0.00682276 (by norm_num)
  have b32 := iv_mul b4 b14 0.5003887414 0.500388742 (by norm_num)
  have b33 := iv_mul b31 b32 0.0034140322 0.0034140323 (by norm_num)
  have b34 := iv_pow b8 4 0.00004655 0.0000465501 (by norm_num)
  have b35 := iv_mul b4 b30 0.1258089625 0.1258089652 (by norm_num)
  have b36 := iv_mul b34 b35 0.0000058564 0.0000058565 (by norm_num)
  have b37 := iv_add b4 b33 1.0031554066 1.0031554068 (by norm_num)
  have b38 := iv_add b37 b36 1.003161263 1.0031612633 (by norm_num)
  have b39 := iv_sub b3 b38 0.000142797 0.0001431168 (by norm_num)
  exact b39

/-- The dispersion residual of order 5 (T = 2.2, d = 5.0, H = 0.2) at `k = 0.826`. -/
theorem residual_bounds_deep_0_826 :
    (0.000142797 : ℝ) ≤ stokes_dispersion_residual Libm.real 5 2.2 5.0 0.2 9.81 0.826 ∧
      stokes_dispersion_residual Libm.real 5 2.2 5.0 0.2 9.81 0.826 ≤
        0.0001431168 := by
  have hk : (0.826 : ℝ) ≤ 0.826 ∧ (0.826 : ℝ) ≤ 0.826 := ⟨le_refl _, le_refl _⟩
  obtain ⟨ht, hch, _, hsq⟩ := dispersion_atoms_deep_0_826 0.826 hk
  rw [stokes_dispersion_residual_real]
  simp only [show (2 : ℕ) ≤ 5 by norm_num, show (4 : ℕ) ≤ 5 by norm_num, if_true]
  exact residual_core_deep_0_826 0.826 _ _ _ _ hk ht hch hsq
    ⟨Real.pi_gt_d6.le, Real.pi_lt_d6.le⟩

/-- Bounds on `exp(1033 / 125)`, from the Taylor series at `1033 / 1125` and its power 9. -/
theorem dispersion_exp_6 :
    (3881.58944686 : ℝ) ≤ Real.exp (1033 / 125) ∧
      Real.exp (1033 / 125) ≤ 3881.58944692 := by
  have hy : (2.504833392189 : ℝ) ≤ Real.exp (1033 / 1125) ∧
      Real.exp (1033 / 1125) ≤ 2.504833392193 := by
    constructor
    · have h := Real.sum_le_exp_of_nonneg (x := (1033 / 1125 : ℝ)) (by norm_num) 14
      refine le_trans ?_ h
      simp only [Finset.sum_range_succ, Finset.sum_range_zero, Nat.factorial]
      norm_num
    · have h := Real.exp_bound' (x := (1033 / 1125 : ℝ)) (by norm_num) (by norm_num)
        (n := 14) (by norm_num)
      refine le_trans h ?_
      simp only [Finset.sum_range_succ, Finset.sum_range_zero, Nat.factorial]
      norm_num
  have hz : Real.exp (1033 / 125) = Real.exp (1033 / 1125) ^ 9 := by
    rw [← Real.exp_nat_mul]
    congr 1
    norm_num
  rw [hz]
  exact ⟨le_trans (by norm_num) (pow_le_pow_left₀ (by norm_num) hy.1 9),
    le_trans (pow_le_pow_left₀ (Real.exp_pos _).le hy.2 9) (by norm_num)⟩

/-- Bounds on `tanh(k d)`, `cosh(2 k d)`, `sinh(2 k d) / cosh(2 k d)^2` and
`sqrt(g k)` for `d = 5.0`, `g = 9.81` and `k` in `[0.8264, 0.8264]`. -/
theorem dispersion_atoms_deep_0_8264 (k : ℝ) (hk : (0.8264 : ℝ) ≤ k ∧ k ≤ 0.8264) :
    ((0.9994848798 : ℝ) ≤ Real.tanh (k * 5.0) ∧ Real.tanh (k * 5.0) ≤ 0.9994848799) ∧
      ((1940.79472343 : ℝ) ≤ Real.cosh (2 * (k * 5.0)) ∧
        Real.cosh (2 * (k * 5.0)) ≤ 1940.7948522733) ∧
      ((0 : ℝ) ≤ Real.sinh (2 * (k * 5.0)) / Real.cosh (2 * (k * 5.0)) ^ 2 ∧
        Real.sinh (2 * (k * 5.0)) / Real.cosh (2 * (k * 5.0)) ^ 2 ≤ 0.0005152529) ∧
      ((2.8472765935 : ℝ) ≤ Real.sqrt (9.81 * k) ∧
        Real.sqrt (9.81 * k) ≤ 2.8472765936) := by
  have hlo : (3881.58944686 : ℝ) ≤ Real.exp (2 * (k * 5.0)) :=
    le_trans dispersion_exp_6.1 (Real.exp_le_exp.2 (by linarith [hk.1]))
  have hhi : Real.exp (2 * (k * 5.0)) ≤ 3881.58944692 :=
    le_trans (Real.exp_le_exp.2 (by linarith [hk.2])) dispersion_exp_6.2
  obtain ⟨⟨t1, t2⟩, ⟨c1, c2⟩, ⟨q1, q2⟩⟩ :=
    hyperbolic_between (k * 5.0) 3881.58944686 3881.58944692 (by norm_num) hlo hhi
  have b1 := iv_mul (iv_lit 9.81) hk 8.106984 8.106984 (by norm_num)
  have b2 := iv_sqrt b1 2.8472765935 2.8472765936 (by norm_num)
  exact ⟨⟨le_trans (by norm_num) t1, le_trans t2 (by norm_num)⟩,
    ⟨le_trans (by norm_num) c1, le_trans c2 (by norm_num)⟩,
    ⟨q1, le_trans q2 (by norm_num)⟩, b2⟩

/-- The dispersion residual of order 5 (T = 2.2, d = 5.0, H = 0.2) between bounds,
in terms of `t = tanh(k d)`, `ch = cosh(2 k d)` and `sq = sqrt(g k)`, for `k = 0.8264`. -/
theorem residual_core_deep_0_8264 (k t ch sq pi : ℝ)
    (hk : (0.8264 : ℝ) ≤ k ∧ k ≤ 0.8264)
    (ht : (0.9994848798 : ℝ) ≤ t ∧ t ≤ 0.9994848799)
    (hch : (1940.79472343 : ℝ) ≤ ch ∧ ch ≤ 1940.7948522733)
    (hsq : (2.8472765935 : ℝ) ≤ sq ∧ sq ≤ 2.8472765936)
    (hpi : (3.141592 : ℝ) ≤ pi ∧ pi ≤ 3.141593) :
    ((-0.0001043859) : ℝ) ≤
        2 * pi / (2.2 * sq) - (Real.sqrt t + (k * 0.2 / 2) ^ 2 * (Real.sqrt t * ((2 + 7 * (1 / ch)
          ^ 2) / (4 * (1 - 1 / ch) ^ 2))) + (k * 0.2 / 2) ^ 4 * (Real.sqrt t * ((4 + 32 * (1 / ch)
          - 116 * (1 / ch) ^ 2 - 400 * (1 / ch) ^ 3 - 71 * (1 / ch) ^ 4 + 146 * (1 / ch) ^ 5) /
          (32 * (1 - 1 / ch) ^ 5)))) ∧
      2 * pi / (2.2 * sq) - (Real.sqrt t + (k * 0.2 / 2) ^ 2 * (Real.sqrt t * ((2 + 7 * (1 / ch) ^
        2) / (4 * (1 - 1 / ch) ^ 2))) + (k * 0.2 / 2) ^ 4 * (Real.sqrt t * ((4 + 32 * (1 / ch) -
        116 * (1 / ch) ^ 2 - 400 * (1 / ch) ^ 3 - 71 * (1 / ch) ^ 4 + 146 * (1 / ch) ^ 5) / (32 *
        (1 - 1 / ch) ^ 5)))) ≤
        (-0.0001040662) := by
  have b1 := iv_mul (iv_lit 2) hpi 6.283184 6.283186 (by norm_num)
  have b2 := iv_mul (iv_lit 2.2) hsq 6.2640085057 6.264008506 (by norm_num)
  have b3 := iv_div b1 b2 1.0030612177 1.0030615371 (by norm_num)
  have b4 := iv_sqrt ht 0.9997424067 0.9997424068 (by norm_num)
  have b5 := iv_div (iv_lit 1) hch 0.0005152528 0.0005152529 (by norm_num)
  have b6 := iv_sub (iv_lit 1) b5 0.9994847471 0.9994847472 (by norm_num)
  have b7 := iv_mul hk (iv_lit 0.2) 0.16528 0.16528 (by norm_num)
  have b8 := iv_div b7 (iv_lit 2) 0.08264 0.08264 (by norm_num)
  have b9 := iv_pow b5 2 0.0000002654 0.0000002655 (by norm_num)
  have b10 := iv_mul (iv_lit 7) b9 0.0000018578 0.0000018585 (by norm_num)
  have b11 := iv_add (iv_lit 2) b10 2.0000018578 2.0000018585 (by norm_num)
  have b12 := iv_pow b6 2 0.9989697596 0.9989697599 (by norm_num)
  have b13 := iv_mul (iv_lit 4) b12 3.9958790384 3.9958790396 (by norm_num)
  have b14 := iv_div b11 b13 0.5005161162 0.5005161166 (by norm_num)
  have b15 := iv_mul (iv_lit 32) b5 0.0164880896 0.0164880928 (by norm_num)
  have b16 := iv_add (iv_lit 4) b15 4.0164880896 4.0164880928 (by norm_num)
  have b17 := iv_mul (iv_lit 116) b9 0.0000307864 0.000030798 (by norm_num)
  have b18 := iv_sub b16 b17 4.0164572916 4.0164573064 (by norm_num)
  have b19 := iv_pow b5 3 0.0000000001 0.0000000002 (by norm_num)
  have b20 := iv_mul (iv_lit 400) b19 0.00000004 0.00000008 (by norm_num)
  have b21 := iv_sub b18 b20 4.0164572116 4.0164572664 (by norm_num)
  have b22 := iv_pow b5 4 0 0.0000000001 (by norm_num)
  have b23 := iv_mul (iv_lit 71) b22 0 0.0000000071 (by norm_num)
  have b24 := iv_sub b21 b23 4.0164572045 4.0164572664 (by norm_num)
  have b25 := iv_pow b5 5 0 0.0000000001 (by norm_num)
  have b26 := iv_mul (iv_lit 146) b25 0 0.0000000146 (by norm_num)
  have b27 := iv_add b24 b26 4.0164572045 4.016457281 (by norm_num)
  have b28 := iv_pow b6 5 0.9974263889 0.9974263895 (by norm_num)
  have b29 := iv_mul (iv_lit 32) b28 31.9176444448 31.917644464 (by norm_num)
  have b30 := iv_div b27 b29 0.125838146 0.1258381485 (by norm_num)
  have b31 := iv_pow b8 2 0.0068293696 0.0068293696 (by norm_num)
  have b32 := iv_mul b4 b14 0.5003871866 0.5003871871 (by norm_num)
  have b33 := iv_mul b31 b32 0.003417329 0.0034173291 (by norm_num)
  have b34 := iv_pow b8 4 0.0000466402 0.0000466403 (by norm_num)
  have b35 := iv_mul b4 b30 0.1258057309 0.1258057335 (by norm_num)
  have b36 := iv_mul b34 b35 0.0000058676 0.0000058677 (by norm_num)
  have b37 := iv_add b4 b33 1.0031597357 1.0031597359 (by norm_num)
  have b38 := iv_add b37 b36 1.0031656033 1.0031656036 (by norm_num)
  have b39 := iv_sub b3 b38 (-0.0001043859) (-0.0001040662) (by norm_num)
  exact b39

/-- The dispersion residual of order 5 (T = 2.2, d = 5.0, H = 0.2) at `k = 0.8264`. -/
theorem residual_bounds_deep_0_8264 :
    ((-0.0001043859) : ℝ) ≤ stokes_dispersion_residual Libm.real 5 2.2 5.0 0.2 9.81 0.8264 ∧
      stokes_dispersion_residual Libm.real 5 2.2 5.0 0.2 9.81 0.8264 ≤
        (-0.0001040662) := by
  have hk : (0.8264 : ℝ) ≤ 0.8264 ∧ (0.8264 : ℝ) ≤ 0.8264 := ⟨le_refl _, le_refl _⟩
  obtain ⟨ht, hch, _, hsq⟩ := dispersion_atoms_deep_0_8264 0.8264 hk
  rw [stokes_dispersion_residual_real]
  simp only [show (2 : ℕ) ≤ 5 by norm_num, show (4 : ℕ) ≤ 5 by norm_num, if_true]
  exact residual_core_deep_0_8264 0.8264 _ _ _ _ hk ht hch hsq
    ⟨Real.pi_gt_d6.le, Real.pi_lt_d6.le⟩

/-- Bounds on `exp(801 / 250)`, from the Taylor series at `801 / 1000` and its power 4. -/
theorem dispersion_exp_7 :
    (24.63085684 : ℝ) ≤ Real.exp (801 / 250) ∧
      Real.exp (801 / 250) ≤ 24.63085685 := by
  have hy : (2.227767582561 : ℝ) ≤ Real.exp (801 / 1000) ∧
      Real.exp (801 / 1000) ≤ 2.227767582563 := by
    constructor
    · have h := Real.sum_le_exp_of_nonneg (x := (801 / 1000 : ℝ)) (by norm_num) 14
      refine le_trans ?_ h
      simp only [Finset.sum_range_succ, Finset.sum_range_zero, Nat.factorial]
      norm_num
    · have h := Real.exp_bound' (x := (801 / 1000 : ℝ)) (by norm_num) (by norm_num)
        (n := 14) (by norm_num)
      refine le_trans h ?_
      simp only [Finset.sum_range_succ, Finset.sum_range_zero, Nat.factorial]
      norm_num
  have hz : Real.exp (801 / 250) = Real.exp (801 / 1000) ^ 4 := by
    rw [← Real.exp_nat_mul]
    congr 1
    norm_num
  rw [hz]
  exact ⟨le_trans (by norm_num) (pow_le_pow_left₀ (by norm_num) hy.1 4),
    le_trans (pow_le_pow_left₀ (Real.exp_pos _).le hy.2 4) (by norm_num)⟩

/-- Bounds on `exp(441 / 125)`, from the Taylor series at `441 / 500` and its power 4. -/
theorem dispersion_exp_8 :
    (34.05578788 : ℝ) ≤ Real.exp (441 / 125) ∧
      Real.exp (441 / 125) ≤ 34.05578789 := by
  have hy : (2.415726330843 : ℝ) ≤ Real.exp (441 / 500) ∧
      Real.exp (441 / 500) ≤ 2.415726330846 := by
    constructor
    · have h := Real.sum_le_exp_of_nonneg (x := (441 / 500 : ℝ)) (by norm_num) 14
      refine le_trans ?_ h
      simp only [Finset.sum_range_succ, Finset.sum_range_zero, Nat.factorial]
      norm_num
    · have h := Real.exp_bound' (x := (441 / 500 : ℝ)) (by norm_num) (by norm_num)
        (n := 14) (by norm_num)
      refine le_trans h ?_
      simp only [Finset.sum_range_succ, Finset.sum_range_zero, Nat.factorial]
      norm_num
  have hz : Real.exp (441 / 125) = Real.exp (441 / 500) ^ 4 := by
    rw [← Real.exp_nat_mul]
    congr 1
    norm_num
  rw [hz]
  exact ⟨le_trans (by norm_num) (pow_le_pow_left₀ (by norm_num) hy.1 4),
    le_trans (pow_le_pow_left₀ (Real.exp_pos _).le hy.2 4) (by norm_num)⟩

/-- Bounds on `tanh(k d)`, `cosh(2 k d)`, `sinh(2 k d) / cosh(2 k d)^2` and
`sqrt(g k)` for `d = 0.9`, `g = 9.81` and `k` in `[1.78, 1.96]`. -/
theorem dispersion_atoms_shallow_1_78_1_96 (k : ℝ) (hk : (1.78 : ℝ) ≤ k ∧ k ≤ 1.96) :
    ((0.9219690542 : ℝ) ≤ Real.tanh (k * 0.9) ∧ Real.tanh (k * 0.9) ≤ 0.9429480802) ∧
      ((12.31542842 : ℝ) ≤ Real.cosh (2 * (k * 0.9)) ∧
        Real.cosh (2 * (k * 0.9)) ≤ 17.0481936855) ∧
      ((0 : ℝ) ≤ Real.sinh (2 * (k * 0.9)) / Real.cosh (2 * (k * 0.9)) ^ 2 ∧
        Real.sinh (2 * (k * 0.9)) / Real.cosh (2 * (k * 0.9)) ^ 2 ≤ 0.0811989617) ∧
      ((4.178731865 : ℝ) ≤ Real.sqrt (9.81 * k) ∧
        Real.sqrt (9.81 * k) ≤ 4.3849287338) := by
  have hlo : (24.63085684 : ℝ) ≤ Real.exp (2 * (k * 0.9)) :=
    le_trans dispersion_exp_7.1 (Real.exp_le_exp.2 (by linarith [hk.1]))
  have hhi : Real.exp (2 * (k * 0.9)) ≤ 34.05578789 :=
    le_trans (Real.exp_le_exp.2 (by linarith [hk.2])) dispersion_exp_8.2
  obtain ⟨⟨t1, t2⟩, ⟨c1, c2⟩, ⟨q1, q2⟩⟩ :=
    hyperbolic_between (k * 0.9) 24.63085684 34.05578789 (by norm_num) hlo hhi
  have b1 := iv_mul (iv_lit 9.81) hk 17.4618 19.2276 (by norm_num)
  have b2 := iv_sqrt b1 4.178731865 4.3849287338 (by norm_num)
  exact ⟨⟨le_trans (by norm_num) t1, le_trans t2 (by norm_num)⟩,
    ⟨le_trans (by norm_num) c1, le_trans c2 (by norm_num)⟩,
    ⟨q1, le_trans q2 (by norm_num)⟩, b2⟩

/-- The dispersion slope of order 3 (T = 1.5, d = 0.9, H = 0.05) between bounds,
in terms of `t = tanh(k d)`, `ch = cosh(2 k d)`, `sh = sinh(2 k d)` and
`sq = sqrt(g k)`, for `k` in `[1.78, 1.96]`. -/
theorem slope_core_shallow (k t ch sh sq pi : ℝ)
    (hk : (1.78 : ℝ) ≤ k ∧ k ≤ 1.96)
    (ht : (0.9219690542 : ℝ) ≤ t ∧ t ≤ 0.9429480802)
    (hch : (12.31542842 : ℝ) ≤ ch ∧ ch ≤ 17.0481936855)
    (hq : (0 : ℝ) ≤ sh / ch ^ 2 ∧ sh / ch ^ 2 ≤ 0.0811989617)
    (hsq : (4.178731865 : ℝ) ≤ sq ∧ sq ≤ 4.3849287338)
    (hpi : (3.141592 : ℝ) ≤ pi ∧ pi ≤ 3.141593) :
    ((-0.3534047005) : ℝ) ≤
        -(2 * pi / (1.5 * sq)) / (2 * k) - 0.9 * (1 - t ^ 2) / (2 * Real.sqrt t) - (2 * (k * 0.05
          / 2) * (0.05 / 2) * (Real.sqrt t * ((2 + 7 * (1 / ch) ^ 2) / (4 * (1 - 1 / ch) ^ 2))) +
          (k * 0.05 / 2) ^ 2 * (0.9 * (1 - t ^ 2) / (2 * Real.sqrt t) * ((2 + 7 * (1 / ch) ^ 2) /
          (4 * (1 - 1 / ch) ^ 2)) + Real.sqrt t * ((2 + 7 * (1 / ch)) / (2 * (1 - 1 / ch) ^ 3) *
          (-2 * 0.9 * sh / ch ^ 2)))) - 0 ∧
      -(2 * pi / (1.5 * sq)) / (2 * k) - 0.9 * (1 - t ^ 2) / (2 * Real.sqrt t) - (2 * (k * 0.05 /
        2) * (0.05 / 2) * (Real.sqrt t * ((2 + 7 * (1 / ch) ^ 2) / (4 * (1 - 1 / ch) ^ 2))) + (k *
        0.05 / 2) ^ 2 * (0.9 * (1 - t ^ 2) / (2 * Real.sqrt t) * ((2 + 7 * (1 / ch) ^ 2) / (4 * (1
        - 1 / ch) ^ 2)) + Real.sqrt t * ((2 + 7 * (1 / ch)) / (2 * (1 - 1 / ch) ^ 3) * (-2 * 0.9 *
        sh / ch ^ 2)))) - 0 ≤
        (-0.2957863596) := by
  have b1 := iv_mul (iv_lit 2) hpi 6.283184 6.283186 (by norm_num)
  have b2 := iv_mul (iv_lit 1.5) hsq 6.2680977975 6.5773931007 (by norm_num)
  have b3 := iv_div b1 b2 0.9552696492 1.0024071422 (by norm_num)
  have b4 := iv_sqrt ht 0.9601921964 0.9710551376 (by norm_num)
  have b5 := iv_div (iv_lit 1) hch 0.0586572406 0.0811989617 (by norm_num)
  have b6 := iv_sub (iv_lit 1) b5 0.9188010383 0.9413427594 (by norm_num)
  have b7 := iv_mul hk (iv_lit 0.05) 0.089 0.098 (by norm_num)
  have b8 := iv_div b7 (iv_lit 2) 0.0445 0.049 (by norm_num)
  have b9 := iv_pow b5 2 0.0034406718 0.0065932714 (by norm_num)
  have b10 := iv_mul (iv_lit 7) b9 0.0240847026 0.0461528998 (by norm_num)
  have b11 := iv_add (iv_lit 2) b10 2.0240847026 2.0461528998 (by norm_num)
  have b12 := iv_pow b6 2 0.8441953479 0.8861261907 (by norm_num)
  have b13 := iv_mul (iv_lit 4) b12 3.3767813916 3.5445047628 (by norm_num)
  have b14 := iv_div b11 b13 0.571048662 0.6059476948 (by norm_num)
  have b15 := iv_scaled_quot (-2 * 0.9) hq (-0.1461581311) 0 (by norm_num)
  have b16 := iv_pow ht 2 0.8500269369 0.889151082 (by norm_num)
  have b17 := iv_sub (iv_lit 1) b16 0.110848918 0.1499730631 (by norm_num)
  have b18 := iv_mul (iv_lit 0.9) b17 0.0997640262 0.1349757568 (by norm_num)
  have b19 := iv_mul (iv_lit 2) b4 1.9203843928 1.9421102752 (by norm_num)
  have b20 := iv_div b18 b19 0.0513688782 0.0702858018 (by norm_num)
  have b21 := iv_mul (iv_lit 7) b5 0.4106006842 0.5683927319 (by norm_num)
  have b22 := iv_add (iv_lit 2) b21 2.4106006842 2.5683927319 (by norm_num)
  have b23 := iv_pow b6 3 0.7756475622 0.8341484736 (by norm_num)
  have b24 := iv_mul (iv_lit 2) b23 1.5512951244 1.6682969472 (by norm_num)
  have b25 := iv_div b22 b24 1.4449470091 1.6556441721 (by norm_num)
  have b26 := iv_div (iv_lit 0.05) (iv_lit 2) 0.025 0.025 (by norm_num)
  have b27 := iv_neg b3 (-1.0024071422) (-0.9552696492) (by norm_num)
  have b28 := iv_mul (iv_lit 2) hk 3.56 3.92 (by norm_num)
  have b29 := iv_div b27 b28 (-0.28157504) (-0.243691237) (by norm_num)
  have b30 := iv_mul (iv_lit 2) b8 0.089 0.098 (by norm_num)
  have b31 := iv_mul b30 b26 0.002225 0.00245 (by norm_num)
  have b32 := iv_mul b4 b14 0.548316469 0.5884086222 (by norm_num)
  have b33 := iv_mul b31 b32 0.0012200041 0.0014416012 (by norm_num)
  have b34 := iv_pow b8 2 0.00198025 0.002401 (by norm_num)
  have b35 := iv_mul b20 b14 0.0293341291 0.0425895196 (by norm_num)
  have b36 := iv_mul b25 b15 (-0.241985858) 0 (by norm_num)
  have b37 := iv_mul b4 b36 (-0.2349816107) 0 (by norm_num)
  have b38 := iv_add b35 b37 (-0.2056474816) 0.0425895196 (by norm_num)
  have b39 := iv_mul b34 b38 (-0.0004937597) 0.0001022575 (by norm_num)
  have b40 := iv_add b33 b39 0.0007262444 0.0015438587 (by norm_num)
  have b41 := iv_sub b29 b20 (-0.3518608418) (-0.2950601152) (by norm_num)
  have b42 := iv_sub b41 b40 (-0.3534047005) (-0.2957863596) (by norm_num)
  have b43 := iv_sub b42 (iv_lit 0) (-0.3534047005) (-0.2957863596) (by norm_num)
  exact b43

/-- The dispersion slope of order 3 (T = 1.5, d = 0.9, H = 0.05) for `k` in
`[1.78, 1.96]`. -/
theorem slope_bounds_shallow (k : ℝ) (hk : (1.78 : ℝ) ≤ k ∧ k ≤ 1.96) :
    ((-0.3534047005) : ℝ) ≤ stokes_dispersion_slope Libm.real 3 1.5 0.9 0.05 9.81 k ∧
      stokes_dispersion_slope Libm.real 3 1.5 0.9 0.05 9.81 k ≤
        (-0.2957863596) := by
  obtain ⟨ht, hch, hq, hsq⟩ := dispersion_atoms_shallow_1_78_1_96 k hk
  simp only [stokes_dispersion_slope, Libm.real_pi, Libm.real_sqrt, Libm.real_tanh,
    Libm.real_cosh, Libm.real_sinh,
    show (2 : ℕ) ≤ 3 by norm_num, show ¬ (4 : ℕ) ≤ 3 by norm_num, if_true,
    if_false]
  exact slope_core_shallow k _ _ _ _ _ hk ht hch hq hsq ⟨Real.pi_gt_d6.le, Real.pi_lt_d6.le⟩

/-- Bounds on `exp(32193 / 10000)`, from the Taylor series at `32193 / 40000` and its power 4. -/
theorem dispersion_exp_9 :
    (25.01060662 : ℝ) ≤ Real.exp (32193 / 10000) ∧
      Real.exp (32193 / 10000) ≤ 25.01060663 := by
  have hy : (2.236305111179 : ℝ) ≤ Real.exp (32193 / 40000) ∧
      Real.exp (32193 / 40000) ≤ 2.236305111181 := by
    constructor
    · have h := Real.sum_le_exp_of_nonneg (x := (32193 / 40000 : ℝ)) (by norm_num) 14
      refine le_trans ?_ h
      simp only [Finset.sum_range_succ, Finset.sum_range_zero, Nat.factorial]
      norm_num
    · have h := Real.exp_bound' (x := (32193 / 40000 : ℝ)) (by norm_num) (by norm_num)
        (n := 14) (by norm_num)
      refine le_trans h ?_
      simp only [Finset.sum_range_succ, Finset.sum_range_zero, Nat.factorial]
      norm_num
  have hz : Real.exp (32193 / 10000) = Real.exp (32193 / 40000) ^ 4 := by
    rw [← Real.exp_nat_mul]
    congr 1
    norm_num
  rw [hz]
  exact ⟨le_trans (by norm_num) (pow_le_pow_left₀ (by norm_num) hy.1 4),
    le_trans (pow_le_pow_left₀ (Real.exp_pos _).le hy.2 4) (by norm_num)⟩

/-- Bounds on `tanh(k d)`, `cosh(2 k d)`, `sinh(2 k d) / cosh(2 k d)^2` and
`sqrt(g k)` for `d = 0.9`, `g = 9.81` and `k` in `[1.7885, 1.7885]`. -/
theorem dispersion_atoms_shallow_1_7885 (k : ℝ) (hk : (1.7885 : ℝ) ≤ k ∧ k ≤ 1.7885) :
    ((0.9231082908 : ℝ) ≤ Real.tanh (k * 0.9) ∧ Real.tanh (k * 0.9) ≤ 0.9231082909) ∧
      ((12.50530331 : ℝ) ≤ Real.cosh (2 * (k * 0.9)) ∧
        Real.cosh (2 * (k * 0.9)) ≤ 12.5252948334) ∧
      ((0 : ℝ) ≤ Real.sinh (2 * (k * 0.9)) / Real.cosh (2 * (k * 0.9)) ^ 2 ∧
        Real.sinh (2 * (k * 0.9)) / Real.cosh (2 * (k * 0.9)) ^ 2 ≤ 0.0799660733) ∧
      ((4.1886972915 : ℝ) ≤ Real.sqrt (9.81 * k) ∧
        Real.sqrt (9.81 * k) ≤ 4.1886972916) := by
  have hlo : (25.01060662 : ℝ) ≤ Real.exp (2 * (k * 0.9)) :=
    le_trans dispersion_exp_9.1 (Real.exp_le_exp.2 (by linarith [hk.1]))
  have hhi : Real.exp (2 * (k * 0.9)) ≤ 25.01060663 :=
    le_trans (Real.exp_le_exp.2 (by linarith [hk.2])) dispersion_exp_9.2
  obtain ⟨⟨t1, t2⟩, ⟨c1, c2⟩, ⟨q1, q2⟩⟩ :=
    hyperbolic_between (k * 0.9) 25.01060662 25.01060663 (by norm_num) hlo hhi
  have b1 := iv_mul (iv_lit 9.81) hk 17.545185 17.545185 (by norm_num)
  have b2 := iv_sqrt b1 4.1886972915 4.1886972916 (by norm_num)
  exact ⟨⟨le_trans (by norm_num) t1, le_trans t2 (by norm_num)⟩,
    ⟨le_trans (by norm_num) c1, le_trans c2 (by norm_num)⟩,
    ⟨q1, le_trans q2 (by norm_num)⟩, b2⟩

/-- The dispersion residual of order 3 (T = 1.5, d = 0.9, H = 0.05) between bounds,
in terms of `t = tanh(k d)`, `ch = cosh(2 k d)` and `sq = sqrt(g k)`, for `k = 1.7885`. -/
theorem residual_core_shallow_1_7885 (k t ch sq pi : ℝ)
    (hk : (1.7885 : ℝ) ≤ k ∧ k ≤ 1.7885)
    (ht : (0.9231082908 : ℝ) ≤ t ∧ t ≤ 0.9231082909)
    (hch : (12.50530331 : ℝ) ≤ ch ∧ ch ≤ 12.5252948334)
    (hsq : (4.1886972915 : ℝ) ≤ sq ∧ sq ≤ 4.1886972916)
    (hpi : (3.141592 : ℝ) ≤ pi ∧ pi ≤ 3.141593) :
    (0.0380767231 : ℝ) ≤
        2 * pi / (1.5 * sq) - (Real.sqrt t + (k * 0.05 / 2) ^ 2 * (Real.sqrt t * ((2 + 7 * (1 /
          ch) ^ 2) / (4 * (1 - 1 / ch) ^ 2))) + (k * 0.05 / 2) ^ 4 * 0) ∧
      2 * pi / (1.5 * sq) - (Real.sqrt t + (k * 0.05 / 2) ^ 2 * (Real.sqrt t * ((2 + 7 * (1 / ch)
        ^ 2) / (4 * (1 - 1 / ch) ^ 2))) + (k * 0.05 / 2) ^ 4 * 0) ≤
        0.0380774446 := by
  have b1 := iv_mul (iv_lit 2) hpi 6.283184 6.283186 (by norm_num)
  have b2 := iv_mul (iv_lit 1.5) hsq 6.2830459372 6.2830459374 (by norm_num)
  have b3 := iv_div b1 b2 1.0000219738 1.0000222922 (by norm_num)
  have b4 := iv_sqrt ht 0.9607852469 0.9607852471 (by norm_num)
  have b5 := iv_div (iv_lit 1) hch 0.0798384399 0.0799660733 (by norm_num)
  have b6 := iv_sub (iv_lit 1) b5 0.9200339267 0.9201615601 (by norm_num)
  have b7 := iv_mul hk (iv_lit 0.05) 0.089425 0.089425 (by norm_num)
  have b8 := iv_div b7 (iv_lit 2) 0.0447125 0.0447125 (by norm_num)
  have b9 := iv_pow b5 2 0.0063741764 0.0063945729 (by norm_num)
  have b10 := iv_mul (iv_lit 7) b9 0.0446192348 0.0447620103 (by norm_num)
  have b11 := iv_add (iv_lit 2) b10 2.0446192348 2.0447620103 (by norm_num)
  have b12 := iv_pow b6 2 0.8464624262 0.8466972967 (by norm_num)
  have b13 := iv_mul (iv_lit 4) b12 3.3858497048 3.3867891868 (by norm_num)
  have b14 := iv_div b11 b13 0.6037043116 0.6039139917 (by norm_num)
  have b15 := iv_pow b8 2 0.0019992076 0.0019992077 (by norm_num)
  have b16 := iv_mul b4 b14 0.580030196 0.5802316538 (by norm_num)
  have b17 := iv_mul b15 b16 0.0011596007 0.0011600036 (by norm_num)
  have b18 := iv_pow b8 4 0.0000039968 0.0000039969 (by norm_num)
  have b19 := iv_mul b18 (iv_lit 0) 0 0 (by norm_num)
  have b20 := iv_add b4 b17 0.9619448476 0.9619452507 (by norm_num)
  have b21 := iv_add b20 b19 0.9619448476 0.9619452507 (by norm_num)
  have b22 := iv_sub b3 b21 0.0380767231 0.0380774446 (by norm_num)
  exact b22

/-- The dispersion residual of order 3 (T = 1.5, d = 0.9, H = 0.05) at `k = 1.7885`. -/
theorem residual_bounds_shallow_1_7885 :
    (0.0380767231 : ℝ) ≤ stokes_dispersion_residual Libm.real 3 1.5 0.9 0.05 9.81 1.7885 ∧
      stokes_dispersion_residual Libm.real 3 1.5 0.9 0.05 9.81 1.7885 ≤
        0.0380774446 := by
  have hk : (1.7885 : ℝ) ≤ 1.7885 ∧ (1.7885 : ℝ) ≤ 1.7885 := ⟨le_refl _, le_refl _⟩
  obtain ⟨ht, hch, _, hsq⟩ := dispersion_atoms_shallow_1_7885 1.7885 hk
  rw [stokes_dispersion_residual_real]
  simp only [show (2 : ℕ) ≤ 3 by norm_num, show ¬ (4 : ℕ) ≤ 3 by norm_num, if_true,
    if_false]
  exact residual_core_shallow_1_7885 1.7885 _ _ _ _ hk ht hch hsq
    ⟨Real.pi_gt_d6.le, Real.pi_lt_d6.le⟩

/-- Bounds on `exp(1719 / 500)`, from the Taylor series at `1719 / 2000` and its power 4. -/
theorem dispersion_exp_10 :
    (31.12464658 : ℝ) ≤ Real.exp (1719 / 500) ∧
      Real.exp (1719 / 500) ≤ 31.12464659 := by
  have hy : (2.361979408703 : ℝ) ≤ Real.exp (1719 / 2000) ∧
      Real.exp (1719 / 2000) ≤ 2.361979408705 := by
    constructor
    · have h := Real.sum_le_exp_of_nonneg (x := (1719 / 2000 : ℝ)) (by norm_num) 14
      refine le_trans ?_ h
      simp only [Finset.sum_range_succ, Finset.sum_range_zero, Nat.factorial]
      norm_num
    · have h := Real.exp_bound' (x := (1719 / 2000 : ℝ)) (by norm_num) (by norm_num)
        (n := 14) (by norm_num)
      refine le_trans h ?_
      simp only [Finset.sum_range_succ, Finset.sum_range_zero, Nat.factorial]
      norm_num
  have hz : Real.exp (1719 / 500) = Real.exp (1719 / 2000) ^ 4 := by
    rw [← Real.exp_nat_mul]
    congr 1
    norm_num
  rw [hz]
  exact ⟨le_trans (by norm_num) (pow_le_pow_left₀ (by norm_num) hy.1 4),
    le_trans (pow_le_pow_left₀ (Real.exp_pos _).le hy.2 4) (by norm_num)⟩

/-- Bounds on `tanh(k d)`, `cosh(2 k d)`, `sinh(2 k d) / cosh(2 k d)^2` and
`sqrt(g k)` for `d = 0.9`, `g = 9.81` and `k` in `[1.91, 1.91]`. -/
theorem dispersion_atoms_shallow_1_91 (k : ℝ) (hk : (1.91 : ℝ) ≤ k ∧ k ≤ 1.91) :
    ((0.9377425057 : ℝ) ≤ Real.tanh (k * 0.9) ∧ Real.tanh (k * 0.9) ≤ 0.9377425058) ∧
      ((15.56232329 : ℝ) ≤ Real.cosh (2 * (k * 0.9)) ∧
        Real.cosh (2 * (k * 0.9)) ≤ 15.5783877345) ∧
      ((0 : ℝ) ≤ Real.sinh (2 * (k * 0.9)) / Real.cosh (2 * (k * 0.9)) ^ 2 ∧
        Real.sinh (2 * (k * 0.9)) / Real.cosh (2 * (k * 0.9)) ^ 2 ≤ 0.0642577578) ∧
      ((4.3286371989 : ℝ) ≤ Real.sqrt (9.81 * k) ∧
        Real.sqrt (9.81 * k) ≤ 4.328637199) := by
  have hlo : (31.12464658 : ℝ) ≤ Real.exp (2 * (k * 0.9)) :=
    le_trans dispersion_exp_10.1 (Real.exp_le_exp.2 (by linarith [hk.1]))
  have hhi : Real.exp (2 * (k * 0.9)) ≤ 31.12464659 :=
    le_trans (Real.exp_le_exp.2 (by linarith [hk.2])) dispersion_exp_10.2
  obtain ⟨⟨t1, t2⟩, ⟨c1, c2⟩, ⟨q1, q2⟩⟩ :=
    hyperbolic_between (k * 0.9) 31.12464658 31.12464659 (by norm_num) hlo hhi
  have b1 := iv_mul (iv_lit 9.81) hk 18.7371 18.7371 (by norm_num)
  have b2 := iv_sqrt b1 4.3286371989 4.328637199 (by norm_num)
  exact ⟨⟨le_trans (by norm_num) t1, le_trans t2 (by norm_num)⟩,
    ⟨le_trans (by norm_num) c1, le_trans c2 (by norm_num)⟩,
    ⟨q1, le_trans q2 (by norm_num)⟩, b2⟩

/-- The dispersion residual of order 3 (T = 1.5, d = 0.9, H = 0.05) between bounds,
in terms of `t = tanh(k d)`, `ch = cosh(2 k d)` and `sq = sqrt(g k)`, for `k = 1.91`. -/
theorem residual_core_shallow_1_91 (k t ch sq pi : ℝ)
    (hk : (1.91 : ℝ) ≤ k ∧ k ≤ 1.91)
    (ht : (0.9377425057 : ℝ) ≤ t ∧ t ≤ 0.9377425058)
    (hch : (15.56232329 : ℝ) ≤ ch ∧ ch ≤ 15.5783877345)
    (hsq : (4.3286371989 : ℝ) ≤ sq ∧ sq ≤ 4.328637199)
    (hpi : (3.141592 : ℝ) ≤ pi ∧ pi ≤ 3.141593) :
    ((-0.0019576753) : ℝ) ≤
        2 * pi / (1.5 * sq) - (Real.sqrt t + (k * 0.05 / 2) ^ 2 * (Real.sqrt t * ((2 + 7 * (1 /
          ch) ^ 2) / (4 * (1 - 1 / ch) ^ 2))) + (k * 0.05 / 2) ^ 4 * 0) ∧
      2 * pi / (1.5 * sq) - (Real.sqrt t + (k * 0.05 / 2) ^ 2 * (Real.sqrt t * ((2 + 7 * (1 / ch)
        ^ 2) / (4 * (1 - 1 / ch) ^ 2))) + (k * 0.05 / 2) ^ 4 * 0) ≤
        (-0.0019571483) := by
  have b1 := iv_mul (iv_lit 2) hpi 6.283184 6.283186 (by norm_num)
  have b2 := iv_mul (iv_lit 1.5) hsq 6.4929557983 6.4929557985 (by norm_num)
  have b3 := iv_div b1 b2 0.9676924031 0.9676927112 (by norm_num)
  have b4 := iv_sqrt ht 0.9683710578 0.968371058 (by norm_num)
  have b5 := iv_div (iv_lit 1) hch 0.0641914951 0.0642577578 (by norm_num)
  have b6 := iv_sub (iv_lit 1) b5 0.9357422422 0.9358085049 (by norm_num)
  have b7 := iv_mul hk (iv_lit 0.05) 0.0955 0.0955 (by norm_num)
  have b8 := iv_div b7 (iv_lit 2) 0.04775 0.04775 (by norm_num)
  have b9 := iv_pow b5 2 0.004120548 0.0041290595 (by norm_num)
  have b10 := iv_mul (iv_lit 7) b9 0.028843836 0.0289034165 (by norm_num)
  have b11 := iv_add (iv_lit 2) b10 2.028843836 2.0289034165 (by norm_num)
  have b12 := iv_pow b6 2 0.8756135438 0.8757375579 (by norm_num)
  have b13 := iv_mul (iv_lit 4) b12 3.5024541752 3.5029502316 (by norm_num)
  have b14 := iv_div b11 b13 0.5791814618 0.5792805031 (by norm_num)
  have b15 := iv_pow b8 2 0.0022800625 0.0022800625 (by norm_num)
  have b16 := iv_mul b4 b14 0.5608625648 0.5609584737 (by norm_num)
  have b17 := iv_mul b15 b16 0.0012788017 0.0012790204 (by norm_num)
  have b18 := iv_pow b8 4 0.0000051986 0.0000051987 (by norm_num)
  have b19 := iv_mul b18 (iv_lit 0) 0 0 (by norm_num)
  have b20 := iv_add b4 b17 0.9696498595 0.9696500784 (by norm_num)
  have b21 := iv_add b20 b19 0.9696498595 0.9696500784 (by norm_num)
  have b22 := iv_sub b3 b21 (-0.0019576753) (-0.0019571483) (by norm_num)
  exact b22

/-- The dispersion residual of order 3 (T = 1.5, d = 0.9, H = 0.05) at `k = 1.91`. -/
theorem residual_bounds_shallow_1_91 :
    ((-0.0019576753) : ℝ) ≤ stokes_dispersion_residual Libm.real 3 1.5 0.9 0.05 9.81 1.91 ∧
      stokes_dispersion_residual Libm.real 3 1.5 0.9 0.05 9.81 1.91 ≤
        (-0.0019571483) := by
  have hk : (1.91 : ℝ) ≤ 1.91 ∧ (1.91 : ℝ) ≤ 1.91 := ⟨le_refl _, le_refl _⟩
  obtain ⟨ht, hch, _, hsq⟩ := dispersion_atoms_shallow_1_91 1.91 hk
  rw [stokes_dispersion_residual_real]
  simp only [show (2 : ℕ) ≤ 3 by norm_num, show ¬ (4 : ℕ) ≤ 3 by norm_num, if_true,
    if_false]
  exact residual_core_shallow_1_91 1.91 _ _ _ _ hk ht hch hsq
    ⟨Real.pi_gt_d6.le, Real.pi_lt_d6.le⟩

/-- Bounds on `exp(8523 / 2500)`, from the Taylor series at `8523 / 10000` and its power 4. -/
theorem dispersion_exp_11 :
    (30.24104174 : ℝ) ≤ Real.exp (8523 / 2500) ∧
      Real.exp (8523 / 2500) ≤ 30.24104175 := by
  have hy : (2.345034232797 : ℝ) ≤ Real.exp (8523 / 10000) ∧
      Real.exp (8523 / 10000) ≤ 2.345034232799 := by
    constructor
    · have h := Real.sum_le_exp_of_nonneg (x := (8523 / 10000 : ℝ)) (by norm_num) 14
      refine le_trans ?_ h
      simp only [Finset.sum_range_succ, Finset.sum_range_zero, Nat.factorial]
      norm_num
    · have h := Real.exp_bound' (x := (8523 / 10000 : ℝ)) (by norm_num) (by norm_num)
        (n := 14) (by norm_num)
      refine le_trans h ?_
      simp only [Finset.sum_range_succ, Finset.sum_range_zero, Nat.factorial]
      norm_num
  have hz : Real.exp (8523 / 2500) = Real.exp (8523 / 10000) ^ 4 := by
    rw [← Real.exp_nat_mul]
    congr 1
    norm_num
  rw [hz]
  exact ⟨le_trans (by norm_num) (pow_le_pow_left₀ (by norm_num) hy.1 4),
    le_trans (pow_le_pow_left₀ (Real.exp_pos _).le hy.2 4) (by norm_num)⟩

/-- Bounds on `tanh(k d)`, `cosh(2 k d)`, `sinh(2 k d) / cosh(2 k d)^2` and
`sqrt(g k)` for `d = 0.9`, `g = 9.81` and `k` in `[1.894, 1.894]`. -/
theorem dispersion_atoms_shallow_1_894 (k : ℝ) (hk : (1.894 : ℝ) ≤ k ∧ k ≤ 1.894) :
    ((0.9359816482 : ℝ) ≤ Real.tanh (k * 0.9) ∧ Real.tanh (k * 0.9) ≤ 0.9359816483) ∧
      ((15.12052087 : ℝ) ≤ Real.cosh (2 * (k * 0.9)) ∧
        Real.cosh (2 * (k * 0.9)) ≤ 15.137054697) ∧
      ((0 : ℝ) ≤ Real.sinh (2 * (k * 0.9)) / Real.cosh (2 * (k * 0.9)) ^ 2 ∧
        Real.sinh (2 * (k * 0.9)) / Real.cosh (2 * (k * 0.9)) ^ 2 ≤ 0.0661352879) ∧
      ((4.310468652 : ℝ) ≤ Real.sqrt (9.81 * k) ∧
        Real.sqrt (9.81 * k) ≤ 4.3104686521) := by
  have hlo : (30.24104174 : ℝ) ≤ Real.exp (2 * (k * 0.9)) :=
    le_trans dispersion_exp_11.1 (Real.exp_le_exp.2 (by linarith [hk.1]))
  have hhi : Real.exp (2 * (k * 0.9)) ≤ 30.24104175 :=
    le_trans (Real.exp_le_exp.2 (by linarith [hk.2])) dispersion_exp_11.2
  obtain ⟨⟨t1, t2⟩, ⟨c1, c2⟩, ⟨q1, q2⟩⟩ :=
    hyperbolic_between (k * 0.9) 30.24104174 30.24104175 (by norm_num) hlo hhi
  have b1 := iv_mul (iv_lit 9.81) hk 18.58014 18.58014 (by norm_num)
  have b2 := iv_sqrt b1 4.310468652 4.3104686521 (by norm_num)
  exact ⟨⟨le_trans (by norm_num) t1, le_trans t2 (by norm_num)⟩,
    ⟨le_trans (by norm_num) c1, le_trans c2 (by norm_num)⟩,
    ⟨q1, le_trans q2 (by norm_num)⟩, b2⟩

/-- The dispersion residual of order 3 (T = 1.5, d = 0.9, H = 0.05) between bounds,
in terms of `t = tanh(k d)`, `ch = cosh(2 k d)` and `sq = sqrt(g k)`, for `k = 1.894`. -/
theorem residual_core_shallow_1_894 (k t ch sq pi : ℝ)
    (hk : (1.894 : ℝ) ≤ k ∧ k ≤ 1.894)
    (ht : (0.9359816482 : ℝ) ≤ t ∧ t ≤ 0.9359816483)
    (hch : (15.12052087 : ℝ) ≤ ch ∧ ch ≤ 15.137054697)
    (hsq : (4.310468652 : ℝ) ≤ sq ∧ sq ≤ 4.3104686521)
    (hpi : (3.141592 : ℝ) ≤ pi ∧ pi ≤ 3.141593) :
    (0.0030471403 : ℝ) ≤
        2 * pi / (1.5 * sq) - (Real.sqrt t + (k * 0.05 / 2) ^ 2 * (Real.sqrt t * ((2 + 7 * (1 /
          ch) ^ 2) / (4 * (1 - 1 / ch) ^ 2))) + (k * 0.05 / 2) ^ 4 * 0) ∧
      2 * pi / (1.5 * sq) - (Real.sqrt t + (k * 0.05 / 2) ^ 2 * (Real.sqrt t * ((2 + 7 * (1 / ch)
        ^ 2) / (4 * (1 - 1 / ch) ^ 2))) + (k * 0.05 / 2) ^ 4 * 0) ≤
        0.0030476868 := by
  have b1 := iv_mul (iv_lit 2) hpi 6.283184 6.283186 (by norm_num)
  have b2 := iv_mul (iv_lit 1.5) hsq 6.465702978 6.4657029782 (by norm_num)
  have b3 := iv_div b1 b2 0.9717712089 0.9717715184 (by norm_num)
  have b4 := iv_sqrt ht 0.9674614453 0.9674614454 (by norm_num)
  have b5 := iv_div (iv_lit 1) hch 0.0660630499 0.0661352879 (by norm_num)
  have b6 := iv_sub (iv_lit 1) b5 0.9338647121 0.9339369501 (by norm_num)
  have b7 := iv_mul hk (iv_lit 0.05) 0.0947 0.0947 (by norm_num)
  have b8 := iv_div b7 (iv_lit 2) 0.04735 0.04735 (by norm_num)
  have b9 := iv_pow b5 2 0.0043643265 0.0043738764 (by norm_num)
  have b10 := iv_mul (iv_lit 7) b9 0.0305502855 0.0306171348 (by norm_num)
  have b11 := iv_add (iv_lit 2) b10 2.0305502855 2.0306171348 (by norm_num)
  have b12 := iv_pow b6 2 0.8721033005 0.8722382268 (by norm_num)
  have b13 := iv_mul (iv_lit 4) b12 3.488413202 3.4889529072 (by norm_num)
  have b14 := iv_div b11 b13 0.5819941797 0.5821033855 (by norm_num)
  have b15 := iv_pow b8 2 0.0022420225 0.0022420225 (by norm_num)
  have b16 := iv_mul b4 b14 0.5630569302 0.5631625828 (by norm_num)
  have b17 := iv_mul b15 b16 0.0012623863 0.0012626232 (by norm_num)
  have b18 := iv_pow b8 4 0.0000050266 0.0000050267 (by norm_num)
  have b19 := iv_mul b18 (iv_lit 0) 0 0 (by norm_num)
  have b20 := iv_add b4 b17 0.9687238316 0.9687240686 (by norm_num)
  have b21 := iv_add b20 b19 0.9687238316 0.9687240686 (by norm_num)
  have b22 := iv_sub b3 b21 0.0030471403 0.0030476868 (by norm_num)
  exact b22

/-- The dispersion residual of order 3 (T = 1.5, d = 0.9, H = 0.05) at `k = 1.894`. -/
theorem residual_bounds_shallow_1_894 :
    (0.0030471403 : ℝ) ≤ stokes_dispersion_residual Libm.real 3 1.5 0.9 0.05 9.81 1.894 ∧
      stokes_dispersion_residual Libm.real 3 1.5 0.9 0.05 9.81 1.894 ≤
        0.0030476868 := by
  have hk : (1.894 : ℝ) ≤ 1.894 ∧ (1.894 : ℝ) ≤ 1.894 := ⟨le_refl _, le_refl _⟩
  obtain ⟨ht, hch, _, hsq⟩ := dispersion_atoms_shallow_1_894 1.894 hk
  rw [stokes_dispersion_residual_real]
  simp only [show (2 : ℕ) ≤ 3 by norm_num, show ¬ (4 : ℕ) ≤ 3 by norm_num, if_true,
    if_false]
  exact residual_core_shallow_1_894 1.894 _ _ _ _ hk ht hch hsq
    ⟨Real.pi_gt_d6.le, Real.pi_lt_d6.le⟩

/-- Bounds on `exp(432 / 125)`, from the Taylor series at `108 / 125` and its power 4. -/
theorem dispersion_exp_12 :
    (31.6899628 : ℝ) ≤ Real.exp (432 / 125) ∧
      Real.exp (432 / 125) ≤ 31.68996281 := by
  have hy : (2.372632266996 : ℝ) ≤ Real.exp (108 / 125) ∧
      Real.exp (108 / 125) ≤ 2.372632266999 := by
    constructor
    · have h := Real.sum_le_exp_of_nonneg (x := (108 / 125 : ℝ)) (by norm_num) 14
      refine le_trans ?_ h
      simp only [Finset.sum_range_succ, Finset.sum_range_zero, Nat.factorial]
      norm_num
    · have h := Real.exp_bound' (x := (108 / 125 : ℝ)) (by norm_num) (by norm_num)
        (n := 14) (by norm_num)
      refine le_trans h ?_
      simp only [Finset.sum_range_succ, Finset.sum_range_zero, Nat.factorial]
      norm_num
  have hz : Real.exp (432 / 125) = Real.exp (108 / 125) ^ 4 := by
    rw [← Real.exp_nat_mul]
    congr 1
    norm_num
  rw [hz]
  exact ⟨le_trans (by norm_num) (pow_le_pow_left₀ (by norm_num) hy.1 4),
    le_trans (pow_le_pow_left₀ (Real.exp_pos _).le hy.2 4) (by norm_num)⟩

/-- Bounds on `tanh(k d)`, `cosh(2 k d)`, `sinh(2 k d) / cosh(2 k d)^2` and
`sqrt(g k)` for `d = 0.9`, `g = 9.81` and `k` in `[1.92, 1.92]`. -/
theorem dispersion_atoms_shallow_1_92 (k : ℝ) (hk : (1.92 : ℝ) ≤ k ∧ k ≤ 1.92) :
    ((0.9388191411 : ℝ) ≤ Real.tanh (k * 0.9) ∧ Real.tanh (k * 0.9) ≤ 0.9388191412) ∧
      ((15.8449814 : ℝ) ≤ Real.cosh (2 * (k * 0.9)) ∧
        Real.cosh (2 * (k * 0.9)) ≤ 15.8607592715) ∧
      ((0 : ℝ) ≤ Real.sinh (2 * (k * 0.9)) / Real.cosh (2 * (k * 0.9)) ^ 2 ∧
        Real.sinh (2 * (k * 0.9)) / Real.cosh (2 * (k * 0.9)) ^ 2 ≤ 0.0631114657) ∧
      ((4.3399539168 : ℝ) ≤ Real.sqrt (9.81 * k) ∧
        Real.sqrt (9.81 * k) ≤ 4.3399539169) := by
  have hlo : (31.6899628 : ℝ) ≤ Real.exp (2 * (k * 0.9)) :=
    le_trans dispersion_exp_12.1 (Real.exp_le_exp.2 (by linarith [hk.1]))
  have hhi : Real.exp (2 * (k * 0.9)) ≤ 31.68996281 :=
    le_trans (Real.exp_le_exp.2 (by linarith [hk.2])) dispersion_exp_12.2
  obtain ⟨⟨t1, t2⟩, ⟨c1, c2⟩, ⟨q1, q2⟩⟩ :=
    hyperbolic_between (k * 0.9) 31.6899628 31.68996281 (by norm_num) hlo hhi
  have b1 := iv_mul (iv_lit 9.81) hk 18.8352 18.8352 (by norm_num)
  have b2 := iv_sqrt b1 4.3399539168 4.3399539169 (by norm_num)
  exact ⟨⟨le_trans (by norm_num) t1, le_trans t2 (by norm_num)⟩,
    ⟨le_trans (by norm_num) c1, le_trans c2 (by norm_num)⟩,
    ⟨q1, le_trans q2 (by norm_num)⟩, b2⟩

/-- The dispersion residual of order 3 (T = 1.5, d = 0.9, H = 0.05) between bounds,
in terms of `t = tanh(k d)`, `ch = cosh(2 k d)` and `sq = sqrt(g k)`, for `k = 1.92`. -/
theorem residual_core_shallow_1_92 (k t ch sq pi : ℝ)
    (hk : (1.92 : ℝ) ≤ k ∧ k ≤ 1.92)
    (ht : (0.9388191411 : ℝ) ≤ t ∧ t ≤ 0.9388191412)
    (hch : (15.8449814 : ℝ) ≤ ch ∧ ch ≤ 15.8607592715)
    (hsq : (4.3399539168 : ℝ) ≤ sq ∧ sq ≤ 4.3399539169)
    (hpi : (3.141592 : ℝ) ≤ pi ∧ pi ≤ 3.141593) :
    ((-0.0050470956) : ℝ) ≤
        2 * pi / (1.5 * sq) - (Real.sqrt t + (k * 0.05 / 2) ^ 2 * (Real.sqrt t * ((2 + 7 * (1 /
          ch) ^ 2) / (4 * (1 - 1 / ch) ^ 2))) + (k * 0.05 / 2) ^ 4 * 0) ∧
      2 * pi / (1.5 * sq) - (Real.sqrt t + (k * 0.05 / 2) ^ 2 * (Real.sqrt t * ((2 + 7 * (1 / ch)
        ^ 2) / (4 * (1 - 1 / ch) ^ 2))) + (k * 0.05 / 2) ^ 4 * 0) ≤
        (-0.00504658) := by
  have b1 := iv_mul (iv_lit 2) hpi 6.283184 6.283186 (by norm_num)
  have b2 := iv_mul (iv_lit 1.5) hsq 6.5099308752 6.5099308754 (by norm_num)
  have b3 := iv_div b1 b2 0.9651690809 0.9651693882 (by norm_num)
  have b4 := iv_sqrt ht 0.9689267986 0.9689267987 (by norm_num)
  have b5 := iv_div (iv_lit 1) hch 0.063048684 0.0631114657 (by norm_num)
  have b6 := iv_sub (iv_lit 1) b5 0.9368885343 0.936951316 (by norm_num)
  have b7 := iv_mul hk (iv_lit 0.05) 0.096 0.096 (by norm_num)
  have b8 := iv_div b7 (iv_lit 2) 0.048 0.048 (by norm_num)
  have b9 := iv_pow b5 2 0.0039751365 0.0039830572 (by norm_num)
  have b10 := iv_mul (iv_lit 7) b9 0.0278259555 0.0278814004 (by norm_num)
  have b11 := iv_add (iv_lit 2) b10 2.0278259555 2.0278814004 (by norm_num)
  have b12 := iv_pow b6 2 0.8777601257 0.8778777686 (by norm_num)
  have b13 := iv_mul (iv_lit 4) b12 3.5110405028 3.5115110744 (by norm_num)
  have b14 := iv_div b11 b13 0.5774795842 0.5775727734 (by norm_num)
  have b15 := iv_pow b8 2 0.002304 0.002304 (by norm_num)
  have b16 := iv_mul b4 b14 0.5595354447 0.5596257384 (by norm_num)
  have b17 := iv_mul b15 b16 0.0012891696 0.0012893778 (by norm_num)
  have b18 := iv_pow b8 4 0.0000053084 0.0000053085 (by norm_num)
  have b19 := iv_mul b18 (iv_lit 0) 0 0 (by norm_num)
  have b20 := iv_add b4 b17 0.9702159682 0.9702161765 (by norm_num)
  have b21 := iv_add b20 b19 0.9702159682 0.9702161765 (by norm_num)
  have b22 := iv_sub b3 b21 (-0.0050470956) (-0.00504658) (by norm_num)
  exact b22

/-- The dispersion residual of order 3 (T = 1.5, d = 0.9, H = 0.05) at `k = 1.92`. -/
theorem residual_bounds_shallow_1_92 :
    ((-0.0050470956) : ℝ) ≤ stokes_dispersion_residual Libm.real 3 1.5 0.9 0.05 9.81 1.92 ∧
      stokes_dispersion_residual Libm.real 3 1.5 0.9 0.05 9.81 1.92 ≤
        (-0.00504658) := by
  have hk : (1.92 : ℝ) ≤ 1.92 ∧ (1.92 : ℝ) ≤ 1.92 := ⟨le_refl _, le_refl _⟩
  obtain ⟨ht, hch, _, hsq⟩ := dispersion_atoms_shallow_1_92 1.92 hk
  rw [stokes_dispersion_residual_real]
  simp only [show (2 : ℕ) ≤ 3 by norm_num, show ¬ (4 : ℕ) ≤ 3 by norm_num, if_true,
    if_false]
  exact residual_core_shallow_1_92 1.92 _ _ _ _ hk ht hch hsq
    ⟨Real.pi_gt_d6.le, Real.pi_lt_d6.le⟩

/-- The deep-water wavenumber `omega^2 / g` of the linear relation for
`T = 2.2`, `g = 9.81`. -/
theorem linear_wavenumber_deep :
    (0.8314673249 : ℝ) ≤ (2 * Real.pi / 2.2) ^ 2 / 9.81 ∧
      (2 * Real.pi / 2.2) ^ 2 / 9.81 ≤ 0.8314678544 := by
  have hpi : (3.141592 : ℝ) ≤ Real.pi ∧ Real.pi ≤ 3.141593 :=
    ⟨Real.pi_gt_d6.le, Real.pi_lt_d6.le⟩
  have b1 := iv_mul (iv_lit 2) hpi 6.283184 6.283186 (by norm_num)
  have b2 := iv_div b1 (iv_lit 2.2) 2.8559927272 2.8559936364 (by norm_num)
  have b3 := iv_pow b2 2 8.1566944578 8.1566996512 (by norm_num)
  have b4 := iv_div b3 (iv_lit 9.81) 0.8314673249 0.8314678544 (by norm_num)
  exact b4

/-- The deep-water wavenumber `omega^2 / g` of the linear relation for
`T = 1.5`, `g = 9.81`. -/
theorem linear_wavenumber_shallow :
    (1.7885786012 : ℝ) ≤ (2 * Real.pi / 1.5) ^ 2 / 9.81 ∧
      (2 * Real.pi / 1.5) ^ 2 / 9.81 ≤ 1.7885797401 := by
  have hpi : (3.141592 : ℝ) ≤ Real.pi ∧ Real.pi ≤ 3.141593 :=
    ⟨Real.pi_gt_d6.le, Real.pi_lt_d6.le⟩
  have b1 := iv_mul (iv_lit 2) hpi 6.283184 6.283186 (by norm_num)
  have b2 := iv_div b1 (iv_lit 1.5) 4.1887893333 4.1887906667 (by norm_num)
  have b3 := iv_pow b2 2 17.5459560787 17.5459672495 (by norm_num)
  have b4 := iv_div b3 (iv_lit 9.81) 1.7885786012 1.7885797401 (by norm_num)
  exact b4

/-! ## The dispersion solver: convergence of the Newton iteration -/

/-- A left fold over a range that ignores the elements is an iterate. -/
theorem foldl_range_iterate (g : ℝ → ℝ) (k0 : ℝ) (n : ℕ) :
    (List.range n).foldl (fun k _ => g k) k0 = g^[n] k0 := by
  induction n with
  | zero => rfl
  | succ n ih =>
    rw [List.range_succ, List.foldl_append, ih, Function.iterate_succ_apply']
    rfl

/-- With a positive budget, `stokes_wave_length` on the dispersion residual
returns the wavelength of the last Newton iterate when the residual there is
within the tolerance. -/
theorem stokes_wave_length_newton (first_guess : ℝ → ℝ → ℝ → ℝ) (order : ℕ)
    (T d H g tol : ℝ) (iter_max : Int) (hpos : 0 < iter_max)
    (h : |stokes_dispersion_residual Libm.real order T d H g
        ((fun k => if tol < |stokes_dispersion_residual Libm.real order T d H g k| then
            k - stokes_dispersion_residual Libm.real order T d H g k /
              stokes_dispersion_slope Libm.real order T d H g k
          else k)^[iter_max.toNat] (first_guess (2 * Real.pi / T) d g))| ≤ tol) :
    stokes_wave_length Libm.real first_guess (stokes_dispersion_residual Libm.real order T d H g)
        (stokes_newton_step Libm.real order T d H g) T d g tol iter_max =
      some (2 * Real.pi /
        (fun k => if tol < |stokes_dispersion_residual Libm.real order T d H g k| then
            k - stokes_dispersion_residual Libm.real order T d H g k /
              stokes_dispersion_slope Libm.real order T d H g k
          else k)^[iter_max.toNat] (first_guess (2 * Real.pi / T) d g)) := by
  have e : (List.range iter_max.toNat).foldl
      (fun k _ => if tol < |stokes_dispersion_residual Libm.real order T d H g k| then
        stokes_newton_step Libm.real order T d H g k else k)
      (first_guess (2 * Real.pi / T) d g) =
      (fun k => if tol < |stokes_dispersion_residual Libm.real order T d H g k| then
            k - stokes_dispersion_residual Libm.real order T d H g k /
              stokes_dispersion_slope Libm.real order T d H g k
          else k)^[iter_max.toNat] (first_guess (2 * Real.pi / T) d g) :=
    foldl_range_iterate _ _ _
  simp only [stokes_wave_length, if_pos hpos, Libm.real_pi]
  rw [e, if_neg (not_lt.2 h)]

/-- A positive first guess that satisfies the linear relation, in its deep-water
form `k = c` or its finite-depth form `c = k tanh(k d)`, lies between `c` and any
`Khi` with `c < Khi tanh(Khi d)`. -/
theorem first_guess_between (k0 c d Klo Khi tlo : ℝ) (hk0 : 0 < k0) (hd : 0 ≤ d)
    (h : k0 = c ∨ c = k0 * Real.tanh (k0 * d)) (hc1 : Klo ≤ c) (hK : 0 < Khi)
    (ht : tlo ≤ Real.tanh (Khi * d)) (ht0 : 0 ≤ tlo) (hc2 : c < Khi * tlo) :
    Klo ≤ k0 ∧ k0 ≤ Khi := by
  have hKt : Khi * tlo ≤ Khi * Real.tanh (Khi * d) := mul_le_mul_of_nonneg_left ht hK.le
  have ht1 : ∀ x : ℝ, Real.tanh x ≤ 1 := by
    intro x
    rw [Real.tanh_eq_sinh_div_cosh, div_le_iff₀ (Real.cosh_pos x), one_mul]
    exact (Real.sinh_lt_cosh x).le
  have hKc : c ≤ Khi := by
    have : Khi * Real.tanh (Khi * d) ≤ Khi * 1 := mul_le_mul_of_nonneg_left (ht1 _) hK.le
    linarith
  rcases h with h | h
  · rw [h]
    exact ⟨hc1, hKc⟩
  · constructor
    · have : k0 * Real.tanh (k0 * d) ≤ k0 * 1 := mul_le_mul_of_nonneg_left (ht1 _) hk0.le
      linarith
    · by_contra hcon
      have hlt : Khi < k0 := not_le.1 hcon
      have hmono : Real.tanh (Khi * d) ≤ Real.tanh (k0 * d) :=
        tanh_le_tanh _ _ (mul_le_mul_of_nonneg_right hlt.le hd)
      have h1 : Khi * Real.tanh (Khi * d) ≤ k0 * Real.tanh (k0 * d) :=
        mul_le_mul hlt.le hmono (le_trans ht0 ht) hk0.le
      linarith

/-- The two sides of the dispersion relation as the test computes them, for
order 5, differ by the dispersion residual. -/
theorem test_relation_order5 (T d H g k : ℝ) :
    WaveTheoriesTest.LHS1 Libm.real k d H - WaveTheoriesTest.RHS Libm.real T g k =
      -stokes_dispersion_residual Libm.real 5 T d H g k := by
  rw [stokes_dispersion_residual_real]
  simp only [WaveTheoriesTest.LHS1, WaveTheoriesTest.RHS, WaveTheoriesTest.C2_k,
    WaveTheoriesTest.C4_k, WaveTheoriesTest.C0_k, WaveTheoriesTest.S_cosh, Libm.real_pi,
    Libm.real_sqrt, Libm.real_tanh, Libm.real_cosh, show (2 : ℕ) ≤ 5 by norm_num,
    show (4 : ℕ) ≤ 5 by norm_num, if_true]
  rw [show (2.0 : ℝ) * k * d = 2 * (k * d) by ring]
  norm_num
  ring

/-- The two sides of the dispersion relation as the test computes them, for
order 3, differ by the dispersion residual. -/
theorem test_relation_order3 (T d H g k : ℝ) :
    WaveTheoriesTest.LHS2 Libm.real k d H - WaveTheoriesTest.RHS Libm.real T g k =
      -stokes_dispersion_residual Libm.real 3 T d H g k := by
  rw [stokes_dispersion_residual_real]
  simp only [WaveTheoriesTest.LHS2, WaveTheoriesTest.RHS, WaveTheoriesTest.C2_k,
    WaveTheoriesTest.C0_k, WaveTheoriesTest.S_cosh, Libm.real_pi,
    Libm.real_sqrt, Libm.real_tanh, Libm.real_cosh, show (2 : ℕ) ≤ 3 by norm_num,
    show ¬ (4 : ℕ) ≤ 3 by norm_num, if_true, if_false]
  rw [show (2.0 : ℝ) * k * d = 2 * (k * d) by ring]
  simp only [show (2.0 : ℝ) = 2 by norm_num, show (7.0 : ℝ) = 7 by norm_num,
    show (4.0 : ℝ) = 4 by norm_num, show (1.0 : ℝ) = 1 by norm_num]
  ring

/-- Newton iteration of the order-5 witness (T = 2.2, d = 5, H = 0.2): from any
start in `[0.8314, 0.8325]`, twenty rounds bring the residual within `1e-10`. -/
theorem newton_deep (k : ℝ) (hk1 : 0.8314 ≤ k) (hk2 : k ≤ 0.8325) :
    |stokes_dispersion_residual Libm.real 5 2.2 5.0 0.2 9.81
        ((fun k => if 1e-10 < |stokes_dispersion_residual Libm.real 5 2.2 5.0 0.2 9.81 k| then
            k - stokes_dispersion_residual Libm.real 5 2.2 5.0 0.2 9.81 k /
              stokes_dispersion_slope Libm.real 5 2.2 5.0 0.2 9.81 k
          else k)^[19 + 1] k)| ≤ 1e-10 := by
  have hD : ∀ k : ℝ, 0.82 ≤ k → k ≤ 0.84 →
      -0.63 ≤ stokes_dispersion_slope Libm.real 5 2.2 5.0 0.2 9.81 k ∧
        stokes_dispersion_slope Libm.real 5 2.2 5.0 0.2 9.81 k ≤ -0.6 := by
    intro k h1 h2
    obtain ⟨s1, s2⟩ := slope_bounds_deep k ⟨h1, h2⟩
    constructor <;> linarith
  have hf : ∀ k : ℝ, 0.82 ≤ k → k ≤ 0.84 →
      HasDerivAt (stokes_dispersion_residual Libm.real 5 2.2 5.0 0.2 9.81)
        (stokes_dispersion_slope Libm.real 5 2.2 5.0 0.2 9.81 k) k := fun k h1 _ =>
    hasDerivAt_stokes_dispersion_residual 5 2.2 5.0 0.2 9.81 k (by norm_num) (by norm_num)
      (by norm_num) (by linarith)
  obtain ⟨a1, a2⟩ := residual_bounds_deep_0_8314
  obtain ⟨b1, b2⟩ := residual_bounds_deep_0_8325
  obtain ⟨c1, c2⟩ := residual_bounds_deep_0_826
  obtain ⟨d1, d2⟩ := residual_bounds_deep_0_8264
  exact (newton_converges (stokes_dispersion_residual Libm.real 5 2.2 5.0 0.2 9.81)
    (stokes_dispersion_slope Libm.real 5 2.2 5.0 0.2 9.81) 1e-10 0.82 0.84 0.6 0.63 0.8314
    0.8325 0.826 0.8264 0.0002 0.001 0.05 (by norm_num) (by norm_num) (by norm_num)
    (by norm_num) hD hf (by norm_num) (by norm_num) (by linarith) (by linarith) (by linarith)
    (by linarith) (by linarith) (by linarith) (by norm_num) (by norm_num) (by norm_num)
    (by norm_num) 19 (by norm_num) k hk1 hk2).1

/-- Newton iteration of the order-3 witness (T = 1.5, d = 0.9, H = 0.05): from
any start in `[1.7885, 1.91]`, thirty-one rounds bring the residual within
`1e-10`. -/
theorem newton_shallow (k : ℝ) (hk1 : 1.7885 ≤ k) (hk2 : k ≤ 1.91) :
    |stokes_dispersion_residual Libm.real 3 1.5 0.9 0.05 9.81
        ((fun k => if 1e-10 < |stokes_dispersion_residual Libm.real 3 1.5 0.9 0.05 9.81 k| then
            k - stokes_dispersion_residual Libm.real 3 1.5 0.9 0.05 9.81 k /
              stokes_dispersion_slope Libm.real 3 1.5 0.9 0.05 9.81 k
          else k)^[30 + 1] k)| ≤ 1e-10 := by
  have hD : ∀ k : ℝ, 1.78 ≤ k → k ≤ 1.96 →
      -0.36 ≤ stokes_dispersion_slope Libm.real 3 1.5 0.9 0.05 9.81 k ∧
        stokes_dispersion_slope Libm.real 3 1.5 0.9 0.05 9.81 k ≤ -0.29 := by
    intro k h1 h2
    obtain ⟨s1, s2⟩ := slope_bounds_shallow k ⟨h1, h2⟩
    constructor <;> linarith
  have hf : ∀ k : ℝ, 1.78 ≤ k → k ≤ 1.96 →
      HasDerivAt (stokes_dispersion_residual Libm.real 3 1.5 0.9 0.05 9.81)
        (stokes_dispersion_slope Libm.real 3 1.5 0.9 0.05 9.81 k) k := fun k h1 _ =>
    hasDerivAt_stokes_dispersion_residual 3 1.5 0.9 0.05 9.81 k (by norm_num) (by norm_num)
      (by norm_num) (by linarith)
  obtain ⟨a1, a2⟩ := residual_bounds_shallow_1_7885
  obtain ⟨b1, b2⟩ := residual_bounds_shallow_1_91
  obtain ⟨c1, c2⟩ := residual_bounds_shallow_1_894
  obtain ⟨d1, d2⟩ := residual_bounds_shallow_1_92
  exact (newton_converges (stokes_dispersion_residual Libm.real 3 1.5 0.9 0.05 9.81)
    (stokes_dispersion_slope Libm.real 3 1.5 0.9 0.05 9.81) 1e-10 1.78 1.96 0.29 0.36 1.7885
    1.91 1.894 1.92 0.0055 0.03 0.25 (by norm_num) (by norm_num) (by norm_num)
    (by norm_num) hD hf (by norm_num) (by norm_num) (by linarith) (by linarith) (by linarith)
    (by linarith) (by linarith) (by linarith) (by norm_num) (by norm_num) (by norm_num)
    (by norm_num) 30 (by norm_num) k hk1 hk2).1

/-- Claim C21: with a positive iteration budget and a positive first guess that
satisfies the linear relation, in its deep-water form `k = omega^2/g` or its
finite-depth form `omega^2 = g k tanh(k d)`, `stokes_wave_length` on the
nonlinear dispersion residual converges and returns a wavelength whose
wavenumber `k = 2 pi / lambda` satisfies
`2 pi / (T sqrt(g k)) = C0 + eps^2 C2 (+ eps^4 C4)` within 1e-8, the two sides
computed as in the test: at (H = 0.2, T = 2.2, d = 5.0, order 5,
`iter_max = 20`) and at (H = 0.05, T = 1.5, d = 0.9, order 3, `iter_max = 31`),
with g = 9.81 and tolerance 1e-10, over the reals. -/
theorem C21_stokes_wave_length_dispersion (first_guess : ℝ → ℝ → ℝ → ℝ)
    (hk1 : 0 < first_guess (2 * Real.pi / 2.2) 5.0 9.81)
    (hlin1 : first_guess (2 * Real.pi / 2.2) 5.0 9.81 = (2 * Real.pi / 2.2) ^ 2 / 9.81 ∨
      (2 * Real.pi / 2.2) ^ 2 =
        9.81 * first_guess (2 * Real.pi / 2.2) 5.0 9.81 *
          Real.tanh (first_guess (2 * Real.pi / 2.2) 5.0 9.81 * 5.0))
    (hk2 : 0 < first_guess (2 * Real.pi / 1.5) 0.9 9.81)
    (hlin2 : first_guess (2 * Real.pi / 1.5) 0.9 9.81 = (2 * Real.pi / 1.5) ^ 2 / 9.81 ∨
      (2 * Real.pi / 1.5) ^ 2 =
        9.81 * first_guess (2 * Real.pi / 1.5) 0.9 9.81 *
          Real.tanh (first_guess (2 * Real.pi / 1.5) 0.9 9.81 * 0.9)) :
    (∃ lambda : ℝ,
        stokes_wave_length Libm.real first_guess
            (stokes_dispersion_residual Libm.real 5 2.2 5.0 0.2 9.81)
            (stokes_newton_step Libm.real 5 2.2 5.0 0.2 9.81) 2.2 5.0 9.81 1e-10 20 =
          some lambda ∧
        |WaveTheoriesTest.LHS1 Libm.real (WaveTheoriesTest.k_newton Libm.real lambda) 5.0 0.2 -
            WaveTheoriesTest.RHS Libm.real 2.2 9.81
              (WaveTheoriesTest.k_newton Libm.real lambda)| ≤ 1e-8) ∧
      ∃ lambda : ℝ,
        stokes_wave_length Libm.real first_guess
            (stokes_dispersion_residual Libm.real 3 1.5 0.9 0.05 9.81)
            (stokes_newton_step Libm.real 3 1.5 0.9 0.05 9.81) 1.5 0.9 9.81 1e-10 31 =
          some lambda ∧
        |WaveTheoriesTest.LHS2 Libm.real (WaveTheoriesTest.k_newton Libm.real lambda) 0.9 0.05 -
            WaveTheoriesTest.RHS Libm.real 1.5 9.81
              (WaveTheoriesTest.k_newton Libm.real lambda)| ≤ 1e-8 := by
  have hkn : ∀ k : ℝ, WaveTheoriesTest.k_newton Libm.real (2 * Real.pi / k) = k := by
    intro k
    simp only [WaveTheoriesTest.k_newton, Libm.real_pi]
    rw [show (2.0 : ℝ) = 2 by norm_num]
    exact wavenumber_of_wavelength k
  constructor
  · obtain ⟨c1, c2⟩ := linear_wavenumber_deep
    have hb := first_guess_between (first_guess (2 * Real.pi / 2.2) 5.0 9.81)
      ((2 * Real.pi / 2.2) ^ 2 / 9.81) 5.0 0.8314 0.8325 0.9995153556 hk1 (by norm_num)
      (hlin1.imp id fun h => by
        rw [h]
        field_simp
        ring)
      (by linarith) (by norm_num)
      (dispersion_atoms_deep_0_8325 0.8325 ⟨le_refl _, le_refl _⟩).1.1 (by norm_num)
      (by linarith)
    have hres := newton_deep _ hb.1 hb.2
    refine ⟨_, stokes_wave_length_newton first_guess 5 2.2 5.0 0.2 9.81 1e-10 20 (by norm_num)
      hres, ?_⟩
    rw [hkn, test_relation_order5, abs_neg]
    exact le_trans hres (by norm_num)
  · obtain ⟨c1, c2⟩ := linear_wavenumber_shallow
    have hb := first_guess_between (first_guess (2 * Real.pi / 1.5) 0.9 9.81)
      ((2 * Real.pi / 1.5) ^ 2 / 9.81) 0.9 1.7885 1.91 0.9377425057 hk2 (by norm_num)
      (hlin2.imp id fun h => by
        rw [h]
        field_simp
        ring)
      (by linarith) (by norm_num)
      (dispersion_atoms_shallow_1_91 1.91 ⟨le_refl _, le_refl _⟩).1.1 (by norm_num)
      (by linarith)
    have hres := newton_shallow _ hb.1 hb.2
    refine ⟨_, stokes_wave_length_newton first_guess 3 1.5 0.9 0.05 9.81 1e-10 31 (by norm_num)
      hres, ?_⟩
    rw [hkn, test_relation_order3, abs_neg]
    exact le_trans hres (by norm_num)

/-- Claim C21 at a concrete first guess, the deep-water value `omega^2/g`. -/
theorem C21_witness :
    (∃ lambda : ℝ,
        stokes_wave_length Libm.real (fun ω _ g => ω ^ 2 / g)
            (stokes_dispersion_residual Libm.real 5 2.2 5.0 0.2 9.81)
            (stokes_newton_step Libm.real 5 2.2 5.0 0.2 9.81) 2.2 5.0 9.81 1e-10 20 =
          some lambda ∧
        |WaveTheoriesTest.LHS1 Libm.real (WaveTheoriesTest.k_newton Libm.real lambda) 5.0 0.2 -
            WaveTheoriesTest.RHS Libm.real 2.2 9.81
              (WaveTheoriesTest.k_newton Libm.real lambda)| ≤ 1e-8) ∧
      ∃ lambda : ℝ,
        stokes_wave_length Libm.real (fun ω _ g => ω ^ 2 / g)
            (stokes_dispersion_residual Libm.real 3 1.5 0.9 0.05 9.81)
            (stokes_newton_step Libm.real 3 1.5 0.9 0.05 9.81) 1.5 0.9 9.81 1e-10 31 =
          some lambda ∧
        |WaveTheoriesTest.LHS2 Libm.real (WaveTheoriesTest.k_newton Libm.real lambda) 0.9 0.05 -
            WaveTheoriesTest.RHS Libm.real 1.5 9.81
              (WaveTheoriesTest.k_newton Libm.real lambda)| ≤ 1e-8 :=
  C21_stokes_wave_length_dispersion (fun ω _ g => ω ^ 2 / g) (by positivity) (Or.inl rfl)
    (by positivity) (Or.inl rfl)

end AmrWind
